import Mathlib

/-!
usbredirhost: a shallow embedding of `usbredirhost/usbredirhost.c`

The C file is translated function by function.  Conventions:

* `uint8_t`, `uint16_t`, `uint32_t` values are `Nat`, reduced modulo the width
  where the C code can leave the range; `int` values are `Int` (or `Nat` when
  the code only ever stores non-negative values);
* C `int` fields that only ever hold 0 or 1 and are only tested for truth
  (`disconnected`, `claimed`, `wait_disconnect`, `connect_pending`,
  `iso_started`, `cancelled`) are `Bool`;
* `struct usbredirtransfer` records live in a heap indexed by pointer
  (`Nat`); a C pointer is a `Nat`, 0 being `NULL`;
* the transfer registry (the list hanging off `transfers_head`) is the list
  of the pointers of its records, in list order;
* the parser and libusb are external: the parser is modelled by the log of
  the packets handed to its `usbredirparser_send_*` functions together with
  the peer capabilities; libusb by a log of the calls made, and by tapes
  giving the result of each upcoming call, allocation and event batch;
* logging, locking and the flush hook do not touch any modelled state and
  are left out.
-/

namespace Usbredir

/-! ## Constants -/

/-- `MAX_ENDPOINTS` of usbredirhost.c. -/
def MAX_ENDPOINTS : Nat := 32
/-- `MAX_INTERFACES` of usbredirhost.c. -/
def MAX_INTERFACES : Nat := 32
/-- `CTRL_TIMEOUT` of usbredirhost.c. -/
def CTRL_TIMEOUT : Nat := 5000
/-- `BULK_TIMEOUT` of usbredirhost.c. -/
def BULK_TIMEOUT : Nat := 5000
/-- `ISO_TIMEOUT` of usbredirhost.c. -/
def ISO_TIMEOUT : Nat := 1000
/-- `INTERRUPT_TIMEOUT` of usbredirhost.c. -/
def INTERRUPT_TIMEOUT : Nat := 0
/-- `MAX_ISO_TRANSFER_COUNT` of usbredirhost.c. -/
def MAX_ISO_TRANSFER_COUNT : Nat := 16
/-- `MAX_ISO_PACKETS_PER_TRANSFER` of usbredirhost.c. -/
def MAX_ISO_PACKETS_PER_TRANSFER : Nat := 32
/-- `ISO_SUBMITTED_IDX` of usbredirhost.c: the `iso_packet_idx` of a submitted transfer. -/
def ISO_SUBMITTED_IDX : Int := -1

/-! ### Enumerators of usbredirproto.h and usbredirhost.h (headers not under src/) -/

/-- Modelled from the spec: peer status `success`, first enumerator of usbredirproto.h. -/
def usb_redir_success : Nat := 0
/-- Modelled from the spec: peer status `cancelled`. -/
def usb_redir_cancelled : Nat := 1
/-- Modelled from the spec: peer status `inval`. -/
def usb_redir_inval : Nat := 2
/-- Modelled from the spec: peer status `ioerror`. -/
def usb_redir_ioerror : Nat := 3
/-- Modelled from the spec: peer status `stall`. -/
def usb_redir_stall : Nat := 4
/-- Modelled from the spec: peer status `timeout`. -/
def usb_redir_timeout : Nat := 5
/-- Modelled from the spec: peer status `babble` (reserved). -/
def usb_redir_babble : Nat := 6

/-- Modelled from the spec: endpoint type `control` (peer encoding). -/
def usb_redir_type_control : Nat := 0
/-- Modelled from the spec: endpoint type `iso`. -/
def usb_redir_type_iso : Nat := 1
/-- Modelled from the spec: endpoint type `bulk`. -/
def usb_redir_type_bulk : Nat := 2
/-- Modelled from the spec: endpoint type `interrupt`. -/
def usb_redir_type_interrupt : Nat := 3
/-- Modelled from the spec: endpoint type `invalid`. -/
def usb_redir_type_invalid : Nat := 255

/-- Modelled from the spec: peer speed codes of usbredirproto.h. -/
def usb_redir_speed_low : Nat := 0
/-- Modelled from the spec: peer speed `full`. -/
def usb_redir_speed_full : Nat := 1
/-- Modelled from the spec: peer speed `high`. -/
def usb_redir_speed_high : Nat := 2
/-- Modelled from the spec: peer speed `super`. -/
def usb_redir_speed_super : Nat := 3
/-- Modelled from the spec: peer speed `unknown`. -/
def usb_redir_speed_unknown : Nat := 255

/-- Modelled from the spec: capability number of `connect_device_version`. -/
def usb_redir_cap_connect_device_version : Nat := 1
/-- Modelled from the spec: capability number of `filter`. -/
def usb_redir_cap_filter : Nat := 2
/-- Modelled from the spec: capability number of `device_disconnect_ack`. -/
def usb_redir_cap_device_disconnect_ack : Nat := 3

/-- Modelled from the spec: read status `device-rejected-by-filter` of usbredirhost.h. -/
def usbredirhost_read_device_rejected : Int := -3
/-- Modelled from the spec: read status `device-lost` of usbredirhost.h. -/
def usbredirhost_read_device_lost : Int := -4

/-! ### Enumerators of libusb.h and errno.h (external) -/

/-- The libusb transfer status `LIBUSB_TRANSFER_COMPLETED`. -/
def LIBUSB_TRANSFER_COMPLETED : Int := 0
/-- The libusb transfer status `LIBUSB_TRANSFER_ERROR`. -/
def LIBUSB_TRANSFER_ERROR : Int := 1
/-- The libusb transfer status `LIBUSB_TRANSFER_TIMED_OUT`. -/
def LIBUSB_TRANSFER_TIMED_OUT : Int := 2
/-- The libusb transfer status `LIBUSB_TRANSFER_CANCELLED`. -/
def LIBUSB_TRANSFER_CANCELLED : Int := 3
/-- The libusb transfer status `LIBUSB_TRANSFER_STALL`. -/
def LIBUSB_TRANSFER_STALL : Int := 4
/-- The libusb transfer status `LIBUSB_TRANSFER_NO_DEVICE`. -/
def LIBUSB_TRANSFER_NO_DEVICE : Int := 5
/-- The libusb transfer status `LIBUSB_TRANSFER_OVERFLOW`. -/
def LIBUSB_TRANSFER_OVERFLOW : Int := 6

/-- The libusb error `LIBUSB_ERROR_INVALID_PARAM`. -/
def LIBUSB_ERROR_INVALID_PARAM : Int := -2
/-- The libusb error `LIBUSB_ERROR_NO_DEVICE`. -/
def LIBUSB_ERROR_NO_DEVICE : Int := -4
/-- The libusb error `LIBUSB_ERROR_NOT_FOUND`. -/
def LIBUSB_ERROR_NOT_FOUND : Int := -5
/-- The libusb error `LIBUSB_ERROR_BUSY`. -/
def LIBUSB_ERROR_BUSY : Int := -6
/-- The libusb error `LIBUSB_ERROR_TIMEOUT`. -/
def LIBUSB_ERROR_TIMEOUT : Int := -7
/-- The libusb error `LIBUSB_ERROR_NO_MEM`. -/
def LIBUSB_ERROR_NO_MEM : Int := -11
/-- The errno value `EXDEV`. -/
def EXDEV : Int := 18
/-- The errno value `ENOMEM`. -/
def ENOMEM : Int := 12
/-- The errno value `EIO`. -/
def EIO : Int := 5

/-- The libusb speed code `LIBUSB_SPEED_LOW`. -/
def LIBUSB_SPEED_LOW : Int := 1
/-- The libusb speed code `LIBUSB_SPEED_FULL`. -/
def LIBUSB_SPEED_FULL : Int := 2
/-- The libusb speed code `LIBUSB_SPEED_HIGH`. -/
def LIBUSB_SPEED_HIGH : Int := 3
/-- The libusb speed code `LIBUSB_SPEED_SUPER`. -/
def LIBUSB_SPEED_SUPER : Int := 4

/-- The direction bit `LIBUSB_ENDPOINT_IN` of an endpoint address. -/
def LIBUSB_ENDPOINT_IN : Nat := 0x80
/-- The mask `LIBUSB_TRANSFER_TYPE_MASK` of `bmAttributes`. -/
def LIBUSB_TRANSFER_TYPE_MASK : Nat := 0x03
/-- The request-type recipient `LIBUSB_RECIPIENT_ENDPOINT`. -/
def LIBUSB_RECIPIENT_ENDPOINT : Nat := 0x02
/-- The standard request `LIBUSB_REQUEST_CLEAR_FEATURE`. -/
def LIBUSB_REQUEST_CLEAR_FEATURE : Nat := 0x01
/-- The size `LIBUSB_CONTROL_SETUP_SIZE` of a control setup packet. -/
def LIBUSB_CONTROL_SETUP_SIZE : Nat := 8
/-- The libusb transfer type `LIBUSB_TRANSFER_TYPE_CONTROL`. -/
def LIBUSB_TRANSFER_TYPE_CONTROL : Nat := 0
/-- The libusb transfer type `LIBUSB_TRANSFER_TYPE_ISOCHRONOUS`. -/
def LIBUSB_TRANSFER_TYPE_ISOCHRONOUS : Nat := 1
/-- The libusb transfer type `LIBUSB_TRANSFER_TYPE_BULK`. -/
def LIBUSB_TRANSFER_TYPE_BULK : Nat := 2
/-- The libusb transfer type `LIBUSB_TRANSFER_TYPE_INTERRUPT`. -/
def LIBUSB_TRANSFER_TYPE_INTERRUPT : Nat := 3

/-! ## Pure helpers -/

/-- The macro `EP2I`: endpoint address to index of the endpoint array. -/
def EP2I (ep_address : Nat) : Nat :=
  ((ep_address &&& 0x80) >>> 3) ||| (ep_address &&& 0x0f)

/-- The macro `I2EP`: index of the endpoint array to endpoint address. -/
def I2EP (i : Nat) : Nat :=
  ((i &&& 0x10) <<< 3) ||| (i &&& 0x0f)

/-- The function `usbredirhost_get_max_packetsize`; the argument is a `uint16_t`. -/
def usbredirhost_get_max_packetsize (wMaxPacketSize : Nat) : Nat :=
  let size := wMaxPacketSize &&& 0x7ff
  let packets_per_microframe :=
    match (wMaxPacketSize >>> 11) &&& 3 with
    | 1 => 2
    | 2 => 3
    | _ => 1
  size * packets_per_microframe

/-! ## Wire headers (usbredirproto.h, not under src/) -/

/-- Modelled from the spec: the device-connect header (speed, class, subclass,
protocol, vendor, product, bcdDevice). -/
structure usb_redir_device_connect_header where
  speed : Nat
  device_class : Nat
  device_subclass : Nat
  device_protocol : Nat
  vendor_id : Nat
  product_id : Nat
  device_version_bcd : Nat
deriving DecidableEq, Repr, Inhabited

/-- Modelled from the spec: the interface-info header; the arrays hold the
`interface_count` entries the host fills in. -/
structure usb_redir_interface_info_header where
  interface_count : Nat
  interface : List Nat
  interface_class : List Nat
  interface_subclass : List Nat
  interface_protocol : List Nat
deriving DecidableEq, Repr, Inhabited

/-- Modelled from the spec: the ep-info header, one entry per endpoint slot. -/
structure usb_redir_ep_info_header where
  type : List Nat
  interval : List Nat
  interface : List Nat
deriving DecidableEq, Repr, Inhabited

/-- Modelled from the spec: header of the set-configuration command. -/
structure usb_redir_set_configuration_header where
  configuration : Nat
deriving DecidableEq, Repr, Inhabited

/-- Modelled from the spec: header of the configuration-status reply. -/
structure usb_redir_configuration_status_header where
  status : Nat
  configuration : Nat
deriving DecidableEq, Repr, Inhabited

/-- Modelled from the spec: header of the set-alt-setting command. -/
structure usb_redir_set_alt_setting_header where
  interface : Nat
  alt : Nat
deriving DecidableEq, Repr, Inhabited

/-- Modelled from the spec: header of the get-alt-setting command. -/
structure usb_redir_get_alt_setting_header where
  interface : Nat
deriving DecidableEq, Repr, Inhabited

/-- Modelled from the spec: header of the alt-setting-status reply. -/
structure usb_redir_alt_setting_status_header where
  status : Nat
  interface : Nat
  alt : Nat
deriving DecidableEq, Repr, Inhabited

/-- Modelled from the spec: header of the start-iso-stream command. -/
structure usb_redir_start_iso_stream_header where
  endpoint : Nat
  pkts_per_urb : Nat
  no_urbs : Nat
deriving DecidableEq, Repr, Inhabited

/-- Modelled from the spec: header of the stop-iso-stream command. -/
structure usb_redir_stop_iso_stream_header where
  endpoint : Nat
deriving DecidableEq, Repr, Inhabited

/-- Modelled from the spec: header of the iso-stream-status reply. -/
structure usb_redir_iso_stream_status_header where
  status : Nat
  endpoint : Nat
deriving DecidableEq, Repr, Inhabited

/-- Modelled from the spec: header of the start-interrupt-receiving command. -/
structure usb_redir_start_interrupt_receiving_header where
  endpoint : Nat
deriving DecidableEq, Repr, Inhabited

/-- Modelled from the spec: header of the stop-interrupt-receiving command. -/
structure usb_redir_stop_interrupt_receiving_header where
  endpoint : Nat
deriving DecidableEq, Repr, Inhabited

/-- Modelled from the spec: header of the interrupt-receiving-status reply. -/
structure usb_redir_interrupt_receiving_status_header where
  status : Nat
  endpoint : Nat
deriving DecidableEq, Repr, Inhabited

/-- Modelled from the spec: header of a control packet. -/
structure usb_redir_control_packet_header where
  endpoint : Nat
  request : Nat
  requesttype : Nat
  status : Nat
  value : Nat
  index : Nat
  length : Nat
deriving DecidableEq, Repr, Inhabited

/-- Modelled from the spec: header of a bulk packet. -/
structure usb_redir_bulk_packet_header where
  endpoint : Nat
  status : Nat
  length : Nat
  stream_id : Nat
deriving DecidableEq, Repr, Inhabited

/-- Modelled from the spec: header of an iso packet. -/
structure usb_redir_iso_packet_header where
  endpoint : Nat
  status : Nat
  length : Nat
deriving DecidableEq, Repr, Inhabited

/-- Modelled from the spec: header of an interrupt packet. -/
structure usb_redir_interrupt_packet_header where
  endpoint : Nat
  status : Nat
  length : Nat
deriving DecidableEq, Repr, Inhabited

/-- One packet handed to the parser for the peer: one constructor per
`usbredirparser_send_*` function the host calls, with that call's arguments. -/
inductive Packet where
  | device_connect (h : usb_redir_device_connect_header)
  | device_disconnect
  | interface_info (h : usb_redir_interface_info_header)
  | ep_info (h : usb_redir_ep_info_header)
  | configuration_status (id : Nat) (h : usb_redir_configuration_status_header)
  | alt_setting_status (id : Nat) (h : usb_redir_alt_setting_status_header)
  | iso_stream_status (id : Nat) (h : usb_redir_iso_stream_status_header)
  | interrupt_receiving_status (id : Nat)
      (h : usb_redir_interrupt_receiving_status_header)
  | control_packet (id : Nat) (h : usb_redir_control_packet_header) (data : List Nat)
  | bulk_packet (id : Nat) (h : usb_redir_bulk_packet_header) (data : List Nat)
  | iso_packet (id : Nat) (h : usb_redir_iso_packet_header) (data : List Nat)
  | interrupt_packet (id : Nat) (h : usb_redir_interrupt_packet_header) (data : List Nat)
deriving DecidableEq, Repr, Inhabited

/-- Modelled from the spec: the external parser, as far as the host uses it:
the packets sent so far (oldest first), whether the peer capabilities have
been received, and the capabilities the peer advertised. -/
structure usbredirparser where
  sent : List Packet
  have_peer_caps : Bool
  peer_caps : List Nat
deriving DecidableEq, Repr, Inhabited

/-- Modelled from the spec: `usbredirparser_have_peer_caps`. -/
def usbredirparser_have_peer_caps (parser : usbredirparser) : Bool :=
  parser.have_peer_caps

/-- Modelled from the spec: `usbredirparser_peer_has_cap`. -/
def usbredirparser_peer_has_cap (parser : usbredirparser) (cap : Nat) : Bool :=
  parser.have_peer_caps && decide (cap ∈ parser.peer_caps)

/-! ## libusb data (libusb.h, external) -/

/-- The libusb endpoint descriptor: the fields the host reads. -/
structure libusb_endpoint_descriptor where
  bEndpointAddress : Nat
  bmAttributes : Nat
  wMaxPacketSize : Nat
  bInterval : Nat
deriving DecidableEq, Repr, Inhabited

/-- The libusb interface descriptor (one alt setting); `bNumEndpoints` is the
length of `endpoint`. -/
structure libusb_interface_descriptor where
  bInterfaceNumber : Nat
  bInterfaceClass : Nat
  bInterfaceSubClass : Nat
  bInterfaceProtocol : Nat
  endpoint : List libusb_endpoint_descriptor
deriving DecidableEq, Repr, Inhabited

/-- The count `bNumEndpoints` of an interface descriptor. -/
def libusb_interface_descriptor.bNumEndpoints (d : libusb_interface_descriptor) : Nat :=
  d.endpoint.length

/-- The libusb interface: its array of alt settings. -/
structure libusb_interface where
  altsetting : List libusb_interface_descriptor
deriving DecidableEq, Repr, Inhabited

/-- The libusb configuration descriptor; `bNumInterfaces` is the length of
`interface`. -/
structure libusb_config_descriptor where
  bConfigurationValue : Nat
  interface : List libusb_interface
deriving DecidableEq, Repr, Inhabited

/-- The count `bNumInterfaces` of a configuration descriptor. -/
def libusb_config_descriptor.bNumInterfaces (c : libusb_config_descriptor) : Nat :=
  c.interface.length

/-- The libusb device descriptor: the fields the host reads. -/
structure libusb_device_descriptor where
  bDeviceClass : Nat
  bDeviceSubClass : Nat
  bDeviceProtocol : Nat
  idVendor : Nat
  idProduct : Nat
  bcdDevice : Nat
deriving DecidableEq, Repr, Inhabited

/-- The libusb device: what the descriptor and speed queries report. -/
structure libusb_device where
  speed : Int
  descriptor : libusb_device_descriptor
  configs : List libusb_config_descriptor
deriving DecidableEq, Repr, Inhabited

/-- The libusb device handle: `libusb_get_device` returns `dev`. -/
structure libusb_device_handle where
  dev : libusb_device
deriving DecidableEq, Repr, Inhabited

/-- One `libusb_iso_packet_descriptor`. -/
structure libusb_iso_packet_descriptor where
  length : Nat
  actual_length : Nat
  status : Int
deriving DecidableEq, Repr, Inhabited

/-- The completion callback stored in a libusb transfer. -/
inductive Callback where
  | null
  | usbredirhost_iso_packet_complete
  | usbredirhost_interrupt_packet_complete
  | usbredirhost_control_packet_complete
  | usbredirhost_bulk_packet_complete
deriving DecidableEq, Repr, Inhabited

/-- The `struct libusb_transfer`: the fields the host reads or writes.  The
buffer is the list of its bytes (empty for `NULL`). -/
structure libusb_transfer where
  endpoint : Nat
  type : Nat
  timeout : Nat
  status : Int
  length : Nat
  actual_length : Nat
  callback : Callback
  buffer : List Nat
  num_iso_packets : Nat
  iso_packet_desc : List libusb_iso_packet_descriptor
deriving DecidableEq, Repr, Inhabited

/-! ## The structures of usbredirhost.c -/

/-- The `struct usbredirtransfer`.  The back pointers are implicit (the
record owns its libusb transfer, held by value); the members of the header
union are separate fields (the code only reads the member it wrote); the list
links are rendered by the registry list of the host. -/
structure usbredirtransfer where
  transfer : libusb_transfer
  id : Nat
  cancelled : Bool
  iso_packet_idx : Int
  control_packet : usb_redir_control_packet_header
  bulk_packet : usb_redir_bulk_packet_header
  iso_packet : usb_redir_iso_packet_header
  interrupt_packet : usb_redir_interrupt_packet_header
deriving DecidableEq, Repr, Inhabited

/-- The `struct usbredirhost_ep`.  Pointers to transfer records are heap
addresses, 0 being `NULL`. -/
structure usbredirhost_ep where
  type : Nat
  interval : Nat
  interface : Nat
  iso_started : Bool
  iso_pkts_per_transfer : Nat
  iso_transfer_count : Nat
  iso_out_idx : Int
  iso_drop_packets : Int
  max_packetsize : Nat
  iso_transfer : Nat → Nat
  interrupt_in_transfer : Nat

instance : Inhabited usbredirhost_ep :=
  ⟨{ type := 0, interval := 0, interface := 0, iso_started := false,
     iso_pkts_per_transfer := 0, iso_transfer_count := 0, iso_out_idx := 0,
     iso_drop_packets := 0, max_packetsize := 0, iso_transfer := fun _ => 0,
     interrupt_in_transfer := 0 }⟩

/-- The `struct usbredirhost`, without the callbacks, the locks and the
verbosity.  `transfers_head` is the list of the records linked from the
sentinel, first to last; `filter_rules` is kept as an opaque list. -/
structure usbredirhost where
  dev : Option libusb_device
  handle : Option libusb_device_handle
  desc : libusb_device_descriptor
  config : Option libusb_config_descriptor
  active_config : Int
  claimed : Bool
  disconnected : Bool
  read_status : Int
  cancels_pending : Int
  wait_disconnect : Bool
  connect_pending : Bool
  endpoint : Nat → usbredirhost_ep
  alt_setting : Nat → Nat
  transfers_head : List Nat
  filter_rules : List Nat
  filter_rules_count : Int

/-! ## The environment: libusb and the heap -/

/-- One call made to libusb, as logged by the model. -/
inductive LibusbCall where
  | get_configuration
  | get_device_descriptor
  | get_config_descriptor_by_value (value : Int)
  | free_config_descriptor
  | detach_kernel_driver (n : Nat)
  | attach_kernel_driver (n : Nat)
  | claim_interface (n : Nat)
  | release_interface (n : Nat)
  | set_configuration (configuration : Nat)
  | set_interface_alt_setting (n : Nat) (alt : Nat)
  | reset_device
  | clear_halt (ep : Nat)
  | close
  | submit_transfer (p : Nat)
  | cancel_transfer (p : Nat)
  | handle_events_timeout
deriving DecidableEq, Repr, Inhabited

/-- What libusb reports when a submitted transfer completes: the record whose
transfer it is, the status, the transferred length, the buffer contents and,
for iso transfers, the status and length of each packet. -/
structure Completion where
  ptr : Nat
  status : Int
  actual_length : Nat
  buffer : List Nat
  iso : List (Int × Nat)
deriving DecidableEq, Repr, Inhabited

/-- The libusb side.  `ret` gives the return values of the upcoming calls that
return an `int` (0 once exhausted), `mem` the outcome of the upcoming
allocations (success once exhausted), `events` the completions delivered by
the upcoming `libusb_handle_events_timeout` calls; `calls` logs the calls
made, `inflight` holds the submitted transfers not yet completed and
`configuration` is the configuration the device is in. -/
structure Libusb where
  ret : List Int
  mem : List Bool
  events : List (List Completion)
  calls : List LibusbCall
  inflight : List Nat
  configuration : Int
deriving DecidableEq, Repr, Inhabited

/-- The whole state: the host structure, the heap of transfer records (an
address holds a record or is free; addresses are handed out in increasing
order), the parser and libusb. -/
structure State where
  host : usbredirhost
  heap : Nat → Option usbredirtransfer
  next_ptr : Nat
  parser : usbredirparser
  usb : Libusb

/-- A call to one of the `usbredirparser_send_*` functions. -/
def State.send (s : State) (p : Packet) : State :=
  { s with parser := { s.parser with sent := s.parser.sent ++ [p] } }

/-- A libusb call returning an `int`: it is logged and its result is the next
value of the tape. -/
def State.call (s : State) (c : LibusbCall) : State × Int :=
  ({ s with usb := { s.usb with calls := s.usb.calls ++ [c], ret := s.usb.ret.tail } },
   s.usb.ret.headD 0)

/-- A libusb call returning nothing: it is logged. -/
def State.callVoid (s : State) (c : LibusbCall) : State :=
  { s with usb := { s.usb with calls := s.usb.calls ++ [c] } }

/-- One allocation (`calloc`, `malloc`, `libusb_alloc_transfer`): whether it
succeeds is the next value of the tape. -/
def State.alloc (s : State) : State × Bool :=
  ({ s with usb := { s.usb with mem := s.usb.mem.tail } }, s.usb.mem.headD true)

/-- The record behind a pointer; reading through `NULL` or a freed pointer,
which C leaves undefined, gives the zeroed record. -/
def State.deref (s : State) (p : Nat) : usbredirtransfer :=
  (s.heap p).getD default

/-- A write through a pointer; a write through `NULL` or a freed pointer,
which C leaves undefined, is dropped. -/
def State.modify (s : State) (p : Nat) (f : usbredirtransfer → usbredirtransfer) : State :=
  { s with heap := Function.update s.heap p ((s.heap p).map f) }

/-- A write to `host->endpoint[i]`. -/
def State.modifyEp (s : State) (i : Nat) (f : usbredirhost_ep → usbredirhost_ep) : State :=
  { s with host := { s.host with
      endpoint := Function.update s.host.endpoint i (f (s.host.endpoint i)) } }

/-- The expression `host->config->interface[i].altsetting[a]`. -/
def State.altsetting (s : State) (i : Nat) (a : Nat) : libusb_interface_descriptor :=
  (((s.host.config.getD default).interface.getD i default).altsetting.getD a default)

/-- The expression `host->config->interface[i].altsetting[host->alt_setting[i]]`. -/
def State.intf_desc (s : State) (i : Nat) : libusb_interface_descriptor :=
  s.altsetting i (s.host.alt_setting i)

/-- The expression `host->config->bNumInterfaces`. -/
def State.bNumInterfaces (s : State) : Nat :=
  (s.host.config.getD default).bNumInterfaces

/-- The libusb function `libusb_get_device_speed`. -/
def libusb_get_device_speed (dev : Option libusb_device) : Int :=
  (dev.getD default).speed

/-- The libusb function `libusb_alloc_transfer`: a zeroed transfer with room
for `iso_packets` packet descriptors. -/
def libusb_alloc_transfer (iso_packets : Nat) : libusb_transfer :=
  { (default : libusb_transfer) with
      iso_packet_desc := List.replicate iso_packets default }

/-- The libusb function `libusb_submit_transfer` on the transfer of record
`p`: on success the transfer is in flight. -/
def libusb_submit_transfer (s : State) (p : Nat) : State × Int :=
  let c := s.call (.submit_transfer p)
  if c.2 < 0 then c
  else ({ c.1 with usb := { c.1.usb with inflight := c.1.usb.inflight ++ [p] } }, c.2)

/-- The libusb function `libusb_cancel_transfer` on the transfer of record
`p`; the host ignores its result. -/
def libusb_cancel_transfer (s : State) (p : Nat) : State :=
  (s.call (.cancel_transfer p)).1

/-- The static function `usbredirhost_read`: a pending `read_status` is
returned once and cleared; otherwise the result is that of the caller's read
function (`none` here). -/
def usbredirhost_read (s : State) : State × Option Int :=
  if s.host.read_status ≠ 0 then
    ({ s with host := { s.host with read_status := 0 } }, some s.host.read_status)
  else (s, none)

/-- The function `usbredirhost_handle_disconnect`. -/
def usbredirhost_handle_disconnect (s : State) : State :=
  if !s.host.disconnected then
    let s := s.send .device_disconnect
    let s := if usbredirparser_peer_has_cap s.parser usb_redir_cap_device_disconnect_ack then
        { s with host := { s.host with wait_disconnect := true } }
      else s
    { s with host := { s.host with disconnected := true } }
  else s

/-- The function `libusb_status_or_error_to_redir_status`: the translated
status together with the state after the disconnect handling it may run. -/
def libusb_status_or_error_to_redir_status (s : State) (status : Int) : State × Nat :=
  if status = LIBUSB_TRANSFER_COMPLETED then (s, usb_redir_success)
  else if status = LIBUSB_TRANSFER_ERROR then (s, usb_redir_ioerror)
  else if status = LIBUSB_TRANSFER_TIMED_OUT then (s, usb_redir_timeout)
  else if status = LIBUSB_TRANSFER_CANCELLED then (s, usb_redir_cancelled)
  else if status = LIBUSB_TRANSFER_STALL then (s, usb_redir_stall)
  else if status = LIBUSB_TRANSFER_NO_DEVICE then
    (usbredirhost_handle_disconnect s, usb_redir_ioerror)
  else if status = LIBUSB_TRANSFER_OVERFLOW then (s, usb_redir_ioerror)
  else if status = LIBUSB_ERROR_INVALID_PARAM then (s, usb_redir_inval)
  else if status = LIBUSB_ERROR_NO_DEVICE then
    (usbredirhost_handle_disconnect s, usb_redir_ioerror)
  else if status = LIBUSB_ERROR_TIMEOUT then (s, usb_redir_timeout)
  else (s, usb_redir_ioerror)

/-- The interface-info header `usbredirhost_send_interface_n_ep_info` fills
in: for each interface of the configuration, the number, class, subclass and
protocol of its current alt setting. -/
def usbredirhost_interface_info (s : State) : usb_redir_interface_info_header :=
  let descs := (List.range s.bNumInterfaces).map s.intf_desc
  { interface_count := s.bNumInterfaces
    interface := descs.map fun d => d.bInterfaceNumber
    interface_class := descs.map fun d => d.bInterfaceClass
    interface_subclass := descs.map fun d => d.bInterfaceSubClass
    interface_protocol := descs.map fun d => d.bInterfaceProtocol }

/-- The ep-info header `usbredirhost_send_interface_n_ep_info` fills in: type,
interval and interface of each of the `MAX_ENDPOINTS` endpoint slots. -/
def usbredirhost_ep_info (s : State) : usb_redir_ep_info_header :=
  let eps := (List.range MAX_ENDPOINTS).map s.host.endpoint
  { type := eps.map fun e => e.type
    interval := eps.map fun e => e.interval
    interface := eps.map fun e => e.interface }

/-- The function `usbredirhost_send_interface_n_ep_info`. -/
def usbredirhost_send_interface_n_ep_info (s : State) : State :=
  let s := s.send (.interface_info (usbredirhost_interface_info s))
  s.send (.ep_info (usbredirhost_ep_info s))

/-- The speed translation of `usbredirhost_send_device_connect`. -/
def device_connect_speed (speed : Int) : Nat :=
  if speed = LIBUSB_SPEED_LOW then usb_redir_speed_low
  else if speed = LIBUSB_SPEED_FULL then usb_redir_speed_full
  else if speed = LIBUSB_SPEED_HIGH then usb_redir_speed_high
  else if speed = LIBUSB_SPEED_SUPER then usb_redir_speed_super
  else usb_redir_speed_unknown

/-- The function `usbredirhost_send_device_connect`. -/
def usbredirhost_send_device_connect (s : State) : State :=
  if !s.host.disconnected then s
  else if !usbredirparser_have_peer_caps s.parser || s.host.wait_disconnect then
    { s with host := { s.host with connect_pending := true } }
  else
    let speed := libusb_get_device_speed s.host.dev
    let device_connect : usb_redir_device_connect_header :=
      { speed := device_connect_speed speed
        device_class := s.host.desc.bDeviceClass
        device_subclass := s.host.desc.bDeviceSubClass
        device_protocol := s.host.desc.bDeviceProtocol
        vendor_id := s.host.desc.idVendor
        product_id := s.host.desc.idProduct
        device_version_bcd := s.host.desc.bcdDevice }
    let s := usbredirhost_send_interface_n_ep_info s
    let s := s.send (.device_connect device_connect)
    { s with host := { s.host with connect_pending := false, disconnected := false } }

/-- The function `usbredirhost_parse_interface`. -/
def usbredirhost_parse_interface (s : State) (i : Nat) : State :=
  let intf_desc := s.intf_desc i
  intf_desc.endpoint.foldl (fun s epd =>
    let ep_address := epd.bEndpointAddress
    s.modifyEp (EP2I ep_address) fun e =>
      { e with
        max_packetsize := usbredirhost_get_max_packetsize epd.wMaxPacketSize
        type := epd.bmAttributes &&& LIBUSB_TRANSFER_TYPE_MASK
        interval := epd.bInterval
        interface := intf_desc.bInterfaceNumber }) s

/-- The function `usbredirhost_parse_config`. -/
def usbredirhost_parse_config (s : State) : State :=
  let s := (List.range MAX_ENDPOINTS).foldl (fun s i =>
    s.modifyEp i fun e =>
      { e with
        type := if i &&& 0x0f = 0 then usb_redir_type_control else usb_redir_type_invalid
        interval := 0
        interface := 0 }) s
  (List.range s.bNumInterfaces).foldl usbredirhost_parse_interface s

/-- The libusb function `libusb_get_config_descriptor_by_value` as called by
`usbredirhost_claim`: on success `host->config` is the descriptor of the
device whose value is `host->active_config`. -/
def libusb_get_config_descriptor_by_value (s : State) : State × Int :=
  let c := s.call (.get_config_descriptor_by_value s.host.active_config)
  if c.2 < 0 then c
  else
    match ((s.host.dev.getD default).configs.find? fun cfg =>
        decide ((cfg.bConfigurationValue : Int) = s.host.active_config)) with
    | some cfg => ({ c.1 with host := { c.1.host with config := some cfg } }, c.2)
    | none => (c.1, LIBUSB_ERROR_NOT_FOUND)

/-- The detach-and-claim loop of `usbredirhost_claim` over the interface
indices still to do; on failure the result names the failing index and the
status to return. -/
def usbredirhost_claim_interfaces : State → List Nat → State × Option (Nat × Nat)
  | s, [] => (s, none)
  | s, i :: rest =>
    let n := (s.altsetting i 0).bInterfaceNumber
    let c := s.call (.detach_kernel_driver n)
    if c.2 < 0 ∧ c.2 ≠ LIBUSB_ERROR_NOT_FOUND then
      let t := libusb_status_or_error_to_redir_status c.1 c.2
      (t.1, some (i, t.2))
    else
      let c := c.1.call (.claim_interface n)
      if c.2 < 0 then
        let t := libusb_status_or_error_to_redir_status c.1 c.2
        (t.1, some (i, t.2))
      else usbredirhost_claim_interfaces c.1 rest

/-- The function `usbredirhost_claim`. -/
def usbredirhost_claim (s : State) : State × Nat :=
  let s := if s.host.config.isSome then
      { (s.callVoid .free_config_descriptor) with
        host := { s.host with config := none } }
    else s
  let c := libusb_get_config_descriptor_by_value s
  if c.2 < 0 then libusb_status_or_error_to_redir_status c.1 c.2
  else
    let s := c.1
    if s.bNumInterfaces > MAX_INTERFACES then (s, usb_redir_ioerror)
    else
      let s := { s with host := { s.host with alt_setting := fun _ => 0 } }
      let l := usbredirhost_claim_interfaces s (List.range s.bNumInterfaces)
      match l.2 with
      | none =>
        let s := usbredirhost_parse_config l.1
        ({ s with host := { s.host with claimed := true } }, usb_redir_success)
      | some (i, ret) =>
        let s := (List.range (i + 1)).reverse.foldl (fun s j =>
          let n := (s.altsetting j 0).bInterfaceNumber
          let s := (s.call (.release_interface n)).1
          (s.call (.attach_kernel_driver n)).1) l.1
        (s, ret)

/-- The function `usbredirhost_release`. -/
def usbredirhost_release (s : State) (attach_drivers : Bool) : State × Nat :=
  if !s.host.claimed then (s, usb_redir_success)
  else
    let r1 := (List.range s.bNumInterfaces).foldl (fun (a : State × Nat) i =>
      let n := (a.1.altsetting i 0).bInterfaceNumber
      let c := a.1.call (.release_interface n)
      if c.2 < 0 ∧ c.2 ≠ LIBUSB_ERROR_NOT_FOUND ∧ c.2 ≠ LIBUSB_ERROR_NO_DEVICE then
        (c.1, usb_redir_ioerror)
      else (c.1, a.2)) (s, usb_redir_success)
    if !attach_drivers then r1
    else
      let r2 := (List.range r1.1.bNumInterfaces).foldl (fun (a : State × Nat) i =>
        let n := (a.1.altsetting i 0).bInterfaceNumber
        let c := a.1.call (.attach_kernel_driver n)
        if c.2 < 0 ∧ c.2 ≠ LIBUSB_ERROR_NOT_FOUND ∧ c.2 ≠ LIBUSB_ERROR_NO_DEVICE
            ∧ c.2 ≠ LIBUSB_ERROR_BUSY then
          (c.1, usb_redir_ioerror)
        else (c.1, a.2)) r1
      ({ r2.1 with host := { r2.1.host with claimed := false } }, r2.2)

/-! ## Transfer records -/

/-- The function `usbredirhost_alloc_transfer`: two allocations (the record
and the libusb transfer); the result is the address of the new record, or 0. -/
def usbredirhost_alloc_transfer (s : State) (iso_packets : Nat) : State × Nat :=
  let a1 := s.alloc
  let a2 := a1.1.alloc
  if !a1.2 || !a2.2 then (a2.1, 0)
  else
    let p := a2.1.next_ptr + 1
    ({ a2.1 with
        heap := Function.update a2.1.heap p
          (some { (default : usbredirtransfer) with
                    transfer := libusb_alloc_transfer iso_packets })
        next_ptr := p }, p)

/-- The function `usbredirhost_free_transfer`. -/
def usbredirhost_free_transfer (s : State) (transfer : Nat) : State :=
  if transfer = 0 then s
  else { s with heap := Function.update s.heap transfer none }

/-- The function `usbredirhost_add_transfer`: append at the end of the list. -/
def usbredirhost_add_transfer (s : State) (new_transfer : Nat) : State :=
  { s with host := { s.host with transfers_head := s.host.transfers_head ++ [new_transfer] } }

/-- The function `usbredirhost_remove_and_free_transfer`: unlink (nothing to do
for a record that is not linked) and free. -/
def usbredirhost_remove_and_free_transfer (s : State) (transfer : Nat) : State :=
  usbredirhost_free_transfer
    { s with host := { s.host with transfers_head := s.host.transfers_head.erase transfer } }
    transfer

/-- The function `usbredirhost_cancel_iso_stream_unlocked`. -/
def usbredirhost_cancel_iso_stream_unlocked (s : State) (ep : Nat) : State :=
  let s := (List.range (s.host.endpoint (EP2I ep)).iso_transfer_count).foldl (fun s i =>
    let transfer := (s.host.endpoint (EP2I ep)).iso_transfer i
    let s := if (s.deref transfer).iso_packet_idx = ISO_SUBMITTED_IDX then
        let s := libusb_cancel_transfer s transfer
        let s := s.modify transfer fun t => { t with cancelled := true }
        { s with host := { s.host with cancels_pending := s.host.cancels_pending + 1 } }
      else usbredirhost_free_transfer s transfer
    s.modifyEp (EP2I ep) fun e =>
      { e with iso_transfer := Function.update e.iso_transfer i 0 }) s
  s.modifyEp (EP2I ep) fun e =>
    { e with
      iso_out_idx := 0
      iso_started := false
      iso_drop_packets := 0
      iso_pkts_per_transfer := 0
      iso_transfer_count := 0 }

/-- The function `usbredirhost_cancel_iso_stream`. -/
def usbredirhost_cancel_iso_stream (s : State) (ep : Nat) : State :=
  usbredirhost_cancel_iso_stream_unlocked s ep

/-- The function `usbredirhost_cancel_interrupt_in_transfer_unlocked`. -/
def usbredirhost_cancel_interrupt_in_transfer_unlocked (s : State) (ep : Nat) : State :=
  let transfer := (s.host.endpoint (EP2I ep)).interrupt_in_transfer
  if transfer = 0 then s
  else
    let s := libusb_cancel_transfer s transfer
    let s := s.modify transfer fun t => { t with cancelled := true }
    let s := { s with host := { s.host with cancels_pending := s.host.cancels_pending + 1 } }
    s.modifyEp (EP2I ep) fun e => { e with interrupt_in_transfer := 0 }

/-- The function `usbredirhost_cancel_pending_urbs`; the result is `wait`. -/
def usbredirhost_cancel_pending_urbs (s : State) : State × Int :=
  let s := (List.range MAX_ENDPOINTS).foldl (fun s i =>
    if (s.host.endpoint i).type = usb_redir_type_iso then
      usbredirhost_cancel_iso_stream_unlocked s (I2EP i)
    else if (s.host.endpoint i).type = usb_redir_type_interrupt then
      if i &&& 0x10 ≠ 0 then
        usbredirhost_cancel_interrupt_in_transfer_unlocked s (I2EP i)
      else s
    else s) s
  let wait := s.host.cancels_pending
  (s.host.transfers_head.foldl (fun s t => libusb_cancel_transfer s t) s,
   if s.host.transfers_head = [] then wait else 1)

/-- The function `usbredirhost_cancel_pending_urbs_on_interface`. -/
def usbredirhost_cancel_pending_urbs_on_interface (s : State) (i : Nat) : State :=
  let intf_desc := s.intf_desc i
  intf_desc.endpoint.foldl (fun s epd =>
    let ep := epd.bEndpointAddress
    let s :=
      if (s.host.endpoint (EP2I ep)).type = usb_redir_type_iso then
        usbredirhost_cancel_iso_stream_unlocked s ep
      else if (s.host.endpoint (EP2I ep)).type = usb_redir_type_interrupt then
        if ep &&& LIBUSB_ENDPOINT_IN ≠ 0 then
          usbredirhost_cancel_interrupt_in_transfer_unlocked s ep
        else s
      else s
    s.host.transfers_head.foldl (fun s t =>
      if (s.deref t).transfer.endpoint = ep then libusb_cancel_transfer s t else s) s) s

/-- The function `usbredirhost_bInterfaceNumber_to_index`. -/
def usbredirhost_bInterfaceNumber_to_index (s : State) (bInterfaceNumber : Nat) : Int :=
  match (List.range s.bNumInterfaces).find? fun i =>
      decide ((s.altsetting i 0).bInterfaceNumber = bInterfaceNumber) with
  | some i => (i : Int)
  | none => -1

/-! ## Isochronous streams -/

/-- The function `usbredirhost_send_iso_status`. -/
def usbredirhost_send_iso_status (s : State) (id : Nat) (endpoint : Nat) (status : Nat) :
    State :=
  s.send (.iso_stream_status id { endpoint := endpoint, status := status })

/-- The function `usbredirhost_submit_iso_transfer_unlocked`. -/
def usbredirhost_submit_iso_transfer_unlocked (s : State) (transfer : Nat) : State × Nat :=
  let r := libusb_submit_transfer s transfer
  if r.2 < 0 then
    let ep := (r.1.deref transfer).transfer.endpoint
    let s := usbredirhost_cancel_iso_stream_unlocked r.1 ep
    libusb_status_or_error_to_redir_status s r.2
  else
    (r.1.modify transfer fun t => { t with iso_packet_idx := ISO_SUBMITTED_IDX },
     usb_redir_success)

/-- The libusb function `libusb_fill_iso_transfer`. -/
def libusb_fill_iso_transfer (t : libusb_transfer) (endpoint : Nat) (buffer : List Nat)
    (length : Nat) (num_iso_packets : Nat) (callback : Callback) (timeout : Nat) :
    libusb_transfer :=
  { t with
    endpoint := endpoint
    type := LIBUSB_TRANSFER_TYPE_ISOCHRONOUS
    timeout := timeout
    buffer := buffer
    length := length
    num_iso_packets := num_iso_packets
    callback := callback }

/-- The libusb function `libusb_set_iso_packet_lengths`. -/
def libusb_set_iso_packet_lengths (t : libusb_transfer) (length : Nat) : libusb_transfer :=
  { t with
    iso_packet_desc :=
      (t.iso_packet_desc.take t.num_iso_packets).map (fun d => { d with length := length })
        ++ t.iso_packet_desc.drop t.num_iso_packets }

/-- The libusb function `libusb_get_iso_packet_buffer`, as the offset of
packet `packet` in the buffer. -/
def libusb_get_iso_packet_buffer (t : libusb_transfer) (packet : Nat) : Nat :=
  ((t.iso_packet_desc.take packet).map fun d => d.length).sum

/-- One round of the allocation loop of `usbredirhost_alloc_iso_stream`, for
ring index `i`: allocate the transfer record into the ring slot, allocate its
buffer, fill the libusb transfer and set the packet lengths.  The result tells
whether both allocations succeeded (the loop leaves through `goto alloc_error`
otherwise). -/
def usbredirhost_alloc_iso_stream_step (ep : Nat) (pkts_per_transfer : Nat) (s : State)
    (i : Nat) : State × Bool :=
  let a := usbredirhost_alloc_transfer s pkts_per_transfer
  let s := a.1.modifyEp (EP2I ep) fun e =>
    { e with iso_transfer := Function.update e.iso_transfer i a.2 }
  if a.2 = 0 then (s, false)
  else
    let buf_size := (s.host.endpoint (EP2I ep)).max_packetsize * pkts_per_transfer
    let m := s.alloc
    if !m.2 then (m.1, false)
    else
      (m.1.modify a.2 fun t =>
        { t with
          transfer := libusb_set_iso_packet_lengths
            (libusb_fill_iso_transfer t.transfer ep (List.replicate buf_size 0) buf_size
              pkts_per_transfer Callback.usbredirhost_iso_packet_complete ISO_TIMEOUT)
            (m.1.host.endpoint (EP2I ep)).max_packetsize }, true)

/-- The allocation loop of `usbredirhost_alloc_iso_stream` over the ring
indices still to do; on failure the result is the index at which it stopped. -/
def usbredirhost_alloc_iso_stream_loop (ep : Nat) (pkts_per_transfer : Nat) :
    State → List Nat → State × Option Nat
  | s, [] => (s, none)
  | s, i :: rest =>
    let r := usbredirhost_alloc_iso_stream_step ep pkts_per_transfer s i
    if !r.2 then (r.1, some i)
    else usbredirhost_alloc_iso_stream_loop ep pkts_per_transfer r.1 rest

/-- The function `usbredirhost_alloc_iso_stream`. -/
def usbredirhost_alloc_iso_stream (s : State) (ep : Nat) (pkts_per_transfer : Nat)
    (transfer_count : Nat) : State × Nat :=
  if (s.host.endpoint (EP2I ep)).type ≠ usb_redir_type_iso then (s, usb_redir_inval)
  else if pkts_per_transfer < 1 ∨ pkts_per_transfer > MAX_ISO_PACKETS_PER_TRANSFER ∨
      transfer_count < 1 ∨ transfer_count > MAX_ISO_TRANSFER_COUNT then
    (s, usb_redir_inval)
  else if (s.host.endpoint (EP2I ep)).iso_transfer_count ≠ 0 then (s, usb_redir_inval)
  else
    let l := usbredirhost_alloc_iso_stream_loop ep pkts_per_transfer s
      (List.range transfer_count)
    match l.2 with
    | none =>
      (l.1.modifyEp (EP2I ep) fun e =>
        { e with
          iso_out_idx := 0
          iso_drop_packets := 0
          iso_pkts_per_transfer := pkts_per_transfer
          iso_transfer_count := transfer_count }, usb_redir_success)
    | some i =>
      ((List.range (i + 1)).reverse.foldl (fun s j =>
        let s := usbredirhost_free_transfer s ((s.host.endpoint (EP2I ep)).iso_transfer j)
        s.modifyEp (EP2I ep) fun e =>
          { e with iso_transfer := Function.update e.iso_transfer j 0 }) l.1,
       usb_redir_ioerror)

/-- The loop submitting the URBs of an input ring, shared by
`usbredirhost_handle_iso_status` and `usbredirhost_start_iso_stream`: URB i
gets the id `i * iso_pkts_per_transfer` and is submitted; the result tells
whether every submission succeeded. -/
def usbredirhost_submit_iso_in_ring (ep : Nat) : State → List Nat → State × Bool
  | s, [] => (s, true)
  | s, i :: rest =>
    let transfer := (s.host.endpoint (EP2I ep)).iso_transfer i
    let s := s.modify transfer fun t =>
      { t with id := (i * (s.host.endpoint (EP2I ep)).iso_pkts_per_transfer) % 2 ^ 32 }
    let r := usbredirhost_submit_iso_transfer_unlocked s transfer
    if r.2 ≠ usb_redir_success then (r.1, false)
    else usbredirhost_submit_iso_in_ring ep r.1 rest

/-- The function `usbredirhost_handle_iso_status`; the result is 0 (all ok),
1 (packet borked) or 2 (stream borked). -/
def usbredirhost_handle_iso_status (s : State) (id : Nat) (ep : Nat) (r : Int) :
    State × Nat :=
  if r = LIBUSB_TRANSFER_COMPLETED ∨ r = -EXDEV then (s, 0)
  else if r = LIBUSB_TRANSFER_CANCELLED then (s, 2)
  else if r = LIBUSB_TRANSFER_STALL then
    let pkts_per_transfer := (s.host.endpoint (EP2I ep)).iso_pkts_per_transfer
    let transfer_count := (s.host.endpoint (EP2I ep)).iso_transfer_count
    let s := usbredirhost_cancel_iso_stream_unlocked s ep
    let c := s.call (.clear_halt ep)
    if c.2 < 0 then (usbredirhost_send_iso_status c.1 id ep usb_redir_stall, 2)
    else
      let a := usbredirhost_alloc_iso_stream c.1 ep pkts_per_transfer transfer_count
      if a.2 ≠ usb_redir_success then
        (usbredirhost_send_iso_status a.1 id ep usb_redir_stall, 2)
      else if ep &&& LIBUSB_ENDPOINT_IN ≠ 0 then
        let l := usbredirhost_submit_iso_in_ring ep a.1
          (List.range (a.1.host.endpoint (EP2I ep)).iso_transfer_count)
        if !l.2 then (usbredirhost_send_iso_status l.1 id ep usb_redir_stall, 2)
        else (l.1.modifyEp (EP2I ep) fun e => { e with iso_started := true }, 2)
      else (a.1, 2)
  else if r = LIBUSB_TRANSFER_NO_DEVICE then (usbredirhost_handle_disconnect s, 2)
  else (s, 1)

/-- The per-packet loop of `usbredirhost_iso_packet_complete` over the packet
indices still to do; the result tells whether the loop ran to its end (it
leaves through `goto unlock` otherwise). -/
def usbredirhost_iso_packet_complete_loop (transfer : Nat) (ep : Nat) :
    State → List Nat → State × Bool
  | s, [] => (s, true)
  | s, i :: rest =>
    let d := (s.deref transfer).transfer.iso_packet_desc.getD i default
    let r := d.status
    let t := libusb_status_or_error_to_redir_status s r
    let status := t.2
    let h := usbredirhost_handle_iso_status t.1 (t.1.deref transfer).id ep r
    if h.2 = 2 then (h.1, false)
    else if h.2 = 1 ∧ ep &&& LIBUSB_ENDPOINT_IN = 0 then
      (usbredirhost_send_iso_status h.1 (h.1.deref transfer).id ep status, false)
    else
      let len := if h.2 = 1 then 0 else d.actual_length
      let s := h.1
      let s :=
        if ep &&& LIBUSB_ENDPOINT_IN ≠ 0 then
          let lt := (s.deref transfer).transfer
          let s := s.send (.iso_packet (s.deref transfer).id
            { endpoint := ep, status := status, length := len }
            ((lt.buffer.drop (libusb_get_iso_packet_buffer lt i)).take len))
          s.modify transfer fun t => { t with id := (t.id + 1) % 2 ^ 32 }
        else s
      usbredirhost_iso_packet_complete_loop transfer ep s rest

/-- The `resubmit:` tail of `usbredirhost_iso_packet_complete`.  The id read
for the status message after a failed submission is read through a pointer the
failed submission has freed. -/
def usbredirhost_iso_packet_complete_resubmit (s : State) (transfer : Nat) (ep : Nat) :
    State :=
  let count : Int := (s.host.endpoint (EP2I ep)).iso_transfer_count
  let n : Int := (s.deref transfer).transfer.num_iso_packets
  let s := s.modify transfer fun t =>
    { t with id := (((t.id : Int) + (count - 1) * n) % 2 ^ 32).toNat }
  let r := usbredirhost_submit_iso_transfer_unlocked s transfer
  if r.2 ≠ usb_redir_success then
    usbredirhost_send_iso_status r.1 (r.1.deref transfer).id ep usb_redir_stall
  else r.1

/-- The underflow check closing `usbredirhost_iso_packet_complete` for an
output endpoint. -/
def usbredirhost_iso_packet_complete_underflow (s : State) (ep : Nat) : State :=
  let e := s.host.endpoint (EP2I ep)
  if (List.range e.iso_transfer_count).all fun i =>
      decide ((s.deref (e.iso_transfer i)).iso_packet_idx ≠ ISO_SUBMITTED_IDX) then
    let s := (List.range e.iso_transfer_count).foldl (fun s i =>
      s.modify ((s.host.endpoint (EP2I ep)).iso_transfer i) fun t =>
        { t with iso_packet_idx := 0 }) s
    s.modifyEp (EP2I ep) fun e =>
      { e with iso_out_idx := 0, iso_started := false, iso_drop_packets := 0 }
  else s

/-- The function `usbredirhost_iso_packet_complete`, called by libusb with the
transfer of record `transfer`. -/
def usbredirhost_iso_packet_complete (s : State) (transfer : Nat) : State :=
  let ep := (s.deref transfer).transfer.endpoint
  if (s.deref transfer).cancelled then
    usbredirhost_free_transfer
      { s with host := { s.host with cancels_pending := s.host.cancels_pending - 1 } }
      transfer
  else
    let s := s.modify transfer fun t => { t with iso_packet_idx := 0 }
    let r := (s.deref transfer).transfer.status
    let h := usbredirhost_handle_iso_status s (s.deref transfer).id ep r
    if h.2 = 2 then h.1
    else if h.2 = 1 then
      let t := libusb_status_or_error_to_redir_status h.1 r
      let status := t.2
      let s := t.1
      if ep &&& LIBUSB_ENDPOINT_IN ≠ 0 then
        let s := s.send (.iso_packet (s.deref transfer).id
          { endpoint := ep, status := status, length := 0 } [])
        let s := s.modify transfer fun t =>
          { t with id := (t.id + t.transfer.num_iso_packets) % 2 ^ 32 }
        usbredirhost_iso_packet_complete_resubmit s transfer ep
      else usbredirhost_send_iso_status s (s.deref transfer).id ep status
    else
      let l := usbredirhost_iso_packet_complete_loop transfer ep h.1
        (List.range (h.1.deref transfer).transfer.num_iso_packets)
      if !l.2 then l.1
      else if ep &&& LIBUSB_ENDPOINT_IN ≠ 0 then
        usbredirhost_iso_packet_complete_resubmit l.1 transfer ep
      else usbredirhost_iso_packet_complete_underflow l.1 ep

/-! ## Interrupt transfers -/

/-- The function `usbredirhost_send_interrupt_recv_status`. -/
def usbredirhost_send_interrupt_recv_status (s : State) (id : Nat) (endpoint : Nat)
    (status : Nat) : State :=
  s.send (.interrupt_receiving_status id { endpoint := endpoint, status := status })

/-- The function `usbredirhost_submit_interrupt_in_transfer`. -/
def usbredirhost_submit_interrupt_in_transfer (s : State) (ep : Nat) : State × Nat :=
  let transfer := (s.host.endpoint (EP2I ep)).interrupt_in_transfer
  let r := libusb_submit_transfer s transfer
  if r.2 < 0 then
    let s := usbredirhost_free_transfer r.1 transfer
    (s.modifyEp (EP2I ep) fun e => { e with interrupt_in_transfer := 0 }, usb_redir_stall)
  else (r.1, usb_redir_success)

/-- The `resubmit:` tail of `usbredirhost_interrupt_packet_complete`.  The id
read for the status message after a failed submission is read through a
pointer the failed submission has freed. -/
def usbredirhost_interrupt_packet_complete_resubmit (s : State) (transfer : Nat)
    (ep : Nat) : State :=
  let r := usbredirhost_submit_interrupt_in_transfer s ep
  if r.2 ≠ usb_redir_success then
    usbredirhost_send_interrupt_recv_status r.1 (r.1.deref transfer).id ep r.2
  else r.1

/-- The function `usbredirhost_interrupt_packet_complete`, called by libusb
with the transfer of record `transfer`. -/
def usbredirhost_interrupt_packet_complete (s : State) (transfer : Nat) : State :=
  let lt := (s.deref transfer).transfer
  let ep := lt.endpoint
  let t := libusb_status_or_error_to_redir_status s lt.status
  let status := t.2
  let len := lt.actual_length
  let s := t.1
  if ep &&& LIBUSB_ENDPOINT_IN = 0 then
    let interrupt_packet : usb_redir_interrupt_packet_header :=
      { (s.deref transfer).interrupt_packet with status := status, length := len % 2 ^ 16 }
    let s := s.send (.interrupt_packet (s.deref transfer).id interrupt_packet [])
    usbredirhost_remove_and_free_transfer s transfer
  else if (s.deref transfer).cancelled then
    usbredirhost_free_transfer
      { s with host := { s.host with cancels_pending := s.host.cancels_pending - 1 } }
      transfer
  else
    let r := lt.status
    if r = LIBUSB_TRANSFER_STALL then
      let c := s.call (.clear_halt ep)
      if c.2 < 0 then
        let s := usbredirhost_send_interrupt_recv_status c.1 (c.1.deref transfer).id ep
          usb_redir_stall
        let s := usbredirhost_free_transfer s transfer
        s.modifyEp (EP2I ep) fun e => { e with interrupt_in_transfer := 0 }
      else
        let s := c.1.modify transfer fun t => { t with id := 0 }
        usbredirhost_interrupt_packet_complete_resubmit s transfer ep
    else if r = LIBUSB_TRANSFER_NO_DEVICE then
      let s := usbredirhost_handle_disconnect s
      let s := usbredirhost_free_transfer s transfer
      s.modifyEp (EP2I ep) fun e => { e with interrupt_in_transfer := 0 }
    else
      let len := if r = LIBUSB_TRANSFER_COMPLETED then len else 0
      let s := s.send (.interrupt_packet (s.deref transfer).id
        { endpoint := ep, status := status, length := len % 2 ^ 16 }
        ((s.deref transfer).transfer.buffer.take len))
      let s := s.modify transfer fun t => { t with id := (t.id + 1) % 2 ^ 32 }
      usbredirhost_interrupt_packet_complete_resubmit s transfer ep

/-- The libusb function `libusb_fill_interrupt_transfer`. -/
def libusb_fill_interrupt_transfer (t : libusb_transfer) (endpoint : Nat)
    (buffer : List Nat) (length : Nat) (callback : Callback) (timeout : Nat) :
    libusb_transfer :=
  { t with
    endpoint := endpoint
    type := LIBUSB_TRANSFER_TYPE_INTERRUPT
    timeout := timeout
    buffer := buffer
    length := length
    callback := callback }

/-- The function `usbredirhost_alloc_interrupt_in_transfer`. -/
def usbredirhost_alloc_interrupt_in_transfer (s : State) (ep : Nat) : State × Nat :=
  if (s.host.endpoint (EP2I ep)).type ≠ usb_redir_type_interrupt then (s, usb_redir_inval)
  else if ep &&& LIBUSB_ENDPOINT_IN = 0 then (s, usb_redir_inval)
  else
    let a := usbredirhost_alloc_transfer s 0
    if a.2 = 0 then (a.1, usb_redir_ioerror)
    else
      let buf_size := (a.1.host.endpoint (EP2I ep)).max_packetsize
      let m := a.1.alloc
      if !m.2 then (usbredirhost_free_transfer m.1 a.2, usb_redir_ioerror)
      else
        let s := m.1.modify a.2 fun t =>
          { t with
            transfer := libusb_fill_interrupt_transfer t.transfer ep
              (List.replicate buf_size 0) buf_size
              Callback.usbredirhost_interrupt_packet_complete INTERRUPT_TIMEOUT }
        (s.modifyEp (EP2I ep) fun e => { e with interrupt_in_transfer := a.2 },
         usb_redir_success)

/-! ## Control and bulk completions -/

/-- The function `usbredirhost_control_packet_complete`. -/
def usbredirhost_control_packet_complete (s : State) (transfer : Nat) : State :=
  let lt := (s.deref transfer).transfer
  let t := libusb_status_or_error_to_redir_status s lt.status
  let s := t.1
  let control_packet : usb_redir_control_packet_header :=
    { (s.deref transfer).control_packet with
      status := t.2, length := lt.actual_length % 2 ^ 16 }
  let s :=
    if control_packet.endpoint &&& LIBUSB_ENDPOINT_IN ≠ 0 then
      s.send (.control_packet (s.deref transfer).id control_packet
        ((lt.buffer.drop LIBUSB_CONTROL_SETUP_SIZE).take lt.actual_length))
    else s.send (.control_packet (s.deref transfer).id control_packet [])
  usbredirhost_remove_and_free_transfer s transfer

/-- The function `usbredirhost_bulk_packet_complete`. -/
def usbredirhost_bulk_packet_complete (s : State) (transfer : Nat) : State :=
  let lt := (s.deref transfer).transfer
  let t := libusb_status_or_error_to_redir_status s lt.status
  let s := t.1
  let bulk_packet : usb_redir_bulk_packet_header :=
    { (s.deref transfer).bulk_packet with
      status := t.2, length := lt.actual_length % 2 ^ 16 }
  let s :=
    if bulk_packet.endpoint &&& LIBUSB_ENDPOINT_IN ≠ 0 then
      s.send (.bulk_packet (s.deref transfer).id bulk_packet
        (lt.buffer.take lt.actual_length))
    else s.send (.bulk_packet (s.deref transfer).id bulk_packet [])
  usbredirhost_remove_and_free_transfer s transfer

/-! ## Completions delivered by libusb -/

/-- The per-packet results libusb writes into the packet descriptors. -/
def libusb_iso_results : List libusb_iso_packet_descriptor → List (Int × Nat) →
    List libusb_iso_packet_descriptor
  | [], _ => []
  | ds, [] => ds
  | d :: ds, r :: rs => { d with status := r.1, actual_length := r.2 } :: libusb_iso_results ds rs

/-- One completion: libusb fills in the results of a transfer in flight and
calls its callback.  A completion naming a transfer that is not in flight, or
whose record has been freed, delivers nothing. -/
def libusb_complete (s : State) (c : Completion) : State :=
  if c.ptr ∈ s.usb.inflight ∧ (s.heap c.ptr).isSome then
    let s := { s with usb := { s.usb with inflight := s.usb.inflight.erase c.ptr } }
    let s := s.modify c.ptr fun t =>
      { t with
        transfer := { t.transfer with
          status := c.status
          actual_length := c.actual_length
          buffer := c.buffer.take t.transfer.buffer.length
            ++ t.transfer.buffer.drop c.buffer.length
          iso_packet_desc := libusb_iso_results t.transfer.iso_packet_desc c.iso } }
    match (s.deref c.ptr).transfer.callback with
    | .null => s
    | .usbredirhost_iso_packet_complete => usbredirhost_iso_packet_complete s c.ptr
    | .usbredirhost_interrupt_packet_complete => usbredirhost_interrupt_packet_complete s c.ptr
    | .usbredirhost_control_packet_complete => usbredirhost_control_packet_complete s c.ptr
    | .usbredirhost_bulk_packet_complete => usbredirhost_bulk_packet_complete s c.ptr
  else s

/-- The libusb function `libusb_handle_events_timeout`: the next batch of
completions of the tape is delivered. -/
def libusb_handle_events_timeout (s : State) : State :=
  let s := (s.call .handle_events_timeout).1
  let batch := s.usb.events.headD []
  let s := { s with usb := { s.usb with events := s.usb.events.tail } }
  batch.foldl libusb_complete s

/-! ## Device lifecycle -/

/-- The drain loop of `usbredirhost_clear_device`, entered with `wait` set.
Each round handles one batch of events and recomputes `wait`.  `fuel` is the
number of batches left on the tape: once the tape is empty no completion can
arrive any more, so a loop still waiting then never ends (`none`). -/
def usbredirhost_clear_device_wait : Nat → State → Option State
  | 0, _ => none
  | fuel + 1, s =>
    let s := libusb_handle_events_timeout s
    if s.host.cancels_pending ≠ 0 ∨ s.host.transfers_head ≠ [] then
      usbredirhost_clear_device_wait fuel s
    else some s

/-- The part of `usbredirhost_clear_device` after the drain loop: release the
interfaces, free the configuration, close the handle, forget the device and
run the disconnect handling. -/
def usbredirhost_clear_device_finish (s : State) : State :=
  let s := (usbredirhost_release s true).1
  let s : State := if s.host.config.isSome then
      { (s.callVoid .free_config_descriptor) with
        host := { s.host with config := none } }
    else s
  let s : State := if s.host.handle.isSome then
      { (s.callVoid .close) with host := { s.host with handle := none } }
    else s
  let s : State := { s with host := { s.host with connect_pending := false, dev := none } }
  usbredirhost_handle_disconnect s

/-- The function `usbredirhost_clear_device`; `none` when the drain loop never
ends. -/
def usbredirhost_clear_device (s : State) : Option State :=
  if s.host.dev.isNone then some s
  else
    let w := usbredirhost_cancel_pending_urbs s
    let drained :=
      if w.2 ≠ 0 then usbredirhost_clear_device_wait w.1.usb.events.length w.1
      else some w.1
    drained.map usbredirhost_clear_device_finish

/-- The part of `usbredirhost_set_device` that binds the new handle, once the
previous device has been cleared; `none` when a drain loop never ends. -/
def usbredirhost_set_device_bind (s : State) (h : libusb_device_handle) :
    Option (State × Nat) :=
  let s : State := { s with host := { s.host with dev := some h.dev, handle := some h } }
  let c : State × Int := s.call .get_configuration
  if c.2 < 0 then
    (usbredirhost_clear_device c.1).map fun s =>
      libusb_status_or_error_to_redir_status s c.2
  else
    let s : State :=
      { c.1 with host := { c.1.host with active_config := c.1.usb.configuration } }
    let c : State × Int := s.call .get_device_descriptor
    if c.2 < 0 then
      (usbredirhost_clear_device c.1).map fun s =>
        libusb_status_or_error_to_redir_status s c.2
    else
      let s : State := { c.1 with host := { c.1.host with desc := h.dev.descriptor } }
      let cl := usbredirhost_claim s
      if cl.2 ≠ usb_redir_success then
        (usbredirhost_clear_device cl.1).map fun s => (s, cl.2)
      else some (usbredirhost_send_device_connect cl.1, usb_redir_success)

/-- The function `usbredirhost_set_device`; `none` when a drain loop never
ends. -/
def usbredirhost_set_device (s : State) (usb_dev_handle : Option libusb_device_handle) :
    Option (State × Nat) :=
  (usbredirhost_clear_device s).bind fun s =>
    match usb_dev_handle with
    | none => some (s, usb_redir_success)
    | some h => usbredirhost_set_device_bind s h

/-! ## Peer command handlers -/

/-- The function `usbredirhost_hello`. -/
def usbredirhost_hello (s : State) : State :=
  if s.host.connect_pending then usbredirhost_send_device_connect s else s

/-- The function `usbredirhost_reset`. -/
def usbredirhost_reset (s : State) : State :=
  if s.host.disconnected then s
  else
    let c := s.call .reset_device
    if c.2 = 0 then c.1 else usbredirhost_handle_disconnect c.1

/-- The libusb function `libusb_set_configuration`: on success the device is
in the requested configuration. -/
def libusb_set_configuration (s : State) (configuration : Nat) : State × Int :=
  let c := s.call (.set_configuration configuration)
  if c.2 < 0 then c
  else ({ c.1 with usb := { c.1.usb with configuration := configuration } }, c.2)

/-- The body of `usbredirhost_set_configuration` up to the `exit:` label: the
state and the status to report; `none` when the drain loop of
`usbredirhost_clear_device` never ends. -/
def usbredirhost_set_configuration_body (s : State)
    (set_config : usb_redir_set_configuration_header) : Option (State × Nat) :=
  if s.host.disconnected then some (s, usb_redir_ioerror)
  else if (set_config.configuration : Int) = s.host.active_config then
    some (s, usb_redir_success)
  else
    let s := (usbredirhost_cancel_pending_urbs s).1
    let rel := usbredirhost_release s false
    if rel.2 ≠ usb_redir_success then some rel
    else
      let c := libusb_set_configuration rel.1 set_config.configuration
      if c.2 < 0 then some (c.1, usb_redir_ioerror)
      else
        let s : State :=
          { c.1 with host := { c.1.host with active_config := set_config.configuration } }
        let cl := usbredirhost_claim s
        if cl.2 ≠ usb_redir_success then
          (usbredirhost_clear_device cl.1).map fun s =>
            ({ s with host := { s.host with read_status := usbredirhost_read_device_lost } },
             cl.2)
        else some (usbredirhost_send_interface_n_ep_info cl.1, cl.2)

/-- The function `usbredirhost_set_configuration`; `none` when the drain loop
of `usbredirhost_clear_device` never ends. -/
def usbredirhost_set_configuration (s : State) (id : Nat)
    (set_config : usb_redir_set_configuration_header) : Option State :=
  (usbredirhost_set_configuration_body s set_config).map fun r =>
    r.1.send (.configuration_status id
      { status := r.2, configuration := (r.1.host.active_config % 256).toNat })

/-- The function `usbredirhost_get_configuration`. -/
def usbredirhost_get_configuration (s : State) (id : Nat) : State :=
  s.send (.configuration_status id
    { status := if s.host.disconnected then usb_redir_ioerror else usb_redir_success
      configuration := (s.host.active_config % 256).toNat })

/-- The function `usbredirhost_set_alt_setting`. -/
def usbredirhost_set_alt_setting (s : State) (id : Nat)
    (set_alt_setting : usb_redir_set_alt_setting_header) : State :=
  if s.host.disconnected then
    s.send (.alt_setting_status id
      { status := usb_redir_ioerror, alt := 255, interface := set_alt_setting.interface })
  else
    let idx := usbredirhost_bInterfaceNumber_to_index s set_alt_setting.interface
    if idx = -1 then
      s.send (.alt_setting_status id
        { status := usb_redir_inval, alt := 255, interface := set_alt_setting.interface })
    else
      let i := idx.toNat
      let s := usbredirhost_cancel_pending_urbs_on_interface s i
      let c := s.call (.set_interface_alt_setting set_alt_setting.interface set_alt_setting.alt)
      let r : State × Nat :=
        if c.2 < 0 then libusb_status_or_error_to_redir_status c.1 c.2
        else
          let s := (List.range MAX_ENDPOINTS).foldl (fun s j =>
            if (s.host.endpoint j).interface ≠ set_alt_setting.interface then s
            else s.modifyEp j fun e =>
              { e with
                type := if i &&& 0x0f = 0 then usb_redir_type_control
                  else usb_redir_type_invalid
                interval := 0
                interface := 0 }) c.1
          let s : State := { s with host := { s.host with
            alt_setting := Function.update s.host.alt_setting i set_alt_setting.alt } }
          let s := usbredirhost_parse_interface s i
          (usbredirhost_send_interface_n_ep_info s, usb_redir_success)
      r.1.send (.alt_setting_status id
        { status := r.2, alt := r.1.host.alt_setting i,
          interface := set_alt_setting.interface })

/-- The function `usbredirhost_get_alt_setting`. -/
def usbredirhost_get_alt_setting (s : State) (id : Nat)
    (get_alt_setting : usb_redir_get_alt_setting_header) : State :=
  if s.host.disconnected then
    s.send (.alt_setting_status id
      { status := usb_redir_ioerror, alt := 255, interface := get_alt_setting.interface })
  else
    let i := usbredirhost_bInterfaceNumber_to_index s get_alt_setting.interface
    if i ≥ 0 then
      s.send (.alt_setting_status id
        { status := usb_redir_success, alt := s.host.alt_setting i.toNat,
          interface := get_alt_setting.interface })
    else
      s.send (.alt_setting_status id
        { status := usb_redir_inval, alt := 255, interface := get_alt_setting.interface })

/-- The function `usbredirhost_start_iso_stream`. -/
def usbredirhost_start_iso_stream (s : State) (id : Nat)
    (start_iso_stream : usb_redir_start_iso_stream_header) : State :=
  let ep := start_iso_stream.endpoint
  let r : State × Nat :=
    if s.host.disconnected then (s, usb_redir_ioerror)
    else
      let a := usbredirhost_alloc_iso_stream s ep start_iso_stream.pkts_per_urb
        start_iso_stream.no_urbs
      if a.2 ≠ usb_redir_success then (a.1, usb_redir_stall)
      else if start_iso_stream.endpoint &&& LIBUSB_ENDPOINT_IN ≠ 0 then
        let l := usbredirhost_submit_iso_in_ring ep a.1
          (List.range (a.1.host.endpoint (EP2I ep)).iso_transfer_count)
        if !l.2 then (l.1, usb_redir_stall)
        else (l.1.modifyEp (EP2I ep) fun e => { e with iso_started := true },
              usb_redir_success)
      else (a.1, a.2)
  usbredirhost_send_iso_status r.1 id ep r.2

/-- The function `usbredirhost_stop_iso_stream`. -/
def usbredirhost_stop_iso_stream (s : State) (id : Nat)
    (stop_iso_stream : usb_redir_stop_iso_stream_header) : State :=
  let ep := stop_iso_stream.endpoint
  if s.host.disconnected then usbredirhost_send_iso_status s id ep usb_redir_ioerror
  else
    usbredirhost_send_iso_status (usbredirhost_cancel_iso_stream s ep) id ep usb_redir_success

/-- The function `usbredirhost_start_interrupt_receiving`. -/
def usbredirhost_start_interrupt_receiving (s : State) (id : Nat)
    (start_interrupt_receiving : usb_redir_start_interrupt_receiving_header) : State :=
  let ep := start_interrupt_receiving.endpoint
  let r : State × Nat :=
    if s.host.disconnected then (s, usb_redir_ioerror)
    else if (s.host.endpoint (EP2I ep)).interrupt_in_transfer ≠ 0 then (s, usb_redir_inval)
    else
      let a := usbredirhost_alloc_interrupt_in_transfer s ep
      if a.2 ≠ usb_redir_success then (a.1, usb_redir_stall)
      else usbredirhost_submit_interrupt_in_transfer a.1 ep
  usbredirhost_send_interrupt_recv_status r.1 id ep r.2

/-- The function `usbredirhost_stop_interrupt_receiving`. -/
def usbredirhost_stop_interrupt_receiving (s : State) (id : Nat)
    (stop_interrupt_receiving : usb_redir_stop_interrupt_receiving_header) : State :=
  let ep := stop_interrupt_receiving.endpoint
  if s.host.disconnected then
    usbredirhost_send_interrupt_recv_status s id ep usb_redir_ioerror
  else
    usbredirhost_send_interrupt_recv_status
      (usbredirhost_cancel_interrupt_in_transfer_unlocked s ep) id ep usb_redir_success

/-- The function `usbredirhost_alloc_bulk_streams` (empty body). -/
def usbredirhost_alloc_bulk_streams (s : State) (_id : Nat) : State := s

/-- The function `usbredirhost_free_bulk_streams` (empty body). -/
def usbredirhost_free_bulk_streams (s : State) (_id : Nat) : State := s

/-- The function `usbredirhost_filter_reject`. -/
def usbredirhost_filter_reject (s : State) : State :=
  if s.host.disconnected then s
  else { s with host := { s.host with read_status := usbredirhost_read_device_rejected } }

/-- The function `usbredirhost_filter_filter`. -/
def usbredirhost_filter_filter (s : State) (rules : List Nat) (rules_count : Int) : State :=
  { s with host := { s.host with filter_rules := rules, filter_rules_count := rules_count } }

/-- The function `usbredirhost_device_disconnect_ack`. -/
def usbredirhost_device_disconnect_ack (s : State) : State :=
  if !s.host.wait_disconnect then s
  else
    let s : State := { s with host := { s.host with wait_disconnect := false } }
    if s.host.connect_pending then usbredirhost_send_device_connect s else s

/-- The function `usbredirhost_cancel_data_packet`. -/
def usbredirhost_cancel_data_packet (s : State) (id : Nat) : State :=
  match s.host.transfers_head.find? fun t => decide ((s.deref t).id = id) with
  | some t => libusb_cancel_transfer s t
  | none => s

/-! ## Data packets -/

/-- The function `usbredirhost_send_control_status`. -/
def usbredirhost_send_control_status (s : State) (id : Nat)
    (control_packet : usb_redir_control_packet_header) (status : Nat) : State :=
  s.send (.control_packet id { control_packet with status := status, length := 0 } [])

/-- The libusb function `libusb_fill_control_setup`: the eight setup bytes. -/
def libusb_fill_control_setup (bmRequestType : Nat) (bRequest : Nat) (wValue : Nat)
    (wIndex : Nat) (wLength : Nat) : List Nat :=
  [bmRequestType, bRequest, wValue % 256, wValue / 256 % 256, wIndex % 256,
   wIndex / 256 % 256, wLength % 256, wLength / 256 % 256]

/-- The libusb function `libusb_fill_control_transfer`; the length is read
back from the setup bytes of the buffer. -/
def libusb_fill_control_transfer (t : libusb_transfer) (buffer : List Nat)
    (callback : Callback) (timeout : Nat) : libusb_transfer :=
  { t with
    endpoint := 0
    type := LIBUSB_TRANSFER_TYPE_CONTROL
    timeout := timeout
    buffer := buffer
    length := LIBUSB_CONTROL_SETUP_SIZE + (buffer.getD 6 0 + 256 * buffer.getD 7 0)
    callback := callback }

/-- The libusb function `libusb_fill_bulk_transfer`. -/
def libusb_fill_bulk_transfer (t : libusb_transfer) (endpoint : Nat)
    (buffer : List Nat) (length : Nat) (callback : Callback) (timeout : Nat) :
    libusb_transfer :=
  { t with
    endpoint := endpoint
    type := LIBUSB_TRANSFER_TYPE_BULK
    timeout := timeout
    buffer := buffer
    length := length
    callback := callback }

/-- The function `usbredirhost_control_packet`; `data_len` is the length of
`data`. -/
def usbredirhost_control_packet (s : State) (id : Nat)
    (control_packet : usb_redir_control_packet_header) (data : List Nat) : State :=
  let ep := control_packet.endpoint
  let data_len := data.length
  if s.host.disconnected then
    usbredirhost_send_control_status s id control_packet usb_redir_ioerror
  else if (s.host.endpoint (EP2I ep)).type ≠ usb_redir_type_control then
    usbredirhost_send_control_status s id control_packet usb_redir_inval
  else if control_packet.requesttype = LIBUSB_RECIPIENT_ENDPOINT ∧
      control_packet.request = LIBUSB_REQUEST_CLEAR_FEATURE ∧
      control_packet.value = 0x00 ∧ data_len = 0 then
    let c := s.call (.clear_halt (control_packet.index % 256))
    let t := libusb_status_or_error_to_redir_status c.1 c.2
    usbredirhost_send_control_status t.1 id control_packet t.2
  else
    let m := s.alloc
    if !m.2 then m.1
    else
      let a := usbredirhost_alloc_transfer m.1 0
      if a.2 = 0 then a.1
      else
        let setup := libusb_fill_control_setup control_packet.requesttype
          control_packet.request control_packet.value control_packet.index
          control_packet.length
        let buffer :=
          if ep &&& LIBUSB_ENDPOINT_IN = 0 then
            setup ++ data ++ List.replicate (control_packet.length - data_len) 0
          else setup ++ List.replicate control_packet.length 0
        let s := a.1.modify a.2 fun t =>
          { t with
            transfer := libusb_fill_control_transfer t.transfer buffer
              Callback.usbredirhost_control_packet_complete CTRL_TIMEOUT
            id := id
            control_packet := control_packet }
        let s := usbredirhost_add_transfer s a.2
        let r := libusb_submit_transfer s a.2
        if r.2 < 0 then
          let s := r.1.modify a.2 fun t =>
            { t with transfer := { t.transfer with actual_length := 0, status := r.2 } }
          usbredirhost_control_packet_complete s a.2
        else r.1

/-- The function `usbredirhost_send_bulk_status`. -/
def usbredirhost_send_bulk_status (s : State) (id : Nat)
    (bulk_packet : usb_redir_bulk_packet_header) (status : Nat) : State :=
  s.send (.bulk_packet id { bulk_packet with status := status, length := 0 } [])

/-- The function `usbredirhost_bulk_packet`. -/
def usbredirhost_bulk_packet (s : State) (id : Nat)
    (bulk_packet : usb_redir_bulk_packet_header) (data : List Nat) : State :=
  let ep := bulk_packet.endpoint
  if s.host.disconnected then
    usbredirhost_send_bulk_status s id bulk_packet usb_redir_ioerror
  else if (s.host.endpoint (EP2I ep)).type ≠ usb_redir_type_bulk then
    usbredirhost_send_bulk_status s id bulk_packet usb_redir_inval
  else
    let m : State × Bool := if ep &&& LIBUSB_ENDPOINT_IN ≠ 0 then s.alloc else (s, true)
    if !m.2 then m.1
    else
      let data := if ep &&& LIBUSB_ENDPOINT_IN ≠ 0 then List.replicate bulk_packet.length 0
        else data
      let a := usbredirhost_alloc_transfer m.1 0
      if a.2 = 0 then a.1
      else
        let s := a.1.modify a.2 fun t =>
          { t with
            transfer := libusb_fill_bulk_transfer t.transfer ep data bulk_packet.length
              Callback.usbredirhost_bulk_packet_complete CTRL_TIMEOUT
            id := id
            bulk_packet := bulk_packet }
        let s := usbredirhost_add_transfer s a.2
        let r := libusb_submit_transfer s a.2
        if r.2 < 0 then
          let s := r.1.modify a.2 fun t =>
            { t with transfer := { t.transfer with actual_length := 0, status := r.2 } }
          usbredirhost_bulk_packet_complete s a.2
        else r.1

/-- The loop of `usbredirhost_iso_packet` submitting the first half of the
ring when an output stream starts; the result tells whether every submission
succeeded. -/
def usbredirhost_iso_packet_start (ep : Nat) : State → List Nat → State × Bool
  | s, [] => (s, true)
  | s, i :: rest =>
    let r := usbredirhost_submit_iso_transfer_unlocked s
      ((s.host.endpoint (EP2I ep)).iso_transfer i)
    if r.2 ≠ usb_redir_success then (r.1, false)
    else usbredirhost_iso_packet_start ep r.1 rest

/-- The part of `usbredirhost_iso_packet` that queues a packet: the URB at
`iso_out_idx` gets the id when the packet is its first, the payload is copied
into its packet slot `iso_packet_idx`, the slot length is set, the packet
index advances and, when the URB is full, `iso_out_idx` advances modulo the
ring size. -/
def usbredirhost_iso_packet_store (s : State) (id : Nat) (ep : Nat) (data : List Nat) :
    State :=
  let e := s.host.endpoint (EP2I ep)
  let data_len := data.length
  let i := e.iso_out_idx
  let transfer := e.iso_transfer i.toNat
  let j := (s.deref transfer).iso_packet_idx
  let s := if j = 0 then s.modify transfer fun t => { t with id := id } else s
  let s := s.modify transfer fun t =>
    { t with transfer := { t.transfer with
        buffer :=
          let off := libusb_get_iso_packet_buffer t.transfer j.toNat
          t.transfer.buffer.take off ++ data ++ t.transfer.buffer.drop (off + data_len)
        iso_packet_desc := t.transfer.iso_packet_desc.modify
          (fun d => { d with length := data_len }) j.toNat } }
  let s := s.modify transfer fun t => { t with iso_packet_idx := j + 1 }
  if j + 1 = (e.iso_pkts_per_transfer : Int) then
    s.modifyEp (EP2I ep) fun e' =>
      { e' with iso_out_idx := (i + 1) % (e.iso_transfer_count : Int) }
  else s

/-- The part of `usbredirhost_iso_packet` after a packet was queued in
`transfer`: `i` and `j` are the local ring and packet indices at that point.
A started stream submits the URB once it is full; a stream not yet started
submits the first half of the ring once `available` equals `needed`. -/
def usbredirhost_iso_packet_submit (s : State) (ep : Nat) (transfer : Nat) (i : Int)
    (j : Int) : State × Nat :=
  if (s.host.endpoint (EP2I ep)).iso_started then
    if (s.deref transfer).iso_packet_idx =
        ((s.host.endpoint (EP2I ep)).iso_pkts_per_transfer : Int) then
      let r := usbredirhost_submit_iso_transfer_unlocked s transfer
      if r.2 ≠ usb_redir_success then (r.1, usb_redir_stall) else r
    else (s, usb_redir_success)
  else
    let available : Int :=
      i * ((s.host.endpoint (EP2I ep)).iso_pkts_per_transfer : Int) + j
    let needed : Int :=
      (((s.host.endpoint (EP2I ep)).iso_pkts_per_transfer *
        (s.host.endpoint (EP2I ep)).iso_transfer_count : Nat) : Int) / 2
    if available = needed then
      let l := usbredirhost_iso_packet_start ep s
        (List.range ((s.host.endpoint (EP2I ep)).iso_transfer_count / 2))
      if !l.2 then (l.1, usb_redir_stall)
      else (l.1.modifyEp (EP2I ep) fun e => { e with iso_started := true },
            usb_redir_success)
    else (s, usb_redir_success)

/-- The body of `usbredirhost_iso_packet` up to the `leave:` label: the state
and the status. -/
def usbredirhost_iso_packet_body (s : State) (id : Nat) (ep : Nat) (data : List Nat) :
    State × Nat :=
  let data_len := data.length
  let e := s.host.endpoint (EP2I ep)
  if s.host.disconnected then (s, usb_redir_ioerror)
  else if e.type ≠ usb_redir_type_iso then (s, usb_redir_inval)
  else if e.iso_transfer_count = 0 then (s, usb_redir_inval)
  else if data_len > e.max_packetsize then (s, usb_redir_inval)
  else if e.iso_drop_packets ≠ 0 then
    (s.modifyEp (EP2I ep) fun e => { e with iso_drop_packets := e.iso_drop_packets - 1 },
     usb_redir_success)
  else
    let i := e.iso_out_idx
    let transfer := e.iso_transfer i.toNat
    let j := (s.deref transfer).iso_packet_idx
    if j = ISO_SUBMITTED_IDX then
      (s.modifyEp (EP2I ep) fun e =>
        { e with iso_drop_packets :=
            ((e.iso_pkts_per_transfer * e.iso_transfer_count : Nat) : Int) / 2 },
       usb_redir_success)
    else
      let wrap := decide (j + 1 = (e.iso_pkts_per_transfer : Int))
      usbredirhost_iso_packet_submit (usbredirhost_iso_packet_store s id ep data) ep transfer
        (if wrap then (i + 1) % (e.iso_transfer_count : Int) else i)
        (if wrap then 0 else j + 1)

/-- The function `usbredirhost_iso_packet`; `data_len` is the length of
`data`. -/
def usbredirhost_iso_packet (s : State) (id : Nat)
    (iso_packet : usb_redir_iso_packet_header) (data : List Nat) : State :=
  let ep := iso_packet.endpoint
  let r := usbredirhost_iso_packet_body s id ep data
  if r.2 ≠ usb_redir_success then usbredirhost_send_iso_status r.1 id ep r.2 else r.1

/-- The function `usbredirhost_send_interrupt_status`. -/
def usbredirhost_send_interrupt_status (s : State) (id : Nat)
    (interrupt_packet : usb_redir_interrupt_packet_header) (status : Nat) : State :=
  s.send (.interrupt_packet id { interrupt_packet with status := status, length := 0 } [])

/-- The function `usbredirhost_interrupt_packet`; `data_len` is the length of
`data`. -/
def usbredirhost_interrupt_packet (s : State) (id : Nat)
    (interrupt_packet : usb_redir_interrupt_packet_header) (data : List Nat) : State :=
  let ep := interrupt_packet.endpoint
  let data_len := data.length
  if s.host.disconnected then
    usbredirhost_send_interrupt_status s id interrupt_packet usb_redir_ioerror
  else if (s.host.endpoint (EP2I ep)).type ≠ usb_redir_type_interrupt then
    usbredirhost_send_interrupt_status s id interrupt_packet usb_redir_inval
  else if data_len > (s.host.endpoint (EP2I ep)).max_packetsize then
    usbredirhost_send_interrupt_status s id interrupt_packet usb_redir_inval
  else
    let a := usbredirhost_alloc_transfer s 0
    if a.2 = 0 then a.1
    else
      let s := a.1.modify a.2 fun t =>
        { t with
          transfer := libusb_fill_interrupt_transfer t.transfer ep data data_len
            Callback.usbredirhost_interrupt_packet_complete INTERRUPT_TIMEOUT
          id := id
          interrupt_packet := interrupt_packet }
      let s := usbredirhost_add_transfer s a.2
      let r := libusb_submit_transfer s a.2
      if r.2 < 0 then
        let s := r.1.modify a.2 fun t =>
          { t with transfer := { t.transfer with actual_length := 0, status := r.2 } }
        usbredirhost_interrupt_packet_complete s a.2
      else r.1

/-! ## Opening a host and running it -/

/-- The host structure right after `calloc`, with `disconnected` set as
`usbredirhost_open_full` does before it binds the device. -/
def usbredirhost_zero : usbredirhost :=
  { dev := none, handle := none, desc := default, config := none, active_config := 0,
    claimed := false, disconnected := true, read_status := 0, cancels_pending := 0,
    wait_disconnect := false, connect_pending := false, endpoint := fun _ => default,
    alt_setting := fun _ => 0, transfers_head := [], filter_rules := [],
    filter_rules_count := 0 }

/-- The function `usbredirhost_open_full` (and `usbredirhost_open`, which
calls it): the arguments are the libusb tapes, the configuration the device is
in and the device handle.  `none` when the function returns `NULL` (an
allocation or `usbredirhost_set_device` failed) or does not return. -/
def usbredirhost_open_full (ret : List Int) (mem : List Bool)
    (events : List (List Completion)) (configuration : Int)
    (usb_dev_handle : Option libusb_device_handle) : Option State :=
  let s : State :=
    { host := usbredirhost_zero
      heap := fun _ => none
      next_ptr := 0
      parser := { sent := [], have_peer_caps := false, peer_caps := [] }
      usb := { ret := ret, mem := mem, events := events, calls := [], inflight := [],
               configuration := configuration } }
  let a := s.alloc
  if !a.2 then none
  else
    let b := a.1.alloc
    if !b.2 then none
    else
      (usbredirhost_set_device b.1 usb_dev_handle).bind fun r =>
        if r.2 ≠ usb_redir_success then none else some r.1

/-- What can happen to an open host: a call of the public API, a command of
the peer dispatched by the parser to its callback, or a completion delivered
by libusb. -/
inductive Event where
  | set_device (usb_dev_handle : Option libusb_device_handle)
  | read
  | handle_events
  | completion (c : Completion)
  | hello (caps : List Nat)
  | reset
  | set_configuration (id : Nat) (h : usb_redir_set_configuration_header)
  | get_configuration (id : Nat)
  | set_alt_setting (id : Nat) (h : usb_redir_set_alt_setting_header)
  | get_alt_setting (id : Nat) (h : usb_redir_get_alt_setting_header)
  | start_iso_stream (id : Nat) (h : usb_redir_start_iso_stream_header)
  | stop_iso_stream (id : Nat) (h : usb_redir_stop_iso_stream_header)
  | start_interrupt_receiving (id : Nat) (h : usb_redir_start_interrupt_receiving_header)
  | stop_interrupt_receiving (id : Nat) (h : usb_redir_stop_interrupt_receiving_header)
  | alloc_bulk_streams (id : Nat)
  | free_bulk_streams (id : Nat)
  | cancel_data_packet (id : Nat)
  | filter_reject
  | filter_filter (rules : List Nat) (rules_count : Int)
  | device_disconnect_ack
  | control_packet (id : Nat) (h : usb_redir_control_packet_header) (data : List Nat)
  | bulk_packet (id : Nat) (h : usb_redir_bulk_packet_header) (data : List Nat)
  | iso_packet (id : Nat) (h : usb_redir_iso_packet_header) (data : List Nat)
  | interrupt_packet (id : Nat) (h : usb_redir_interrupt_packet_header) (data : List Nat)
deriving DecidableEq, Repr, Inhabited

/-- Modelled from the spec: the parser on a hello packet records the peer
capabilities before it calls the hello callback. -/
def usbredirparser_hello (s : State) (caps : List Nat) : State :=
  { s with parser := { s.parser with have_peer_caps := true, peer_caps := caps } }

/-- One event on an open host; `none` when the call does not return. -/
def step (s : State) : Event → Option State
  | .set_device h => (usbredirhost_set_device s h).map fun r => r.1
  | .read => some (usbredirhost_read s).1
  | .handle_events => some (libusb_handle_events_timeout s)
  | .completion c => some (libusb_complete s c)
  | .hello caps => some (usbredirhost_hello (usbredirparser_hello s caps))
  | .reset => some (usbredirhost_reset s)
  | .set_configuration id h => usbredirhost_set_configuration s id h
  | .get_configuration id => some (usbredirhost_get_configuration s id)
  | .set_alt_setting id h => some (usbredirhost_set_alt_setting s id h)
  | .get_alt_setting id h => some (usbredirhost_get_alt_setting s id h)
  | .start_iso_stream id h => some (usbredirhost_start_iso_stream s id h)
  | .stop_iso_stream id h => some (usbredirhost_stop_iso_stream s id h)
  | .start_interrupt_receiving id h => some (usbredirhost_start_interrupt_receiving s id h)
  | .stop_interrupt_receiving id h => some (usbredirhost_stop_interrupt_receiving s id h)
  | .alloc_bulk_streams id => some (usbredirhost_alloc_bulk_streams s id)
  | .free_bulk_streams id => some (usbredirhost_free_bulk_streams s id)
  | .cancel_data_packet id => some (usbredirhost_cancel_data_packet s id)
  | .filter_reject => some (usbredirhost_filter_reject s)
  | .filter_filter rules rules_count => some (usbredirhost_filter_filter s rules rules_count)
  | .device_disconnect_ack => some (usbredirhost_device_disconnect_ack s)
  | .control_packet id h data => some (usbredirhost_control_packet s id h data)
  | .bulk_packet id h data => some (usbredirhost_bulk_packet s id h data)
  | .iso_packet id h data => some (usbredirhost_iso_packet s id h data)
  | .interrupt_packet id h data => some (usbredirhost_interrupt_packet s id h data)

/-- A sequence of events, one after the other. -/
def run (s : State) : List Event → Option State
  | [] => some s
  | e :: es => (step s e).bind fun s => run s es

/-- The states an open host can be in: those reached from
`usbredirhost_open_full` by a sequence of events. -/
def Reachable (s : State) : Prop :=
  ∃ ret mem events configuration usb_dev_handle s0 es,
    usbredirhost_open_full ret mem events configuration usb_dev_handle = some s0 ∧
    run s0 es = some s

/-! ## The connect/disconnect protocol seen in the packet log -/

/-- The connect/disconnect content of a packet: `true` for a device-connect,
`false` for a device-disconnect, nothing for any other packet. -/
def Packet.cd : Packet → Option Bool
  | .device_connect _ => some true
  | .device_disconnect => some false
  | _ => none

/-- The device-connect (`true`) and device-disconnect (`false`) packets of a
log, in order. -/
def cd_trace (l : List Packet) : List Bool :=
  l.filterMap Packet.cd

/-- Replaying a connect/disconnect trace from a value of the `disconnected`
flag: a connect is in turn when the flag is set and clears it, a disconnect is
in turn when the flag is clear and sets it; `none` when a packet is out of
turn. -/
def replay : Bool → List Bool → Option Bool
  | d, [] => some d
  | d, true :: l => if d then replay false l else none
  | d, false :: l => if d then none else replay true l

/-- The part of the state the connect/disconnect protocol depends on. -/
structure Key where
  disconnected : Bool
  wait_disconnect : Bool
  connect_pending : Bool
  trace : List Bool
deriving DecidableEq, Repr

/-- The protocol key of a state. -/
def State.key (s : State) : Key :=
  { disconnected := s.host.disconnected
    wait_disconnect := s.host.wait_disconnect
    connect_pending := s.host.connect_pending
    trace := cd_trace s.parser.sent }

/-- The protocol invariant: the log alternates device-connect and
device-disconnect, starting with a connect, and `disconnected` is set exactly
when the last of them is a disconnect (or there is none); `wait_disconnect`
and `connect_pending` are only set while `disconnected` is. -/
def Key.Inv (k : Key) : Prop :=
  replay true k.trace = some k.disconnected ∧
  (k.wait_disconnect = true → k.disconnected = true) ∧
  (k.connect_pending = true → k.disconnected = true)

/-- The effect on the key of code that never sends a device-connect: the
flag and the trace are as before, or the flag went from clear to set with one
device-disconnect sent; `connect_pending` is not newly set,
`wait_disconnect` is newly set only together with `disconnected`, and it is
never cleared. -/
def Disc (k k' : Key) : Prop :=
  ((k'.disconnected = k.disconnected ∧ k'.trace = k.trace) ∨
    (k.disconnected = false ∧ k'.disconnected = true ∧ k'.trace = k.trace ++ [false])) ∧
  (k'.connect_pending = true → k.connect_pending = true) ∧
  (k'.wait_disconnect = true → k.wait_disconnect = true ∨ k'.disconnected = true) ∧
  (k.wait_disconnect = true → k'.wait_disconnect = true)

/-! ## The URBs of an iso ring -/

/-- The transfer record `usbredirhost_alloc_iso_stream` builds for each ring
slot of endpoint `ep`: a zeroed record whose libusb transfer has
`pkts_per_transfer` packets of `max_packetsize` bytes each and a zeroed buffer
of `max_packetsize * pkts_per_transfer` bytes. -/
def usbredirhost_iso_urb (ep : Nat) (pkts_per_transfer : Nat) (max_packetsize : Nat) :
    usbredirtransfer :=
  { (default : usbredirtransfer) with
    transfer := libusb_set_iso_packet_lengths
      (libusb_fill_iso_transfer (libusb_alloc_transfer pkts_per_transfer) ep
        (List.replicate (max_packetsize * pkts_per_transfer) 0)
        (max_packetsize * pkts_per_transfer) pkts_per_transfer
        Callback.usbredirhost_iso_packet_complete ISO_TIMEOUT)
      max_packetsize }

/-- The iso packet `usbredirhost_iso_packet_complete` sends to the peer for
packet `i` of a completed input URB `t`, under the id `id`: the endpoint of the
transfer, the translated packet status, and the `actual_length` received bytes
of the packet (none when the packet status is an error). -/
def usbredirhost_iso_in_packet (s : State) (t : usbredirtransfer) (id : Nat) (i : Nat) :
    Packet :=
  let d := t.transfer.iso_packet_desc.getD i default
  let len := if d.status = LIBUSB_TRANSFER_COMPLETED ∨ d.status = -EXDEV then d.actual_length
    else 0
  .iso_packet id
    { endpoint := t.transfer.endpoint
      status := (libusb_status_or_error_to_redir_status s d.status).2
      length := len }
    ((t.transfer.buffer.drop (libusb_get_iso_packet_buffer t.transfer i)).take len)

/-! ## Concrete inputs -/

/-- A full-speed device with one configuration (value 1) of one interface
(number 0), whose endpoints are an iso IN endpoint 0x81, a bulk OUT endpoint
0x02 and an interrupt IN endpoint 0x83. -/
def example_device : libusb_device :=
  { speed := 2
    descriptor := { bDeviceClass := 0, bDeviceSubClass := 0, bDeviceProtocol := 0,
                    idVendor := 0x1234, idProduct := 0x5678, bcdDevice := 0x0100 }
    configs := [
      { bConfigurationValue := 1
        interface := [
          { altsetting := [
              { bInterfaceNumber := 0, bInterfaceClass := 255, bInterfaceSubClass := 0,
                bInterfaceProtocol := 0
                endpoint := [
                  { bEndpointAddress := 0x81, bmAttributes := 1, wMaxPacketSize := 64,
                    bInterval := 1 },
                  { bEndpointAddress := 0x02, bmAttributes := 2, wMaxPacketSize := 512,
                    bInterval := 0 },
                  { bEndpointAddress := 0x83, bmAttributes := 3, wMaxPacketSize := 8,
                    bInterval := 10 }] }] }] }] }

/-- A handle on `example_device`. -/
def example_handle : libusb_device_handle := ⟨example_device⟩

/-- The state a failed run falls back to in the examples: a host right after
`calloc`. -/
def example_zero : State :=
  { host := usbredirhost_zero
    heap := fun _ => none
    next_ptr := 0
    parser := { sent := [], have_peer_caps := false, peer_caps := [] }
    usb := { ret := [], mem := [], events := [], calls := [], inflight := [],
             configuration := 0 } }

/-- The host opened on `example_device` (every libusb call succeeding), after
the given events. -/
def example_run (es : List Event) : State :=
  ((usbredirhost_open_full [] [] [] 1 (some example_handle)).bind fun s => run s es).getD
    example_zero

/-- The example host before the peer said hello: the device-connect is
pending. -/
def example_pending : State := example_run []

/-- The example host once the peer said hello with the disconnect-ack
capability: connected. -/
def example_connected : State := example_run [.hello [usb_redir_cap_device_disconnect_ack]]

/-- The example host once the peer said hello without capabilities: connected. -/
def example_connected_nocap : State := example_run [.hello []]

/-- The example host after hello and an unbind: disconnected, waiting for the
disconnect-ack. -/
def example_unbound : State :=
  example_run [.hello [usb_redir_cap_device_disconnect_ack], .set_device none]

/-- The example host after hello, an unbind and a rebind before the ack:
`wait_disconnect` and `connect_pending` are set. -/
def example_rebound : State :=
  example_run [.hello [usb_redir_cap_device_disconnect_ack], .set_device none,
    .set_device (some example_handle)]

/-- The example host after hello, an unbind, the disconnect-ack, a rebind and
a second unbind: two device-disconnect packets have been sent. -/
def example_twice : State :=
  example_run [.hello [usb_redir_cap_device_disconnect_ack], .set_device none,
    .device_disconnect_ack, .set_device (some example_handle), .set_device none]

/-- The example host after a hello without capabilities and an unbind:
disconnected, not waiting for a disconnect-ack. -/
def example_unbound_nocap : State := example_run [.hello [], .set_device none]

/-- The example host, connected, with an iso stream of 4 URBs of 8 packets
already allocated on its iso endpoint 0x81. -/
def example_streaming : State :=
  (usbredirhost_alloc_iso_stream example_connected 0x81 8 4).1


/-- A full-speed device with one configuration (value 1) of one interface
(number 0), whose endpoints are an iso OUT endpoint 0x01 and a bulk IN
endpoint 0x82. -/
def example_device_out : libusb_device :=
  { speed := 2
    descriptor := { bDeviceClass := 0, bDeviceSubClass := 0, bDeviceProtocol := 0,
                    idVendor := 0x1234, idProduct := 0x5679, bcdDevice := 0x0100 }
    configs := [
      { bConfigurationValue := 1
        interface := [
          { altsetting := [
              { bInterfaceNumber := 0, bInterfaceClass := 255, bInterfaceSubClass := 0,
                bInterfaceProtocol := 0
                endpoint := [
                  { bEndpointAddress := 0x01, bmAttributes := 1, wMaxPacketSize := 64,
                    bInterval := 1 },
                  { bEndpointAddress := 0x82, bmAttributes := 2, wMaxPacketSize := 512,
                    bInterval := 0 }] }] }] }] }

/-- The host opened on `example_device_out` (every libusb call succeeding),
after the given events. -/
def example_run_out (es : List Event) : State :=
  ((usbredirhost_open_full [] [] [] 1 (some ⟨example_device_out⟩)).bind fun s =>
    run s es).getD example_zero

/-- The host on `example_device_out` once the peer said hello: connected. -/
def example_connected_out : State := example_run_out [.hello []]

/-- The example host, connected, after start_iso_stream on its iso IN endpoint
0x81 with 4 URBs of 8 packets: the four URBs are in flight. -/
def example_started : State :=
  usbredirhost_start_iso_stream example_connected 7
    { endpoint := 0x81, pkts_per_urb := 8, no_urbs := 4 }

/-! ## Sequences of iso packets -/

/-- The peer sends the iso packets of a list (id, header, payload), one after
the other; each is handled by `usbredirhost_iso_packet`. -/
def receive_iso_packets (s : State)
    (ps : List (Nat × usb_redir_iso_packet_header × List Nat)) : State :=
  ps.foldl (fun s p => usbredirhost_iso_packet s p.1 p.2.1 p.2.2) s

/-- The host on `example_device_out`, connected, after start_iso_stream on its
iso OUT endpoint 0x01 with 4 URBs of 4 packets: the ring is allocated, nothing
is submitted. -/
def example_streaming_out : State :=
  usbredirhost_start_iso_stream example_connected_out 7
    { endpoint := 0x01, pkts_per_urb := 4, no_urbs := 4 }

/-- An iso packet for endpoint 0x01 with id `id` and 64 bytes of payload. -/
def example_iso_packet (id : Nat) : Nat × usb_redir_iso_packet_header × List Nat :=
  (id, { endpoint := 0x01, status := 0, length := 64 }, List.replicate 64 0)

/-- The example output stream after 16 packets: the four URBs of the ring are
in flight and `iso_out_idx` is back at URB 0. -/
def example_flooded : State :=
  receive_iso_packets example_streaming_out ((List.range 16).map example_iso_packet)

/-! ## The allocator and the registry -/

/-- The part of the state the allocator and the registry depend on: the last
address handed out, the registry of transfers and which addresses hold a
record. -/
structure MKey where
  next_ptr : Nat
  registry : List Nat
  live : Nat → Bool

/-- The allocator key of a state. -/
def State.mkey (s : State) : MKey :=
  { next_ptr := s.next_ptr
    registry := s.host.transfers_head
    live := fun p => (s.heap p).isSome }

/-- The effect of the code on the allocator key: addresses are handed out in
increasing order, an address that is registered or holds a record afterwards
was so before or has been handed out in between. -/
def Grow (k k' : MKey) : Prop :=
  k.next_ptr ≤ k'.next_ptr ∧
  (∀ p ∈ k'.registry, p ∈ k.registry ∨ (k.next_ptr < p ∧ p ≤ k'.next_ptr)) ∧
  (∀ p, k'.live p = true → k.live p = true ∨ (k.next_ptr < p ∧ p ≤ k'.next_ptr))

/-- The allocator invariant: every address that is registered or holds a
record has been handed out. -/
def MKey.Inv (k : MKey) : Prop :=
  (∀ p ∈ k.registry, p ≤ k.next_ptr) ∧ (∀ p, k.live p = true → p ≤ k.next_ptr)

/-! ## Requests whose submission fails -/

/-- What a forwarded request leaves behind when its submission fails, `s`
being the state before the request and `s'` the state after it.  The code
returned by `libusb_submit_transfer` is the head of the `ret` tape of `s`; the
record of the request is at the address `s.next_ptr + 1`; `reply status` is
the packet of the kind of the request, with its id and header, carrying
`status`.  The log grows by the device-disconnect the translation of the code
may cause and by one reply; the record was submitted once, is in the registry
no more, is freed, and stays so whatever happens next, so that no completion
can be delivered for it. -/
def submit_failure_reported (s s' : State) (reply : Nat → Packet) : Prop :=
  s'.parser.sent =
    s.parser.sent ++
      (if s.usb.ret.headD 0 = LIBUSB_ERROR_NO_DEVICE then [Packet.device_disconnect] else []) ++
      [reply (libusb_status_or_error_to_redir_status s (s.usb.ret.headD 0)).2] ∧
  s'.usb.calls = s.usb.calls ++ [LibusbCall.submit_transfer (s.next_ptr + 1)] ∧
  s'.host.transfers_head = s.host.transfers_head ∧
  s'.heap (s.next_ptr + 1) = none ∧
  ∀ (es : List Event) (s'' : State), run s' es = some s'' →
    s''.heap (s.next_ptr + 1) = none ∧
    s.next_ptr + 1 ∉ s''.host.transfers_head ∧
    ∀ c : Completion, c.ptr = s.next_ptr + 1 → libusb_complete s'' c = s''

/-- The example host, connected, on a device that has gone: the next libusb
call fails with the no-device error. -/
def example_failing : State :=
  ((usbredirhost_open_full [0, 0, 0, 0, 0, LIBUSB_ERROR_NO_DEVICE] [] [] 1
    (some example_handle)).bind fun s =>
      run s [.hello [usb_redir_cap_device_disconnect_ack]]).getD example_zero

/-! ## A device with two alt settings -/

/-- A full-speed device with one configuration (value 1) of one interface
(number 0) with two alt settings: alt 0 has an iso IN endpoint 0x81 and a bulk
OUT endpoint 0x02, alt 1 has the iso IN endpoint 0x81 only, with a larger
packet size. -/
def example_device_alt : libusb_device :=
  { speed := 2
    descriptor := { bDeviceClass := 0, bDeviceSubClass := 0, bDeviceProtocol := 0,
                    idVendor := 0x1234, idProduct := 0x567a, bcdDevice := 0x0100 }
    configs := [
      { bConfigurationValue := 1
        interface := [
          { altsetting := [
              { bInterfaceNumber := 0, bInterfaceClass := 255, bInterfaceSubClass := 0,
                bInterfaceProtocol := 0
                endpoint := [
                  { bEndpointAddress := 0x81, bmAttributes := 1, wMaxPacketSize := 64,
                    bInterval := 1 },
                  { bEndpointAddress := 0x02, bmAttributes := 2, wMaxPacketSize := 512,
                    bInterval := 0 }] },
              { bInterfaceNumber := 0, bInterfaceClass := 255, bInterfaceSubClass := 0,
                bInterfaceProtocol := 0
                endpoint := [
                  { bEndpointAddress := 0x81, bmAttributes := 1, wMaxPacketSize := 128,
                    bInterval := 1 }] }] }] }] }

/-- The host on `example_device_alt` once the peer said hello: connected, the
interface in alt setting 0. -/
def example_connected_alt : State :=
  ((usbredirhost_open_full [] [] [] 1 (some ⟨example_device_alt⟩)).bind fun s =>
    run s [.hello []]).getD example_zero

/-- The host on `example_device_alt` after the peer set interface 0 to alt
setting 1. -/
def example_alt_set : State :=
  usbredirhost_set_alt_setting example_connected_alt 5 { interface := 0, alt := 1 }

/-! ## The endpoint table -/

/-- The endpoint table `host->endpoint`. -/
def State.eps (s : State) : Nat → usbredirhost_ep := s.host.endpoint

/-- The endpoint table holds no transfer: no iso ring slot and no interrupt-in
slot is filled, and no iso endpoint keeps a ring geometry from which a stall
recovery could allocate a ring again. -/
def Quiet (ept : Nat → usbredirhost_ep) : Prop :=
  (∀ i, i < MAX_ENDPOINTS → ∀ j, j < MAX_ISO_TRANSFER_COUNT → (ept i).iso_transfer j = 0) ∧
  (∀ i, i < MAX_ENDPOINTS → (ept i).interrupt_in_transfer = 0) ∧
  (∀ i, i < MAX_ENDPOINTS → (ept i).type = usb_redir_type_iso →
    (ept i).iso_pkts_per_transfer = 0)

/-- What `usbredirhost_cancel_pending_urbs` does to slot `i` of the endpoint
table. -/
def cancel_pending_slot (i : Nat) (e : usbredirhost_ep) : usbredirhost_ep :=
  if e.type = usb_redir_type_iso then
    { e with
      iso_transfer := fun j => if j < e.iso_transfer_count then 0 else e.iso_transfer j
      iso_out_idx := 0
      iso_started := false
      iso_drop_packets := 0
      iso_pkts_per_transfer := 0
      iso_transfer_count := 0 }
  else if e.type = usb_redir_type_interrupt then
    if i &&& 0x10 ≠ 0 then { e with interrupt_in_transfer := 0 } else e
  else e

/-! ## A device whose interfaces share an endpoint address -/

/-- A device whose two interfaces both declare the endpoint address 0x81:
interface 0 has no endpoint in alt setting 0 and the bulk IN endpoint 0x81 in
alt setting 1; interface 1 has the iso IN endpoint 0x81. -/
def example_device_shared : libusb_device :=
  { speed := 2
    descriptor := { bDeviceClass := 0, bDeviceSubClass := 0, bDeviceProtocol := 0,
                    idVendor := 0x1234, idProduct := 0x567b, bcdDevice := 0x0100 }
    configs := [
      { bConfigurationValue := 1
        interface := [
          { altsetting := [
              { bInterfaceNumber := 0, bInterfaceClass := 255, bInterfaceSubClass := 0,
                bInterfaceProtocol := 0, endpoint := [] },
              { bInterfaceNumber := 0, bInterfaceClass := 255, bInterfaceSubClass := 0,
                bInterfaceProtocol := 0
                endpoint := [
                  { bEndpointAddress := 0x81, bmAttributes := 2, wMaxPacketSize := 512,
                    bInterval := 0 }] }] },
          { altsetting := [
              { bInterfaceNumber := 1, bInterfaceClass := 255, bInterfaceSubClass := 0,
                bInterfaceProtocol := 0
                endpoint := [
                  { bEndpointAddress := 0x81, bmAttributes := 1, wMaxPacketSize := 64,
                    bInterval := 1 }] }] }] }] }

/-- The host on `example_device_shared` after hello, start_iso_stream on 0x81
(2 URBs of 4 packets) and set_alt_setting of interface 0 to alt setting 1: the
slot of 0x81 has type bulk and still holds the ring. -/
def example_shared : State :=
  ((usbredirhost_open_full [] [] [] 1 (some ⟨example_device_shared⟩)).bind fun s =>
    run s [.hello [],
      .start_iso_stream 1 { endpoint := 0x81, pkts_per_urb := 4, no_urbs := 2 },
      .set_alt_setting 2 { interface := 0, alt := 1 }]).getD example_zero

/-! ## What the drain loop of `usbredirhost_clear_device` waits for -/

/-- The registry and the count of pending cancels. -/
def State.qkey (s : State) : List Nat × Int :=
  (s.host.transfers_head, s.host.cancels_pending)

/-- The example host, connected, after start_iso_stream on its iso IN endpoint
0x81 with 2 URBs of 8 packets, on a libusb that will deliver the two URBs as
cancelled at the next event handling. -/
def example_draining : State :=
  ((usbredirhost_open_full [] [] [(List.range 2).map fun k =>
      { ptr := k + 1, status := LIBUSB_TRANSFER_CANCELLED, actual_length := 0, buffer := [],
        iso := [] }] 1
    (some example_handle)).bind fun s =>
      run s [.hello [usb_redir_cap_device_disconnect_ack],
        .start_iso_stream 7 { endpoint := 0x81, pkts_per_urb := 8, no_urbs := 2 }]).getD
    example_zero

/-! ## Parsing the configuration -/

/-- What `usbredirhost_parse_interface` writes into the slot of an endpoint
descriptor of the interface numbered `n`. -/
def parse_endpoint (n : Nat) (epd : libusb_endpoint_descriptor) (e : usbredirhost_ep) :
    usbredirhost_ep :=
  { e with
    max_packetsize := usbredirhost_get_max_packetsize epd.wMaxPacketSize
    type := epd.bmAttributes &&& LIBUSB_TRANSFER_TYPE_MASK
    interval := epd.bInterval
    interface := n }

/-- What the first loop of `usbredirhost_parse_config` writes into slot `i`. -/
def reset_endpoint (i : Nat) (e : usbredirhost_ep) : usbredirhost_ep :=
  { e with
    type := if i &&& 0x0f = 0 then usb_redir_type_control else usb_redir_type_invalid
    interval := 0
    interface := 0 }

/-- The endpoint descriptors of the configuration at the current alt settings,
each with the number of its interface, in the order
`usbredirhost_parse_config` visits them. -/
def described_endpoints (s : State) : List (Nat × libusb_endpoint_descriptor) :=
  (List.range s.bNumInterfaces).flatMap fun i =>
    (s.intf_desc i).endpoint.map fun epd => ((s.intf_desc i).bInterfaceNumber, epd)

/-- A host on a configuration with one interface whose two endpoint
descriptors have the addresses 0x01 (bulk) and 0x11 (interrupt): the addresses
differ, but only in the reserved bit 4. -/
def example_collide : State :=
  { example_zero with
    host := { example_zero.host with
      config := some
        { bConfigurationValue := 1
          interface := [
            { altsetting := [
                { bInterfaceNumber := 0, bInterfaceClass := 255, bInterfaceSubClass := 0,
                  bInterfaceProtocol := 0
                  endpoint := [
                    { bEndpointAddress := 0x01, bmAttributes := 2, wMaxPacketSize := 512,
                      bInterval := 0 },
                    { bEndpointAddress := 0x11, bmAttributes := 3, wMaxPacketSize := 8,
                      bInterval := 10 }] }] }] } } }

/-! ## Claiming the interfaces -/

/-- A device whose configuration 1 has 33 interfaces, one more than
`MAX_INTERFACES`. -/
def example_device_many : libusb_device :=
  { speed := 2
    descriptor := { bDeviceClass := 0, bDeviceSubClass := 0, bDeviceProtocol := 0,
                    idVendor := 0x1234, idProduct := 0x567c, bcdDevice := 0x0100 }
    configs := [
      { bConfigurationValue := 1
        interface := (List.range 33).map fun n =>
          { altsetting := [
              { bInterfaceNumber := n, bInterfaceClass := 255, bInterfaceSubClass := 0,
                bInterfaceProtocol := 0, endpoint := [] }] } }] }

/-- A host right after `calloc` to which `example_device_many` has been bound,
in configuration 1, before the interfaces are claimed. -/
def example_many : State :=
  { example_zero with
    host := { example_zero.host with
      dev := some example_device_many, handle := some ⟨example_device_many⟩,
      active_config := 1 } }

/-! ## Completions of cancelled URBs -/

/-- The example host, connected, after start and stop of interrupt receiving
on its interrupt IN endpoint 0x83: the URB has been cancelled and its
completion is still to come. -/
def example_int_cancelled : State :=
  example_run [.hello [usb_redir_cap_device_disconnect_ack],
    .start_interrupt_receiving 5 { endpoint := 0x83 },
    .stop_interrupt_receiving 6 { endpoint := 0x83 }]

/-- The example host, connected, after start and stop of an iso stream of one
URB of one packet on its iso IN endpoint 0x81: the URB has been cancelled and
its completion is still to come. -/
def example_iso_cancelled : State :=
  example_run [.hello [usb_redir_cap_device_disconnect_ack],
    .start_iso_stream 5 { endpoint := 0x81, pkts_per_urb := 1, no_urbs := 1 },
    .stop_iso_stream 6 { endpoint := 0x81 }]

/-- The completion libusb delivers for the URB of record 1 when the device
has gone. -/
def example_gone : Completion :=
  { ptr := 1, status := LIBUSB_TRANSFER_NO_DEVICE, actual_length := 0, buffer := [],
    iso := [] }

/-! ## The packet slot written by an iso packet -/

/-- The ring index `i` and the packet slot `j` at which
`usbredirhost_iso_packet` copies the payload (the `memcpy` to
`libusb_get_iso_packet_buffer(transfer->transfer, j)` and the store into
`iso_packet_desc[j].length`), when the packet gets that far. -/
def usbredirhost_iso_packet_write (s : State) (ep : Nat) (data : List Nat) :
    Option (Int × Int) :=
  let data_len := data.length
  let e := s.host.endpoint (EP2I ep)
  if s.host.disconnected then none
  else if e.type ≠ usb_redir_type_iso then none
  else if e.iso_transfer_count = 0 then none
  else if data_len > e.max_packetsize then none
  else if e.iso_drop_packets ≠ 0 then none
  else
    let i := e.iso_out_idx
    let transfer := e.iso_transfer i.toNat
    let j := (s.deref transfer).iso_packet_idx
    if j = ISO_SUBMITTED_IDX then none else some (i, j)

/-- The host on `example_device_out`, connected, after start_iso_stream on its
iso OUT endpoint 0x01 with one URB of one packet and one iso packet. -/
def example_single : State :=
  example_run_out [.hello [],
    .start_iso_stream 7 { endpoint := 0x01, pkts_per_urb := 1, no_urbs := 1 },
    .iso_packet 0 { endpoint := 0x01, status := 0, length := 2 } [1, 2]]

/-! ## Endpoints without a stream -/

/-- The stream fields of an endpoint slot: `iso_transfer_count`,
`iso_pkts_per_transfer`, `iso_out_idx`, `iso_started` and
`iso_drop_packets`. -/
def usbredirhost_ep.stream (e : usbredirhost_ep) : Nat × Nat × Int × Bool × Int :=
  (e.iso_transfer_count, e.iso_pkts_per_transfer, e.iso_out_idx, e.iso_started,
    e.iso_drop_packets)

/-- Every endpoint slot without a ring (`iso_transfer_count` is 0) has its
other stream fields zero, as `calloc` and
`usbredirhost_cancel_iso_stream_unlocked` leave them. -/
def Idle (ept : Nat → usbredirhost_ep) : Prop :=
  ∀ i, (ept i).iso_transfer_count = 0 → (ept i).stream = (0, 0, 0, false, 0)

/-- The host on `example_device_out`, connected, after start_iso_stream on its
iso OUT endpoint 0x01 with 2 URBs of 2 packets and two iso packets: the first
URB (record 1) is full and submitted, the second (record 2) is empty. -/
def example_half_out : State :=
  example_run_out [.hello [],
    .start_iso_stream 7 { endpoint := 0x01, pkts_per_urb := 2, no_urbs := 2 },
    .iso_packet 0 { endpoint := 0x01, status := 0, length := 2 } [1, 2],
    .iso_packet 1 { endpoint := 0x01, status := 0, length := 2 } [3, 4]]

/-- The example input stream (4 URBs of 8 packets on endpoint 0x81, all in
flight) at the moment libusb calls the completion callback of URB 1 with the
status stall. -/
def example_stalled : State :=
  State.modify
    { example_started with
      usb := { example_started.usb with inflight := example_started.usb.inflight.erase 1 } }
    1 fun u => { u with transfer := { u.transfer with status := LIBUSB_TRANSFER_STALL } }

/-! ## Completions of the interrupt input URB -/

/-- The state in which `libusb_complete` calls the callback of the transfer a
completion names: the transfer is no longer in flight and holds the results. -/
def libusb_results (s : State) (c : Completion) : State :=
  State.modify { s with usb := { s.usb with inflight := s.usb.inflight.erase c.ptr } } c.ptr
    fun t =>
      { t with
        transfer := { t.transfer with
          status := c.status
          actual_length := c.actual_length
          buffer := c.buffer.take t.transfer.buffer.length
            ++ t.transfer.buffer.drop c.buffer.length
          iso_packet_desc := libusb_iso_results t.transfer.iso_packet_desc c.iso } }

/-- The example host, connected, after start_interrupt_receiving on its
interrupt IN endpoint 0x83: the URB (record 1) is in flight. -/
def example_receiving : State :=
  example_run [.hello [usb_redir_cap_device_disconnect_ack],
    .start_interrupt_receiving 5 { endpoint := 0x83 }]

/-- The example host receiving on 0x83 at the moment libusb calls the
completion callback of the URB with the status stall. -/
def example_int_stalled : State :=
  libusb_results example_receiving
    { ptr := 1, status := LIBUSB_TRANSFER_STALL, actual_length := 0, buffer := [], iso := [] }

/-- The example host receiving on 0x83 at the moment libusb calls the
completion callback of the URB with the status completed and three bytes
received. -/
def example_int_data : State :=
  libusb_results example_receiving
    { ptr := 1, status := LIBUSB_TRANSFER_COMPLETED, actual_length := 3, buffer := [7, 8, 9],
      iso := [] }
/-! ## Theorems -/

/-- Round trip of the endpoint macros on addresses whose bits 4-6 are clear. -/
theorem I2EP_EP2I_fin :
    ∀ a : Fin 256, a.val &&& 0x70 = 0 → I2EP (EP2I a.val) = a.val := by
  set_option maxRecDepth 100000 in decide

/-- Round trip of the endpoint macros on indices. -/
theorem EP2I_I2EP_fin :
    ∀ i : Fin 32, EP2I (I2EP i.val) = i.val ∧ I2EP i.val < 256 ∧ I2EP i.val &&& 0x70 = 0 := by
  set_option maxRecDepth 100000 in decide

/-- The index computed by `EP2I` is below 32, whatever the argument. -/
theorem EP2I_lt (a : Nat) : EP2I a < 32 := by
  unfold EP2I
  have h1 : (a &&& 0x80) >>> 3 < 2 ^ 5 := by
    rw [Nat.shiftRight_eq_div_pow]
    have : a &&& 0x80 ≤ 0x80 := Nat.and_le_right
    omega
  have h2 : a &&& 0x0f < 2 ^ 5 := by
    have : a &&& 0x0f ≤ 0x0f := Nat.and_le_right
    omega
  exact Nat.or_lt_two_pow h1 h2

/-- C1: for every 8-bit endpoint address whose bits 4-6 are zero,
`I2EP (EP2I addr) = addr`. -/
theorem C1_endpoint_index_roundtrip (addr : Nat) (h8 : addr < 256)
    (hbits : addr &&& 0x70 = 0) : I2EP (EP2I addr) = addr :=
  I2EP_EP2I_fin ⟨addr, h8⟩ hbits

/-- Witness of C1 at the address 0x81. -/
theorem C1_endpoint_index_roundtrip_witness :
    (0x81 < 256 ∧ 0x81 &&& 0x70 = 0) ∧ I2EP (EP2I 0x81) = 0x81 :=
  ⟨by decide, C1_endpoint_index_roundtrip 0x81 (by decide) (by decide)⟩

/-- C2: `EP2I` maps every 8-bit address into 0..31; restricted to the addresses
with bits 4-6 zero it is a bijection onto 0..31 whose inverse is `I2EP`; the
indices 0 and 16 are the addresses 0x00 and 0x80 of the default control pipe. -/
theorem C2_endpoint_index_bijection :
    (∀ addr : Nat, addr < 256 → EP2I addr < MAX_ENDPOINTS) ∧
    (∀ i : Nat, i < 32 →
      EP2I (I2EP i) = i ∧ I2EP i < 256 ∧ I2EP i &&& 0x70 = 0) ∧
    (∀ addr : Nat, addr < 256 → addr &&& 0x70 = 0 → I2EP (EP2I addr) = addr) ∧
    (∀ a b : Nat, a < 256 → b < 256 → a &&& 0x70 = 0 → b &&& 0x70 = 0 →
      EP2I a = EP2I b → a = b) ∧
    I2EP 0 = 0x00 ∧ I2EP 16 = 0x80 ∧ EP2I 0x00 = 0 ∧ EP2I 0x80 = 16 := by
  refine ⟨fun addr _ => EP2I_lt addr, fun i hi => EP2I_I2EP_fin ⟨i, hi⟩,
    fun addr h8 hb => I2EP_EP2I_fin ⟨addr, h8⟩ hb, ?_, by decide, by decide, by decide,
    by decide⟩
  intro a b ha hb hza hzb hab
  have h1 := I2EP_EP2I_fin ⟨a, ha⟩ hza
  have h2 := I2EP_EP2I_fin ⟨b, hb⟩ hzb
  simp only at h1 h2
  rw [← h1, ← h2, hab]

/-- The packet size computed from a 16-bit `wMaxPacketSize`, case by case. -/
theorem get_max_packetsize_fin : ∀ w : Fin 65536,
    (((w.val >>> 11) &&& 3 = 0 ∨ (w.val >>> 11) &&& 3 = 3) →
        usbredirhost_get_max_packetsize w.val = (w.val &&& 0x7ff) * 1) ∧
    ((w.val >>> 11) &&& 3 = 1 →
        usbredirhost_get_max_packetsize w.val = (w.val &&& 0x7ff) * 2) ∧
    ((w.val >>> 11) &&& 3 = 2 →
        usbredirhost_get_max_packetsize w.val = (w.val &&& 0x7ff) * 3) ∧
    usbredirhost_get_max_packetsize w.val ≤ 6141 := by
  intro w
  have hm : (w.val >>> 11) &&& 3 < 4 := by
    have : (w.val >>> 11) &&& 3 ≤ 3 := Nat.and_le_right
    omega
  have hs : w.val &&& 0x7ff ≤ 0x7ff := Nat.and_le_right
  unfold usbredirhost_get_max_packetsize
  generalize (w.val >>> 11) &&& 3 = m at hm
  generalize w.val &&& 0x7ff = sz at hs
  interval_cases m <;> simp <;> omega

/-- C3: for every 16-bit `wMaxPacketSize` w the result is `(w & 0x7ff) * m`
where m is 1, 2, 3 when bits 11-12 of w are 0, 1, 2 (and 1 when they are 3);
the result lies in 0..6141. -/
theorem C3_get_max_packetsize (w : Nat) (h16 : w < 65536) :
    (((w >>> 11) &&& 3 = 0 ∨ (w >>> 11) &&& 3 = 3) →
        usbredirhost_get_max_packetsize w = (w &&& 0x7ff) * 1) ∧
    ((w >>> 11) &&& 3 = 1 →
        usbredirhost_get_max_packetsize w = (w &&& 0x7ff) * 2) ∧
    ((w >>> 11) &&& 3 = 2 →
        usbredirhost_get_max_packetsize w = (w &&& 0x7ff) * 3) ∧
    usbredirhost_get_max_packetsize w ≤ 6141 :=
  get_max_packetsize_fin ⟨w, h16⟩

/-- Witness of C3 at w = 0x17ff (size field 0x7ff, multiplier bits 2): 6141 is reached. -/
theorem C3_get_max_packetsize_witness :
    0x17ff < 65536 ∧ usbredirhost_get_max_packetsize 0x17ff = 6141 :=
  ⟨by decide, by
    have h := (C3_get_max_packetsize 0x17ff (by decide)).2.2.1 (by decide)
    simpa using h⟩

/-- C4: the status returned by `libusb_status_or_error_to_redir_status` for
every integer code: success for transfer-completed, stall for transfer-stall,
cancelled for transfer-cancelled, timeout for transfer-timed-out and the
library timeout error, inval for the library invalid-parameter error, and
ioerror for every other code (among them transfer-no-device,
library-no-device, transfer-overflow and transfer-error); never babble. -/
theorem C4_status_translation (s : State) (status : Int) :
    (status = LIBUSB_TRANSFER_COMPLETED →
      (libusb_status_or_error_to_redir_status s status).2 = usb_redir_success) ∧
    (status = LIBUSB_TRANSFER_STALL →
      (libusb_status_or_error_to_redir_status s status).2 = usb_redir_stall) ∧
    (status = LIBUSB_TRANSFER_CANCELLED →
      (libusb_status_or_error_to_redir_status s status).2 = usb_redir_cancelled) ∧
    (status = LIBUSB_TRANSFER_TIMED_OUT ∨ status = LIBUSB_ERROR_TIMEOUT →
      (libusb_status_or_error_to_redir_status s status).2 = usb_redir_timeout) ∧
    (status = LIBUSB_ERROR_INVALID_PARAM →
      (libusb_status_or_error_to_redir_status s status).2 = usb_redir_inval) ∧
    (status = LIBUSB_TRANSFER_NO_DEVICE ∨ status = LIBUSB_ERROR_NO_DEVICE ∨
        status = LIBUSB_TRANSFER_OVERFLOW ∨ status = LIBUSB_TRANSFER_ERROR →
      (libusb_status_or_error_to_redir_status s status).2 = usb_redir_ioerror) ∧
    (status ≠ LIBUSB_TRANSFER_COMPLETED → status ≠ LIBUSB_TRANSFER_STALL →
      status ≠ LIBUSB_TRANSFER_CANCELLED → status ≠ LIBUSB_TRANSFER_TIMED_OUT →
      status ≠ LIBUSB_ERROR_TIMEOUT → status ≠ LIBUSB_ERROR_INVALID_PARAM →
      (libusb_status_or_error_to_redir_status s status).2 = usb_redir_ioerror) ∧
    (libusb_status_or_error_to_redir_status s status).2 ≠ usb_redir_babble := by
  refine ⟨?_, ?_, ?_, ?_, ?_, ?_, ?_, ?_⟩
  · rintro rfl; rfl
  · rintro rfl; rfl
  · rintro rfl; rfl
  · rintro (rfl | rfl) <;> rfl
  · rintro rfl; rfl
  · rintro (rfl | rfl | rfl | rfl) <;> rfl
  · intro h1 h2 h3 h4 h5 h6
    unfold libusb_status_or_error_to_redir_status
    simp only [h1, h2, h3, h4, h5, h6, if_false]
    split_ifs <;> rfl
  · unfold libusb_status_or_error_to_redir_status
    split_ifs <;> simp [usb_redir_babble, usb_redir_success, usb_redir_ioerror,
      usb_redir_timeout, usb_redir_cancelled, usb_redir_stall, usb_redir_inval]

/-- What `usbredirhost_handle_disconnect` does on a connected host. -/
theorem handle_disconnect_connected (s : State) (h : s.host.disconnected = false) :
    usbredirhost_handle_disconnect s =
      { s with
        parser := { s.parser with sent := s.parser.sent ++ [Packet.device_disconnect] }
        host := { s.host with
          disconnected := true
          wait_disconnect :=
            usbredirparser_peer_has_cap s.parser usb_redir_cap_device_disconnect_ack
              || s.host.wait_disconnect } } := by
  unfold usbredirhost_handle_disconnect
  simp only [h, State.send, usbredirparser_peer_has_cap]
  cases hc : (s.parser.have_peer_caps &&
    decide (usb_redir_cap_device_disconnect_ack ∈ s.parser.peer_caps)) <;> simp [hc]

/-- What `usbredirhost_handle_disconnect` does on a disconnected host: nothing. -/
theorem handle_disconnect_disconnected (s : State) (h : s.host.disconnected = true) :
    usbredirhost_handle_disconnect s = s := by
  unfold usbredirhost_handle_disconnect
  simp [h]

/-- The state after the status translation is that after the disconnect
handling for the two no-device codes, and the state before for every other
code. -/
theorem translate_state (s : State) (status : Int) :
    (libusb_status_or_error_to_redir_status s status).1 =
      if status = LIBUSB_TRANSFER_NO_DEVICE ∨ status = LIBUSB_ERROR_NO_DEVICE then
        usbredirhost_handle_disconnect s
      else s := by
  unfold libusb_status_or_error_to_redir_status
  by_cases h1 : status = LIBUSB_TRANSFER_NO_DEVICE
  · subst h1; rfl
  · by_cases h2 : status = LIBUSB_ERROR_NO_DEVICE
    · subst h2; rfl
    · simp only [h1, h2, if_false, or_self]
      split_ifs <;> rfl

/-! ### The protocol key under the primitives -/

theorem key_mk (h : usbredirhost) (hp : Nat → Option usbredirtransfer) (n : Nat)
    (p : usbredirparser) (u : Libusb) :
    State.key ⟨h, hp, n, p, u⟩ =
      ⟨h.disconnected, h.wait_disconnect, h.connect_pending, cd_trace p.sent⟩ := rfl

theorem key_fold (s : State) :
    Key.mk s.host.disconnected s.host.wait_disconnect s.host.connect_pending
      (cd_trace s.parser.sent) = s.key := rfl

theorem key_call (s : State) (c : LibusbCall) : (s.call c).1.key = s.key := rfl
theorem key_callVoid (s : State) (c : LibusbCall) : (s.callVoid c).key = s.key := rfl
theorem key_alloc (s : State) : s.alloc.1.key = s.key := rfl
theorem key_modify (s : State) (p : Nat) (f : usbredirtransfer → usbredirtransfer) :
    (s.modify p f).key = s.key := rfl
theorem key_modifyEp (s : State) (i : Nat) (f : usbredirhost_ep → usbredirhost_ep) :
    (s.modifyEp i f).key = s.key := rfl

theorem cd_trace_append (l₁ l₂ : List Packet) :
    cd_trace (l₁ ++ l₂) = cd_trace l₁ ++ cd_trace l₂ := by
  simp [cd_trace, List.filterMap_append]

theorem key_send (s : State) (p : Packet) (h : p.cd = none) : (s.send p).key = s.key := by
  simp [State.key, State.send, cd_trace, List.filterMap_append, h]

theorem key_foldl {α : Type} (f : State → α → State)
    (hf : ∀ s x, (f s x).key = s.key) (l : List α) (s : State) :
    (l.foldl f s).key = s.key := by
  induction l generalizing s with
  | nil => rfl
  | cons x l ih => simp only [List.foldl_cons, ih, hf]

theorem key_foldl_pair {α β : Type} (f : State × β → α → State × β)
    (hf : ∀ a x, (f a x).1.key = a.1.key) (l : List α) (a : State × β) :
    (l.foldl f a).1.key = a.1.key := by
  induction l generalizing a with
  | nil => rfl
  | cons x l ih => simp only [List.foldl_cons, ih, hf]

theorem key_libusb_cancel_transfer (s : State) (p : Nat) :
    (libusb_cancel_transfer s p).key = s.key := rfl

theorem key_libusb_submit_transfer (s : State) (p : Nat) :
    (libusb_submit_transfer s p).1.key = s.key := by
  unfold libusb_submit_transfer
  simp only [apply_ite Prod.fst, apply_ite State.key, key_mk, key_fold, key_call, ite_self]

theorem key_libusb_set_configuration (s : State) (c : Nat) :
    (libusb_set_configuration s c).1.key = s.key := by
  unfold libusb_set_configuration
  simp only [apply_ite Prod.fst, apply_ite State.key, key_mk, key_fold, key_call, ite_self]

theorem key_libusb_get_config_descriptor_by_value (s : State) :
    (libusb_get_config_descriptor_by_value s).1.key = s.key := by
  unfold libusb_get_config_descriptor_by_value
  simp only []
  split
  · rfl
  · split <;> rfl

theorem key_read (s : State) : (usbredirhost_read s).1.key = s.key := by
  unfold usbredirhost_read
  simp only [apply_ite Prod.fst, apply_ite State.key, key_mk, key_fold, ite_self]

theorem key_parser_hello (s : State) (caps : List Nat) :
    (usbredirparser_hello s caps).key = s.key := rfl

theorem key_send_interface_n_ep_info (s : State) :
    (usbredirhost_send_interface_n_ep_info s).key = s.key := by
  unfold usbredirhost_send_interface_n_ep_info
  simp only [key_send, Packet.cd]

theorem key_parse_interface (s : State) (i : Nat) :
    (usbredirhost_parse_interface s i).key = s.key := by
  unfold usbredirhost_parse_interface
  exact key_foldl _ (fun s x => key_modifyEp _ _ _) _ _

theorem key_parse_config (s : State) : (usbredirhost_parse_config s).key = s.key := by
  unfold usbredirhost_parse_config
  simp only []
  rw [key_foldl _ (fun s x => key_parse_interface s x)]
  exact key_foldl _ (fun s x => key_modifyEp _ _ _) _ _

theorem key_release (s : State) (a : Bool) : (usbredirhost_release s a).1.key = s.key := by
  unfold usbredirhost_release
  simp only [apply_ite Prod.fst, apply_ite State.key, key_mk, key_fold, key_call,
    key_foldl_pair, ite_self, implies_true]

theorem key_free_transfer (s : State) (p : Nat) :
    (usbredirhost_free_transfer s p).key = s.key := by
  unfold usbredirhost_free_transfer
  simp only [apply_ite State.key, key_mk, key_fold, ite_self]

theorem key_alloc_transfer (s : State) (n : Nat) :
    (usbredirhost_alloc_transfer s n).1.key = s.key := by
  unfold usbredirhost_alloc_transfer
  simp only [apply_ite Prod.fst, apply_ite State.key, key_mk, key_fold, key_alloc, ite_self]

theorem key_add_transfer (s : State) (p : Nat) :
    (usbredirhost_add_transfer s p).key = s.key := rfl

theorem key_remove_and_free_transfer (s : State) (p : Nat) :
    (usbredirhost_remove_and_free_transfer s p).key = s.key := by
  unfold usbredirhost_remove_and_free_transfer
  simp only [key_free_transfer, key_mk, key_fold]

theorem key_cancel_iso_stream_unlocked (s : State) (ep : Nat) :
    (usbredirhost_cancel_iso_stream_unlocked s ep).key = s.key := by
  unfold usbredirhost_cancel_iso_stream_unlocked
  simp only [apply_ite State.key, key_mk, key_fold, key_modifyEp, key_modify,
    key_libusb_cancel_transfer, key_free_transfer, key_foldl, ite_self, implies_true]

theorem key_cancel_iso_stream (s : State) (ep : Nat) :
    (usbredirhost_cancel_iso_stream s ep).key = s.key :=
  key_cancel_iso_stream_unlocked s ep

theorem key_cancel_interrupt_in_transfer_unlocked (s : State) (ep : Nat) :
    (usbredirhost_cancel_interrupt_in_transfer_unlocked s ep).key = s.key := by
  unfold usbredirhost_cancel_interrupt_in_transfer_unlocked
  simp only [apply_ite State.key, key_mk, key_fold, key_modifyEp, key_modify,
    key_libusb_cancel_transfer, ite_self]

theorem key_cancel_pending_urbs (s : State) :
    (usbredirhost_cancel_pending_urbs s).1.key = s.key := by
  unfold usbredirhost_cancel_pending_urbs
  simp only [apply_ite State.key, key_libusb_cancel_transfer, key_cancel_iso_stream_unlocked,
    key_cancel_interrupt_in_transfer_unlocked, key_foldl, ite_self, implies_true]

theorem key_cancel_pending_urbs_on_interface (s : State) (i : Nat) :
    (usbredirhost_cancel_pending_urbs_on_interface s i).key = s.key := by
  unfold usbredirhost_cancel_pending_urbs_on_interface
  simp only [apply_ite State.key, key_libusb_cancel_transfer, key_cancel_iso_stream_unlocked,
    key_cancel_interrupt_in_transfer_unlocked, key_foldl, ite_self, implies_true]

theorem key_send_iso_status (s : State) (id ep st : Nat) :
    (usbredirhost_send_iso_status s id ep st).key = s.key :=
  key_send _ _ rfl

theorem key_send_interrupt_recv_status (s : State) (id ep st : Nat) :
    (usbredirhost_send_interrupt_recv_status s id ep st).key = s.key :=
  key_send _ _ rfl

theorem key_send_control_status (s : State) (id : Nat) (h : usb_redir_control_packet_header)
    (st : Nat) : (usbredirhost_send_control_status s id h st).key = s.key :=
  key_send _ _ rfl

theorem key_send_bulk_status (s : State) (id : Nat) (h : usb_redir_bulk_packet_header)
    (st : Nat) : (usbredirhost_send_bulk_status s id h st).key = s.key :=
  key_send _ _ rfl

theorem key_send_interrupt_status (s : State) (id : Nat)
    (h : usb_redir_interrupt_packet_header) (st : Nat) :
    (usbredirhost_send_interrupt_status s id h st).key = s.key :=
  key_send _ _ rfl

theorem key_alloc_iso_stream_step (ep pkts : Nat) (s : State) (i : Nat) :
    (usbredirhost_alloc_iso_stream_step ep pkts s i).1.key = s.key := by
  unfold usbredirhost_alloc_iso_stream_step
  simp only [apply_ite Prod.fst, apply_ite State.key, key_modify, key_alloc,
    key_modifyEp, key_alloc_transfer, ite_self]

theorem key_alloc_iso_stream_loop (ep pkts : Nat) (l : List Nat) (s : State) :
    (usbredirhost_alloc_iso_stream_loop ep pkts s l).1.key = s.key := by
  induction l generalizing s with
  | nil => rfl
  | cons i l ih =>
    unfold usbredirhost_alloc_iso_stream_loop
    simp only [apply_ite Prod.fst, apply_ite State.key, ih, key_alloc_iso_stream_step,
      ite_self]

theorem key_alloc_iso_stream (s : State) (ep pkts count : Nat) :
    (usbredirhost_alloc_iso_stream s ep pkts count).1.key = s.key := by
  unfold usbredirhost_alloc_iso_stream
  simp only []
  split_ifs
  · rfl
  · rfl
  · rfl
  · split
    · simp only [key_modifyEp, key_alloc_iso_stream_loop]
    · simp only [key_foldl, key_modifyEp, key_free_transfer, key_alloc_iso_stream_loop,
        implies_true]

theorem key_iso_packet_complete_underflow (s : State) (ep : Nat) :
    (usbredirhost_iso_packet_complete_underflow s ep).key = s.key := by
  unfold usbredirhost_iso_packet_complete_underflow
  simp only [apply_ite State.key, key_modifyEp, key_modify, key_foldl, ite_self, implies_true]

theorem key_submit_interrupt_in_transfer (s : State) (ep : Nat) :
    (usbredirhost_submit_interrupt_in_transfer s ep).1.key = s.key := by
  unfold usbredirhost_submit_interrupt_in_transfer
  simp only [apply_ite Prod.fst, apply_ite State.key, key_modifyEp, key_free_transfer,
    key_libusb_submit_transfer, ite_self]

theorem key_interrupt_packet_complete_resubmit (s : State) (t ep : Nat) :
    (usbredirhost_interrupt_packet_complete_resubmit s t ep).key = s.key := by
  unfold usbredirhost_interrupt_packet_complete_resubmit
  simp only [apply_ite State.key, key_send_interrupt_recv_status,
    key_submit_interrupt_in_transfer, ite_self]

theorem key_alloc_interrupt_in_transfer (s : State) (ep : Nat) :
    (usbredirhost_alloc_interrupt_in_transfer s ep).1.key = s.key := by
  unfold usbredirhost_alloc_interrupt_in_transfer
  simp only [apply_ite Prod.fst, apply_ite State.key, key_modifyEp, key_modify,
    key_free_transfer, key_alloc, key_alloc_transfer, ite_self]

theorem key_get_configuration (s : State) (id : Nat) :
    (usbredirhost_get_configuration s id).key = s.key :=
  key_send _ _ rfl

theorem key_get_alt_setting (s : State) (id : Nat) (h : usb_redir_get_alt_setting_header) :
    (usbredirhost_get_alt_setting s id h).key = s.key := by
  unfold usbredirhost_get_alt_setting
  simp only [apply_ite State.key, key_send, Packet.cd, ite_self]

theorem key_stop_iso_stream (s : State) (id : Nat) (h : usb_redir_stop_iso_stream_header) :
    (usbredirhost_stop_iso_stream s id h).key = s.key := by
  unfold usbredirhost_stop_iso_stream
  simp only [apply_ite State.key, key_send_iso_status, key_cancel_iso_stream, ite_self]

theorem key_start_interrupt_receiving (s : State) (id : Nat)
    (h : usb_redir_start_interrupt_receiving_header) :
    (usbredirhost_start_interrupt_receiving s id h).key = s.key := by
  unfold usbredirhost_start_interrupt_receiving
  simp only [apply_ite Prod.fst, apply_ite State.key, key_send_interrupt_recv_status,
    key_alloc_interrupt_in_transfer, key_submit_interrupt_in_transfer, ite_self]

theorem key_stop_interrupt_receiving (s : State) (id : Nat)
    (h : usb_redir_stop_interrupt_receiving_header) :
    (usbredirhost_stop_interrupt_receiving s id h).key = s.key := by
  unfold usbredirhost_stop_interrupt_receiving
  simp only [apply_ite State.key, key_send_interrupt_recv_status,
    key_cancel_interrupt_in_transfer_unlocked, ite_self]

theorem key_filter_reject (s : State) : (usbredirhost_filter_reject s).key = s.key := by
  unfold usbredirhost_filter_reject
  simp only [apply_ite State.key, key_mk, key_fold, ite_self]

theorem key_filter_filter (s : State) (r : List Nat) (n : Int) :
    (usbredirhost_filter_filter s r n).key = s.key := rfl

theorem key_cancel_data_packet (s : State) (id : Nat) :
    (usbredirhost_cancel_data_packet s id).key = s.key := by
  unfold usbredirhost_cancel_data_packet
  split <;> rfl

theorem key_send_iso_packet (s : State) (id : Nat) (h : usb_redir_iso_packet_header)
    (d : List Nat) : (s.send (.iso_packet id h d)).key = s.key :=
  key_send _ _ rfl

theorem key_send_control_packet (s : State) (id : Nat) (h : usb_redir_control_packet_header)
    (d : List Nat) : (s.send (.control_packet id h d)).key = s.key :=
  key_send _ _ rfl

theorem key_send_bulk_packet (s : State) (id : Nat) (h : usb_redir_bulk_packet_header)
    (d : List Nat) : (s.send (.bulk_packet id h d)).key = s.key :=
  key_send _ _ rfl

theorem key_send_interrupt_packet (s : State) (id : Nat)
    (h : usb_redir_interrupt_packet_header) (d : List Nat) :
    (s.send (.interrupt_packet id h d)).key = s.key :=
  key_send _ _ rfl

theorem key_send_configuration_status (s : State) (id : Nat)
    (h : usb_redir_configuration_status_header) :
    (s.send (.configuration_status id h)).key = s.key :=
  key_send _ _ rfl

theorem key_send_alt_setting_status (s : State) (id : Nat)
    (h : usb_redir_alt_setting_status_header) :
    (s.send (.alt_setting_status id h)).key = s.key :=
  key_send _ _ rfl

/-! ### Code that may run the disconnect handling but never connects -/

theorem Disc.refl (k : Key) : Disc k k :=
  ⟨Or.inl ⟨rfl, rfl⟩, id, Or.inl, id⟩

theorem Disc.trans {a b c : Key} (h₁ : Disc a b) (h₂ : Disc b c) : Disc a c := by
  obtain ⟨h1, h1c, h1w, h1k⟩ := h₁
  obtain ⟨h2, h2c, h2w, h2k⟩ := h₂
  refine ⟨?_, fun h => h1c (h2c h), ?_, fun h => h2k (h1k h)⟩
  · rcases h1 with ⟨e1, t1⟩ | ⟨d1, d1', t1⟩ <;> rcases h2 with ⟨e2, t2⟩ | ⟨d2, d2', t2⟩
    · exact Or.inl ⟨e2.trans e1, t2.trans t1⟩
    · exact Or.inr ⟨e1 ▸ d2, d2', t1 ▸ t2⟩
    · exact Or.inr ⟨d1, e2.trans d1', t2.trans t1⟩
    · rw [d1'] at d2; exact absurd d2 (by decide)
  · intro h
    rcases h2w h with hw | hd
    · rcases h1w hw with hw' | hd'
      · exact Or.inl hw'
      · right
        rcases h2 with ⟨e2, _⟩ | ⟨_, d2', _⟩
        · exact e2.trans hd'
        · exact d2'
    · exact Or.inr hd

theorem disc_handle_disconnect {k : Key} {s : State} (h : Disc k s.key) :
    Disc k (usbredirhost_handle_disconnect s).key := by
  refine h.trans ?_
  cases hd : s.host.disconnected
  · rw [handle_disconnect_connected s hd]
    refine ⟨Or.inr ⟨hd, rfl, ?_⟩, fun h => h, fun _ => Or.inr rfl, ?_⟩
    · simp [State.key, cd_trace, List.filterMap_append, Packet.cd]
    · intro hw
      have hw' : s.host.wait_disconnect = true := hw
      show (usbredirparser_peer_has_cap s.parser usb_redir_cap_device_disconnect_ack
        || s.host.wait_disconnect) = true
      rw [hw', Bool.or_true]
  · rw [handle_disconnect_disconnected s hd]
    exact Disc.refl _

theorem disc_translate {k : Key} {s : State} (r : Int) (h : Disc k s.key) :
    Disc k (libusb_status_or_error_to_redir_status s r).1.key := by
  rw [translate_state]
  split
  · exact disc_handle_disconnect h
  · exact h

theorem disc_foldl {α : Type} (f : State → α → State)
    (hf : ∀ (k : Key) (s : State) (x : α), Disc k s.key → Disc k (f s x).key)
    (l : List α) {k : Key} {s : State} (h : Disc k s.key) : Disc k (l.foldl f s).key := by
  induction l generalizing s with
  | nil => exact h
  | cons x l ih => exact ih (hf k s x h)

theorem disc_claim_interfaces {k : Key} (l : List Nat) {s : State} (h : Disc k s.key) :
    Disc k (usbredirhost_claim_interfaces s l).1.key := by
  induction l generalizing s with
  | nil => exact h
  | cons i l ih =>
    unfold usbredirhost_claim_interfaces
    simp only []
    split_ifs
    · exact disc_translate _ (by simpa only [key_call] using h)
    · exact disc_translate _ (by simpa only [key_call] using h)
    · exact ih (by simpa only [key_call] using h)

theorem disc_claim {k : Key} {s : State} (h : Disc k s.key) :
    Disc k (usbredirhost_claim s).1.key := by
  unfold usbredirhost_claim
  simp only []
  have h0 : Disc k (if s.host.config.isSome = true then
      ({ (s.callVoid .free_config_descriptor) with
        host := { s.host with config := none } } : State) else s).key := by
    split
    · exact h
    · exact h
  generalize (if s.host.config.isSome = true then
      ({ (s.callVoid .free_config_descriptor) with
        host := { s.host with config := none } } : State) else s) = s1 at h0 ⊢
  have h1 : Disc k (libusb_get_config_descriptor_by_value s1).1.key := by
    rw [key_libusb_get_config_descriptor_by_value]; exact h0
  split_ifs
  · exact disc_translate _ h1
  · exact h1
  · split
    · simp only [key_mk, key_fold, key_parse_config]
      exact disc_claim_interfaces _ h1
    · refine disc_foldl _ ?_ _ (disc_claim_interfaces _ h1)
      intro k s x hk
      simpa only [key_call] using hk

theorem disc_submit_iso_transfer_unlocked {k : Key} {s : State} (t : Nat)
    (h : Disc k s.key) : Disc k (usbredirhost_submit_iso_transfer_unlocked s t).1.key := by
  unfold usbredirhost_submit_iso_transfer_unlocked
  simp only []
  split_ifs
  · exact disc_translate _ (by
      simpa only [key_cancel_iso_stream_unlocked, key_libusb_submit_transfer] using h)
  · simpa only [key_modify, key_libusb_submit_transfer] using h

theorem disc_submit_iso_in_ring {k : Key} (ep : Nat) (l : List Nat) {s : State}
    (h : Disc k s.key) : Disc k (usbredirhost_submit_iso_in_ring ep s l).1.key := by
  induction l generalizing s with
  | nil => exact h
  | cons i l ih =>
    unfold usbredirhost_submit_iso_in_ring
    simp only []
    split_ifs
    · exact disc_submit_iso_transfer_unlocked _ (by simpa only [key_modify] using h)
    · exact ih (disc_submit_iso_transfer_unlocked _ (by simpa only [key_modify] using h))

theorem disc_iso_packet_start {k : Key} (ep : Nat) (l : List Nat) {s : State}
    (h : Disc k s.key) : Disc k (usbredirhost_iso_packet_start ep s l).1.key := by
  induction l generalizing s with
  | nil => exact h
  | cons i l ih =>
    unfold usbredirhost_iso_packet_start
    simp only []
    split_ifs
    · exact disc_submit_iso_transfer_unlocked _ h
    · exact ih (disc_submit_iso_transfer_unlocked _ h)

theorem disc_handle_iso_status {k : Key} {s : State} (id ep : Nat) (r : Int)
    (h : Disc k s.key) : Disc k (usbredirhost_handle_iso_status s id ep r).1.key := by
  unfold usbredirhost_handle_iso_status
  simp only []
  have h1 : Disc k (usbredirhost_cancel_iso_stream_unlocked s ep).key := by
    rw [key_cancel_iso_stream_unlocked]; exact h
  split_ifs
  · exact h
  · exact h
  · simpa only [key_send_iso_status, key_call] using h1
  · simpa only [key_send_iso_status, key_alloc_iso_stream, key_call] using h1
  · rw [key_send_iso_status]
    exact disc_submit_iso_in_ring _ _ (by simpa only [key_alloc_iso_stream, key_call] using h1)
  · rw [key_modifyEp]
    exact disc_submit_iso_in_ring _ _ (by simpa only [key_alloc_iso_stream, key_call] using h1)
  · simpa only [key_alloc_iso_stream, key_call] using h1
  · exact disc_handle_disconnect h
  · exact h

theorem disc_iso_packet_complete_loop {k : Key} (t ep : Nat) (l : List Nat) {s : State}
    (h : Disc k s.key) : Disc k (usbredirhost_iso_packet_complete_loop t ep s l).1.key := by
  induction l generalizing s with
  | nil => exact h
  | cons i l ih =>
    unfold usbredirhost_iso_packet_complete_loop
    simp only []
    have h1 := fun (id : Nat) (r : Int) =>
      disc_handle_iso_status (k := k) id ep r (disc_translate r h)
    split_ifs <;> (try apply ih) <;>
      (try simp only [key_modify, key_send_iso_packet, key_send_iso_status]) <;>
      exact h1 _ _

theorem disc_iso_packet_complete_resubmit {k : Key} {s : State} (t ep : Nat)
    (h : Disc k s.key) : Disc k (usbredirhost_iso_packet_complete_resubmit s t ep).key := by
  unfold usbredirhost_iso_packet_complete_resubmit
  simp only []
  have h1 : ∀ f, Disc k (usbredirhost_submit_iso_transfer_unlocked (s.modify t f) t).1.key :=
    fun f => disc_submit_iso_transfer_unlocked _ (by simpa only [key_modify] using h)
  split_ifs
  · rw [key_send_iso_status]; exact h1 _
  · exact h1 _

theorem disc_iso_packet_complete {k : Key} {s : State} (t : Nat) (h : Disc k s.key) :
    Disc k (usbredirhost_iso_packet_complete s t).key := by
  unfold usbredirhost_iso_packet_complete
  simp only []
  have h1 : ∀ (f : usbredirtransfer → usbredirtransfer) (id ep : Nat) (r : Int),
      Disc k (usbredirhost_handle_iso_status (s.modify t f) id ep r).1.key :=
    fun f id ep r => disc_handle_iso_status id ep r (by simpa only [key_modify] using h)
  split_ifs
  · simpa only [key_free_transfer, key_mk, key_fold] using h
  · exact h1 _ _ _ _
  · apply disc_iso_packet_complete_resubmit
    rw [key_modify, key_send_iso_packet]
    exact disc_translate _ (h1 _ _ _ _)
  · rw [key_send_iso_status]
    exact disc_translate _ (h1 _ _ _ _)
  · exact disc_iso_packet_complete_loop _ _ _ (h1 _ _ _ _)
  · exact disc_iso_packet_complete_resubmit _ _
      (disc_iso_packet_complete_loop _ _ _ (h1 _ _ _ _))
  · rw [key_iso_packet_complete_underflow]
    exact disc_iso_packet_complete_loop _ _ _ (h1 _ _ _ _)

theorem disc_interrupt_packet_complete {k : Key} {s : State} (t : Nat) (h : Disc k s.key) :
    Disc k (usbredirhost_interrupt_packet_complete s t).key := by
  unfold usbredirhost_interrupt_packet_complete
  simp only []
  have h1 := fun (r : Int) => disc_translate (k := k) r h
  split_ifs <;>
    (try simp only [key_remove_and_free_transfer, key_send_interrupt_packet, key_free_transfer,
      key_mk, key_fold, key_modifyEp, key_send_interrupt_recv_status, key_call,
      key_interrupt_packet_complete_resubmit, key_modify]) <;>
    first | exact h1 _ | exact disc_handle_disconnect (h1 _)

theorem disc_control_packet_complete {k : Key} {s : State} (t : Nat) (h : Disc k s.key) :
    Disc k (usbredirhost_control_packet_complete s t).key := by
  unfold usbredirhost_control_packet_complete
  simp only [key_remove_and_free_transfer, apply_ite State.key, key_send_control_packet,
    ite_self]
  exact disc_translate _ h

theorem disc_bulk_packet_complete {k : Key} {s : State} (t : Nat) (h : Disc k s.key) :
    Disc k (usbredirhost_bulk_packet_complete s t).key := by
  unfold usbredirhost_bulk_packet_complete
  simp only [key_remove_and_free_transfer, apply_ite State.key, key_send_bulk_packet,
    ite_self]
  exact disc_translate _ h

theorem disc_libusb_complete {k : Key} {s : State} (c : Completion) (h : Disc k s.key) :
    Disc k (libusb_complete s c).key := by
  unfold libusb_complete
  simp only []
  split_ifs
  · have h1 : ∀ f, Disc k (State.modify
        { s with usb := { s.usb with inflight := s.usb.inflight.erase c.ptr } } c.ptr f).key :=
      fun f => by simpa only [key_modify, key_mk, key_fold] using h
    split
    · exact h1 _
    · exact disc_iso_packet_complete _ (h1 _)
    · exact disc_interrupt_packet_complete _ (h1 _)
    · exact disc_control_packet_complete _ (h1 _)
    · exact disc_bulk_packet_complete _ (h1 _)
  · exact h

theorem disc_libusb_handle_events_timeout {k : Key} {s : State} (h : Disc k s.key) :
    Disc k (libusb_handle_events_timeout s).key := by
  unfold libusb_handle_events_timeout
  simp only []
  exact disc_foldl _ (fun k s x hk => disc_libusb_complete x hk) _
    (by simpa only [key_mk, key_fold, key_call] using h)

theorem disc_clear_device_wait {k : Key} (fuel : Nat) {s s' : State}
    (hs : usbredirhost_clear_device_wait fuel s = some s') (h : Disc k s.key) :
    Disc k s'.key := by
  induction fuel generalizing s with
  | zero => simp [usbredirhost_clear_device_wait] at hs
  | succ n ih =>
    unfold usbredirhost_clear_device_wait at hs
    simp only [] at hs
    split_ifs at hs
    · exact ih hs (disc_libusb_handle_events_timeout h)
    · cases hs
      exact disc_libusb_handle_events_timeout h


theorem disc_drop_pending {k : Key} {s : State} (h : Disc k s.key) (dev : Option libusb_device) :
    Disc k ({ s with host := { s.host with connect_pending := false, dev := dev } } : State).key := by
  refine h.trans ⟨Or.inl ⟨rfl, rfl⟩, ?_, Or.inl, id⟩
  intro hc
  simp [State.key] at hc

theorem key_free_config (s : State) :
    ({ (s.callVoid .free_config_descriptor) with
        host := { s.host with config := none } } : State).key = s.key := rfl

theorem key_close (s : State) :
    ({ (s.callVoid .close) with host := { s.host with handle := none } } : State).key =
      s.key := rfl

theorem disc_clear_device_finish {k : Key} {s : State} (h : Disc k s.key) :
    Disc k (usbredirhost_clear_device_finish s).key := by
  unfold usbredirhost_clear_device_finish
  simp only []
  apply disc_handle_disconnect
  apply disc_drop_pending
  simp only [apply_ite State.key, key_free_config, key_close, key_release, ite_self]
  exact h

theorem disc_clear_device {k : Key} {s s' : State}
    (hs : usbredirhost_clear_device s = some s') (h : Disc k s.key) : Disc k s'.key := by
  unfold usbredirhost_clear_device at hs
  simp only [] at hs
  split_ifs at hs with hdev hw
  · rw [← Option.some.inj hs]; exact h
  · cases hd : usbredirhost_clear_device_wait (usbredirhost_cancel_pending_urbs s).1.usb.events.length
        (usbredirhost_cancel_pending_urbs s).1 with
    | none => rw [hd] at hs; exact absurd hs (by simp)
    | some s1 =>
      rw [hd, Option.map_some'] at hs
      rw [← Option.some.inj hs]
      exact disc_clear_device_finish
        (disc_clear_device_wait _ hd (by simpa only [key_cancel_pending_urbs] using h))
  · rw [Option.map_some'] at hs
    rw [← Option.some.inj hs]
    exact disc_clear_device_finish (by simpa only [key_cancel_pending_urbs] using h)

theorem disc_reset {k : Key} {s : State} (h : Disc k s.key) :
    Disc k (usbredirhost_reset s).key := by
  unfold usbredirhost_reset
  simp only []
  split_ifs
  · exact h
  · simpa only [key_call] using h
  · exact disc_handle_disconnect (by simpa only [key_call] using h)

theorem disc_set_configuration_body {k : Key} {s : State} {r : State × Nat}
    (c : usb_redir_set_configuration_header)
    (hr : usbredirhost_set_configuration_body s c = some r) (h : Disc k s.key) :
    Disc k r.1.key := by
  unfold usbredirhost_set_configuration_body at hr
  simp only [] at hr
  have h1 : Disc k (usbredirhost_release (usbredirhost_cancel_pending_urbs s).1 false).1.key := by
    rwa [key_release, key_cancel_pending_urbs]
  have h2 : Disc k (usbredirhost_claim
      { (libusb_set_configuration
          (usbredirhost_release (usbredirhost_cancel_pending_urbs s).1 false).1
          c.configuration).1 with
        host := { (libusb_set_configuration
          (usbredirhost_release (usbredirhost_cancel_pending_urbs s).1 false).1
          c.configuration).1.host with active_config := (c.configuration : Int) } }).1.key := by
    refine disc_claim ?_
    simpa only [key_mk, key_fold, key_libusb_set_configuration] using h1
  split_ifs at hr
  · rw [← Option.some.inj hr]; exact h
  · rw [← Option.some.inj hr]; exact h
  · rw [← Option.some.inj hr]; exact h1
  · rw [← Option.some.inj hr]; simpa only [key_libusb_set_configuration] using h1
  · generalize usbredirhost_claim _ = cl at hr h2
    cases hd : usbredirhost_clear_device cl.1 with
    | none => rw [hd] at hr; exact absurd hr (by simp)
    | some s1 =>
      rw [hd, Option.map_some'] at hr
      rw [← Option.some.inj hr]
      have h3 : Disc k s1.key := disc_clear_device hd h2
      exact h3
  · rw [← Option.some.inj hr]
    rw [key_send_interface_n_ep_info]
    exact h2

theorem disc_set_configuration {k : Key} {s s' : State} (id : Nat)
    (c : usb_redir_set_configuration_header)
    (hs : usbredirhost_set_configuration s id c = some s') (h : Disc k s.key) :
    Disc k s'.key := by
  unfold usbredirhost_set_configuration at hs
  cases hb : usbredirhost_set_configuration_body s c with
  | none => rw [hb] at hs; exact absurd hs (by simp)
  | some r =>
    rw [hb, Option.map_some'] at hs
    rw [← Option.some.inj hs, key_send_configuration_status]
    exact disc_set_configuration_body c hb h

theorem disc_set_alt_setting {k : Key} {s : State} (id : Nat)
    (a : usb_redir_set_alt_setting_header) (h : Disc k s.key) :
    Disc k (usbredirhost_set_alt_setting s id a).key := by
  unfold usbredirhost_set_alt_setting
  simp only []
  split_ifs <;>
    (try simp only [key_send_alt_setting_status, key_send_interface_n_ep_info,
      key_parse_interface, key_mk, key_fold, key_foldl, apply_ite State.key, key_modifyEp,
      ite_self, implies_true, key_call, key_cancel_pending_urbs_on_interface]) <;>
    first
    | exact h
    | exact disc_translate _ (by
        simpa only [key_call, key_cancel_pending_urbs_on_interface] using h)

theorem disc_start_iso_stream {k : Key} {s : State} (id : Nat)
    (a : usb_redir_start_iso_stream_header) (h : Disc k s.key) :
    Disc k (usbredirhost_start_iso_stream s id a).key := by
  unfold usbredirhost_start_iso_stream
  simp only [key_send_iso_status]
  split_ifs <;> (try simp only [key_modifyEp, key_alloc_iso_stream]) <;>
    first
    | exact h
    | exact disc_submit_iso_in_ring _ _ (by simpa only [key_alloc_iso_stream] using h)

theorem disc_control_packet {k : Key} {s : State} (id : Nat)
    (c : usb_redir_control_packet_header) (data : List Nat) (h : Disc k s.key) :
    Disc k (usbredirhost_control_packet s id c data).key := by
  unfold usbredirhost_control_packet
  simp only []
  split_ifs <;>
    (try simp only [key_send_control_status, key_alloc, key_alloc_transfer,
      key_libusb_submit_transfer, key_add_transfer, key_modify]) <;>
    first
    | exact h
    | exact disc_translate _ (by simpa only [key_call] using h)
    | exact disc_control_packet_complete _ (by
        simpa only [key_alloc, key_alloc_transfer, key_libusb_submit_transfer,
          key_add_transfer, key_modify] using h)

theorem disc_bulk_packet {k : Key} {s : State} (id : Nat)
    (c : usb_redir_bulk_packet_header) (data : List Nat) (h : Disc k s.key) :
    Disc k (usbredirhost_bulk_packet s id c data).key := by
  unfold usbredirhost_bulk_packet
  simp only []
  split_ifs <;>
    (try simp only [key_send_bulk_status, key_alloc, key_alloc_transfer,
      key_libusb_submit_transfer, key_add_transfer, key_modify]) <;>
    first
    | exact h
    | exact disc_bulk_packet_complete _ (by
        simpa only [key_alloc, key_alloc_transfer, key_libusb_submit_transfer,
          key_add_transfer, key_modify] using h)

theorem disc_interrupt_packet {k : Key} {s : State} (id : Nat)
    (c : usb_redir_interrupt_packet_header) (data : List Nat) (h : Disc k s.key) :
    Disc k (usbredirhost_interrupt_packet s id c data).key := by
  unfold usbredirhost_interrupt_packet
  simp only []
  split_ifs <;>
    (try simp only [key_send_interrupt_status, key_alloc, key_alloc_transfer,
      key_libusb_submit_transfer, key_add_transfer, key_modify]) <;>
    first
    | exact h
    | exact disc_interrupt_packet_complete _ (by
        simpa only [key_alloc, key_alloc_transfer, key_libusb_submit_transfer,
          key_add_transfer, key_modify] using h)

theorem key_iso_packet_store (s : State) (id ep : Nat) (data : List Nat) :
    (usbredirhost_iso_packet_store s id ep data).key = s.key := by
  unfold usbredirhost_iso_packet_store
  simp only [apply_ite State.key, key_modifyEp, key_modify, ite_self]

theorem disc_iso_packet_submit {k : Key} {s : State} (ep t : Nat) (i j : Int)
    (h : Disc k s.key) : Disc k (usbredirhost_iso_packet_submit s ep t i j).1.key := by
  unfold usbredirhost_iso_packet_submit
  simp only []
  split_ifs <;> (try simp only [key_modifyEp]) <;>
    first
    | exact h
    | exact disc_submit_iso_transfer_unlocked _ h
    | exact disc_iso_packet_start _ _ h

theorem disc_iso_packet_body {k : Key} {s : State} (id ep : Nat) (data : List Nat)
    (h : Disc k s.key) : Disc k (usbredirhost_iso_packet_body s id ep data).1.key := by
  unfold usbredirhost_iso_packet_body
  simp only []
  split_ifs <;> (try simp only [key_modifyEp]) <;>
    first
    | exact h
    | exact disc_iso_packet_submit _ _ _ _ (by rwa [key_iso_packet_store])

theorem disc_iso_packet {k : Key} {s : State} (id : Nat)
    (c : usb_redir_iso_packet_header) (data : List Nat) (h : Disc k s.key) :
    Disc k (usbredirhost_iso_packet s id c data).key := by
  unfold usbredirhost_iso_packet
  simp only [apply_ite State.key, key_send_iso_status, ite_self]
  exact disc_iso_packet_body _ _ _ h


/-! ### The protocol invariant along executions -/

theorem replay_append (d : Bool) (l₁ l₂ : List Bool) :
    replay d (l₁ ++ l₂) = (replay d l₁).bind fun d' => replay d' l₂ := by
  induction l₁ generalizing d with
  | nil => rfl
  | cons b l ih =>
    cases b <;> cases d <;> simp [replay, ih]

theorem Key.Inv.disc {k k' : Key} (hi : k.Inv) (hd : Disc k k') : k'.Inv := by
  obtain ⟨ht, hw, hc⟩ := hi
  obtain ⟨h1, h2, h3, -⟩ := hd
  have hmono : k.disconnected = true → k'.disconnected = true := by
    intro h
    rcases h1 with ⟨e, _⟩ | ⟨e, _, _⟩
    · rw [e, h]
    · rw [h] at e; cases e
  refine ⟨?_, ?_, ?_⟩
  · rcases h1 with ⟨e, t⟩ | ⟨e, e', t⟩
    · rw [e, t]; exact ht
    · rw [t, replay_append, ht, e, e']; rfl
  · intro h
    rcases h3 h with h | h
    · exact hmono (hw h)
    · exact h
  · intro h
    exact hmono (hc (h2 h))

/-- The effect of `usbredirhost_send_device_connect` on the protocol key. -/
theorem key_send_device_connect (s : State) :
    (usbredirhost_send_device_connect s).key =
      if s.host.disconnected = false then s.key
      else if usbredirparser_have_peer_caps s.parser = false ∨ s.host.wait_disconnect = true then
        { s.key with connect_pending := true }
      else
        { disconnected := false, wait_disconnect := s.host.wait_disconnect,
          connect_pending := false, trace := s.key.trace ++ [true] } := by
  unfold usbredirhost_send_device_connect
  cases hd : s.host.disconnected
  · simp
  · cases hc : usbredirparser_have_peer_caps s.parser <;> cases hw : s.host.wait_disconnect <;>
      simp [State.key, State.send, usbredirhost_send_interface_n_ep_info, cd_trace,
        List.filterMap_append, Packet.cd, hd, hw]

theorem inv_send_device_connect {s : State} (h : s.key.Inv) :
    (usbredirhost_send_device_connect s).key.Inv := by
  rw [key_send_device_connect]
  obtain ⟨ht, hw, hc⟩ := h
  split_ifs with h1 h2
  · exact ⟨ht, hw, hc⟩
  · have hd : s.host.disconnected = true := by simpa using h1
    exact ⟨ht, hw, fun _ => hd⟩
  · have hd : s.host.disconnected = true := by simpa using h1
    have hw' : s.host.wait_disconnect = false := by
      cases hh : s.host.wait_disconnect
      · rfl
      · exact absurd (Or.inr hh) h2
    refine ⟨?_, ?_, ?_⟩
    · show replay true (s.key.trace ++ [true]) = some false
      rw [replay_append, ht]
      show replay s.host.disconnected [true] = some false
      rw [hd]; rfl
    · intro h; rw [hw'] at h; cases h
    · intro h; cases h

/-- The effect on the key of a step that may connect, seen from a state with
`disconnected` set: the flag stays set and nothing is added to the trace, or
the flag is cleared and exactly one device-connect is added. -/
theorem conn_send_device_connect (s : State) (hd : s.host.disconnected = true) :
    ((usbredirhost_send_device_connect s).host.disconnected = true ∧
      cd_trace (usbredirhost_send_device_connect s).parser.sent = cd_trace s.parser.sent) ∨
    ((usbredirhost_send_device_connect s).host.disconnected = false ∧
      cd_trace (usbredirhost_send_device_connect s).parser.sent =
        cd_trace s.parser.sent ++ [true]) := by
  have h := key_send_device_connect s
  have e1 : (usbredirhost_send_device_connect s).host.disconnected =
      (usbredirhost_send_device_connect s).key.disconnected := rfl
  have e2 : cd_trace (usbredirhost_send_device_connect s).parser.sent =
      (usbredirhost_send_device_connect s).key.trace := rfl
  rw [e1, e2, h]
  split_ifs with h1 h2
  · rw [hd] at h1; cases h1
  · exact Or.inl ⟨hd, rfl⟩
  · exact Or.inr ⟨rfl, rfl⟩

theorem inv_hello {s : State} (h : s.key.Inv) : (usbredirhost_hello s).key.Inv := by
  unfold usbredirhost_hello
  split
  · exact inv_send_device_connect h
  · exact h

theorem inv_device_disconnect_ack {s : State} (h : s.key.Inv) :
    (usbredirhost_device_disconnect_ack s).key.Inv := by
  unfold usbredirhost_device_disconnect_ack
  simp only []
  have h1 : (State.key { s with host := { s.host with wait_disconnect := false } }).Inv := by
    obtain ⟨ht, _, hc⟩ := h
    refine ⟨ht, ?_, hc⟩
    intro hh
    cases hh
  split_ifs
  · exact h
  · exact inv_send_device_connect h1
  · exact h1

/-- The state `usbredirhost_set_device_bind` returns comes from the state it
was called in by code that never connects, followed or not by
`usbredirhost_send_device_connect`. -/
theorem set_device_bind_shape {s : State} {h : libusb_device_handle} {r : State × Nat}
    (hs : usbredirhost_set_device_bind s h = some r) :
    Disc s.key r.1.key ∨
      ∃ s1, Disc s.key s1.key ∧ r.1 = usbredirhost_send_device_connect s1 := by
  unfold usbredirhost_set_device_bind at hs
  simp only [] at hs
  split_ifs at hs with hc1 hc2 hc3
  · obtain ⟨s2, hd, rfl⟩ := Option.map_eq_some'.mp hs
    exact Or.inl (disc_translate _ (disc_clear_device hd (Disc.refl _)))
  · obtain ⟨s2, hd, rfl⟩ := Option.map_eq_some'.mp hs
    exact Or.inl (disc_translate _ (disc_clear_device hd (Disc.refl _)))
  · obtain ⟨s2, hd, rfl⟩ := Option.map_eq_some'.mp hs
    exact Or.inl (disc_clear_device hd (disc_claim (Disc.refl _)))
  · rw [← Option.some.inj hs]
    refine Or.inr ⟨_, ?_, rfl⟩
    exact disc_claim (Disc.refl _)

theorem set_device_shape {s : State} {h : Option libusb_device_handle} {r : State × Nat}
    (hs : usbredirhost_set_device s h = some r) :
    Disc s.key r.1.key ∨
      ∃ s1, Disc s.key s1.key ∧ r.1 = usbredirhost_send_device_connect s1 := by
  unfold usbredirhost_set_device at hs
  cases hc : usbredirhost_clear_device s with
  | none => rw [hc] at hs; exact absurd hs (by simp)
  | some s0 =>
    rw [hc, Option.some_bind] at hs
    have h0 : Disc s.key s0.key := disc_clear_device hc (Disc.refl _)
    cases h with
    | none =>
      simp only [] at hs
      rw [← Option.some.inj hs]
      exact Or.inl h0
    | some hd =>
      simp only [] at hs
      rcases set_device_bind_shape hs with h1 | ⟨s1, h1, e⟩
      · exact Or.inl (h0.trans h1)
      · exact Or.inr ⟨s1, h0.trans h1, e⟩

theorem inv_set_device {s : State} {h : Option libusb_device_handle} {r : State × Nat}
    (hs : usbredirhost_set_device s h = some r) (hi : s.key.Inv) : r.1.key.Inv := by
  rcases set_device_shape hs with h1 | ⟨s1, h1, e⟩
  · exact hi.disc h1
  · rw [e]
    exact inv_send_device_connect (hi.disc h1)

theorem inv_open {ret : List Int} {mem : List Bool} {events : List (List Completion)}
    {configuration : Int} {h : Option libusb_device_handle} {s : State}
    (hs : usbredirhost_open_full ret mem events configuration h = some s) : s.key.Inv := by
  unfold usbredirhost_open_full at hs
  simp only [] at hs
  split_ifs at hs with h1 h2
  obtain ⟨r, hr, hr2⟩ := Option.bind_eq_some.mp hs
  split_ifs at hr2
  rw [← Option.some.inj hr2]
  refine inv_set_device hr ⟨rfl, ?_, ?_⟩
  · intro h; cases h
  · intro h; cases h

/-- Every event other than a rebind, a hello and a disconnect-ack runs code
that never connects. -/
theorem disc_step {s s' : State} {e : Event} (hs : step s e = some s')
    (h1 : ∀ h, e ≠ .set_device h) (h2 : ∀ caps, e ≠ .hello caps)
    (h3 : e ≠ .device_disconnect_ack) : Disc s.key s'.key := by
  cases e with
  | set_device h => exact absurd rfl (h1 h)
  | hello caps => exact absurd rfl (h2 caps)
  | device_disconnect_ack => exact absurd rfl h3
  | set_configuration id c => exact disc_set_configuration id c hs (Disc.refl _)
  | read => rw [← Option.some.inj hs, key_read]; exact Disc.refl _
  | handle_events =>
    rw [← Option.some.inj hs]; exact disc_libusb_handle_events_timeout (Disc.refl _)
  | completion c => rw [← Option.some.inj hs]; exact disc_libusb_complete c (Disc.refl _)
  | reset => rw [← Option.some.inj hs]; exact disc_reset (Disc.refl _)
  | get_configuration id =>
    rw [← Option.some.inj hs, key_get_configuration]; exact Disc.refl _
  | set_alt_setting id a =>
    rw [← Option.some.inj hs]; exact disc_set_alt_setting id a (Disc.refl _)
  | get_alt_setting id a =>
    rw [← Option.some.inj hs, key_get_alt_setting]; exact Disc.refl _
  | start_iso_stream id a =>
    rw [← Option.some.inj hs]; exact disc_start_iso_stream id a (Disc.refl _)
  | stop_iso_stream id a =>
    rw [← Option.some.inj hs, key_stop_iso_stream]; exact Disc.refl _
  | start_interrupt_receiving id a =>
    rw [← Option.some.inj hs, key_start_interrupt_receiving]; exact Disc.refl _
  | stop_interrupt_receiving id a =>
    rw [← Option.some.inj hs, key_stop_interrupt_receiving]; exact Disc.refl _
  | alloc_bulk_streams id => rw [← Option.some.inj hs]; exact Disc.refl _
  | free_bulk_streams id => rw [← Option.some.inj hs]; exact Disc.refl _
  | cancel_data_packet id =>
    rw [← Option.some.inj hs, key_cancel_data_packet]; exact Disc.refl _
  | filter_reject => rw [← Option.some.inj hs, key_filter_reject]; exact Disc.refl _
  | filter_filter r n => rw [← Option.some.inj hs]; exact Disc.refl _
  | control_packet id c d =>
    rw [← Option.some.inj hs]; exact disc_control_packet id c d (Disc.refl _)
  | bulk_packet id c d =>
    rw [← Option.some.inj hs]; exact disc_bulk_packet id c d (Disc.refl _)
  | iso_packet id c d =>
    rw [← Option.some.inj hs]; exact disc_iso_packet id c d (Disc.refl _)
  | interrupt_packet id c d =>
    rw [← Option.some.inj hs]; exact disc_interrupt_packet id c d (Disc.refl _)

theorem inv_step {s s' : State} {e : Event} (hs : step s e = some s') (hi : s.key.Inv) :
    s'.key.Inv := by
  by_cases h1 : ∃ h, e = .set_device h
  · obtain ⟨h, rfl⟩ := h1
    obtain ⟨r, hr, rfl⟩ := Option.map_eq_some'.mp hs
    exact inv_set_device hr hi
  by_cases h2 : ∃ caps, e = .hello caps
  · obtain ⟨caps, rfl⟩ := h2
    rw [← Option.some.inj hs]
    exact inv_hello (by rw [key_parser_hello]; exact hi)
  by_cases h3 : e = .device_disconnect_ack
  · subst h3
    rw [← Option.some.inj hs]
    exact inv_device_disconnect_ack hi
  · exact hi.disc (disc_step hs (fun h he => h1 ⟨h, he⟩) (fun c he => h2 ⟨c, he⟩) h3)

theorem inv_run {es : List Event} {s s' : State} (hs : run s es = some s') (hi : s.key.Inv) :
    s'.key.Inv := by
  induction es generalizing s with
  | nil => rw [← Option.some.inj hs]; exact hi
  | cons e es ih =>
    obtain ⟨s1, h1, h2⟩ := Option.bind_eq_some.mp hs
    exact ih h2 (inv_step h1 hi)

/-- The protocol invariant holds in every reachable state. -/
theorem inv_reachable {s : State} (h : Reachable s) : s.key.Inv := by
  obtain ⟨ret, mem, events, configuration, hd, s0, es, h0, h1⟩ := h
  exact inv_run h1 (inv_open h0)


/-! ### Connect, disconnect and the disconnect-ack -/

theorem disc_stays {k k' : Key} (h : Disc k k') (hd : k.disconnected = true) :
    k'.disconnected = true ∧ k'.trace = k.trace := by
  rcases h.1 with ⟨e, t⟩ | ⟨e, _, _⟩
  · exact ⟨e.trans hd, t⟩
  · rw [hd] at e; cases e

/-- A step from a state with `disconnected` set leaves the flag set and sends
no device-connect or device-disconnect, or clears the flag and sends exactly
one device-connect (and no device-disconnect); the latter only on a rebind, a
hello or a disconnect-ack, the events whose handlers call
`usbredirhost_send_device_connect`. -/
theorem conn_step {s s' : State} {e : Event} (hs : step s e = some s')
    (hd : s.host.disconnected = true) :
    (s'.host.disconnected = true ∧ cd_trace s'.parser.sent = cd_trace s.parser.sent) ∨
    (s'.host.disconnected = false ∧ cd_trace s'.parser.sent = cd_trace s.parser.sent ++ [true] ∧
      ((∃ h, e = .set_device (some h)) ∨ (∃ caps, e = .hello caps) ∨
        e = .device_disconnect_ack)) := by
  by_cases h1 : ∃ h, e = .set_device h
  · obtain ⟨h, rfl⟩ := h1
    obtain ⟨r, hr, rfl⟩ := Option.map_eq_some'.mp hs
    rcases set_device_shape hr with h1 | ⟨s1, h1, e1⟩
    · exact Or.inl (disc_stays h1 hd)
    · have h2 := disc_stays h1 hd
      have h3 := conn_send_device_connect s1 h2.1
      rw [← e1] at h3
      have e2 : cd_trace s1.parser.sent = cd_trace s.parser.sent := h2.2
      rw [e2] at h3
      rcases h3 with h3 | h3
      · exact Or.inl h3
      · refine Or.inr ⟨h3.1, h3.2, Or.inl ?_⟩
        cases h with
        | some hh => exact ⟨hh, rfl⟩
        | none =>
          exfalso
          unfold usbredirhost_set_device at hr
          obtain ⟨s0, h0, h0'⟩ := Option.bind_eq_some.mp hr
          simp only [] at h0'
          have h4 := disc_stays (disc_clear_device h0 (Disc.refl _)) hd
          rw [← Option.some.inj h0'] at h3
          have h5 : s0.host.disconnected = true := h4.1
          rw [h5] at h3
          exact absurd h3.1 (by decide)
  by_cases h2 : ∃ caps, e = .hello caps
  · obtain ⟨caps, rfl⟩ := h2
    rw [← Option.some.inj hs]
    unfold usbredirhost_hello
    split
    · rcases conn_send_device_connect (usbredirparser_hello s caps) hd with h3 | h3
      · exact Or.inl h3
      · exact Or.inr ⟨h3.1, h3.2, Or.inr (Or.inl ⟨caps, rfl⟩)⟩
    · exact Or.inl ⟨hd, rfl⟩
  by_cases h3 : e = .device_disconnect_ack
  · subst h3
    rw [← Option.some.inj hs]
    unfold usbredirhost_device_disconnect_ack
    simp only []
    split_ifs
    · exact Or.inl ⟨hd, rfl⟩
    · rcases conn_send_device_connect
        { s with host := { s.host with wait_disconnect := false } } hd with h3 | h3
      · exact Or.inl h3
      · exact Or.inr ⟨h3.1, h3.2, Or.inr (Or.inr trivial)⟩
    · exact Or.inl ⟨hd, rfl⟩
  · exact Or.inl (disc_stays
      (disc_step hs (fun h he => h1 ⟨h, he⟩) (fun c he => h2 ⟨c, he⟩) h3) hd)

theorem replay_disconnect_next (l₂ l₃ : List Bool)
    (h : replay true (l₂ ++ false :: l₃) ≠ none) : true ∈ l₂ := by
  cases l₂ with
  | nil => simp [replay] at h
  | cons b l =>
    cases b
    · simp [replay] at h
    · simp

theorem replay_suffix (d : Bool) (l₁ l₂ : List Bool) (h : replay d (l₁ ++ l₂) ≠ none) :
    ∃ d', replay d l₁ = some d' ∧ replay d' l₂ ≠ none := by
  rw [replay_append] at h
  cases h1 : replay d l₁ with
  | none => rw [h1] at h; exact absurd rfl h
  | some d' => rw [h1] at h; exact ⟨d', rfl, h⟩

/-- In a log that replays, two device-disconnect packets are separated by a
device-connect. -/
theorem no_repeated_disconnect (sent : List Packet) (d d' : Bool)
    (h : replay d (cd_trace sent) = some d')
    (before between after : List Packet)
    (hs : sent = before ++ [Packet.device_disconnect] ++ between ++
      [Packet.device_disconnect] ++ after) :
    ∃ hdr, Packet.device_connect hdr ∈ between := by
  subst hs
  simp only [cd_trace_append] at h
  have e : cd_trace [Packet.device_disconnect] = [false] := rfl
  rw [e] at h
  have h1 : replay d (cd_trace before ++ ([false] ++ (cd_trace between ++
      ([false] ++ cd_trace after)))) ≠ none := by
    simp only [List.append_assoc] at h
    rw [h]; simp
  obtain ⟨d1, _, h2⟩ := replay_suffix _ _ _ h1
  have h3 : replay true (cd_trace between ++ false :: cd_trace after) ≠ none := by
    cases d1
    · simpa [replay] using h2
    · simp [replay] at h2
  have h4 := replay_disconnect_next _ _ h3
  simp only [cd_trace, List.mem_filterMap] at h4
  obtain ⟨p, hp, hc⟩ := h4
  cases p <;> simp [Packet.cd] at hc
  exact ⟨_, hp⟩


/-- A state `example_run es` is reachable as soon as the run returns. -/
theorem reachable_example_run (es : List Event)
    (h : ((usbredirhost_open_full [] [] [] 1 (some example_handle)).bind
      fun s => run s es).isSome = true) : Reachable (example_run es) := by
  obtain ⟨s1, h1⟩ := Option.isSome_iff_exists.mp h
  obtain ⟨s0, h0, h2⟩ := Option.bind_eq_some.mp h1
  have e : example_run es = s1 := by
    unfold example_run
    rw [h1]
    rfl
  rw [e]
  exact ⟨_, _, _, _, _, s0, es, h0, h2⟩

/-- C5: the status translator runs the disconnect handling exactly for the
codes transfer-no-device and library-no-device; on a connected host that sends
exactly one device-disconnect, sets `disconnected`, sets `wait_disconnect` if
the peer has the disconnect-ack capability (and leaves it as it was if not;
it is clear on every connected host an execution can reach, so that afterwards
it is set if and only if the peer has the capability), and changes nothing
else; for every other code the state is unchanged. -/
theorem C5_status_translation_disconnect (s : State) (status : Int) :
    ((status = LIBUSB_TRANSFER_NO_DEVICE ∨ status = LIBUSB_ERROR_NO_DEVICE) →
      (libusb_status_or_error_to_redir_status s status).1 = usbredirhost_handle_disconnect s ∧
      (s.host.disconnected = false →
        (libusb_status_or_error_to_redir_status s status).1 =
          { s with
            parser := { s.parser with sent := s.parser.sent ++ [Packet.device_disconnect] }
            host := { s.host with
              disconnected := true
              wait_disconnect :=
                usbredirparser_peer_has_cap s.parser usb_redir_cap_device_disconnect_ack
                  || s.host.wait_disconnect } } ∧
        (Reachable s →
          ((libusb_status_or_error_to_redir_status s status).1.host.wait_disconnect = true ↔
            usbredirparser_peer_has_cap s.parser usb_redir_cap_device_disconnect_ack
              = true)))) ∧
    (status ≠ LIBUSB_TRANSFER_NO_DEVICE → status ≠ LIBUSB_ERROR_NO_DEVICE →
      (libusb_status_or_error_to_redir_status s status).1 = s) := by
  constructor
  · intro h
    have e : (libusb_status_or_error_to_redir_status s status).1 =
        usbredirhost_handle_disconnect s := by
      rw [translate_state, if_pos h]
    refine ⟨e, fun hd => ?_⟩
    rw [e, handle_disconnect_connected s hd]
    refine ⟨rfl, fun hr => ?_⟩
    have hw : s.host.wait_disconnect = false := by
      cases hh : s.host.wait_disconnect
      · rfl
      · have := (inv_reachable hr).2.1 hh
        rw [show s.key.disconnected = s.host.disconnected from rfl, hd] at this
        cases this
    simp [hw]
  · intro h1 h2
    rw [translate_state, if_neg (by simp [h1, h2])]

set_option maxRecDepth 100000 in
/-- Witness of C5: the connected example host is reachable; a transfer-no-device
code makes it send one device-disconnect and set `disconnected` and, the peer
having the capability, `wait_disconnect`; a stall code changes nothing. -/
theorem C5_status_translation_disconnect_witness :
    Reachable example_connected ∧ example_connected.host.disconnected = false ∧
    (libusb_status_or_error_to_redir_status example_connected
        LIBUSB_TRANSFER_NO_DEVICE).1.parser.sent =
      example_connected.parser.sent ++ [Packet.device_disconnect] ∧
    (libusb_status_or_error_to_redir_status example_connected
        LIBUSB_TRANSFER_NO_DEVICE).1.host.wait_disconnect = true ∧
    (libusb_status_or_error_to_redir_status example_connected LIBUSB_TRANSFER_STALL).1 =
      example_connected := by
  have h1 := (C5_status_translation_disconnect example_connected
    LIBUSB_TRANSFER_NO_DEVICE).1 (Or.inl rfl)
  have h2 := h1.2 (by decide)
  refine ⟨reachable_example_run _ (by decide), by decide, ?_, ?_, ?_⟩
  · rw [h2.1]
  · exact (h2.2 (reachable_example_run _ (by decide))).mpr (by decide)
  · exact (C5_status_translation_disconnect example_connected LIBUSB_TRANSFER_STALL).2
      (by decide) (by decide)

/-- C6: in every execution, two device-disconnect packets of the log are
separated by a device-connect packet; `usbredirhost_handle_disconnect` called
with `disconnected` set sends nothing and changes nothing; and an event that
clears `disconnected` is a rebind, a hello or a disconnect-ack, the events
whose handlers call `usbredirhost_send_device_connect`, and sends exactly one
device-connect. -/
theorem C6_single_disconnect_until_connect :
    (∀ s : State, Reachable s → ∀ before between after : List Packet,
      s.parser.sent = before ++ [Packet.device_disconnect] ++ between ++
        [Packet.device_disconnect] ++ after →
      ∃ hdr, Packet.device_connect hdr ∈ between) ∧
    (∀ s : State, s.host.disconnected = true → usbredirhost_handle_disconnect s = s) ∧
    (∀ (s s' : State) (e : Event), step s e = some s' → s.host.disconnected = true →
      s'.host.disconnected = false →
      cd_trace s'.parser.sent = cd_trace s.parser.sent ++ [true] ∧
      ((∃ h, e = .set_device (some h)) ∨ (∃ caps, e = .hello caps) ∨
        e = .device_disconnect_ack)) := by
  refine ⟨?_, handle_disconnect_disconnected, ?_⟩
  · intro s hr before between after hs
    exact no_repeated_disconnect _ _ _ (inv_reachable hr).1 before between after hs
  · intro s s' e hs hd hd'
    rcases conn_step hs hd with h | h
    · rw [h.1] at hd'; cases hd'
    · exact h.2

set_option maxRecDepth 100000 in
/-- Witness of C6: the example host that was unbound twice is reachable, its
log holds two device-disconnect packets, and a device-connect lies between. -/
theorem C6_single_disconnect_until_connect_witness :
    Reachable example_twice ∧
    example_twice.parser.sent.length = 8 ∧
    example_twice.parser.sent.get? 3 = some Packet.device_disconnect ∧
    example_twice.parser.sent.get? 7 = some Packet.device_disconnect ∧
    ∃ hdr, Packet.device_connect hdr ∈ (example_twice.parser.sent.drop 4).take 3 :=
  ⟨reachable_example_run _ (by decide), by decide, by decide, by decide,
    C6_single_disconnect_until_connect.1 example_twice
      (reachable_example_run _ (by decide)) (example_twice.parser.sent.take 3)
      ((example_twice.parser.sent.drop 4).take 3) [] (by decide)⟩

/-- What `usbredirhost_send_device_connect` does when `disconnected` is not set:
nothing. -/
theorem send_device_connect_connected (s : State) (hd : s.host.disconnected = false) :
    usbredirhost_send_device_connect s = s := by
  unfold usbredirhost_send_device_connect
  simp [hd]

/-- What `usbredirhost_send_device_connect` does when it has to wait for the
peer caps or for the disconnect-ack: it sets `connect_pending`. -/
theorem send_device_connect_deferred (s : State) (hd : s.host.disconnected = true)
    (hc : usbredirparser_have_peer_caps s.parser = false ∨ s.host.wait_disconnect = true) :
    usbredirhost_send_device_connect s =
      { s with host := { s.host with connect_pending := true } } := by
  unfold usbredirhost_send_device_connect
  rcases hc with hc | hc <;> simp [hd, hc]

/-- What `usbredirhost_send_device_connect` does otherwise: it sends
interface-info, ep-info and device-connect and clears `connect_pending` and
`disconnected`. -/
theorem send_device_connect_sends (s : State) (hd : s.host.disconnected = true)
    (hc : usbredirparser_have_peer_caps s.parser = true)
    (hw : s.host.wait_disconnect = false) :
    usbredirhost_send_device_connect s =
      { s with
        parser := { s.parser with
          sent := s.parser.sent ++
            [Packet.interface_info (usbredirhost_interface_info s),
             Packet.ep_info (usbredirhost_ep_info s),
             Packet.device_connect
              { speed := device_connect_speed (libusb_get_device_speed s.host.dev)
                device_class := s.host.desc.bDeviceClass
                device_subclass := s.host.desc.bDeviceSubClass
                device_protocol := s.host.desc.bDeviceProtocol
                vendor_id := s.host.desc.idVendor
                product_id := s.host.desc.idProduct
                device_version_bcd := s.host.desc.bcdDevice }] }
        host := { s.host with connect_pending := false, disconnected := false } } := by
  unfold usbredirhost_send_device_connect
  simp only [hd, hc, hw, usbredirhost_send_interface_n_ep_info, State.send]
  simp
  rfl

/-- C7: `usbredirhost_send_device_connect` does nothing when `disconnected` is
not set; when it is set and the peer caps are not known or `wait_disconnect`
is set it only sets `connect_pending`; otherwise it sends interface-info,
ep-info and one device-connect built from the device descriptor, in this
order, and clears `connect_pending` and `disconnected`. -/
theorem C7_send_device_connect (s : State) :
    (s.host.disconnected = false → usbredirhost_send_device_connect s = s) ∧
    (s.host.disconnected = true →
      (usbredirparser_have_peer_caps s.parser = false ∨ s.host.wait_disconnect = true) →
      usbredirhost_send_device_connect s =
        { s with host := { s.host with connect_pending := true } }) ∧
    (s.host.disconnected = true → usbredirparser_have_peer_caps s.parser = true →
      s.host.wait_disconnect = false →
      usbredirhost_send_device_connect s =
        { s with
          parser := { s.parser with
            sent := s.parser.sent ++
              [Packet.interface_info (usbredirhost_interface_info s),
               Packet.ep_info (usbredirhost_ep_info s),
               Packet.device_connect
                { speed := device_connect_speed (libusb_get_device_speed s.host.dev)
                  device_class := s.host.desc.bDeviceClass
                  device_subclass := s.host.desc.bDeviceSubClass
                  device_protocol := s.host.desc.bDeviceProtocol
                  vendor_id := s.host.desc.idVendor
                  product_id := s.host.desc.idProduct
                  device_version_bcd := s.host.desc.bcdDevice }] }
          host := { s.host with connect_pending := false, disconnected := false } }) :=
  ⟨send_device_connect_connected s, send_device_connect_deferred s,
    send_device_connect_sends s⟩

set_option maxRecDepth 100000 in
/-- Witness of C7: on the example host that was unbound and waits for the
disconnect-ack the connect is deferred; on the one unbound from a peer without
the disconnect-ack capability the three packets are sent. -/
theorem C7_send_device_connect_witness :
    (example_unbound.host.disconnected = true ∧
      example_unbound.host.wait_disconnect = true ∧
      usbredirhost_send_device_connect example_unbound =
        { example_unbound with
          host := { example_unbound.host with connect_pending := true } }) ∧
    (example_unbound_nocap.host.disconnected = true ∧
      usbredirparser_have_peer_caps example_unbound_nocap.parser = true ∧
      example_unbound_nocap.host.wait_disconnect = false ∧
      (usbredirhost_send_device_connect example_unbound_nocap).parser.sent.length =
        example_unbound_nocap.parser.sent.length + 3 ∧
      (usbredirhost_send_device_connect example_unbound_nocap).host.disconnected = false) :=
  ⟨⟨by decide, by decide,
    (C7_send_device_connect example_unbound).2.1 (by decide) (Or.inr (by decide))⟩,
   by decide, by decide, by decide,
   by rw [(C7_send_device_connect example_unbound_nocap).2.2 (by decide) (by decide)
        (by decide)]; simp,
   by rw [(C7_send_device_connect example_unbound_nocap).2.2 (by decide) (by decide)
        (by decide)]⟩

/-- C8: `usbredirhost_device_disconnect_ack` does nothing when
`wait_disconnect` is not set; when it is set and `connect_pending` is not, it
only clears `wait_disconnect`; when both are set and the peer caps are known
(in any reachable state) it clears `wait_disconnect`, sends the deferred
interface-info, ep-info and device-connect and clears `connect_pending` and
`disconnected`. -/
theorem C8_device_disconnect_ack (s : State) :
    (s.host.wait_disconnect = false → usbredirhost_device_disconnect_ack s = s) ∧
    (s.host.wait_disconnect = true → s.host.connect_pending = false →
      usbredirhost_device_disconnect_ack s =
        { s with host := { s.host with wait_disconnect := false } }) ∧
    (Reachable s → s.host.wait_disconnect = true → s.host.connect_pending = true →
      usbredirparser_have_peer_caps s.parser = true →
      usbredirhost_device_disconnect_ack s =
        { s with
          parser := { s.parser with
            sent := s.parser.sent ++
              [Packet.interface_info (usbredirhost_interface_info s),
               Packet.ep_info (usbredirhost_ep_info s),
               Packet.device_connect
                { speed := device_connect_speed (libusb_get_device_speed s.host.dev)
                  device_class := s.host.desc.bDeviceClass
                  device_subclass := s.host.desc.bDeviceSubClass
                  device_protocol := s.host.desc.bDeviceProtocol
                  vendor_id := s.host.desc.idVendor
                  product_id := s.host.desc.idProduct
                  device_version_bcd := s.host.desc.bcdDevice }] }
          host := { s.host with
            wait_disconnect := false, connect_pending := false, disconnected := false } }) := by
  refine ⟨?_, ?_, ?_⟩
  · intro hw
    unfold usbredirhost_device_disconnect_ack
    simp [hw]
  · intro hw hc
    unfold usbredirhost_device_disconnect_ack
    simp [hw, hc]
  · intro hr hw hc hcaps
    have hd : s.host.disconnected = true := (inv_reachable hr).2.1 hw
    have e : usbredirhost_device_disconnect_ack s = usbredirhost_send_device_connect
        { s with host := { s.host with wait_disconnect := false } } := by
      unfold usbredirhost_device_disconnect_ack
      simp only []
      rw [if_neg (by simp [hw])]
      exact if_pos hc
    rw [e]
    exact send_device_connect_sends
      { s with host := { s.host with wait_disconnect := false } } hd hcaps rfl

set_option maxRecDepth 100000 in
/-- Witness of C8: the example host rebound before the ack is reachable, has
`wait_disconnect` and `connect_pending` set, and the ack lets the deferred
device-connect out. -/
theorem C8_device_disconnect_ack_witness :
    Reachable example_rebound ∧
    example_rebound.host.wait_disconnect = true ∧
    example_rebound.host.connect_pending = true ∧
    usbredirparser_have_peer_caps example_rebound.parser = true ∧
    (usbredirhost_device_disconnect_ack example_rebound).parser.sent.length =
      example_rebound.parser.sent.length + 3 ∧
    (usbredirhost_device_disconnect_ack example_rebound).host.disconnected = false :=
  ⟨reachable_example_run _ (by decide), by decide, by decide, by decide,
   by rw [(C8_device_disconnect_ack example_rebound).2.2
        (reachable_example_run _ (by decide)) (by decide) (by decide) (by decide)]; simp,
   by rw [(C8_device_disconnect_ack example_rebound).2.2
        (reachable_example_run _ (by decide)) (by decide) (by decide) (by decide)]⟩


/-! ### Peer commands on a disconnected host -/

/-- The function `State.send` appends one packet to the log and touches
nothing else. -/
theorem send_frame (s : State) (p : Packet) :
    (s.send p).parser.sent = s.parser.sent ++ [p] ∧ (s.send p).host = s.host ∧
    (s.send p).heap = s.heap ∧ (s.send p).next_ptr = s.next_ptr ∧ (s.send p).usb = s.usb :=
  ⟨rfl, rfl, rfl, rfl, rfl⟩

/-- C9: while `disconnected` is set, each of the twelve peer command handlers
returns the state it was called in with exactly one packet appended to the
log: its status reply, carrying the request id and the status ioerror.  The
host structure (endpoint table, registry, `cancels_pending`), the heap of
transfer records and the libusb side (no call made, nothing submitted or
cancelled) are unchanged. -/
theorem C9_disconnected_commands_ioerror (s : State) (hd : s.host.disconnected = true)
    (id : Nat) :
    (∀ h, usbredirhost_set_configuration s id h =
      some (s.send (.configuration_status id
        { status := usb_redir_ioerror
          configuration := (s.host.active_config % 256).toNat }))) ∧
    (usbredirhost_get_configuration s id =
      s.send (.configuration_status id
        { status := usb_redir_ioerror
          configuration := (s.host.active_config % 256).toNat })) ∧
    (∀ h : usb_redir_set_alt_setting_header, usbredirhost_set_alt_setting s id h =
      s.send (.alt_setting_status id
        { status := usb_redir_ioerror, alt := 255, interface := h.interface })) ∧
    (∀ h : usb_redir_get_alt_setting_header, usbredirhost_get_alt_setting s id h =
      s.send (.alt_setting_status id
        { status := usb_redir_ioerror, alt := 255, interface := h.interface })) ∧
    (∀ h : usb_redir_start_iso_stream_header, usbredirhost_start_iso_stream s id h =
      s.send (.iso_stream_status id
        { status := usb_redir_ioerror, endpoint := h.endpoint })) ∧
    (∀ h : usb_redir_stop_iso_stream_header, usbredirhost_stop_iso_stream s id h =
      s.send (.iso_stream_status id
        { status := usb_redir_ioerror, endpoint := h.endpoint })) ∧
    (∀ h : usb_redir_start_interrupt_receiving_header,
      usbredirhost_start_interrupt_receiving s id h =
      s.send (.interrupt_receiving_status id
        { status := usb_redir_ioerror, endpoint := h.endpoint })) ∧
    (∀ h : usb_redir_stop_interrupt_receiving_header,
      usbredirhost_stop_interrupt_receiving s id h =
      s.send (.interrupt_receiving_status id
        { status := usb_redir_ioerror, endpoint := h.endpoint })) ∧
    (∀ (h : usb_redir_control_packet_header) (data : List Nat),
      usbredirhost_control_packet s id h data =
      s.send (.control_packet id { h with status := usb_redir_ioerror, length := 0 } [])) ∧
    (∀ (h : usb_redir_bulk_packet_header) (data : List Nat),
      usbredirhost_bulk_packet s id h data =
      s.send (.bulk_packet id { h with status := usb_redir_ioerror, length := 0 } [])) ∧
    (∀ (h : usb_redir_iso_packet_header) (data : List Nat),
      usbredirhost_iso_packet s id h data =
      s.send (.iso_stream_status id
        { status := usb_redir_ioerror, endpoint := h.endpoint })) ∧
    (∀ (h : usb_redir_interrupt_packet_header) (data : List Nat),
      usbredirhost_interrupt_packet s id h data =
      s.send (.interrupt_packet id { h with status := usb_redir_ioerror, length := 0 } [])) ∧
    (∀ p : Packet, (s.send p).parser.sent = s.parser.sent ++ [p] ∧
      (s.send p).host = s.host ∧ (s.send p).heap = s.heap ∧
      (s.send p).next_ptr = s.next_ptr ∧ (s.send p).usb = s.usb) := by
  refine ⟨?_, ?_, ?_, ?_, ?_, ?_, ?_, ?_, ?_, ?_, ?_, ?_, send_frame s⟩
  · intro h
    simp [usbredirhost_set_configuration, usbredirhost_set_configuration_body, hd]
  · simp [usbredirhost_get_configuration, hd]
  · intro h
    simp [usbredirhost_set_alt_setting, hd]
  · intro h
    simp [usbredirhost_get_alt_setting, hd]
  · intro h
    simp [usbredirhost_start_iso_stream, usbredirhost_send_iso_status, hd]
  · intro h
    simp [usbredirhost_stop_iso_stream, usbredirhost_send_iso_status, hd]
  · intro h
    simp [usbredirhost_start_interrupt_receiving, usbredirhost_send_interrupt_recv_status, hd]
  · intro h
    simp [usbredirhost_stop_interrupt_receiving, usbredirhost_send_interrupt_recv_status, hd]
  · intro h data
    simp [usbredirhost_control_packet, usbredirhost_send_control_status, hd]
  · intro h data
    simp [usbredirhost_bulk_packet, usbredirhost_send_bulk_status, hd]
  · intro h data
    simp [usbredirhost_iso_packet, usbredirhost_iso_packet_body,
      usbredirhost_send_iso_status, hd, usb_redir_ioerror, usb_redir_success]
  · intro h data
    simp [usbredirhost_interrupt_packet, usbredirhost_send_interrupt_status, hd]

set_option maxRecDepth 100000 in
/-- Witness of C9: the example host after an unbind is disconnected; a control
packet with id 7 is answered by one control packet with id 7 and status
ioerror, and no libusb call is made. -/
theorem C9_disconnected_commands_ioerror_witness :
    example_unbound.host.disconnected = true ∧
    (usbredirhost_control_packet example_unbound 7
        { endpoint := 0x80, request := 6, requesttype := 0x80, status := 0, value := 0x100,
          index := 0, length := 18 } []).parser.sent =
      example_unbound.parser.sent ++
        [Packet.control_packet 7
          { endpoint := 0x80, request := 6, requesttype := 0x80, status := usb_redir_ioerror,
            value := 0x100, index := 0, length := 0 } []] ∧
    (usbredirhost_control_packet example_unbound 7
        { endpoint := 0x80, request := 6, requesttype := 0x80, status := 0, value := 0x100,
          index := 0, length := 18 } []).usb = example_unbound.usb := by
  have h := (C9_disconnected_commands_ioerror example_unbound (by decide) 7).2.2.2.2.2.2.2.2.1
    { endpoint := 0x80, request := 6, requesttype := 0x80, status := 0, value := 0x100,
      index := 0, length := 18 } []
  exact ⟨by decide, by rw [h]; rfl, by rw [h]; rfl⟩


/-! ### Allocation of an iso stream -/

theorem alloc_true (s : State) (h : ∀ b ∈ s.usb.mem, b = true) :
    s.alloc.2 = true ∧ (∀ b ∈ s.alloc.1.usb.mem, b = true) := by
  unfold State.alloc
  cases hm : s.usb.mem with
  | nil => simp
  | cons b l =>
    rw [hm] at h
    refine ⟨h b (by simp), fun c hc => h c ?_⟩
    simp at hc ⊢
    exact Or.inr hc

/-- The record of a ring URB: its fields. -/
theorem iso_urb_fields (ep pkts mps : Nat) :
    (usbredirhost_iso_urb ep pkts mps).transfer.num_iso_packets = pkts ∧
    (usbredirhost_iso_urb ep pkts mps).transfer.iso_packet_desc =
      List.replicate pkts { length := mps, actual_length := 0, status := 0 } ∧
    (usbredirhost_iso_urb ep pkts mps).transfer.buffer = List.replicate (mps * pkts) 0 ∧
    (usbredirhost_iso_urb ep pkts mps).transfer.length = mps * pkts ∧
    (usbredirhost_iso_urb ep pkts mps).transfer.endpoint = ep ∧
    (usbredirhost_iso_urb ep pkts mps).transfer.type = LIBUSB_TRANSFER_TYPE_ISOCHRONOUS ∧
    (usbredirhost_iso_urb ep pkts mps).transfer.timeout = ISO_TIMEOUT ∧
    (usbredirhost_iso_urb ep pkts mps).transfer.callback =
      Callback.usbredirhost_iso_packet_complete ∧
    (usbredirhost_iso_urb ep pkts mps).iso_packet_idx = 0 ∧
    (usbredirhost_iso_urb ep pkts mps).cancelled = false ∧
    (usbredirhost_iso_urb ep pkts mps).id = 0 := by
  refine ⟨rfl, ?_, rfl, rfl, rfl, rfl, rfl, rfl, rfl, rfl, rfl⟩
  simp [usbredirhost_iso_urb, libusb_set_iso_packet_lengths, libusb_fill_iso_transfer,
    libusb_alloc_transfer]
  exact Or.inr ⟨rfl, rfl⟩

/-- One round of the allocation loop when no allocation fails. -/
theorem alloc_iso_stream_step_ok (ep pkts i : Nat) (s : State)
    (h : ∀ b ∈ s.usb.mem, b = true) :
    (usbredirhost_alloc_iso_stream_step ep pkts s i).2 = true ∧
    (∀ b ∈ (usbredirhost_alloc_iso_stream_step ep pkts s i).1.usb.mem, b = true) ∧
    (usbredirhost_alloc_iso_stream_step ep pkts s i).1.next_ptr = s.next_ptr + 1 ∧
    (usbredirhost_alloc_iso_stream_step ep pkts s i).1.host =
      (s.modifyEp (EP2I ep) fun e =>
        { e with iso_transfer := Function.update e.iso_transfer i (s.next_ptr + 1) }).host ∧
    (usbredirhost_alloc_iso_stream_step ep pkts s i).1.heap =
      Function.update s.heap (s.next_ptr + 1)
        (some (usbredirhost_iso_urb ep pkts (s.host.endpoint (EP2I ep)).max_packetsize)) ∧
    (usbredirhost_alloc_iso_stream_step ep pkts s i).1.parser = s.parser := by
  obtain ⟨a1, m1⟩ := alloc_true s h
  obtain ⟨a2, m2⟩ := alloc_true _ m1
  have ha : usbredirhost_alloc_transfer s pkts =
      ({ s.alloc.1.alloc.1 with
          heap := Function.update s.heap (s.next_ptr + 1)
            (some { (default : usbredirtransfer) with
                      transfer := libusb_alloc_transfer pkts })
          next_ptr := s.next_ptr + 1 }, s.next_ptr + 1) := by
    unfold usbredirhost_alloc_transfer
    simp only [a1, a2]
    rfl
  obtain ⟨a3, m3⟩ := alloc_true
    (State.modifyEp { s.alloc.1.alloc.1 with
          heap := Function.update s.heap (s.next_ptr + 1)
            (some { (default : usbredirtransfer) with
                      transfer := libusb_alloc_transfer pkts })
          next_ptr := s.next_ptr + 1 } (EP2I ep) fun e =>
      { e with iso_transfer := Function.update e.iso_transfer i (s.next_ptr + 1) }) m2
  unfold usbredirhost_alloc_iso_stream_step
  simp only [ha, Nat.succ_ne_zero, Nat.add_one_ne_zero, if_false, a3, Bool.not_true,
    Bool.false_eq_true]
  refine ⟨trivial, ?_, ?_, ?_, ?_, ?_⟩
  · exact m3
  · rfl
  · rfl
  · simp [State.modify, State.modifyEp, State.alloc, usbredirhost_iso_urb]
  · rfl

/-- The allocation loop over the ring indices `a .. a + n - 1` when no
allocation fails: it runs to its end, slot `a + j` of the ring holds the
address `next_ptr + j + 1`, each of these addresses holds a fresh ring URB, and
nothing else changes in the endpoint table, the heap, the host or the parser. -/
theorem alloc_iso_stream_loop_ok (ep pkts : Nat) (n : Nat) :
    ∀ (a : Nat) (s : State), (∀ b ∈ s.usb.mem, b = true) →
    (usbredirhost_alloc_iso_stream_loop ep pkts s (List.range' a n)).2 = none ∧
    (∀ i, ((usbredirhost_alloc_iso_stream_loop ep pkts s (List.range' a n)).1.host.endpoint
        (EP2I ep)).iso_transfer i =
      if a ≤ i ∧ i < a + n then s.next_ptr + (i - a) + 1
      else (s.host.endpoint (EP2I ep)).iso_transfer i) ∧
    (usbredirhost_alloc_iso_stream_loop ep pkts s (List.range' a n)).1.host.endpoint (EP2I ep) =
      { s.host.endpoint (EP2I ep) with
        iso_transfer := ((usbredirhost_alloc_iso_stream_loop ep pkts s
          (List.range' a n)).1.host.endpoint (EP2I ep)).iso_transfer } ∧
    (∀ j, j ≠ EP2I ep →
      (usbredirhost_alloc_iso_stream_loop ep pkts s (List.range' a n)).1.host.endpoint j =
        s.host.endpoint j) ∧
    (usbredirhost_alloc_iso_stream_loop ep pkts s (List.range' a n)).1.host =
      { s.host with
        endpoint := (usbredirhost_alloc_iso_stream_loop ep pkts s
          (List.range' a n)).1.host.endpoint } ∧
    (∀ p, (usbredirhost_alloc_iso_stream_loop ep pkts s (List.range' a n)).1.heap p =
      if s.next_ptr < p ∧ p ≤ s.next_ptr + n then
        some (usbredirhost_iso_urb ep pkts (s.host.endpoint (EP2I ep)).max_packetsize)
      else s.heap p) ∧
    (usbredirhost_alloc_iso_stream_loop ep pkts s (List.range' a n)).1.next_ptr =
      s.next_ptr + n ∧
    (usbredirhost_alloc_iso_stream_loop ep pkts s (List.range' a n)).1.parser = s.parser := by
  induction n with
  | zero =>
    intro a s _
    refine ⟨rfl, ?_, rfl, fun _ _ => rfl, rfl, ?_, rfl, rfl⟩
    · intro i
      rw [if_neg (by omega)]
      rfl
    · intro p
      rw [if_neg (by omega)]
      rfl
  | succ n ih =>
    intro a s h
    obtain ⟨h1, h2, h3, h4, h5, h6⟩ := alloc_iso_stream_step_ok ep pkts a s h
    have hl : usbredirhost_alloc_iso_stream_loop ep pkts s (List.range' a (n + 1)) =
        usbredirhost_alloc_iso_stream_loop ep pkts
          (usbredirhost_alloc_iso_stream_step ep pkts s a).1 (List.range' (a + 1) n) := by
      rw [List.range'_succ]
      conv => lhs; unfold usbredirhost_alloc_iso_stream_loop
      simp only [h1, Bool.not_true, Bool.false_eq_true, if_false]
    rw [hl]
    generalize (usbredirhost_alloc_iso_stream_step ep pkts s a).1 = s1 at h2 h3 h4 h5 h6 ⊢
    obtain ⟨i1, i2, i3, i4, i5, i6, i7, i8⟩ := ih (a + 1) s1 h2
    have he : s1.host.endpoint (EP2I ep) =
        { s.host.endpoint (EP2I ep) with
          iso_transfer := Function.update (s.host.endpoint (EP2I ep)).iso_transfer a
            (s.next_ptr + 1) } := by
      rw [h4]; simp [State.modifyEp]
    have hj : ∀ j, j ≠ EP2I ep → s1.host.endpoint j = s.host.endpoint j := by
      intro j hj
      rw [h4]; simp [State.modifyEp, Function.update, hj]
    refine ⟨i1, ?_, ?_, ?_, ?_, ?_, ?_, ?_⟩
    · intro i
      rw [i2 i, he, h3]
      by_cases hia : i = a
      · subst hia
        simp
      · simp only [Function.update, hia, dite_false]
        by_cases hc : a + 1 ≤ i ∧ i < a + 1 + n
        · rw [if_pos hc, if_pos (by omega)]
          omega
        · rw [if_neg hc, if_neg (by omega)]
    · rw [i3, he]
    · intro j hjne
      rw [i4 j hjne, hj j hjne]
    · rw [i5, h4]
      rfl
    · intro p
      rw [i6 p, h5, h3, he]
      by_cases hp : p = s.next_ptr + 1
      · subst hp
        simp
      · simp only [Function.update, hp, dite_false]
        by_cases hc : s.next_ptr + 1 < p ∧ p ≤ s.next_ptr + 1 + n
        · rw [if_pos hc, if_pos (by omega)]
        · rw [if_neg hc, if_neg (by omega)]
    · rw [i7, h3]; omega
    · rw [i8, h6]

/-- C10: when no memory allocation fails, `usbredirhost_alloc_iso_stream`
returns success exactly when the endpoint slot has type iso, `1 <= pkts <= 32`,
`1 <= count <= 16` and the slot has no stream; otherwise it returns inval and
leaves the whole state unchanged.  On success the slot keeps its other fields
and has `iso_out_idx = 0`, `iso_drop_packets = 0`, the geometry
`(pkts, count)` and, in ring slots `0 .. count - 1`, `count` distinct non-null
URBs, each a fresh record of `pkts` packets of `max_packetsize` bytes. -/
theorem C10_alloc_iso_stream (s : State) (ep pkts count : Nat)
    (hmem : ∀ b ∈ s.usb.mem, b = true) :
    ((usbredirhost_alloc_iso_stream s ep pkts count).2 = usb_redir_success ↔
      ((s.host.endpoint (EP2I ep)).type = usb_redir_type_iso ∧ 1 ≤ pkts ∧ pkts ≤ 32 ∧
        1 ≤ count ∧ count ≤ 16 ∧ (s.host.endpoint (EP2I ep)).iso_transfer_count = 0)) ∧
    ((usbredirhost_alloc_iso_stream s ep pkts count).2 ≠ usb_redir_success →
      (usbredirhost_alloc_iso_stream s ep pkts count).2 = usb_redir_inval ∧
      (usbredirhost_alloc_iso_stream s ep pkts count).1 = s) ∧
    ((usbredirhost_alloc_iso_stream s ep pkts count).2 = usb_redir_success →
      (usbredirhost_alloc_iso_stream s ep pkts count).1.host.endpoint (EP2I ep) =
        { s.host.endpoint (EP2I ep) with
          iso_out_idx := 0
          iso_drop_packets := 0
          iso_pkts_per_transfer := pkts
          iso_transfer_count := count
          iso_transfer := fun i =>
            if i < count then s.next_ptr + i + 1
            else (s.host.endpoint (EP2I ep)).iso_transfer i } ∧
      (∀ i, i < count →
        (usbredirhost_alloc_iso_stream s ep pkts count).1.heap (s.next_ptr + i + 1) =
          some (usbredirhost_iso_urb ep pkts (s.host.endpoint (EP2I ep)).max_packetsize)) ∧
      (usbredirhost_iso_urb ep pkts
          (s.host.endpoint (EP2I ep)).max_packetsize).transfer.num_iso_packets = pkts ∧
      (usbredirhost_iso_urb ep pkts
          (s.host.endpoint (EP2I ep)).max_packetsize).transfer.iso_packet_desc =
        List.replicate pkts
          { length := (s.host.endpoint (EP2I ep)).max_packetsize, actual_length := 0,
            status := 0 } ∧
      (usbredirhost_iso_urb ep pkts
          (s.host.endpoint (EP2I ep)).max_packetsize).iso_packet_idx = 0) := by
  have hfields := iso_urb_fields ep pkts (s.host.endpoint (EP2I ep)).max_packetsize
  obtain ⟨l1, l2, l3, l4, l5, l6, l7, l8⟩ := alloc_iso_stream_loop_ok ep pkts count 0 s hmem
  rw [← List.range_eq_range'] at l1 l2 l3 l4 l5 l6 l7 l8
  by_cases hc : (s.host.endpoint (EP2I ep)).type = usb_redir_type_iso ∧ 1 ≤ pkts ∧ pkts ≤ 32 ∧
      1 ≤ count ∧ count ≤ 16 ∧ (s.host.endpoint (EP2I ep)).iso_transfer_count = 0
  · obtain ⟨c1, c2, c3, c4, c5, c6⟩ := hc
    have hr : usbredirhost_alloc_iso_stream s ep pkts count =
        ((usbredirhost_alloc_iso_stream_loop ep pkts s (List.range count)).1.modifyEp (EP2I ep)
          fun e =>
            { e with
              iso_out_idx := 0
              iso_drop_packets := 0
              iso_pkts_per_transfer := pkts
              iso_transfer_count := count }, usb_redir_success) := by
      unfold usbredirhost_alloc_iso_stream
      rw [if_neg (by simp [c1]), if_neg (by
        simp only [MAX_ISO_PACKETS_PER_TRANSFER, MAX_ISO_TRANSFER_COUNT]; omega),
        if_neg (by simp [c6])]
      simp only [l1]
    rw [hr]
    refine ⟨⟨fun _ => ⟨c1, c2, c3, c4, c5, c6⟩, fun _ => rfl⟩, fun h => absurd rfl h, fun _ => ?_⟩
    refine ⟨?_, ?_, hfields.1, hfields.2.1, hfields.2.2.2.2.2.2.2.2.1⟩
    · simp only [State.modifyEp, Function.update_same]
      rw [l3]
      simp only [usbredirhost_ep.mk.injEq, true_and, and_true]
      funext i
      rw [l2 i]
      simp
    · intro i hi
      show (usbredirhost_alloc_iso_stream_loop ep pkts s (List.range count)).1.heap _ = _
      rw [l6, if_pos (by omega)]
  · have hr : usbredirhost_alloc_iso_stream s ep pkts count = (s, usb_redir_inval) := by
      unfold usbredirhost_alloc_iso_stream
      simp only [MAX_ISO_PACKETS_PER_TRANSFER, MAX_ISO_TRANSFER_COUNT]
      split_ifs with h1 h2 h3
      · rfl
      · rfl
      · rfl
      · exfalso
        apply hc
        refine ⟨by simpa using h1, ?_, ?_, ?_, ?_, by simpa using h3⟩ <;> omega
    rw [hr]
    refine ⟨⟨fun h => ?_, fun h => absurd h hc⟩, fun _ => ⟨rfl, rfl⟩, fun h => ?_⟩
    · exact absurd h (by simp [usb_redir_inval, usb_redir_success])
    · exact absurd h (by simp [usb_redir_inval, usb_redir_success])

set_option maxRecDepth 100000 in
/-- Witness of C10 on the connected example host and its iso endpoint 0x81:
the geometry 8 x 4 is accepted, as are the boundary values 1, 32 and 1, 16;
`pkts` 0 and 33 and `count` 0 and 17 are rejected, and so is a second stream
on the endpoint; a bulk endpoint is rejected. -/
theorem C10_alloc_iso_stream_witness :
    (∀ b ∈ example_connected.usb.mem, b = true) ∧
    (usbredirhost_alloc_iso_stream example_connected 0x81 8 4).2 = usb_redir_success ∧
    (usbredirhost_alloc_iso_stream example_connected 0x81 1 1).2 = usb_redir_success ∧
    (usbredirhost_alloc_iso_stream example_connected 0x81 32 16).2 = usb_redir_success ∧
    (usbredirhost_alloc_iso_stream example_connected 0x81 0 4).2 = usb_redir_inval ∧
    (usbredirhost_alloc_iso_stream example_connected 0x81 33 4).2 = usb_redir_inval ∧
    (usbredirhost_alloc_iso_stream example_connected 0x81 8 0).2 = usb_redir_inval ∧
    (usbredirhost_alloc_iso_stream example_connected 0x81 8 17).2 = usb_redir_inval ∧
    (usbredirhost_alloc_iso_stream example_connected 0x02 8 4).2 = usb_redir_inval ∧
    (usbredirhost_alloc_iso_stream example_streaming 0x81 8 4).2 = usb_redir_inval :=
  have hm : ∀ b ∈ example_connected.usb.mem, b = true := by decide
  have hm' : ∀ b ∈ example_streaming.usb.mem, b = true := by decide
  have rej : ∀ (s : State) (ep pkts count : Nat), (∀ b ∈ s.usb.mem, b = true) →
      ¬((s.host.endpoint (EP2I ep)).type = usb_redir_type_iso ∧ 1 ≤ pkts ∧ pkts ≤ 32 ∧
        1 ≤ count ∧ count ≤ 16 ∧ (s.host.endpoint (EP2I ep)).iso_transfer_count = 0) →
      (usbredirhost_alloc_iso_stream s ep pkts count).2 = usb_redir_inval :=
    fun s ep pkts count h hn =>
      ((C10_alloc_iso_stream s ep pkts count h).2.1
        (fun hs => hn ((C10_alloc_iso_stream s ep pkts count h).1.mp hs))).1
  ⟨hm,
   (C10_alloc_iso_stream example_connected 0x81 8 4 hm).1.mpr (by decide),
   (C10_alloc_iso_stream example_connected 0x81 1 1 hm).1.mpr (by decide),
   (C10_alloc_iso_stream example_connected 0x81 32 16 hm).1.mpr (by decide),
   rej _ _ _ _ hm (by decide), rej _ _ _ _ hm (by decide), rej _ _ _ _ hm (by decide),
   rej _ _ _ _ hm (by decide), rej _ _ _ _ hm (by decide), rej _ _ _ _ hm' (by decide)⟩



/-! ### Starting an iso stream -/

/-- C11 (as amended): when a connected host receives start_iso_stream on a
non-iso endpoint, or with `pkts_per_urb` outside 1..32, or with `no_urbs`
outside 1..16, or for an endpoint that already has a stream, the whole state is
unchanged except that exactly one iso-stream-status for that endpoint,
carrying the request id, is appended to the log; its status is stall: the
handler replaces the inval of `usbredirhost_alloc_iso_stream` by stall. -/
theorem C11_start_iso_stream_rejected (s : State) (id : Nat)
    (h : usb_redir_start_iso_stream_header)
    (hd : s.host.disconnected = false)
    (hrej : (s.host.endpoint (EP2I h.endpoint)).type ≠ usb_redir_type_iso ∨
      h.pkts_per_urb < 1 ∨ 32 < h.pkts_per_urb ∨ h.no_urbs < 1 ∨ 16 < h.no_urbs ∨
      (s.host.endpoint (EP2I h.endpoint)).iso_transfer_count ≠ 0) :
    usbredirhost_start_iso_stream s id h =
      s.send (.iso_stream_status id { endpoint := h.endpoint, status := usb_redir_stall }) := by
  have ha : usbredirhost_alloc_iso_stream s h.endpoint h.pkts_per_urb h.no_urbs =
      (s, usb_redir_inval) := by
    unfold usbredirhost_alloc_iso_stream
    simp only [MAX_ISO_PACKETS_PER_TRANSFER, MAX_ISO_TRANSFER_COUNT]
    split_ifs with h1 h2 h3
    · rfl
    · rfl
    · rfl
    · exfalso
      rcases hrej with h' | h' | h' | h' | h' | h'
      · exact h1 h'
      · exact h2 (Or.inl h')
      · exact h2 (Or.inr (Or.inl h'))
      · exact h2 (Or.inr (Or.inr (Or.inl h')))
      · exact h2 (Or.inr (Or.inr (Or.inr h')))
      · exact h3 h'
  unfold usbredirhost_start_iso_stream
  simp only [hd, ha, Bool.false_eq_true, if_false]
  rw [if_pos (by decide)]
  rfl

set_option maxRecDepth 100000 in
/-- Witness of C11 on the connected example host: a start on the bulk endpoint
0x02 is answered by one iso-stream-status with status stall. -/
theorem C11_start_iso_stream_rejected_witness :
    usbredirhost_start_iso_stream example_connected 7
        { endpoint := 0x02, pkts_per_urb := 8, no_urbs := 4 } =
      example_connected.send
        (.iso_stream_status 7 { endpoint := 0x02, status := usb_redir_stall }) :=
  C11_start_iso_stream_rejected example_connected 7
    { endpoint := 0x02, pkts_per_urb := 8, no_urbs := 4 } (by decide) (Or.inl (by decide))

set_option maxRecDepth 100000 in
/-- Counterexample to C11 as stated: the connected example host receives
start_iso_stream with id 7 on its bulk endpoint 0x02 (a non-iso endpoint); the
one packet it sends is an iso-stream-status whose status is stall, not
inval. -/
theorem C11_start_iso_stream_inval_counterexample :
    example_connected.host.disconnected = false ∧
    (example_connected.host.endpoint (EP2I 0x02)).type ≠ usb_redir_type_iso ∧
    (usbredirhost_start_iso_stream example_connected 7
        { endpoint := 0x02, pkts_per_urb := 8, no_urbs := 4 }).parser.sent =
      example_connected.parser.sent ++
        [.iso_stream_status 7 { endpoint := 0x02, status := usb_redir_stall }] ∧
    (usbredirhost_start_iso_stream example_connected 7
        { endpoint := 0x02, pkts_per_urb := 8, no_urbs := 4 }).parser.sent ≠
      example_connected.parser.sent ++
        [.iso_stream_status 7 { endpoint := 0x02, status := usb_redir_inval }] := by
  decide


/-! ### Submitting and allocating the URBs of a ring -/

theorem ret_nonneg_head (s : State) (h : ∀ r ∈ s.usb.ret, 0 ≤ r) :
    0 ≤ s.usb.ret.headD 0 ∧ (∀ r ∈ s.usb.ret.tail, 0 ≤ r) := by
  cases hm : s.usb.ret with
  | nil => simp
  | cons b l =>
    rw [hm] at h
    refine ⟨h b (by simp), fun c hc => h c ?_⟩
    simp at hc ⊢
    exact Or.inr hc

theorem submit_iso_transfer_unlocked_ok (s : State) (p : Nat)
    (h : 0 ≤ s.usb.ret.headD 0) :
    usbredirhost_submit_iso_transfer_unlocked s p =
      (({ s with usb := { s.usb with
            calls := s.usb.calls ++ [.submit_transfer p]
            ret := s.usb.ret.tail
            inflight := s.usb.inflight ++ [p] } } : State).modify p fun t =>
          { t with iso_packet_idx := ISO_SUBMITTED_IDX }, usb_redir_success) := by
  unfold usbredirhost_submit_iso_transfer_unlocked libusb_submit_transfer State.call
  simp only [not_lt.mpr h, if_false]

/-- The submission loop of an input ring whose slots `a .. a + n - 1` hold the
addresses `base + i + 1`, when every submission succeeds: it runs to its end,
each of these records gets the id `i * iso_pkts_per_transfer` and is marked
submitted, the submissions are logged in ring order, and nothing else
changes. -/
theorem submit_iso_in_ring_ok (ep base : Nat) (n : Nat) :
    ∀ (a : Nat) (s : State), (∀ r ∈ s.usb.ret, 0 ≤ r) →
    (∀ i, a ≤ i → i < a + n →
      (s.host.endpoint (EP2I ep)).iso_transfer i = base + i + 1) →
    (usbredirhost_submit_iso_in_ring ep s (List.range' a n)).2 = true ∧
    (usbredirhost_submit_iso_in_ring ep s (List.range' a n)).1.host = s.host ∧
    (usbredirhost_submit_iso_in_ring ep s (List.range' a n)).1.parser = s.parser ∧
    (usbredirhost_submit_iso_in_ring ep s (List.range' a n)).1.next_ptr = s.next_ptr ∧
    (∀ p, (usbredirhost_submit_iso_in_ring ep s (List.range' a n)).1.heap p =
      if base + a < p ∧ p ≤ base + a + n then
        (s.heap p).map fun t =>
          { t with
            id := ((p - base - 1) * (s.host.endpoint (EP2I ep)).iso_pkts_per_transfer) % 2 ^ 32
            iso_packet_idx := ISO_SUBMITTED_IDX }
      else s.heap p) ∧
    (usbredirhost_submit_iso_in_ring ep s (List.range' a n)).1.usb.calls =
      s.usb.calls ++ (List.range' a n).map (fun i => LibusbCall.submit_transfer (base + i + 1)) ∧
    (usbredirhost_submit_iso_in_ring ep s (List.range' a n)).1.usb.inflight =
      s.usb.inflight ++ (List.range' a n).map (fun i => base + i + 1) := by
  induction n with
  | zero =>
    intro a s _ _
    refine ⟨rfl, rfl, rfl, rfl, ?_, ?_, ?_⟩
    · intro p
      rw [if_neg (by omega)]
      rfl
    · simp [usbredirhost_submit_iso_in_ring]
    · simp [usbredirhost_submit_iso_in_ring]
  | succ n ih =>
    intro a s hret hring
    have hslot := hring a (Nat.le_refl a) (by omega)
    obtain ⟨r1, r2⟩ := ret_nonneg_head s hret
    obtain ⟨s0, hs0⟩ : ∃ s0 : State, s0 = s.modify (base + a + 1) fun t =>
        { t with id := (a * (s.host.endpoint (EP2I ep)).iso_pkts_per_transfer) % 2 ^ 32 } :=
      ⟨_, rfl⟩
    obtain ⟨s1, hs1⟩ : ∃ s1 : State, s1 =
        ({ s0 with usb := { s0.usb with
            calls := s0.usb.calls ++ [.submit_transfer (base + a + 1)]
            ret := s0.usb.ret.tail
            inflight := s0.usb.inflight ++ [base + a + 1] } } : State).modify (base + a + 1)
          fun t => { t with iso_packet_idx := ISO_SUBMITTED_IDX } := ⟨_, rfl⟩
    have hl : usbredirhost_submit_iso_in_ring ep s (List.range' a (n + 1)) =
        usbredirhost_submit_iso_in_ring ep s1 (List.range' (a + 1) n) := by
      rw [List.range'_succ]
      conv => lhs; unfold usbredirhost_submit_iso_in_ring
      simp only [hslot]
      rw [← hs0, submit_iso_transfer_unlocked_ok _ _ (by rw [hs0]; exact r1), ← hs1]
      simp only [ne_eq, not_true_eq_false, if_false]
    have h1 : s1.host = s.host := by rw [hs1, hs0]; rfl
    have h2 : s1.parser = s.parser := by rw [hs1, hs0]; rfl
    have h3 : s1.next_ptr = s.next_ptr := by rw [hs1, hs0]; rfl
    have h4 : s1.heap = Function.update s.heap (base + a + 1)
          ((s.heap (base + a + 1)).map fun t =>
            { t with
              id := (a * (s.host.endpoint (EP2I ep)).iso_pkts_per_transfer) % 2 ^ 32
              iso_packet_idx := ISO_SUBMITTED_IDX }) := by
      rw [hs1, hs0]
      simp [State.modify, Option.map_map, Function.comp_def]
    have h5 : s1.usb.ret = s.usb.ret.tail := by rw [hs1, hs0]; rfl
    have h6 : s1.usb.calls = s.usb.calls ++ [.submit_transfer (base + a + 1)] := by
      rw [hs1, hs0]; rfl
    have h7 : s1.usb.inflight = s.usb.inflight ++ [base + a + 1] := by rw [hs1, hs0]; rfl
    clear hs1 hs0
    rw [hl]
    obtain ⟨i1, i2, i3, i4, i5, i6, i7⟩ := ih (a + 1) s1 (by rw [h5]; exact r2)
      (fun i h1' h2' => by rw [h1]; exact hring i (by omega) (by omega))
    refine ⟨i1, ?_, ?_, ?_, ?_, ?_, ?_⟩
    · rw [i2, h1]
    · rw [i3, h2]
    · rw [i4, h3]
    · intro p
      rw [i5 p, h4, h1]
      by_cases hp : p = base + a + 1
      · subst hp
        rw [if_neg (by omega), if_pos (by omega)]
        have ha : base + a + 1 - base - 1 = a := by omega
        simp [ha]
      · by_cases hc : base + (a + 1) < p ∧ p ≤ base + (a + 1) + n
        · rw [if_pos hc, if_pos (by omega)]
          simp [Function.update, hp]
        · rw [if_neg hc, if_neg (by omega)]
          simp [Function.update, hp]
    · rw [i6, h6]
      simp [List.range'_succ]
    · rw [i7, h7]
      simp [List.range'_succ]

theorem alloc_transfer_usb (s : State) (n : Nat) :
    (usbredirhost_alloc_transfer s n).1.usb =
      { s.usb with mem := (usbredirhost_alloc_transfer s n).1.usb.mem } := by
  unfold usbredirhost_alloc_transfer
  simp only []
  split_ifs <;> rfl

theorem alloc_iso_stream_step_usb (ep pkts i : Nat) (s : State) :
    (usbredirhost_alloc_iso_stream_step ep pkts s i).1.usb =
      { s.usb with mem := (usbredirhost_alloc_iso_stream_step ep pkts s i).1.usb.mem } := by
  have h := alloc_transfer_usb s pkts
  unfold usbredirhost_alloc_iso_stream_step
  simp only []
  split_ifs
  · simp only [State.modifyEp]; rw [h]
  · simp only [State.alloc, State.modifyEp]; rw [h]
  · simp only [State.alloc, State.modifyEp, State.modify]; rw [h]

theorem alloc_iso_stream_loop_usb (ep pkts : Nat) (l : List Nat) :
    ∀ s : State, (usbredirhost_alloc_iso_stream_loop ep pkts s l).1.usb =
      { s.usb with mem := (usbredirhost_alloc_iso_stream_loop ep pkts s l).1.usb.mem } := by
  induction l with
  | nil => intro s; rfl
  | cons i l ih =>
    intro s
    unfold usbredirhost_alloc_iso_stream_loop
    simp only []
    split_ifs
    · exact alloc_iso_stream_step_usb ep pkts i s
    · rw [ih, alloc_iso_stream_step_usb ep pkts i s]

/-- An accepted `usbredirhost_alloc_iso_stream` when no allocation fails: the
whole resulting state. -/
theorem alloc_iso_stream_ok (s : State) (ep pkts count : Nat)
    (hmem : ∀ b ∈ s.usb.mem, b = true)
    (htype : (s.host.endpoint (EP2I ep)).type = usb_redir_type_iso)
    (hp : 1 ≤ pkts ∧ pkts ≤ 32) (hc : 1 ≤ count ∧ count ≤ 16)
    (hnone : (s.host.endpoint (EP2I ep)).iso_transfer_count = 0) :
    (usbredirhost_alloc_iso_stream s ep pkts count).2 = usb_redir_success ∧
    (usbredirhost_alloc_iso_stream s ep pkts count).1.host =
      (s.modifyEp (EP2I ep) fun e =>
        { e with
          iso_out_idx := 0
          iso_drop_packets := 0
          iso_pkts_per_transfer := pkts
          iso_transfer_count := count
          iso_transfer := fun i =>
            if i < count then s.next_ptr + i + 1 else e.iso_transfer i }).host ∧
    (∀ p, (usbredirhost_alloc_iso_stream s ep pkts count).1.heap p =
      if s.next_ptr < p ∧ p ≤ s.next_ptr + count then
        some (usbredirhost_iso_urb ep pkts (s.host.endpoint (EP2I ep)).max_packetsize)
      else s.heap p) ∧
    (usbredirhost_alloc_iso_stream s ep pkts count).1.next_ptr = s.next_ptr + count ∧
    (usbredirhost_alloc_iso_stream s ep pkts count).1.parser = s.parser ∧
    (usbredirhost_alloc_iso_stream s ep pkts count).1.usb =
      { s.usb with mem := (usbredirhost_alloc_iso_stream s ep pkts count).1.usb.mem } := by
  obtain ⟨l1, l2, l3, l4, l5, l6, l7, l8⟩ := alloc_iso_stream_loop_ok ep pkts count 0 s hmem
  have l9 := alloc_iso_stream_loop_usb ep pkts (List.range' 0 count) s
  rw [← List.range_eq_range'] at l1 l2 l3 l4 l5 l6 l7 l8 l9
  have hr : usbredirhost_alloc_iso_stream s ep pkts count =
      ((usbredirhost_alloc_iso_stream_loop ep pkts s (List.range count)).1.modifyEp (EP2I ep)
        fun e =>
          { e with
            iso_out_idx := 0
            iso_drop_packets := 0
            iso_pkts_per_transfer := pkts
            iso_transfer_count := count }, usb_redir_success) := by
    unfold usbredirhost_alloc_iso_stream
    rw [if_neg (by simp [htype]), if_neg (by
      simp only [MAX_ISO_PACKETS_PER_TRANSFER, MAX_ISO_TRANSFER_COUNT]; omega),
      if_neg (by simp [hnone])]
    simp only [l1]
  rw [hr]
  refine ⟨rfl, ?_, ?_, l7, l8, l9⟩
  · simp only [State.modifyEp]
    rw [l5]
    simp only [usbredirhost.mk.injEq, true_and, and_true]
    funext j
    by_cases hj : j = EP2I ep
    · subst hj
      simp only [Function.update_same]
      rw [l3]
      simp only [usbredirhost_ep.mk.injEq, true_and, and_true]
      funext i
      rw [l2 i]
      simp
    · simp only [Function.update_noteq hj]
      exact l4 j hj
  · intro p
    show (usbredirhost_alloc_iso_stream_loop ep pkts s (List.range count)).1.heap p = _
    rw [l6]



/-- C12: for a connected host and an accepted start_iso_stream(ep, pkts,
count), no allocation and no native submission failing: exactly one
iso-stream-status with status success is sent and the ring of `count` URBs is
allocated in slots `0 .. count - 1`.  On an IN endpoint the URBs are submitted
in ring order, URB i with id `i * pkts`, every URB is marked SUBMITTED and
`iso_started` is set.  On an OUT endpoint no URB is submitted (the libusb call
log is unchanged), the URBs are the fresh records and `iso_started` keeps its
value. -/
theorem C12_start_iso_stream_accepted (s : State) (id : Nat)
    (h : usb_redir_start_iso_stream_header)
    (hd : s.host.disconnected = false)
    (hmem : ∀ b ∈ s.usb.mem, b = true) (hret : ∀ r ∈ s.usb.ret, 0 ≤ r)
    (htype : (s.host.endpoint (EP2I h.endpoint)).type = usb_redir_type_iso)
    (hp : 1 ≤ h.pkts_per_urb ∧ h.pkts_per_urb ≤ 32)
    (hc : 1 ≤ h.no_urbs ∧ h.no_urbs ≤ 16)
    (hnone : (s.host.endpoint (EP2I h.endpoint)).iso_transfer_count = 0) :
    (usbredirhost_start_iso_stream s id h).parser.sent =
      s.parser.sent ++
        [.iso_stream_status id { endpoint := h.endpoint, status := usb_redir_success }] ∧
    ((usbredirhost_start_iso_stream s id h).host.endpoint (EP2I h.endpoint)).iso_transfer_count
      = h.no_urbs ∧
    ((usbredirhost_start_iso_stream s id h).host.endpoint
      (EP2I h.endpoint)).iso_pkts_per_transfer = h.pkts_per_urb ∧
    (∀ i, i < h.no_urbs →
      ((usbredirhost_start_iso_stream s id h).host.endpoint (EP2I h.endpoint)).iso_transfer i
        = s.next_ptr + i + 1) ∧
    (h.endpoint &&& LIBUSB_ENDPOINT_IN ≠ 0 →
      (usbredirhost_start_iso_stream s id h).usb.calls =
        s.usb.calls ++
          (List.range h.no_urbs).map (fun i => LibusbCall.submit_transfer (s.next_ptr + i + 1)) ∧
      (∀ i, i < h.no_urbs →
        (usbredirhost_start_iso_stream s id h).heap (s.next_ptr + i + 1) =
          some { usbredirhost_iso_urb h.endpoint h.pkts_per_urb
                   (s.host.endpoint (EP2I h.endpoint)).max_packetsize with
                 id := i * h.pkts_per_urb
                 iso_packet_idx := ISO_SUBMITTED_IDX }) ∧
      ((usbredirhost_start_iso_stream s id h).host.endpoint (EP2I h.endpoint)).iso_started
        = true) ∧
    (h.endpoint &&& LIBUSB_ENDPOINT_IN = 0 →
      (usbredirhost_start_iso_stream s id h).usb.calls = s.usb.calls ∧
      (∀ i, i < h.no_urbs →
        (usbredirhost_start_iso_stream s id h).heap (s.next_ptr + i + 1) =
          some (usbredirhost_iso_urb h.endpoint h.pkts_per_urb
                  (s.host.endpoint (EP2I h.endpoint)).max_packetsize)) ∧
      ((usbredirhost_start_iso_stream s id h).host.endpoint (EP2I h.endpoint)).iso_started
        = (s.host.endpoint (EP2I h.endpoint)).iso_started) := by
  obtain ⟨a1, a2, a3, a4, a5, a6⟩ :=
    alloc_iso_stream_ok s h.endpoint h.pkts_per_urb h.no_urbs hmem htype hp hc hnone
  have hcnt : ((usbredirhost_alloc_iso_stream s h.endpoint h.pkts_per_urb
      h.no_urbs).1.host.endpoint (EP2I h.endpoint)).iso_transfer_count = h.no_urbs := by
    rw [a2]; simp [State.modifyEp]
  have hpk : ((usbredirhost_alloc_iso_stream s h.endpoint h.pkts_per_urb
      h.no_urbs).1.host.endpoint (EP2I h.endpoint)).iso_pkts_per_transfer = h.pkts_per_urb := by
    rw [a2]; simp [State.modifyEp]
  have hring : ∀ i, i < h.no_urbs → ((usbredirhost_alloc_iso_stream s h.endpoint h.pkts_per_urb
      h.no_urbs).1.host.endpoint (EP2I h.endpoint)).iso_transfer i = s.next_ptr + i + 1 := by
    intro i hi
    rw [a2]; simp [State.modifyEp, hi]
  have hst : ((usbredirhost_alloc_iso_stream s h.endpoint h.pkts_per_urb
      h.no_urbs).1.host.endpoint (EP2I h.endpoint)).iso_started =
      (s.host.endpoint (EP2I h.endpoint)).iso_started := by
    rw [a2]; simp [State.modifyEp]
  have hcalls : (usbredirhost_alloc_iso_stream s h.endpoint h.pkts_per_urb
      h.no_urbs).1.usb.calls = s.usb.calls := by rw [a6]
  have hrets : (usbredirhost_alloc_iso_stream s h.endpoint h.pkts_per_urb
      h.no_urbs).1.usb.ret = s.usb.ret := by rw [a6]
  by_cases hin : h.endpoint &&& LIBUSB_ENDPOINT_IN ≠ 0
  · obtain ⟨r1, r2, r3, r4, r5, r6, r7⟩ := submit_iso_in_ring_ok h.endpoint s.next_ptr h.no_urbs 0
      (usbredirhost_alloc_iso_stream s h.endpoint h.pkts_per_urb h.no_urbs).1
      (by rw [hrets]; exact hret) (fun i _ hi => hring i (by omega))
    rw [← List.range_eq_range'] at r1 r2 r3 r4 r5 r6 r7
    have he : usbredirhost_start_iso_stream s id h =
        usbredirhost_send_iso_status
          ((usbredirhost_submit_iso_in_ring h.endpoint
            (usbredirhost_alloc_iso_stream s h.endpoint h.pkts_per_urb h.no_urbs).1
            (List.range h.no_urbs)).1.modifyEp (EP2I h.endpoint)
              fun e => { e with iso_started := true }) id h.endpoint usb_redir_success := by
      unfold usbredirhost_start_iso_stream
      simp only [hd, a1, hin, hcnt, r1, Bool.false_eq_true, if_false, ne_eq, not_true_eq_false,
        not_false_eq_true, if_true, Bool.not_true]
    rw [he]
    refine ⟨?_, ?_, ?_, ?_, fun _ => ⟨?_, ?_, ?_⟩, fun h0 => absurd h0 hin⟩
    · show (usbredirhost_submit_iso_in_ring _ _ _).1.parser.sent ++ _ = _
      rw [r3, a5]
    · show (Function.update (usbredirhost_submit_iso_in_ring _ _ _).1.host.endpoint _ _
        (EP2I h.endpoint)).iso_transfer_count = _
      rw [Function.update_same, r2]; exact hcnt
    · show (Function.update (usbredirhost_submit_iso_in_ring _ _ _).1.host.endpoint _ _
        (EP2I h.endpoint)).iso_pkts_per_transfer = _
      rw [Function.update_same, r2]; exact hpk
    · intro i hi
      show (Function.update (usbredirhost_submit_iso_in_ring _ _ _).1.host.endpoint _ _
        (EP2I h.endpoint)).iso_transfer i = _
      rw [Function.update_same, r2]; exact hring i hi
    · show (usbredirhost_submit_iso_in_ring _ _ _).1.usb.calls = _
      rw [r6, hcalls]
    · intro i hi
      show (usbredirhost_submit_iso_in_ring _ _ _).1.heap _ = _
      rw [r5, if_pos (by omega), a3, if_pos (by omega), hpk]
      have hi' : s.next_ptr + i + 1 - s.next_ptr - 1 = i := by omega
      have hlt : i * h.pkts_per_urb < 4294967296 := by
        have : i * h.pkts_per_urb ≤ 16 * 32 := Nat.mul_le_mul (by omega) hp.2
        omega
      simp [hi']
      exact hlt
    · show (Function.update (usbredirhost_submit_iso_in_ring _ _ _).1.host.endpoint _ _
        (EP2I h.endpoint)).iso_started = _
      rw [Function.update_same]
  · have h0 : h.endpoint &&& LIBUSB_ENDPOINT_IN = 0 := by simpa using hin
    have he : usbredirhost_start_iso_stream s id h =
        usbredirhost_send_iso_status
          (usbredirhost_alloc_iso_stream s h.endpoint h.pkts_per_urb h.no_urbs).1
          id h.endpoint usb_redir_success := by
      unfold usbredirhost_start_iso_stream
      simp only [hd, a1, h0, Bool.false_eq_true, if_false, ne_eq, not_true_eq_false]
    rw [he]
    refine ⟨?_, hcnt, hpk, hring, fun h1 => absurd h0 h1, fun _ => ⟨hcalls, ?_, hst⟩⟩
    · show (usbredirhost_alloc_iso_stream _ _ _ _).1.parser.sent ++ _ = _
      rw [a5]
    · intro i hi
      show (usbredirhost_alloc_iso_stream _ _ _ _).1.heap _ = _
      rw [a3, if_pos (by omega)]

set_option maxRecDepth 100000 in
/-- Witness of C12: on the connected example host, start_iso_stream on the iso
IN endpoint 0x81 with `pkts = 8`, `count = 4` submits the four ring URBs and
gives URB 3 the id 24; on the host with the iso OUT endpoint 0x01 the same
command submits nothing. -/
theorem C12_start_iso_stream_accepted_witness :
    ((usbredirhost_start_iso_stream example_connected 7
        { endpoint := 0x81, pkts_per_urb := 8, no_urbs := 4 }).usb.calls =
      example_connected.usb.calls ++
        (List.range 4).map
          (fun i => LibusbCall.submit_transfer (example_connected.next_ptr + i + 1)) ∧
     (usbredirhost_start_iso_stream example_connected 7
        { endpoint := 0x81, pkts_per_urb := 8, no_urbs := 4 }).heap
          (example_connected.next_ptr + 3 + 1) =
       some { usbredirhost_iso_urb 0x81 8
                (example_connected.host.endpoint (EP2I 0x81)).max_packetsize with
              id := 3 * 8
              iso_packet_idx := ISO_SUBMITTED_IDX }) ∧
    (usbredirhost_start_iso_stream example_connected_out 7
        { endpoint := 0x01, pkts_per_urb := 8, no_urbs := 4 }).usb.calls =
      example_connected_out.usb.calls :=
  have hin := (C12_start_iso_stream_accepted example_connected 7
    { endpoint := 0x81, pkts_per_urb := 8, no_urbs := 4 } (by decide) (by decide) (by decide)
    (by decide) (by decide) (by decide) (by decide)).2.2.2.2.1 (by decide)
  ⟨⟨hin.1, hin.2.1 3 (by decide)⟩,
   ((C12_start_iso_stream_accepted example_connected_out 7
    { endpoint := 0x01, pkts_per_urb := 8, no_urbs := 4 } (by decide) (by decide) (by decide)
    (by decide) (by decide) (by decide) (by decide)).2.2.2.2.2 (by decide)).1⟩



/-! ### Completion of an iso input URB -/

/-- The translated status does not depend on the state. -/
theorem translate_status_indep (s s' : State) (r : Int) :
    (libusb_status_or_error_to_redir_status s r).2 =
      (libusb_status_or_error_to_redir_status s' r).2 := by
  unfold libusb_status_or_error_to_redir_status
  simp only [apply_ite Prod.snd]

/-- The iso packet sent for a packet of an input URB depends on the record
only through its libusb transfer, and not on the state. -/
theorem iso_in_packet_indep (s s' : State) (t t' : usbredirtransfer) (id i : Nat)
    (h : t'.transfer = t.transfer) :
    usbredirhost_iso_in_packet s' t' id i = usbredirhost_iso_in_packet s t id i := by
  unfold usbredirhost_iso_in_packet
  simp only [translate_status_indep s' s, h]

/-- The result of `usbredirhost_handle_iso_status` for a status that is not
cancelled, stall or no-device: the state is untouched. -/
theorem handle_iso_status_plain (s : State) (id ep : Nat) (r : Int)
    (h1 : r ≠ LIBUSB_TRANSFER_CANCELLED) (h2 : r ≠ LIBUSB_TRANSFER_STALL)
    (h3 : r ≠ LIBUSB_TRANSFER_NO_DEVICE) :
    usbredirhost_handle_iso_status s id ep r =
      (s, if r = LIBUSB_TRANSFER_COMPLETED ∨ r = -EXDEV then 0 else 1) := by
  unfold usbredirhost_handle_iso_status
  simp only [h1, h2, h3, if_false]
  split_ifs <;> rfl

/-- One round of the per-packet loop on an input URB. -/
theorem iso_packet_complete_loop_step (s : State) (transfer ep : Nat) (t : usbredirtransfer)
    (i : Nat) (rest : List Nat)
    (hheap : s.heap transfer = some t)
    (hep : t.transfer.endpoint = ep) (hin : ep &&& LIBUSB_ENDPOINT_IN ≠ 0)
    (h1 : (t.transfer.iso_packet_desc.getD i default).status ≠ LIBUSB_TRANSFER_CANCELLED)
    (h2 : (t.transfer.iso_packet_desc.getD i default).status ≠ LIBUSB_TRANSFER_STALL)
    (h3 : (t.transfer.iso_packet_desc.getD i default).status ≠ LIBUSB_TRANSFER_NO_DEVICE)
    (h4 : (t.transfer.iso_packet_desc.getD i default).status ≠ LIBUSB_ERROR_NO_DEVICE) :
    usbredirhost_iso_packet_complete_loop transfer ep s (i :: rest) =
      usbredirhost_iso_packet_complete_loop transfer ep
        { s with
          heap := Function.update s.heap transfer (some { t with id := (t.id + 1) % 2 ^ 32 })
          parser := { s.parser with
            sent := s.parser.sent ++ [usbredirhost_iso_in_packet s t t.id i] } } rest := by
  have hd : s.deref transfer = t := by simp [State.deref, hheap]
  have ht : (libusb_status_or_error_to_redir_status s
      (t.transfer.iso_packet_desc.getD i default).status).1 = s := by
    rw [translate_state, if_neg (not_or.mpr ⟨h3, h4⟩)]
  conv => lhs; unfold usbredirhost_iso_packet_complete_loop
  simp only [hd, ht, handle_iso_status_plain _ _ _ _ h1 h2 h3]
  by_cases hc : (t.transfer.iso_packet_desc.getD i default).status = LIBUSB_TRANSFER_COMPLETED ∨
      (t.transfer.iso_packet_desc.getD i default).status = -EXDEV
  · have hc' := hc
    simp only [List.getD_eq_getElem?_getD] at hc'
    simp only [hc, if_true]
    rw [if_neg (by decide), if_neg (by simp), if_pos hin, if_neg (by decide)]
    congr 1
    simp [State.modify, State.send, hheap, usbredirhost_iso_in_packet, hc', hep, hd]
  · have hc' := hc
    simp only [List.getD_eq_getElem?_getD] at hc'
    simp only [hc, if_false]
    simp [State.modify, State.send, hheap, usbredirhost_iso_in_packet, hc', hep, hd, hin]

/-- The per-packet loop on an input URB over the packets `a .. a + m - 1`,
none of whose statuses is cancelled, stall or no-device: it runs to its end,
one iso packet is sent per packet of the URB, in order, under consecutive ids
starting at the id of the record, which advances by `m`; nothing else
changes. -/
theorem iso_packet_complete_loop_in (transfer ep : Nat) (m : Nat) :
    ∀ (a : Nat) (s : State) (t : usbredirtransfer),
    s.heap transfer = some t → t.transfer.endpoint = ep → ep &&& LIBUSB_ENDPOINT_IN ≠ 0 →
    t.id < 2 ^ 32 →
    (∀ i, a ≤ i → i < a + m →
      (t.transfer.iso_packet_desc.getD i default).status ≠ LIBUSB_TRANSFER_CANCELLED ∧
      (t.transfer.iso_packet_desc.getD i default).status ≠ LIBUSB_TRANSFER_STALL ∧
      (t.transfer.iso_packet_desc.getD i default).status ≠ LIBUSB_TRANSFER_NO_DEVICE ∧
      (t.transfer.iso_packet_desc.getD i default).status ≠ LIBUSB_ERROR_NO_DEVICE) →
    usbredirhost_iso_packet_complete_loop transfer ep s (List.range' a m) =
      ({ s with
          heap := Function.update s.heap transfer (some { t with id := (t.id + m) % 2 ^ 32 })
          parser := { s.parser with
            sent := s.parser.sent ++ (List.range' a m).map
              (fun i => usbredirhost_iso_in_packet s t ((t.id + (i - a)) % 2 ^ 32) i) } },
       true) := by
  induction m with
  | zero =>
    intro a s t hheap _ _ hid _
    have h0 : ({ t with id := (t.id + 0) % 2 ^ 32 } : usbredirtransfer) = t := by
      rw [Nat.add_zero, Nat.mod_eq_of_lt hid]
    simp only [List.range', usbredirhost_iso_packet_complete_loop, h0, List.map_nil,
      List.append_nil]
    rw [← hheap, Function.update_eq_self]
  | succ m ih =>
    intro a s t hheap hep hin hid hst
    obtain ⟨h1, h2, h3, h4⟩ := hst a (Nat.le_refl a) (by omega)
    rw [List.range'_succ, iso_packet_complete_loop_step s transfer ep t a _ hheap hep hin
      h1 h2 h3 h4]
    rw [ih (a + 1) _ { t with id := (t.id + 1) % 2 ^ 32 } (by simp) hep hin
      (Nat.mod_lt _ (by norm_num)) (fun i hi1 hi2 => hst i (by omega) (by omega))]
    have hid' : t.id < 4294967296 := by simpa using hid
    congr 1
    congr 1
    · simp only [Function.update_idem]
      have e : ((t.id + 1) % 2 ^ 32 + m) % 2 ^ 32 = (t.id + (m + 1)) % 2 ^ 32 := by omega
      rw [e]
    · simp only [List.map_cons, List.append_assoc, List.singleton_append, Nat.sub_self,
        Nat.add_zero, Nat.mod_eq_of_lt hid]
      congr 3
      apply List.map_congr_left
      intro i hi
      have hi' : a + 1 ≤ i := (List.mem_range'_1.mp hi).1
      have e : ((t.id + 1) % 2 ^ 32 + (i - (a + 1))) % 2 ^ 32 = (t.id + (i - a)) % 2 ^ 32 := by
        omega
      show usbredirhost_iso_in_packet _ _ (((t.id + 1) % 2 ^ 32 + (i - (a + 1))) % 2 ^ 32) i = _
      rw [e]
      exact iso_in_packet_indep s _ t _ _ _ rfl



/-- The id arithmetic of the `resubmit:` tail: advancing an id that already
moved past the `n` packets of the URB by `(count - 1) * n` gives the base id
plus `n * count`, modulo 2^32. -/
theorem resubmit_id (b n count : Nat) :
    ((((b + n) % 2 ^ 32 : Nat) : Int) + ((count : Int) - 1) * (n : Int)) % 2 ^ 32 =
      (((b + n * count) % 2 ^ 32 : Nat) : Int) := by
  have e : ((count : Int) - 1) * (n : Int) = ((n * count : Nat) : Int) - n := by
    push_cast; ring
  rw [e]
  generalize n * count = m
  omega

/-- C13: completion of a non-cancelled iso-IN URB with base id `b = t.id` and
`n` packets, in a ring of `count` URBs, with URB status completed and no
packet status among cancelled, stall and the two no-device codes.  The handler
sends exactly `n` iso packets, packet `i` under the id `(b + i) mod 2^32`, in
packet order, and resubmits the URB under the id `(b + n * count) mod 2^32`:
the state handed to the submission is the initial one with these packets
appended to the log and that id (and packet index 0) in the record.  When the
submission succeeds, the final state is that one with the submission logged,
the transfer in flight and the record marked submitted. -/
theorem C13_iso_in_completion (s : State) (transfer : Nat) (t : usbredirtransfer)
    (hheap : s.heap transfer = some t)
    (hc : t.cancelled = false)
    (hin : t.transfer.endpoint &&& LIBUSB_ENDPOINT_IN ≠ 0)
    (hid : t.id < 2 ^ 32)
    (hst : t.transfer.status = LIBUSB_TRANSFER_COMPLETED)
    (hpk : ∀ i, i < t.transfer.num_iso_packets →
      (t.transfer.iso_packet_desc.getD i default).status ≠ LIBUSB_TRANSFER_CANCELLED ∧
      (t.transfer.iso_packet_desc.getD i default).status ≠ LIBUSB_TRANSFER_STALL ∧
      (t.transfer.iso_packet_desc.getD i default).status ≠ LIBUSB_TRANSFER_NO_DEVICE ∧
      (t.transfer.iso_packet_desc.getD i default).status ≠ LIBUSB_ERROR_NO_DEVICE) :
    let n := t.transfer.num_iso_packets
    let count := (s.host.endpoint (EP2I t.transfer.endpoint)).iso_transfer_count
    let sent := s.parser.sent ++
      (List.range n).map (fun i => usbredirhost_iso_in_packet s t ((t.id + i) % 2 ^ 32) i)
    let s1 : State :=
      { s with
        heap := Function.update s.heap transfer
          (some { t with iso_packet_idx := 0, id := (t.id + n * count) % 2 ^ 32 })
        parser := { s.parser with sent := sent } }
    let r := usbredirhost_submit_iso_transfer_unlocked s1 transfer
    usbredirhost_iso_packet_complete s transfer =
      (if r.2 ≠ usb_redir_success then
        usbredirhost_send_iso_status r.1 (r.1.deref transfer).id t.transfer.endpoint
          usb_redir_stall
      else r.1) ∧
    (0 ≤ s.usb.ret.headD 0 →
      usbredirhost_iso_packet_complete s transfer =
        { s with
          heap := Function.update s.heap transfer
            (some { t with
              iso_packet_idx := ISO_SUBMITTED_IDX, id := (t.id + n * count) % 2 ^ 32 })
          parser := { s.parser with sent := sent }
          usb := { s.usb with
            calls := s.usb.calls ++ [.submit_transfer transfer]
            ret := s.usb.ret.tail
            inflight := s.usb.inflight ++ [transfer] } }) := by
  intro n count sent s1 r
  have hd : s.deref transfer = t := by simp [State.deref, hheap]
  obtain ⟨t0, ht0⟩ : ∃ t0 : usbredirtransfer, t0 = { t with iso_packet_idx := 0 } := ⟨_, rfl⟩
  obtain ⟨s0, hs0⟩ : ∃ s0 : State,
      s0 = { s with heap := Function.update s.heap transfer (some t0) } := ⟨_, rfl⟩
  have hm : (s.modify transfer fun t => { t with iso_packet_idx := 0 }) = s0 := by
    simp [State.modify, hheap, hs0, ht0]
  have hd0 : s0.deref transfer = t0 := by simp [State.deref, hs0]
  have e1 : t0.transfer = t.transfer := by rw [ht0]
  have e2 : t0.id = t.id := by rw [ht0]
  have hloop := iso_packet_complete_loop_in transfer t.transfer.endpoint
    t.transfer.num_iso_packets 0 s0 t0
    (by simp [hs0]) (by rw [e1]) hin (by rw [e2]; exact hid)
    (fun i _ hi => by rw [e1]; exact hpk i (by omega))
  rw [← List.range_eq_range'] at hloop
  have hmain : usbredirhost_iso_packet_complete s transfer =
      (if r.2 ≠ usb_redir_success then
        usbredirhost_send_iso_status r.1 (r.1.deref transfer).id t.transfer.endpoint
          usb_redir_stall
      else r.1) := by
    unfold usbredirhost_iso_packet_complete
    simp only [hd, hc, Bool.false_eq_true, if_false, hm, hd0, e1, e2, hst]
    rw [handle_iso_status_plain _ _ _ _ (by decide) (by decide) (by decide)]
    simp only [true_or, if_true]
    rw [if_neg (by decide), if_neg (by decide), hd0, e1, hloop]
    simp only [Bool.not_true, Bool.false_eq_true, if_false, hin, ne_eq, not_false_eq_true, if_true]
    unfold usbredirhost_iso_packet_complete_resubmit
    subst hs0
    subst ht0
    have hmap : List.map (fun i => usbredirhost_iso_in_packet
          { s with
            heap := Function.update s.heap transfer (some { t with iso_packet_idx := 0 }) }
          { t with iso_packet_idx := 0 } ((t.id + (i - 0)) % 2 ^ 32) i)
          (List.range t.transfer.num_iso_packets) =
        List.map (fun i => usbredirhost_iso_in_packet s t ((t.id + i) % 2 ^ 32) i)
          (List.range t.transfer.num_iso_packets) := by
      apply List.map_congr_left
      intro i _
      rw [Nat.sub_zero]
      exact iso_in_packet_indep s _ t _ _ _ rfl
    have hidn : ((((t.id + t.transfer.num_iso_packets) % 2 ^ 32 : Nat) : Int) +
        (((s.host.endpoint (EP2I t.transfer.endpoint)).iso_transfer_count : Int) - 1) *
          (t.transfer.num_iso_packets : Int)) % 2 ^ 32 =
        (((t.id + t.transfer.num_iso_packets *
          (s.host.endpoint (EP2I t.transfer.endpoint)).iso_transfer_count) % 2 ^ 32 : Nat) : Int) :=
      resubmit_id _ _ _
    simp only [State.modify, State.deref, Function.update_same, Function.update_idem,
      Option.map_some', Option.getD_some, hmap, hidn, Int.toNat_ofNat, r, s1, sent, n, count]
  refine ⟨hmain, fun hret => ?_⟩
  rw [hmain]
  have hr : r = usbredirhost_submit_iso_transfer_unlocked s1 transfer := rfl
  rw [hr, submit_iso_transfer_unlocked_ok s1 transfer hret]
  simp only [ne_eq, not_true_eq_false, if_false]
  simp only [State.modify, Function.update_same, Function.update_idem, Option.map_some', s1]

set_option maxRecDepth 100000 in
/-- Witness of C13: on the example host streaming from the iso IN endpoint
0x81 with `pkts = 8`, `count = 4`, the completion of URB 0 (base id 0, all
packets OK) sends 8 iso packets with the ids 0..7 and resubmits the URB with
the id 32. -/
theorem C13_iso_in_completion_witness :
    (usbredirhost_iso_packet_complete example_started 1).parser.sent =
      example_started.parser.sent ++ (List.range 8).map
        (fun i => Packet.iso_packet i { endpoint := 0x81, status := usb_redir_success,
                                        length := 0 } []) ∧
    (usbredirhost_iso_packet_complete example_started 1).usb.calls =
      example_started.usb.calls ++ [.submit_transfer 1] ∧
    ((usbredirhost_iso_packet_complete example_started 1).deref 1).id = 32 ∧
    ((usbredirhost_iso_packet_complete example_started 1).deref 1).iso_packet_idx =
      ISO_SUBMITTED_IDX := by
  have h := (C13_iso_in_completion example_started 1 (example_started.deref 1) (by decide)
    (by decide) (by decide) (by decide) (by decide) (by decide)).2 (by decide)
  rw [h]
  decide



/-! ### Iso packets from the peer -/

/-- C14: on a connected host, an iso packet whose payload is longer than the
`max_packetsize` of its endpoint slot leaves the whole state unchanged (ring
URBs, packet indices, `iso_out_idx`, `iso_drop_packets`, `iso_started`, the
libusb call log) except that exactly one iso-stream-status with status inval,
for that endpoint and carrying the packet id, is appended to the log. -/
theorem C14_iso_packet_too_long (s : State) (id : Nat) (h : usb_redir_iso_packet_header)
    (data : List Nat)
    (hd : s.host.disconnected = false)
    (hlen : data.length > (s.host.endpoint (EP2I h.endpoint)).max_packetsize) :
    usbredirhost_iso_packet s id h data =
      s.send (.iso_stream_status id { endpoint := h.endpoint, status := usb_redir_inval }) := by
  have hb : usbredirhost_iso_packet_body s id h.endpoint data = (s, usb_redir_inval) := by
    unfold usbredirhost_iso_packet_body
    simp only [hd, Bool.false_eq_true, if_false, hlen, if_true]
    split_ifs <;> rfl
  unfold usbredirhost_iso_packet
  simp only [hb]
  rw [if_pos (by decide)]
  rfl

set_option maxRecDepth 100000 in
/-- Witness of C14 on the example host with a stream on its iso endpoint 0x81
(`max_packetsize` 64): a packet of 65 bytes is answered by one inval status. -/
theorem C14_iso_packet_too_long_witness :
    (example_streaming.host.endpoint (EP2I 0x81)).max_packetsize = 64 ∧
    usbredirhost_iso_packet example_streaming 9 { endpoint := 0x81, status := 0, length := 65 }
        (List.replicate 65 0) =
      example_streaming.send
        (.iso_stream_status 9 { endpoint := 0x81, status := usb_redir_inval }) :=
  ⟨by decide,
   C14_iso_packet_too_long example_streaming 9 { endpoint := 0x81, status := 0, length := 65 }
    (List.replicate 65 0) (by decide) (by decide)⟩



/-! ### Queuing iso packets into an output ring -/

/-- A valid packet on a stream that has packets to drop: the counter goes
down by one and nothing else changes. -/
theorem iso_packet_dropped (s : State) (id : Nat) (h : usb_redir_iso_packet_header)
    (data : List Nat)
    (hd : s.host.disconnected = false)
    (htype : (s.host.endpoint (EP2I h.endpoint)).type = usb_redir_type_iso)
    (hcount : (s.host.endpoint (EP2I h.endpoint)).iso_transfer_count ≠ 0)
    (hlen : data.length ≤ (s.host.endpoint (EP2I h.endpoint)).max_packetsize)
    (hdrop : (s.host.endpoint (EP2I h.endpoint)).iso_drop_packets ≠ 0) :
    usbredirhost_iso_packet s id h data =
      s.modifyEp (EP2I h.endpoint) fun e =>
        { e with iso_drop_packets := e.iso_drop_packets - 1 } := by
  have hb : usbredirhost_iso_packet_body s id h.endpoint data =
      (s.modifyEp (EP2I h.endpoint) fun e =>
        { e with iso_drop_packets := e.iso_drop_packets - 1 }, usb_redir_success) := by
    unfold usbredirhost_iso_packet_body
    simp only [hd, htype, hcount, hdrop, Bool.false_eq_true, if_false, ne_eq,
      not_true_eq_false, gt_iff_lt, not_lt.mpr hlen, not_false_eq_true, if_true]
  unfold usbredirhost_iso_packet
  simp only [hb, ne_eq, not_true_eq_false, if_false]

/-- A sequence of at most `d` valid packets on a stream that has `d` packets to
drop: each is dropped, the counter ends at `d` minus their number and nothing
else changes. -/
theorem iso_packets_dropped (ep : Nat)
    (ps : List (Nat × usb_redir_iso_packet_header × List Nat)) :
    ∀ (s : State) (d : Nat), s.host.disconnected = false →
    (s.host.endpoint (EP2I ep)).type = usb_redir_type_iso →
    (s.host.endpoint (EP2I ep)).iso_transfer_count ≠ 0 →
    (s.host.endpoint (EP2I ep)).iso_drop_packets = (d : Int) →
    ps.length ≤ d →
    (∀ p ∈ ps, p.2.1.endpoint = ep ∧
      p.2.2.length ≤ (s.host.endpoint (EP2I ep)).max_packetsize) →
    receive_iso_packets s ps =
      s.modifyEp (EP2I ep) fun e =>
        { e with iso_drop_packets := ((d - ps.length : Nat) : Int) } := by
  induction ps with
  | nil =>
    intro s d _ _ _ hdrop _ _
    simp only [receive_iso_packets, List.foldl_nil, List.length_nil, Nat.sub_zero, ← hdrop,
      State.modifyEp, Function.update_eq_self]
  | cons p ps ih =>
    intro s d hd htype hcount hdrop hlen hv
    have hlen' : ps.length + 1 ≤ d := hlen
    obtain ⟨hpe, hpl⟩ := hv p (by simp)
    have h1 := iso_packet_dropped s p.1 p.2.1 p.2.2 hd (by rw [hpe]; exact htype)
      (by rw [hpe]; exact hcount) (by rw [hpe]; exact hpl) (by rw [hpe, hdrop]; omega)
    rw [hpe] at h1
    have e : receive_iso_packets s (p :: ps) =
        receive_iso_packets (s.modifyEp (EP2I ep) fun e =>
          { e with iso_drop_packets := e.iso_drop_packets - 1 }) ps := by
      simp only [receive_iso_packets, List.foldl_cons, h1]
    have hdrop' : ((s.modifyEp (EP2I ep) fun e =>
        { e with iso_drop_packets := e.iso_drop_packets - 1 }).host.endpoint
          (EP2I ep)).iso_drop_packets = ((d - 1 : Nat) : Int) := by
      simp only [State.modifyEp, Function.update_same, hdrop]
      omega
    have hi := ih (s.modifyEp (EP2I ep) fun e =>
        { e with iso_drop_packets := e.iso_drop_packets - 1 }) (d - 1) hd
      (by simpa [State.modifyEp] using htype)
      (by simpa [State.modifyEp] using hcount) hdrop' (by omega)
      (fun q hq => by simpa [State.modifyEp] using hv q (by simp [hq]))
    rw [e, hi]
    simp only [State.modifyEp, Function.update_same, Function.update_idem, List.length_cons]
    have e2 : d - 1 - ps.length = d - (ps.length + 1) := by omega
    rw [e2]



/-- C16: overflow of an output ring.  A valid packet arrives on a connected
host for an endpoint with a stream, nothing to drop, whose URB at
`iso_out_idx` is SUBMITTED: the whole state is unchanged (nothing queued,
submitted or sent) except that `iso_drop_packets` becomes
`(pkts * count) / 2`.  Each of the valid packets `ps` that follow, as long as
they are at most `(pkts * count) / 2`, only decrements the counter by one;
after exactly `(pkts * count) / 2` of them the state is the one before the
overflowing packet, so that the next packet is examined for queuing as that
one was. -/
theorem C16_iso_out_overflow (s : State) (id : Nat) (h : usb_redir_iso_packet_header)
    (data : List Nat) (ps : List (Nat × usb_redir_iso_packet_header × List Nat))
    (hd : s.host.disconnected = false)
    (htype : (s.host.endpoint (EP2I h.endpoint)).type = usb_redir_type_iso)
    (hcount : (s.host.endpoint (EP2I h.endpoint)).iso_transfer_count ≠ 0)
    (hlen : data.length ≤ (s.host.endpoint (EP2I h.endpoint)).max_packetsize)
    (hdrop : (s.host.endpoint (EP2I h.endpoint)).iso_drop_packets = 0)
    (hsub : (s.deref ((s.host.endpoint (EP2I h.endpoint)).iso_transfer
      (s.host.endpoint (EP2I h.endpoint)).iso_out_idx.toNat)).iso_packet_idx =
        ISO_SUBMITTED_IDX)
    (hv : ∀ p ∈ ps, p.2.1.endpoint = h.endpoint ∧
      p.2.2.length ≤ (s.host.endpoint (EP2I h.endpoint)).max_packetsize)
    (hps : ps.length ≤ (s.host.endpoint (EP2I h.endpoint)).iso_pkts_per_transfer *
      (s.host.endpoint (EP2I h.endpoint)).iso_transfer_count / 2) :
    usbredirhost_iso_packet s id h data =
      (s.modifyEp (EP2I h.endpoint) fun e =>
        { e with iso_drop_packets :=
            ((e.iso_pkts_per_transfer * e.iso_transfer_count / 2 : Nat) : Int) }) ∧
    receive_iso_packets (usbredirhost_iso_packet s id h data) ps =
      (s.modifyEp (EP2I h.endpoint) fun e =>
        { e with iso_drop_packets :=
            ((e.iso_pkts_per_transfer * e.iso_transfer_count / 2 - ps.length : Nat) : Int) }) ∧
    (ps.length = (s.host.endpoint (EP2I h.endpoint)).iso_pkts_per_transfer *
        (s.host.endpoint (EP2I h.endpoint)).iso_transfer_count / 2 →
      receive_iso_packets (usbredirhost_iso_packet s id h data) ps = s) := by
  have hb : usbredirhost_iso_packet_body s id h.endpoint data =
      (s.modifyEp (EP2I h.endpoint) fun e =>
        { e with iso_drop_packets :=
            ((e.iso_pkts_per_transfer * e.iso_transfer_count : Nat) : Int) / 2 },
       usb_redir_success) := by
    unfold usbredirhost_iso_packet_body
    simp only [hd, htype, hcount, hdrop, hsub, Bool.false_eq_true, if_false, ne_eq,
      not_true_eq_false, gt_iff_lt, not_lt.mpr hlen, if_true]
  have h1 : usbredirhost_iso_packet s id h data =
      (s.modifyEp (EP2I h.endpoint) fun e =>
        { e with iso_drop_packets :=
            ((e.iso_pkts_per_transfer * e.iso_transfer_count / 2 : Nat) : Int) }) := by
    unfold usbredirhost_iso_packet
    simp only [hb, ne_eq, not_true_eq_false, if_false]
    congr 1
  have h2 := iso_packets_dropped h.endpoint ps
    (s.modifyEp (EP2I h.endpoint) fun e =>
      { e with iso_drop_packets :=
          ((e.iso_pkts_per_transfer * e.iso_transfer_count / 2 : Nat) : Int) })
    ((s.host.endpoint (EP2I h.endpoint)).iso_pkts_per_transfer *
      (s.host.endpoint (EP2I h.endpoint)).iso_transfer_count / 2) hd
    (by simpa [State.modifyEp] using htype) (by simpa [State.modifyEp] using hcount)
    (by simp [State.modifyEp]) hps
    (fun q hq => by simpa [State.modifyEp] using hv q hq)
  have h3 : receive_iso_packets (usbredirhost_iso_packet s id h data) ps =
      (s.modifyEp (EP2I h.endpoint) fun e =>
        { e with iso_drop_packets :=
            ((e.iso_pkts_per_transfer * e.iso_transfer_count / 2 - ps.length : Nat) : Int) }) := by
    rw [h1, h2]
    simp only [State.modifyEp, Function.update_same, Function.update_idem]
  refine ⟨h1, h3, fun he => ?_⟩
  rw [h3]
  simp only [State.modifyEp, he, Nat.sub_self, Nat.cast_zero, ← hdrop, Function.update_eq_self]

set_option maxRecDepth 100000 in
/-- Witness of C16 on the example output stream (`pkts = 4`, `count = 4`) with
all four URBs in flight: the 17th packet sets `iso_drop_packets` to 8, and
after 8 further packets the state is the one before it. -/
theorem C16_iso_out_overflow_witness :
    ((usbredirhost_iso_packet example_flooded 16 { endpoint := 0x01, status := 0, length := 64 }
        (List.replicate 64 0)).host.endpoint (EP2I 0x01)).iso_drop_packets = 8 ∧
    receive_iso_packets
        (usbredirhost_iso_packet example_flooded 16
          { endpoint := 0x01, status := 0, length := 64 } (List.replicate 64 0))
        ((List.range 8).map example_iso_packet) = example_flooded := by
  have h := C16_iso_out_overflow example_flooded 16
    { endpoint := 0x01, status := 0, length := 64 } (List.replicate 64 0)
    ((List.range 8).map example_iso_packet)
    (by decide) (by decide) (by decide) (by decide) (by decide) (by decide) (by decide)
    (by decide)
  refine ⟨?_, h.2.2 (by decide)⟩
  rw [h.1]
  decide



/-! ### Data packets: frame lemmas -/

/-- The status translation changes neither the heap, the allocator, the
registry nor the libusb side. -/
theorem translate_frame (s : State) (r : Int) :
    (libusb_status_or_error_to_redir_status s r).1.usb = s.usb ∧
    (libusb_status_or_error_to_redir_status s r).1.heap = s.heap ∧
    (libusb_status_or_error_to_redir_status s r).1.next_ptr = s.next_ptr ∧
    (libusb_status_or_error_to_redir_status s r).1.host.transfers_head =
      s.host.transfers_head := by
  rw [translate_state]
  unfold usbredirhost_handle_disconnect State.send
  simp only []
  split_ifs <;> exact ⟨rfl, rfl, rfl, rfl⟩

/-- The allocation of a transfer record when no allocation fails: the record
is placed at the address `next_ptr + 1`. -/
theorem alloc_transfer_ok (s : State) (n : Nat) (h : ∀ b ∈ s.usb.mem, b = true) :
    usbredirhost_alloc_transfer s n =
      ({ s.alloc.1.alloc.1 with
          heap := Function.update s.heap (s.next_ptr + 1)
            (some { (default : usbredirtransfer) with transfer := libusb_alloc_transfer n })
          next_ptr := s.next_ptr + 1 }, s.next_ptr + 1) ∧
    (∀ b ∈ (usbredirhost_alloc_transfer s n).1.usb.mem, b = true) := by
  obtain ⟨a1, m1⟩ := alloc_true s h
  obtain ⟨a2, m2⟩ := alloc_true _ m1
  have ha : usbredirhost_alloc_transfer s n =
      ({ s.alloc.1.alloc.1 with
          heap := Function.update s.heap (s.next_ptr + 1)
            (some { (default : usbredirtransfer) with transfer := libusb_alloc_transfer n })
          next_ptr := s.next_ptr + 1 }, s.next_ptr + 1) := by
    unfold usbredirhost_alloc_transfer
    simp only [a1, a2]
    rfl
  rw [ha]
  exact ⟨rfl, m2⟩


/-! ### Forwarded data packets -/

/-- A control request that is forwarded, memory permitting: the state in which
the transfer is submitted holds the new record at the address `next_ptr + 1`,
filled with the request and registered; the handler submits it and, when the
submission fails, runs the completion handler on it with the error code as
status and no data. -/
theorem control_packet_forward (s : State) (id : Nat) (h : usb_redir_control_packet_header)
    (data : List Nat)
    (hd : s.host.disconnected = false)
    (htype : (s.host.endpoint (EP2I h.endpoint)).type = usb_redir_type_control)
    (hc : ¬(h.requesttype = LIBUSB_RECIPIENT_ENDPOINT ∧
      h.request = LIBUSB_REQUEST_CLEAR_FEATURE ∧ h.value = 0 ∧ data.length = 0))
    (hmem : ∀ b ∈ s.usb.mem, b = true) :
    ∃ (S : State) (t : usbredirtransfer),
      S.heap = Function.update s.heap (s.next_ptr + 1) (some t) ∧
      t.id = id ∧ t.control_packet = h ∧
      t.transfer.callback = Callback.usbredirhost_control_packet_complete ∧
      t.transfer.buffer.take LIBUSB_CONTROL_SETUP_SIZE =
        libusb_fill_control_setup h.requesttype h.request h.value h.index h.length ∧
      S.host = { s.host with transfers_head := s.host.transfers_head ++ [s.next_ptr + 1] } ∧
      S.next_ptr = s.next_ptr + 1 ∧ S.parser = s.parser ∧
      S.usb = { s.usb with mem := S.usb.mem } ∧
      usbredirhost_control_packet s id h data =
        if (libusb_submit_transfer S (s.next_ptr + 1)).2 < 0 then
          usbredirhost_control_packet_complete
            ((libusb_submit_transfer S (s.next_ptr + 1)).1.modify (s.next_ptr + 1) fun t =>
              { t with transfer := { t.transfer with
                  actual_length := 0
                  status := (libusb_submit_transfer S (s.next_ptr + 1)).2 } })
            (s.next_ptr + 1)
        else (libusb_submit_transfer S (s.next_ptr + 1)).1 := by
  obtain ⟨a1, m1⟩ := alloc_true s hmem
  obtain ⟨a2, -⟩ := alloc_transfer_ok s.alloc.1 0 m1
  have hn : s.alloc.1.next_ptr = s.next_ptr := rfl
  rw [hn] at a2
  refine ⟨usbredirhost_add_transfer
      ((usbredirhost_alloc_transfer s.alloc.1 0).1.modify (s.next_ptr + 1) fun t =>
        { t with
          transfer := libusb_fill_control_transfer t.transfer
            (if h.endpoint &&& LIBUSB_ENDPOINT_IN = 0 then
              libusb_fill_control_setup h.requesttype h.request h.value h.index h.length ++
                data ++ List.replicate (h.length - data.length) 0
            else
              libusb_fill_control_setup h.requesttype h.request h.value h.index h.length ++
                List.replicate h.length 0)
            Callback.usbredirhost_control_packet_complete CTRL_TIMEOUT
          id := id
          control_packet := h })
      (s.next_ptr + 1),
    { (default : usbredirtransfer) with
      transfer := libusb_fill_control_transfer (libusb_alloc_transfer 0)
        (if h.endpoint &&& LIBUSB_ENDPOINT_IN = 0 then
          libusb_fill_control_setup h.requesttype h.request h.value h.index h.length ++
            data ++ List.replicate (h.length - data.length) 0
        else
          libusb_fill_control_setup h.requesttype h.request h.value h.index h.length ++
            List.replicate h.length 0)
        Callback.usbredirhost_control_packet_complete CTRL_TIMEOUT
      id := id
      control_packet := h }, ?_, rfl, rfl, rfl, ?_, ?_, ?_, ?_, ?_, ?_⟩
  · rw [a2]
    simp [usbredirhost_add_transfer, State.modify, State.alloc]
  · simp only [libusb_fill_control_transfer, libusb_fill_control_setup, LIBUSB_CONTROL_SETUP_SIZE]
    split_ifs <;> simp
  · rw [a2]; rfl
  · rw [a2]; rfl
  · rw [a2]; rfl
  · rw [a2]; rfl
  · unfold usbredirhost_control_packet
    simp only [hd, htype, hc, a1, Bool.false_eq_true, if_false, ne_eq, not_true_eq_false,
      Bool.not_true]
    rw [a2]
    simp only [Nat.add_one_ne_zero, if_false]


/-- The packet log after the status translation depends on the state only
through the `disconnected` flag, the peer capabilities and the log. -/
theorem translate_sent (s s' : State) (r : Int)
    (h1 : s'.host.disconnected = s.host.disconnected) (h2 : s'.parser = s.parser) :
    (libusb_status_or_error_to_redir_status s' r).1.parser =
      (libusb_status_or_error_to_redir_status s r).1.parser := by
  rw [translate_state, translate_state]
  unfold usbredirhost_handle_disconnect State.send
  simp only [h1, h2]
  split_ifs <;> first | rfl | exact h2

/-- A forwarded control request whose submission fails: one control packet
with the request id and header, the translated error and no data is sent, and
the record is unregistered and freed. -/
theorem control_packet_submit_failed (s : State) (id : Nat)
    (h : usb_redir_control_packet_header) (data : List Nat)
    (hd : s.host.disconnected = false)
    (htype : (s.host.endpoint (EP2I h.endpoint)).type = usb_redir_type_control)
    (hc : ¬(h.requesttype = LIBUSB_RECIPIENT_ENDPOINT ∧
      h.request = LIBUSB_REQUEST_CLEAR_FEATURE ∧ h.value = 0 ∧ data.length = 0))
    (hmem : ∀ b ∈ s.usb.mem, b = true) (hfail : s.usb.ret.headD 0 < 0) :
    (usbredirhost_control_packet s id h data).parser.sent =
      (libusb_status_or_error_to_redir_status s (s.usb.ret.headD 0)).1.parser.sent ++
        [.control_packet id
          { h with
            status := (libusb_status_or_error_to_redir_status s (s.usb.ret.headD 0)).2
            length := 0 } []] ∧
    (usbredirhost_control_packet s id h data).host.transfers_head =
      (s.host.transfers_head ++ [s.next_ptr + 1]).erase (s.next_ptr + 1) ∧
    (usbredirhost_control_packet s id h data).heap =
      Function.update s.heap (s.next_ptr + 1) none ∧
    (usbredirhost_control_packet s id h data).next_ptr = s.next_ptr + 1 ∧
    (usbredirhost_control_packet s id h data).usb.inflight = s.usb.inflight ∧
    (usbredirhost_control_packet s id h data).usb.calls =
      s.usb.calls ++ [.submit_transfer (s.next_ptr + 1)] := by
  obtain ⟨S, t, s1, s2, s3, -, -, s6, s7, s8, s9, he⟩ :=
    control_packet_forward s id h data hd htype hc hmem
  have hret : S.usb.ret = s.usb.ret := by rw [s9]
  have hsub : libusb_submit_transfer S (s.next_ptr + 1) =
      ((S.call (.submit_transfer (s.next_ptr + 1))).1, s.usb.ret.headD 0) := by
    unfold libusb_submit_transfer State.call
    simp only [hret, hfail, if_true]
  rw [he, hsub]
  simp only [hfail, if_true]
  obtain ⟨F, hF⟩ : ∃ F : State, F = ((S.call (.submit_transfer (s.next_ptr + 1))).1.modify
      (s.next_ptr + 1) fun t => { t with transfer := { t.transfer with
        actual_length := 0, status := s.usb.ret.headD 0 } }) := ⟨_, rfl⟩
  rw [← hF]
  have hFd : F.deref (s.next_ptr + 1) = { t with transfer := { t.transfer with
      actual_length := 0, status := s.usb.ret.headD 0 } } := by
    rw [hF]; simp [State.deref, State.modify, State.call, s1]
  have hFh : F.heap = Function.update s.heap (s.next_ptr + 1) (some { t with transfer :=
      { t.transfer with actual_length := 0, status := s.usb.ret.headD 0 } }) := by
    rw [hF]; simp [State.modify, State.call, s1]
  have hFp : F.parser = s.parser := by rw [hF]; exact s8
  have hFdisc : F.host.disconnected = s.host.disconnected := by
    rw [hF]; show S.host.disconnected = _; rw [s6]
  have hFreg : F.host.transfers_head = s.host.transfers_head ++ [s.next_ptr + 1] := by
    rw [hF]; show S.host.transfers_head = _; rw [s6]
  have hFn : F.next_ptr = s.next_ptr + 1 := by rw [hF]; exact s7
  have hFi : F.usb.inflight = s.usb.inflight := by
    rw [hF]; show S.usb.inflight = _; rw [s9]
  have hFc : F.usb.calls = s.usb.calls ++ [.submit_transfer (s.next_ptr + 1)] := by
    rw [hF]; show S.usb.calls ++ _ = _; rw [s9]
  obtain ⟨f1, f2, f3, f4⟩ := translate_frame F (s.usb.ret.headD 0)
  have f5 := translate_sent s F (s.usb.ret.headD 0) hFdisc hFp
  have f6 := translate_status_indep F s (s.usb.ret.headD 0)
  have hTd : (libusb_status_or_error_to_redir_status F (s.usb.ret.headD 0)).1.deref
      (s.next_ptr + 1) = F.deref (s.next_ptr + 1) := by
    simp only [State.deref, f2]
  unfold usbredirhost_control_packet_complete
  simp only [hFd, hTd, s2, s3, f6, List.take_zero, Nat.zero_mod, ite_self]
  generalize (libusb_status_or_error_to_redir_status F (s.usb.ret.headD 0)).1 = T
    at f1 f2 f3 f4 f5
  unfold usbredirhost_remove_and_free_transfer usbredirhost_free_transfer State.send
  simp only [Nat.add_one_ne_zero, if_false]
  refine ⟨by rw [f5], by rw [f4, hFreg], ?_, by rw [f3, hFn], by rw [f1, hFi],
    by rw [f1, hFc]⟩
  rw [f2, hFh]
  simp


/-- A bulk request on a connected host whose submission fails, memory
permitting: one bulk packet with the request id and header, the translated
error and no data is sent, and the record is unregistered and freed. -/
theorem bulk_packet_submit_failed (s : State) (id : Nat)
    (h : usb_redir_bulk_packet_header) (data : List Nat)
    (hd : s.host.disconnected = false)
    (htype : (s.host.endpoint (EP2I h.endpoint)).type = usb_redir_type_bulk)
    (hmem : ∀ b ∈ s.usb.mem, b = true) (hfail : s.usb.ret.headD 0 < 0) :
    (usbredirhost_bulk_packet s id h data).parser.sent =
      (libusb_status_or_error_to_redir_status s (s.usb.ret.headD 0)).1.parser.sent ++
        [.bulk_packet id
          { h with
            status := (libusb_status_or_error_to_redir_status s (s.usb.ret.headD 0)).2
            length := 0 } []] ∧
    (usbredirhost_bulk_packet s id h data).host.transfers_head =
      (s.host.transfers_head ++ [s.next_ptr + 1]).erase (s.next_ptr + 1) ∧
    (usbredirhost_bulk_packet s id h data).heap =
      Function.update s.heap (s.next_ptr + 1) none ∧
    (usbredirhost_bulk_packet s id h data).next_ptr = s.next_ptr + 1 ∧
    (usbredirhost_bulk_packet s id h data).usb.inflight = s.usb.inflight ∧
    (usbredirhost_bulk_packet s id h data).usb.calls =
      s.usb.calls ++ [.submit_transfer (s.next_ptr + 1)] := by
  obtain ⟨M, hM⟩ : ∃ M : State × Bool,
      M = if h.endpoint &&& LIBUSB_ENDPOINT_IN ≠ 0 then s.alloc else (s, true) := ⟨_, rfl⟩
  have hM2 : M.2 = true := by
    rw [hM]; split_ifs
    · exact (alloc_true s hmem).1
    · rfl
  have hMmem : ∀ b ∈ M.1.usb.mem, b = true := by
    rw [hM]; split_ifs
    · exact (alloc_true s hmem).2
    · exact hmem
  have hMn : M.1.next_ptr = s.next_ptr := by rw [hM]; split_ifs <;> rfl
  have hMh : M.1.heap = s.heap := by rw [hM]; split_ifs <;> rfl
  have hMhost : M.1.host = s.host := by rw [hM]; split_ifs <;> rfl
  have hMp : M.1.parser = s.parser := by rw [hM]; split_ifs <;> rfl
  have hMu : M.1.usb = { s.usb with mem := M.1.usb.mem } := by rw [hM]; split_ifs <;> rfl
  obtain ⟨a2, -⟩ := alloc_transfer_ok M.1 0 hMmem
  rw [hMn, hMh] at a2
  obtain ⟨F, hF⟩ : ∃ F : State, F =
      (((usbredirhost_add_transfer
        ((usbredirhost_alloc_transfer M.1 0).1.modify (s.next_ptr + 1) fun t =>
          { t with
            transfer := libusb_fill_bulk_transfer t.transfer h.endpoint
              (if h.endpoint &&& LIBUSB_ENDPOINT_IN ≠ 0 then List.replicate h.length 0
                else data) h.length
              Callback.usbredirhost_bulk_packet_complete CTRL_TIMEOUT
            id := id
            bulk_packet := h }) (s.next_ptr + 1)).call
          (.submit_transfer (s.next_ptr + 1))).1.modify (s.next_ptr + 1) fun t =>
        { t with transfer := { t.transfer with
            actual_length := 0, status := s.usb.ret.headD 0 } }) := ⟨_, rfl⟩
  have he : usbredirhost_bulk_packet s id h data = usbredirhost_bulk_packet_complete F
      (s.next_ptr + 1) := by
    unfold usbredirhost_bulk_packet
    simp only [hd, htype, Bool.false_eq_true, if_false, ne_eq, not_true_eq_false, ← hM, hM2,
      Bool.not_true]
    rw [a2]
    simp only [Nat.add_one_ne_zero, if_false]
    have hsub : ∀ S : State, S.usb.ret = s.usb.ret →
        libusb_submit_transfer S (s.next_ptr + 1) =
          ((S.call (.submit_transfer (s.next_ptr + 1))).1, s.usb.ret.headD 0) := by
      intro S hS
      unfold libusb_submit_transfer State.call
      simp only [hS, hfail, if_true]
    rw [hsub _ (by
      show (M.1.alloc.1.alloc.1).usb.ret = _
      show M.1.usb.ret = _
      rw [hMu])]
    simp only [hfail, if_true]
    rw [hF, a2]
  rw [he]
  obtain ⟨t, ht⟩ : ∃ t : usbredirtransfer, t =
      { (default : usbredirtransfer) with
        transfer := { libusb_fill_bulk_transfer (libusb_alloc_transfer 0) h.endpoint
              (if h.endpoint &&& LIBUSB_ENDPOINT_IN ≠ 0 then List.replicate h.length 0
                else data) h.length
              Callback.usbredirhost_bulk_packet_complete CTRL_TIMEOUT with
            actual_length := 0, status := s.usb.ret.headD 0 }
        id := id
        bulk_packet := h } := ⟨_, rfl⟩
  have hFh : F.heap = Function.update s.heap (s.next_ptr + 1) (some t) := by
    rw [hF, a2, ht]
    simp [usbredirhost_add_transfer, State.modify, State.call]
  have hFd : F.deref (s.next_ptr + 1) = t := by simp [State.deref, hFh]
  have hFp : F.parser = s.parser := by rw [hF, a2]; exact hMp
  have hFdisc : F.host.disconnected = s.host.disconnected := by
    rw [hF, a2]; show M.1.host.disconnected = _; rw [hMhost]
  have hFreg : F.host.transfers_head = s.host.transfers_head ++ [s.next_ptr + 1] := by
    rw [hF, a2]; show M.1.host.transfers_head ++ _ = _; rw [hMhost]
  have hFn : F.next_ptr = s.next_ptr + 1 := by rw [hF, a2]; rfl
  have hFi : F.usb.inflight = s.usb.inflight := by
    rw [hF, a2]; show M.1.usb.inflight = _; rw [hMu]
  have hFc : F.usb.calls = s.usb.calls ++ [.submit_transfer (s.next_ptr + 1)] := by
    rw [hF, a2]; show M.1.usb.calls ++ _ = _; rw [hMu]
  have t1 : t.transfer.status = s.usb.ret.headD 0 := by rw [ht]
  have t2 : t.transfer.actual_length = 0 := by rw [ht]
  have t3 : t.id = id := by rw [ht]
  have t4 : t.bulk_packet = h := by rw [ht]
  clear hF ht
  obtain ⟨f1, f2, f3, f4⟩ := translate_frame F (s.usb.ret.headD 0)
  have f5 := translate_sent s F (s.usb.ret.headD 0) hFdisc hFp
  have f6 := translate_status_indep F s (s.usb.ret.headD 0)
  have hTd : (libusb_status_or_error_to_redir_status F (s.usb.ret.headD 0)).1.deref
      (s.next_ptr + 1) = F.deref (s.next_ptr + 1) := by
    simp only [State.deref, f2]
  unfold usbredirhost_bulk_packet_complete
  simp only [hFd, hTd, t1, t2, t3, t4, f6, List.take_zero, Nat.zero_mod, ite_self]
  generalize (libusb_status_or_error_to_redir_status F (s.usb.ret.headD 0)).1 = T
    at f1 f2 f3 f4 f5
  unfold usbredirhost_remove_and_free_transfer usbredirhost_free_transfer State.send
  simp only [Nat.add_one_ne_zero, if_false]
  refine ⟨by rw [f5], by rw [f4, hFreg], ?_, by rw [f3, hFn], by rw [f1, hFi],
    by rw [f1, hFc]⟩
  rw [f2, hFh]
  simp


/-- An interrupt-OUT request on a connected host whose submission fails,
memory permitting: one interrupt packet with the request id and header, the
translated error and no data is sent, and the record is unregistered and
freed. -/
theorem interrupt_packet_submit_failed (s : State) (id : Nat)
    (h : usb_redir_interrupt_packet_header) (data : List Nat)
    (hd : s.host.disconnected = false)
    (htype : (s.host.endpoint (EP2I h.endpoint)).type = usb_redir_type_interrupt)
    (hout : h.endpoint &&& LIBUSB_ENDPOINT_IN = 0)
    (hlen : data.length ≤ (s.host.endpoint (EP2I h.endpoint)).max_packetsize)
    (hmem : ∀ b ∈ s.usb.mem, b = true) (hfail : s.usb.ret.headD 0 < 0) :
    (usbredirhost_interrupt_packet s id h data).parser.sent =
      (libusb_status_or_error_to_redir_status s (s.usb.ret.headD 0)).1.parser.sent ++
        [.interrupt_packet id
          { h with
            status := (libusb_status_or_error_to_redir_status s (s.usb.ret.headD 0)).2
            length := 0 } []] ∧
    (usbredirhost_interrupt_packet s id h data).host.transfers_head =
      (s.host.transfers_head ++ [s.next_ptr + 1]).erase (s.next_ptr + 1) ∧
    (usbredirhost_interrupt_packet s id h data).heap =
      Function.update s.heap (s.next_ptr + 1) none ∧
    (usbredirhost_interrupt_packet s id h data).next_ptr = s.next_ptr + 1 ∧
    (usbredirhost_interrupt_packet s id h data).usb.inflight = s.usb.inflight ∧
    (usbredirhost_interrupt_packet s id h data).usb.calls =
      s.usb.calls ++ [.submit_transfer (s.next_ptr + 1)] := by
  obtain ⟨a2, -⟩ := alloc_transfer_ok s 0 hmem
  obtain ⟨F, hF⟩ : ∃ F : State, F =
      (((usbredirhost_add_transfer
        ((usbredirhost_alloc_transfer s 0).1.modify (s.next_ptr + 1) fun t =>
          { t with
            transfer := libusb_fill_interrupt_transfer t.transfer h.endpoint data data.length
              Callback.usbredirhost_interrupt_packet_complete INTERRUPT_TIMEOUT
            id := id
            interrupt_packet := h }) (s.next_ptr + 1)).call
          (.submit_transfer (s.next_ptr + 1))).1.modify (s.next_ptr + 1) fun t =>
        { t with transfer := { t.transfer with
            actual_length := 0, status := s.usb.ret.headD 0 } }) := ⟨_, rfl⟩
  have he : usbredirhost_interrupt_packet s id h data =
      usbredirhost_interrupt_packet_complete F (s.next_ptr + 1) := by
    unfold usbredirhost_interrupt_packet
    simp only [hd, htype, Bool.false_eq_true, if_false, ne_eq, not_true_eq_false, gt_iff_lt,
      not_lt.mpr hlen]
    rw [a2]
    simp only [Nat.add_one_ne_zero, if_false]
    have hsub : ∀ S : State, S.usb.ret = s.usb.ret →
        libusb_submit_transfer S (s.next_ptr + 1) =
          ((S.call (.submit_transfer (s.next_ptr + 1))).1, s.usb.ret.headD 0) := by
      intro S hS
      unfold libusb_submit_transfer State.call
      simp only [hS, hfail, if_true]
    rw [hsub _ (by rfl)]
    simp only [hfail, if_true]
    rw [hF, a2]
  rw [he]
  obtain ⟨t, ht⟩ : ∃ t : usbredirtransfer, t =
      { (default : usbredirtransfer) with
        transfer := { libusb_fill_interrupt_transfer (libusb_alloc_transfer 0) h.endpoint
              data data.length
              Callback.usbredirhost_interrupt_packet_complete INTERRUPT_TIMEOUT with
            actual_length := 0, status := s.usb.ret.headD 0 }
        id := id
        interrupt_packet := h } := ⟨_, rfl⟩
  have hFh : F.heap = Function.update s.heap (s.next_ptr + 1) (some t) := by
    rw [hF, a2, ht]
    simp [usbredirhost_add_transfer, State.modify, State.call, State.alloc]
  have hFd : F.deref (s.next_ptr + 1) = t := by simp [State.deref, hFh]
  have hFp : F.parser = s.parser := by rw [hF, a2]; rfl
  have hFdisc : F.host.disconnected = s.host.disconnected := by rw [hF, a2]; rfl
  have hFreg : F.host.transfers_head = s.host.transfers_head ++ [s.next_ptr + 1] := by
    rw [hF, a2]; rfl
  have hFn : F.next_ptr = s.next_ptr + 1 := by rw [hF, a2]; rfl
  have hFi : F.usb.inflight = s.usb.inflight := by rw [hF, a2]; rfl
  have hFc : F.usb.calls = s.usb.calls ++ [.submit_transfer (s.next_ptr + 1)] := by
    rw [hF, a2]; rfl
  have t1 : t.transfer.status = s.usb.ret.headD 0 := by rw [ht]
  have t2 : t.transfer.actual_length = 0 := by rw [ht]
  have t3 : t.id = id := by rw [ht]
  have t4 : t.interrupt_packet = h := by rw [ht]
  have t5 : t.transfer.endpoint = h.endpoint := by rw [ht]; rfl
  clear hF ht
  obtain ⟨f1, f2, f3, f4⟩ := translate_frame F (s.usb.ret.headD 0)
  have f5 := translate_sent s F (s.usb.ret.headD 0) hFdisc hFp
  have f6 := translate_status_indep F s (s.usb.ret.headD 0)
  have hTd : (libusb_status_or_error_to_redir_status F (s.usb.ret.headD 0)).1.deref
      (s.next_ptr + 1) = F.deref (s.next_ptr + 1) := by
    simp only [State.deref, f2]
  unfold usbredirhost_interrupt_packet_complete
  simp only [hFd, hTd, t1, t2, t3, t4, t5, f6, hout, Nat.zero_mod, if_true]
  generalize (libusb_status_or_error_to_redir_status F (s.usb.ret.headD 0)).1 = T
    at f1 f2 f3 f4 f5
  unfold usbredirhost_remove_and_free_transfer usbredirhost_free_transfer State.send
  simp only [Nat.add_one_ne_zero, if_false]
  refine ⟨by rw [f5], by rw [f4, hFreg], ?_, by rw [f3, hFn], by rw [f1, hFi],
    by rw [f1, hFc]⟩
  rw [f2, hFh]
  simp



/-! ### Control packets: clear halt -/

/-- C17 (as amended): a control packet received on a connected host for a
control endpoint.  When `requesttype` is the endpoint recipient (0x02),
`request` is CLEAR_FEATURE, `value` is 0 and the packet carries no payload
(`data_len == 0`; the `length` field of the header is not looked at), the
handler calls the library clear-halt on the endpoint given by the low byte of
`index` and answers with exactly one control packet carrying the request id
and header, length 0 and the translated result of the clear-halt: no record is
allocated, registered or submitted.  In every other case, memory permitting,
no clear-halt is called: a record is allocated, filled with the request,
registered and submitted. -/
theorem C17_control_clear_halt (s : State) (id : Nat) (h : usb_redir_control_packet_header)
    (data : List Nat)
    (hd : s.host.disconnected = false)
    (htype : (s.host.endpoint (EP2I h.endpoint)).type = usb_redir_type_control) :
    ((h.requesttype = LIBUSB_RECIPIENT_ENDPOINT ∧ h.request = LIBUSB_REQUEST_CLEAR_FEATURE ∧
        h.value = 0 ∧ data.length = 0) →
      usbredirhost_control_packet s id h data =
        (libusb_status_or_error_to_redir_status
            (s.call (.clear_halt (h.index % 256))).1
            (s.call (.clear_halt (h.index % 256))).2).1.send
          (.control_packet id
            { h with
              status := (libusb_status_or_error_to_redir_status
                (s.call (.clear_halt (h.index % 256))).1
                (s.call (.clear_halt (h.index % 256))).2).2
              length := 0 } []) ∧
      (usbredirhost_control_packet s id h data).usb.calls =
        s.usb.calls ++ [.clear_halt (h.index % 256)] ∧
      (usbredirhost_control_packet s id h data).heap = s.heap ∧
      (usbredirhost_control_packet s id h data).next_ptr = s.next_ptr ∧
      (usbredirhost_control_packet s id h data).host.transfers_head = s.host.transfers_head) ∧
    (¬(h.requesttype = LIBUSB_RECIPIENT_ENDPOINT ∧ h.request = LIBUSB_REQUEST_CLEAR_FEATURE ∧
        h.value = 0 ∧ data.length = 0) →
      (∀ b ∈ s.usb.mem, b = true) →
      (usbredirhost_control_packet s id h data).usb.calls =
        s.usb.calls ++ [.submit_transfer (s.next_ptr + 1)] ∧
      (usbredirhost_control_packet s id h data).next_ptr = s.next_ptr + 1 ∧
      (0 ≤ s.usb.ret.headD 0 →
        (usbredirhost_control_packet s id h data).host.transfers_head =
          s.host.transfers_head ++ [s.next_ptr + 1] ∧
        (usbredirhost_control_packet s id h data).usb.inflight =
          s.usb.inflight ++ [s.next_ptr + 1] ∧
        (usbredirhost_control_packet s id h data).parser = s.parser ∧
        ((usbredirhost_control_packet s id h data).heap (s.next_ptr + 1)).map
            (fun t => (t.id, t.control_packet, t.transfer.callback,
              t.transfer.buffer.take LIBUSB_CONTROL_SETUP_SIZE)) =
          some (id, h, Callback.usbredirhost_control_packet_complete,
            libusb_fill_control_setup h.requesttype h.request h.value h.index h.length))) := by
  constructor
  · intro hc
    have he : usbredirhost_control_packet s id h data =
        (libusb_status_or_error_to_redir_status
            (s.call (.clear_halt (h.index % 256))).1
            (s.call (.clear_halt (h.index % 256))).2).1.send
          (.control_packet id
            { h with
              status := (libusb_status_or_error_to_redir_status
                (s.call (.clear_halt (h.index % 256))).1
                (s.call (.clear_halt (h.index % 256))).2).2
              length := 0 } []) := by
      unfold usbredirhost_control_packet usbredirhost_send_control_status
      simp only [hd, htype, hc, Bool.false_eq_true, if_false, ne_eq, not_true_eq_false,
        and_self, if_true]
    obtain ⟨f1, f2, f3, f4⟩ := translate_frame (s.call (.clear_halt (h.index % 256))).1
      (s.call (.clear_halt (h.index % 256))).2
    refine ⟨he, ?_, ?_, ?_, ?_⟩
    · rw [he]; show (libusb_status_or_error_to_redir_status _ _).1.usb.calls = _
      rw [f1]; rfl
    · rw [he]; show (libusb_status_or_error_to_redir_status _ _).1.heap = _
      rw [f2]; rfl
    · rw [he]; show (libusb_status_or_error_to_redir_status _ _).1.next_ptr = _
      rw [f3]; rfl
    · rw [he]; show (libusb_status_or_error_to_redir_status _ _).1.host.transfers_head = _
      rw [f4]; rfl
  · intro hc hmem
    obtain ⟨S, t, s1, s2, s3, s4, s5, s6, s7, s8, s9, he⟩ :=
      control_packet_forward s id h data hd htype hc hmem
    have hret : S.usb.ret = s.usb.ret := by rw [s9]
    by_cases hfail : s.usb.ret.headD 0 < 0
    · obtain ⟨-, -, -, g4, -, g6⟩ :=
        control_packet_submit_failed s id h data hd htype hc hmem hfail
      exact ⟨g6, g4, fun h0 => absurd hfail (not_lt.mpr h0)⟩
    · have hsub : libusb_submit_transfer S (s.next_ptr + 1) =
          ({ (S.call (.submit_transfer (s.next_ptr + 1))).1 with
              usb := { (S.call (.submit_transfer (s.next_ptr + 1))).1.usb with
                inflight := (S.call (.submit_transfer (s.next_ptr + 1))).1.usb.inflight ++
                  [s.next_ptr + 1] } }, s.usb.ret.headD 0) := by
        unfold libusb_submit_transfer State.call
        simp only [hret, hfail, if_false]
      rw [he, hsub]
      simp only [hfail, if_false]
      refine ⟨?_, s7, fun _ => ⟨?_, ?_, s8, ?_⟩⟩
      · show S.usb.calls ++ _ = _
        rw [s9]
      · show S.host.transfers_head = _
        rw [s6]
      · show S.usb.inflight ++ _ = _
        rw [s9]
      · show (S.heap (s.next_ptr + 1)).map _ = _
        rw [s1, Function.update_same, Option.map_some', s2, s3, s4, s5]

set_option maxRecDepth 100000 in
/-- Witness of C17 on the connected example host: a clear-feature request for
endpoint 0x81 without payload is executed as a clear-halt; a get-status request
(request 0) is submitted as a transfer at address 1. -/
theorem C17_control_clear_halt_witness :
    (usbredirhost_control_packet example_connected 5
        { endpoint := 0x00, request := 1, requesttype := 2, status := 0, value := 0,
          index := 0x81, length := 0 } []).usb.calls =
      example_connected.usb.calls ++ [.clear_halt 0x81] ∧
    (usbredirhost_control_packet example_connected 5
        { endpoint := 0x80, request := 0, requesttype := 0x82, status := 0, value := 0,
          index := 0x81, length := 2 } []).usb.calls =
      example_connected.usb.calls ++ [.submit_transfer 1] :=
  ⟨((C17_control_clear_halt example_connected 5
      { endpoint := 0x00, request := 1, requesttype := 2, status := 0, value := 0,
        index := 0x81, length := 0 } [] (by decide) (by decide)).1 (by decide)).2.1,
   ((C17_control_clear_halt example_connected 5
      { endpoint := 0x80, request := 0, requesttype := 0x82, status := 0, value := 0,
        index := 0x81, length := 2 } [] (by decide) (by decide)).2 (by decide) (by decide)).1⟩

set_option maxRecDepth 100000 in
/-- Counterexample to C17 as stated, on the connected example host.  A control
packet for the control endpoint 0x80 with `requesttype` 0x02, CLEAR_FEATURE,
`value` 0, header `length` 8 and no payload: the header's length is not 0, yet
the request is not forwarded: it is executed as a clear-halt on endpoint 0x81
and answered at once, and no record is allocated, registered or submitted. -/
theorem C17_control_header_length_counterexample :
    example_connected.host.disconnected = false ∧
    (example_connected.host.endpoint (EP2I 0x80)).type = usb_redir_type_control ∧
    (usbredirhost_control_packet example_connected 5
        { endpoint := 0x80, request := 1, requesttype := 2, status := 0, value := 0,
          index := 0x81, length := 8 } []).usb.calls =
      example_connected.usb.calls ++ [.clear_halt 0x81] ∧
    (usbredirhost_control_packet example_connected 5
        { endpoint := 0x80, request := 1, requesttype := 2, status := 0, value := 0,
          index := 0x81, length := 8 } []).parser.sent =
      example_connected.parser.sent ++
        [.control_packet 5
          { endpoint := 0x80, request := 1, requesttype := 2, status := usb_redir_success,
            value := 0, index := 0x81, length := 0 } []] ∧
    (usbredirhost_control_packet example_connected 5
        { endpoint := 0x80, request := 1, requesttype := 2, status := 0, value := 0,
          index := 0x81, length := 8 } []).next_ptr = example_connected.next_ptr ∧
    (usbredirhost_control_packet example_connected 5
        { endpoint := 0x80, request := 1, requesttype := 2, status := 0, value := 0,
          index := 0x81, length := 8 } []).host.transfers_head =
      example_connected.host.transfers_head := by
  decide



/-! ### The allocator key: addresses are never reused -/

theorem grow_refl (k : MKey) : Grow k k :=
  ⟨Nat.le_refl _, fun _ h => Or.inl h, fun _ h => Or.inl h⟩

theorem grow_trans {a b c : MKey} (h₁ : Grow a b) (h₂ : Grow b c) : Grow a c := by
  obtain ⟨n1, r1, l1⟩ := h₁
  obtain ⟨n2, r2, l2⟩ := h₂
  refine ⟨Nat.le_trans n1 n2, fun p hp => ?_, fun p hp => ?_⟩
  · rcases r2 p hp with h | ⟨h, h'⟩
    · rcases r1 p h with h | ⟨h, h'⟩
      · exact Or.inl h
      · exact Or.inr ⟨h, Nat.le_trans h' n2⟩
    · exact Or.inr ⟨Nat.lt_of_le_of_lt n1 h, h'⟩
  · rcases l2 p hp with h | ⟨h, h'⟩
    · rcases l1 p h with h | ⟨h, h'⟩
      · exact Or.inl h
      · exact Or.inr ⟨h, Nat.le_trans h' n2⟩
    · exact Or.inr ⟨Nat.lt_of_le_of_lt n1 h, h'⟩

theorem mkey_mk (h : usbredirhost) (hp : Nat → Option usbredirtransfer) (n : Nat)
    (p : usbredirparser) (u : Libusb) :
    State.mkey ⟨h, hp, n, p, u⟩ = ⟨n, h.transfers_head, fun q => (hp q).isSome⟩ := rfl

theorem mkey_fold (s : State) :
    MKey.mk s.next_ptr s.host.transfers_head (fun q => (s.heap q).isSome) = s.mkey := rfl

theorem mkey_send (s : State) (p : Packet) : (s.send p).mkey = s.mkey := rfl
theorem mkey_call (s : State) (c : LibusbCall) : (s.call c).1.mkey = s.mkey := rfl
theorem mkey_callVoid (s : State) (c : LibusbCall) : (s.callVoid c).mkey = s.mkey := rfl
theorem mkey_alloc (s : State) : s.alloc.1.mkey = s.mkey := rfl
theorem mkey_modifyEp (s : State) (i : Nat) (f : usbredirhost_ep → usbredirhost_ep) :
    (s.modifyEp i f).mkey = s.mkey := rfl

theorem mkey_modify (s : State) (p : Nat) (f : usbredirtransfer → usbredirtransfer) :
    (s.modify p f).mkey = s.mkey := by
  simp only [State.mkey, State.modify, MKey.mk.injEq, true_and]
  funext q
  by_cases hq : q = p
  · subst hq; simp
  · simp [Function.update, hq]

theorem grow_modify {k : MKey} {s : State} (p : Nat) (f : usbredirtransfer → usbredirtransfer)
    (h : Grow k s.mkey) : Grow k (s.modify p f).mkey := by
  rw [mkey_modify]; exact h

theorem grow_free_transfer {k : MKey} {s : State} (p : Nat) (h : Grow k s.mkey) :
    Grow k (usbredirhost_free_transfer s p).mkey := by
  unfold usbredirhost_free_transfer
  split_ifs
  · exact h
  · refine ⟨h.1, h.2.1, fun q hq => h.2.2 q ?_⟩
    by_cases hqp : q = p
    · subst hqp; simp [State.mkey] at hq
    · simpa [State.mkey, Function.update, hqp] using hq

theorem grow_alloc_transfer {k : MKey} {s : State} (n : Nat) (h : Grow k s.mkey) :
    Grow k (usbredirhost_alloc_transfer s n).1.mkey := by
  unfold usbredirhost_alloc_transfer
  simp only []
  split_ifs
  · exact h
  · refine ⟨Nat.le_trans h.1 (Nat.le_succ _), fun q hq => ?_, fun q hq => ?_⟩
    · rcases h.2.1 q hq with h' | ⟨h1, h2⟩
      · exact Or.inl h'
      · exact Or.inr ⟨h1, Nat.le_trans h2 (Nat.le_succ _)⟩
    · by_cases hqp : q = s.next_ptr + 1
      · subst hqp
        exact Or.inr ⟨Nat.lt_succ_of_le h.1, Nat.le_refl _⟩
      · have hq' : s.mkey.live q = true := by
          simpa [State.mkey, State.alloc, Function.update, hqp] using hq
        rcases h.2.2 q hq' with h' | ⟨h1, h2⟩
        · exact Or.inl h'
        · exact Or.inr ⟨h1, Nat.le_trans h2 (Nat.le_succ _)⟩

theorem grow_remove_and_free_transfer {k : MKey} {s : State} (p : Nat) (h : Grow k s.mkey) :
    Grow k (usbredirhost_remove_and_free_transfer s p).mkey := by
  unfold usbredirhost_remove_and_free_transfer
  apply grow_free_transfer
  exact ⟨h.1, fun q hq => h.2.1 q (List.mem_of_mem_erase hq), h.2.2⟩

theorem grow_foldl {α : Type} (f : State → α → State)
    (hf : ∀ (k : MKey) (s : State) (x : α), Grow k s.mkey → Grow k (f s x).mkey)
    (l : List α) {k : MKey} {s : State} (h : Grow k s.mkey) : Grow k (l.foldl f s).mkey := by
  induction l generalizing s with
  | nil => exact h
  | cons x l ih => exact ih (hf k s x h)

theorem grow_handle_disconnect {k : MKey} {s : State} (h : Grow k s.mkey) :
    Grow k (usbredirhost_handle_disconnect s).mkey := by
  unfold usbredirhost_handle_disconnect State.send
  simp only []
  split_ifs <;> exact h

theorem grow_translate {k : MKey} {s : State} (r : Int) (h : Grow k s.mkey) :
    Grow k (libusb_status_or_error_to_redir_status s r).1.mkey := by
  rw [translate_state]
  split_ifs
  · exact grow_handle_disconnect h
  · exact h

theorem grow_libusb_submit_transfer {k : MKey} {s : State} (p : Nat) (h : Grow k s.mkey) :
    Grow k (libusb_submit_transfer s p).1.mkey := by
  unfold libusb_submit_transfer
  simp only []
  split_ifs <;> exact h

theorem mkey_foldl {α : Type} (f : State → α → State)
    (hf : ∀ s x, (f s x).mkey = s.mkey) (l : List α) (s : State) :
    (l.foldl f s).mkey = s.mkey := by
  induction l generalizing s with
  | nil => rfl
  | cons x l ih => simp only [List.foldl_cons, ih, hf]

theorem mkey_foldl_pair {α β : Type} (f : State × β → α → State × β)
    (hf : ∀ a x, (f a x).1.mkey = a.1.mkey) (l : List α) (a : State × β) :
    (l.foldl f a).1.mkey = a.1.mkey := by
  induction l generalizing a with
  | nil => rfl
  | cons x l ih => simp only [List.foldl_cons, ih, hf]

theorem mkey_libusb_cancel_transfer (s : State) (p : Nat) :
    (libusb_cancel_transfer s p).mkey = s.mkey := rfl

theorem mkey_libusb_submit_transfer (s : State) (p : Nat) :
    (libusb_submit_transfer s p).1.mkey = s.mkey := by
  unfold libusb_submit_transfer
  simp only [apply_ite Prod.fst, apply_ite State.mkey, mkey_mk, mkey_fold, mkey_call, ite_self]

theorem mkey_libusb_set_configuration (s : State) (c : Nat) :
    (libusb_set_configuration s c).1.mkey = s.mkey := by
  unfold libusb_set_configuration
  simp only [apply_ite Prod.fst, apply_ite State.mkey, mkey_mk, mkey_fold, mkey_call, ite_self]

theorem mkey_libusb_get_config_descriptor_by_value (s : State) :
    (libusb_get_config_descriptor_by_value s).1.mkey = s.mkey := by
  unfold libusb_get_config_descriptor_by_value
  simp only []
  split
  · rfl
  · split <;> rfl

theorem mkey_read (s : State) : (usbredirhost_read s).1.mkey = s.mkey := by
  unfold usbredirhost_read
  simp only [apply_ite Prod.fst, apply_ite State.mkey, mkey_mk, mkey_fold, ite_self]

theorem mkey_handle_disconnect (s : State) :
    (usbredirhost_handle_disconnect s).mkey = s.mkey := by
  unfold usbredirhost_handle_disconnect
  simp only [apply_ite State.mkey, mkey_mk, mkey_fold, mkey_send, ite_self]

theorem mkey_translate (s : State) (r : Int) :
    (libusb_status_or_error_to_redir_status s r).1.mkey = s.mkey := by
  rw [translate_state]
  simp only [apply_ite State.mkey, mkey_handle_disconnect, ite_self]

theorem mkey_parser_hello (s : State) (caps : List Nat) :
    (usbredirparser_hello s caps).mkey = s.mkey := rfl

theorem mkey_send_interface_n_ep_info (s : State) :
    (usbredirhost_send_interface_n_ep_info s).mkey = s.mkey := rfl

theorem mkey_send_device_connect (s : State) :
    (usbredirhost_send_device_connect s).mkey = s.mkey := by
  unfold usbredirhost_send_device_connect
  simp only [apply_ite State.mkey, mkey_mk, mkey_fold, mkey_send,
    mkey_send_interface_n_ep_info, ite_self]

theorem mkey_parse_interface (s : State) (i : Nat) :
    (usbredirhost_parse_interface s i).mkey = s.mkey := by
  unfold usbredirhost_parse_interface
  exact mkey_foldl _ (fun s x => mkey_modifyEp _ _ _) _ _

theorem mkey_parse_config (s : State) : (usbredirhost_parse_config s).mkey = s.mkey := by
  unfold usbredirhost_parse_config
  simp only []
  rw [mkey_foldl _ (fun s x => mkey_parse_interface s x)]
  exact mkey_foldl _ (fun s x => mkey_modifyEp _ _ _) _ _

theorem mkey_claim_interfaces (l : List Nat) (s : State) :
    (usbredirhost_claim_interfaces s l).1.mkey = s.mkey := by
  induction l generalizing s with
  | nil => rfl
  | cons i l ih =>
    unfold usbredirhost_claim_interfaces
    simp only [apply_ite Prod.fst, apply_ite State.mkey, mkey_translate, mkey_call, ih, ite_self]

theorem mkey_claim (s : State) : (usbredirhost_claim s).1.mkey = s.mkey := by
  unfold usbredirhost_claim
  simp only []
  have h0 : (if s.host.config.isSome = true then
      ({ (s.callVoid .free_config_descriptor) with
        host := { s.host with config := none } } : State) else s).mkey = s.mkey := by
    split <;> rfl
  generalize (if s.host.config.isSome = true then
      ({ (s.callVoid .free_config_descriptor) with
        host := { s.host with config := none } } : State) else s) = s1 at h0 ⊢
  have h1 : (libusb_get_config_descriptor_by_value s1).1.mkey = s.mkey := by
    rw [mkey_libusb_get_config_descriptor_by_value]; exact h0
  split_ifs
  · rw [mkey_translate]; exact h1
  · exact h1
  · split
    · simp only [mkey_mk, mkey_fold, mkey_parse_config]
      rw [mkey_claim_interfaces]; exact h1
    · rw [mkey_foldl _ (fun s x => by simp only [mkey_call]), mkey_claim_interfaces]
      exact h1

theorem mkey_release (s : State) (a : Bool) : (usbredirhost_release s a).1.mkey = s.mkey := by
  unfold usbredirhost_release
  simp only [apply_ite Prod.fst, apply_ite State.mkey, mkey_mk, mkey_fold, mkey_call,
    mkey_foldl_pair, ite_self, implies_true]

theorem mkey_cancel_interrupt_in_transfer_unlocked (s : State) (ep : Nat) :
    (usbredirhost_cancel_interrupt_in_transfer_unlocked s ep).mkey = s.mkey := by
  unfold usbredirhost_cancel_interrupt_in_transfer_unlocked
  simp only [apply_ite State.mkey, mkey_mk, mkey_fold, mkey_modifyEp, mkey_modify,
    mkey_libusb_cancel_transfer, ite_self]

theorem mkey_iso_packet_complete_underflow (s : State) (ep : Nat) :
    (usbredirhost_iso_packet_complete_underflow s ep).mkey = s.mkey := by
  unfold usbredirhost_iso_packet_complete_underflow
  simp only [apply_ite State.mkey, mkey_modifyEp, mkey_modify, mkey_foldl, ite_self,
    implies_true]

theorem mkey_get_alt_setting (s : State) (id : Nat) (h : usb_redir_get_alt_setting_header) :
    (usbredirhost_get_alt_setting s id h).mkey = s.mkey := by
  unfold usbredirhost_get_alt_setting
  simp only [apply_ite State.mkey, mkey_send, ite_self]

theorem mkey_stop_interrupt_receiving (s : State) (id : Nat)
    (h : usb_redir_stop_interrupt_receiving_header) :
    (usbredirhost_stop_interrupt_receiving s id h).mkey = s.mkey := by
  unfold usbredirhost_stop_interrupt_receiving usbredirhost_send_interrupt_recv_status
  simp only [apply_ite State.mkey, mkey_send,
    mkey_cancel_interrupt_in_transfer_unlocked, ite_self]

theorem mkey_filter_reject (s : State) : (usbredirhost_filter_reject s).mkey = s.mkey := by
  unfold usbredirhost_filter_reject
  simp only [apply_ite State.mkey, mkey_mk, mkey_fold, ite_self]

theorem mkey_cancel_data_packet (s : State) (id : Nat) :
    (usbredirhost_cancel_data_packet s id).mkey = s.mkey := by
  unfold usbredirhost_cancel_data_packet
  split <;> rfl

theorem mkey_device_disconnect_ack (s : State) :
    (usbredirhost_device_disconnect_ack s).mkey = s.mkey := by
  unfold usbredirhost_device_disconnect_ack
  simp only [apply_ite State.mkey, mkey_mk, mkey_fold, mkey_send_device_connect, ite_self]

theorem mkey_iso_packet_store (s : State) (id ep : Nat) (data : List Nat) :
    (usbredirhost_iso_packet_store s id ep data).mkey = s.mkey := by
  unfold usbredirhost_iso_packet_store
  simp only [apply_ite State.mkey, mkey_modifyEp, mkey_modify, ite_self]

theorem mkey_clear_device_finish (s : State) :
    (usbredirhost_clear_device_finish s).mkey = s.mkey := by
  unfold usbredirhost_clear_device_finish
  simp only [mkey_handle_disconnect]
  have hr := mkey_release s true
  generalize (usbredirhost_release s true).1 = r at hr ⊢
  split_ifs <;> exact hr



/-! ### The allocator key under the code that allocates and frees -/

theorem grow_call {k : MKey} {s : State} (c : LibusbCall) (h : Grow k s.mkey) :
    Grow k (s.call c).1.mkey := h

theorem grow_send {k : MKey} {s : State} (p : Packet) (h : Grow k s.mkey) :
    Grow k (s.send p).mkey := h

theorem grow_modifyEp {k : MKey} {s : State} (i : Nat) (f : usbredirhost_ep → usbredirhost_ep)
    (h : Grow k s.mkey) : Grow k (s.modifyEp i f).mkey := h

theorem grow_cancel_iso_stream_unlocked {k : MKey} {s : State} (ep : Nat)
    (h : Grow k s.mkey) : Grow k (usbredirhost_cancel_iso_stream_unlocked s ep).mkey := by
  unfold usbredirhost_cancel_iso_stream_unlocked
  simp only [mkey_modifyEp]
  refine grow_foldl _ (fun k s x hk => ?_) _ h
  split_ifs <;>
    (try simp only [mkey_mk, mkey_fold, mkey_modifyEp, mkey_modify,
      mkey_libusb_cancel_transfer]) <;>
    apply_rules [grow_free_transfer]

theorem grow_cancel_pending_urbs {k : MKey} {s : State} (h : Grow k s.mkey) :
    Grow k (usbredirhost_cancel_pending_urbs s).1.mkey := by
  unfold usbredirhost_cancel_pending_urbs
  simp only []
  rw [mkey_foldl _ (fun s x => mkey_libusb_cancel_transfer s x)]
  refine grow_foldl _ (fun k s x hk => ?_) _ h
  split_ifs <;> (try simp only [mkey_cancel_interrupt_in_transfer_unlocked]) <;>
    apply_rules [grow_cancel_iso_stream_unlocked]

theorem grow_cancel_pending_urbs_on_interface {k : MKey} {s : State} (i : Nat)
    (h : Grow k s.mkey) : Grow k (usbredirhost_cancel_pending_urbs_on_interface s i).mkey := by
  unfold usbredirhost_cancel_pending_urbs_on_interface
  simp only []
  refine grow_foldl _ (fun k s x hk => ?_) _ h
  rw [mkey_foldl _ (fun s t => by
    simp only [apply_ite State.mkey, mkey_libusb_cancel_transfer, ite_self])]
  split_ifs <;> (try simp only [mkey_cancel_interrupt_in_transfer_unlocked]) <;>
    apply_rules [grow_cancel_iso_stream_unlocked]

theorem grow_submit_iso_transfer_unlocked {k : MKey} {s : State} (t : Nat)
    (h : Grow k s.mkey) : Grow k (usbredirhost_submit_iso_transfer_unlocked s t).1.mkey := by
  unfold usbredirhost_submit_iso_transfer_unlocked
  simp only []
  split_ifs <;> (try simp only [mkey_translate, mkey_modify]) <;>
    apply_rules [grow_cancel_iso_stream_unlocked, grow_libusb_submit_transfer, grow_call]

theorem grow_alloc_iso_stream_step {k : MKey} (ep pkts : Nat) {s : State} (i : Nat)
    (h : Grow k s.mkey) : Grow k (usbredirhost_alloc_iso_stream_step ep pkts s i).1.mkey := by
  unfold usbredirhost_alloc_iso_stream_step
  simp only []
  split_ifs <;> (try simp only [mkey_modify, mkey_alloc, mkey_modifyEp]) <;>
    apply_rules [grow_alloc_transfer]

theorem grow_alloc_iso_stream_loop {k : MKey} (ep pkts : Nat) (l : List Nat) {s : State}
    (h : Grow k s.mkey) : Grow k (usbredirhost_alloc_iso_stream_loop ep pkts s l).1.mkey := by
  induction l generalizing s with
  | nil => exact h
  | cons i l ih =>
    unfold usbredirhost_alloc_iso_stream_loop
    simp only []
    split_ifs
    · exact grow_alloc_iso_stream_step _ _ _ h
    · exact ih (grow_alloc_iso_stream_step _ _ _ h)

theorem grow_alloc_iso_stream {k : MKey} {s : State} (ep pkts count : Nat)
    (h : Grow k s.mkey) : Grow k (usbredirhost_alloc_iso_stream s ep pkts count).1.mkey := by
  unfold usbredirhost_alloc_iso_stream
  simp only []
  split_ifs
  · exact h
  · exact h
  · exact h
  · split
    · rw [mkey_modifyEp]
      exact grow_alloc_iso_stream_loop _ _ _ h
    · refine grow_foldl _ (fun k s x hk => ?_) _ (grow_alloc_iso_stream_loop _ _ _ h)
      rw [mkey_modifyEp]
      exact grow_free_transfer _ hk

theorem grow_submit_iso_in_ring {k : MKey} (ep : Nat) (l : List Nat) {s : State}
    (h : Grow k s.mkey) : Grow k (usbredirhost_submit_iso_in_ring ep s l).1.mkey := by
  induction l generalizing s with
  | nil => exact h
  | cons i l ih =>
    unfold usbredirhost_submit_iso_in_ring
    simp only []
    split_ifs
    · exact grow_submit_iso_transfer_unlocked _ (grow_modify _ _ h)
    · exact ih (grow_submit_iso_transfer_unlocked _ (grow_modify _ _ h))

theorem grow_iso_packet_start {k : MKey} (ep : Nat) (l : List Nat) {s : State}
    (h : Grow k s.mkey) : Grow k (usbredirhost_iso_packet_start ep s l).1.mkey := by
  induction l generalizing s with
  | nil => exact h
  | cons i l ih =>
    unfold usbredirhost_iso_packet_start
    simp only []
    split_ifs
    · exact grow_submit_iso_transfer_unlocked _ h
    · exact ih (grow_submit_iso_transfer_unlocked _ h)

theorem grow_handle_iso_status {k : MKey} {s : State} (id ep : Nat) (r : Int)
    (h : Grow k s.mkey) : Grow k (usbredirhost_handle_iso_status s id ep r).1.mkey := by
  unfold usbredirhost_handle_iso_status usbredirhost_send_iso_status
  simp only []
  split_ifs <;>
    (try simp only [mkey_send, mkey_modifyEp, mkey_handle_disconnect]) <;>
    apply_rules [grow_submit_iso_in_ring, grow_alloc_iso_stream,
      grow_cancel_iso_stream_unlocked, grow_call, grow_send, grow_modifyEp]


theorem grow_iso_packet_complete_loop {k : MKey} (t ep : Nat) (l : List Nat) {s : State}
    (h : Grow k s.mkey) : Grow k (usbredirhost_iso_packet_complete_loop t ep s l).1.mkey := by
  induction l generalizing s with
  | nil => exact h
  | cons i l ih =>
    unfold usbredirhost_iso_packet_complete_loop usbredirhost_send_iso_status
    simp only []
    have h1 := fun (id : Nat) (r : Int) =>
      grow_handle_iso_status (k := k) id ep r (grow_translate r h)
    split_ifs <;> (try apply ih) <;>
      (try simp only [mkey_modify, mkey_send]) <;>
      exact h1 _ _

theorem grow_iso_packet_complete_resubmit {k : MKey} {s : State} (t ep : Nat)
    (h : Grow k s.mkey) : Grow k (usbredirhost_iso_packet_complete_resubmit s t ep).mkey := by
  unfold usbredirhost_iso_packet_complete_resubmit usbredirhost_send_iso_status
  simp only []
  split_ifs <;> (try simp only [mkey_send]) <;>
    apply_rules [grow_submit_iso_transfer_unlocked, grow_modify]

theorem grow_iso_packet_complete {k : MKey} {s : State} (t : Nat) (h : Grow k s.mkey) :
    Grow k (usbredirhost_iso_packet_complete s t).mkey := by
  unfold usbredirhost_iso_packet_complete usbredirhost_send_iso_status
  simp only []
  have h1 : ∀ (f : usbredirtransfer → usbredirtransfer) (id ep : Nat) (r : Int),
      Grow k (usbredirhost_handle_iso_status (s.modify t f) id ep r).1.mkey :=
    fun f id ep r => grow_handle_iso_status id ep r (grow_modify _ _ h)
  split_ifs
  · exact grow_free_transfer _ h
  · exact h1 _ _ _ _
  · apply grow_iso_packet_complete_resubmit
    rw [mkey_modify, mkey_send]
    exact grow_translate _ (h1 _ _ _ _)
  · rw [mkey_send]
    exact grow_translate _ (h1 _ _ _ _)
  · exact grow_iso_packet_complete_loop _ _ _ (h1 _ _ _ _)
  · exact grow_iso_packet_complete_resubmit _ _
      (grow_iso_packet_complete_loop _ _ _ (h1 _ _ _ _))
  · rw [mkey_iso_packet_complete_underflow]
    exact grow_iso_packet_complete_loop _ _ _ (h1 _ _ _ _)

theorem grow_submit_interrupt_in_transfer {k : MKey} {s : State} (ep : Nat)
    (h : Grow k s.mkey) : Grow k (usbredirhost_submit_interrupt_in_transfer s ep).1.mkey := by
  unfold usbredirhost_submit_interrupt_in_transfer
  simp only []
  split_ifs <;> (try simp only [mkey_modifyEp, mkey_libusb_submit_transfer]) <;>
    apply_rules [grow_free_transfer, grow_libusb_submit_transfer]

theorem grow_interrupt_packet_complete_resubmit {k : MKey} {s : State} (t ep : Nat)
    (h : Grow k s.mkey) :
    Grow k (usbredirhost_interrupt_packet_complete_resubmit s t ep).mkey := by
  unfold usbredirhost_interrupt_packet_complete_resubmit
    usbredirhost_send_interrupt_recv_status
  simp only []
  split_ifs <;> (try simp only [mkey_send]) <;>
    apply_rules [grow_submit_interrupt_in_transfer]

theorem grow_interrupt_packet_complete {k : MKey} {s : State} (t : Nat) (h : Grow k s.mkey) :
    Grow k (usbredirhost_interrupt_packet_complete s t).mkey := by
  unfold usbredirhost_interrupt_packet_complete usbredirhost_send_interrupt_recv_status
  simp only []
  have h0 : ∀ c : Int, Grow k (State.mkey
      { (libusb_status_or_error_to_redir_status s c).1 with
        host := { (libusb_status_or_error_to_redir_status s c).1.host with
          cancels_pending :=
            (libusb_status_or_error_to_redir_status s c).1.host.cancels_pending - 1 } }) :=
    fun c => grow_translate c h
  split_ifs <;>
    (try simp only [mkey_modifyEp]) <;>
    apply_rules [grow_interrupt_packet_complete_resubmit, grow_remove_and_free_transfer,
      grow_free_transfer, grow_handle_disconnect, grow_modify, grow_send, grow_call,
      grow_translate]

theorem grow_alloc_interrupt_in_transfer {k : MKey} {s : State} (ep : Nat)
    (h : Grow k s.mkey) : Grow k (usbredirhost_alloc_interrupt_in_transfer s ep).1.mkey := by
  unfold usbredirhost_alloc_interrupt_in_transfer
  simp only []
  split_ifs <;> (try simp only [mkey_modifyEp, mkey_modify, mkey_alloc]) <;>
    first
    | exact h
    | exact grow_alloc_transfer _ h
    | exact grow_free_transfer _ (by simpa only [mkey_alloc] using grow_alloc_transfer _ h)

theorem grow_control_packet_complete {k : MKey} {s : State} (t : Nat) (h : Grow k s.mkey) :
    Grow k (usbredirhost_control_packet_complete s t).mkey := by
  unfold usbredirhost_control_packet_complete
  simp only []
  apply grow_remove_and_free_transfer
  split_ifs <;> exact grow_send _ (grow_translate _ h)

theorem grow_bulk_packet_complete {k : MKey} {s : State} (t : Nat) (h : Grow k s.mkey) :
    Grow k (usbredirhost_bulk_packet_complete s t).mkey := by
  unfold usbredirhost_bulk_packet_complete
  simp only []
  apply grow_remove_and_free_transfer
  split_ifs <;> exact grow_send _ (grow_translate _ h)

theorem grow_libusb_complete {k : MKey} {s : State} (c : Completion) (h : Grow k s.mkey) :
    Grow k (libusb_complete s c).mkey := by
  unfold libusb_complete
  simp only []
  split_ifs
  · have h1 : ∀ f, Grow k (State.modify
        { s with usb := { s.usb with inflight := s.usb.inflight.erase c.ptr } } c.ptr f).mkey :=
      fun f => by simpa only [mkey_modify, mkey_mk, mkey_fold] using h
    split
    · exact h1 _
    · exact grow_iso_packet_complete _ (h1 _)
    · exact grow_interrupt_packet_complete _ (h1 _)
    · exact grow_control_packet_complete _ (h1 _)
    · exact grow_bulk_packet_complete _ (h1 _)
  · exact h

theorem grow_libusb_handle_events_timeout {k : MKey} {s : State} (h : Grow k s.mkey) :
    Grow k (libusb_handle_events_timeout s).mkey := by
  unfold libusb_handle_events_timeout
  simp only []
  exact grow_foldl _ (fun k s x hk => grow_libusb_complete x hk) _
    (by simpa only [mkey_mk, mkey_fold, mkey_call] using h)

theorem grow_clear_device_wait {k : MKey} (fuel : Nat) {s s' : State}
    (hs : usbredirhost_clear_device_wait fuel s = some s') (h : Grow k s.mkey) :
    Grow k s'.mkey := by
  induction fuel generalizing s with
  | zero => simp [usbredirhost_clear_device_wait] at hs
  | succ n ih =>
    unfold usbredirhost_clear_device_wait at hs
    simp only [] at hs
    split_ifs at hs
    · exact ih hs (grow_libusb_handle_events_timeout h)
    · cases hs
      exact grow_libusb_handle_events_timeout h


theorem grow_alloc_add_transfer {k : MKey} {s : State} (n : Nat)
    (f : usbredirtransfer → usbredirtransfer) (h : Grow k s.mkey)
    (ha : (usbredirhost_alloc_transfer s n).2 ≠ 0) :
    Grow k (usbredirhost_add_transfer
      ((usbredirhost_alloc_transfer s n).1.modify (usbredirhost_alloc_transfer s n).2 f)
      (usbredirhost_alloc_transfer s n).2).mkey := by
  have hg := grow_alloc_transfer n h
  have hp : (usbredirhost_alloc_transfer s n).2 = (usbredirhost_alloc_transfer s n).1.next_ptr ∧
      s.next_ptr < (usbredirhost_alloc_transfer s n).2 := by
    unfold usbredirhost_alloc_transfer at ha ⊢
    simp only [] at ha ⊢
    split_ifs at ha ⊢
    · exact absurd rfl ha
    · exact ⟨rfl, Nat.lt_succ_self _⟩
  generalize usbredirhost_alloc_transfer s n = a at hg hp
  obtain ⟨hp1, hp2⟩ := hp
  refine ⟨hg.1, fun q hq => ?_, fun q hq => ?_⟩
  · simp only [usbredirhost_add_transfer, State.mkey, State.modify, List.mem_append,
      List.mem_singleton] at hq
    rcases hq with hq | hq
    · exact hg.2.1 q hq
    · subst hq
      exact Or.inr ⟨Nat.lt_of_le_of_lt h.1 hp2, Nat.le_of_eq hp1⟩
  · have : (usbredirhost_add_transfer (a.1.modify a.2 f) a.2).mkey.live q =
        (a.1.modify a.2 f).mkey.live q := rfl
    rw [this, mkey_modify] at hq
    exact hg.2.2 q hq

theorem grow_clear_device {k : MKey} {s s' : State}
    (hs : usbredirhost_clear_device s = some s') (h : Grow k s.mkey) : Grow k s'.mkey := by
  unfold usbredirhost_clear_device at hs
  simp only [] at hs
  split_ifs at hs with hdev hw
  · rw [← Option.some.inj hs]; exact h
  · cases hd : usbredirhost_clear_device_wait (usbredirhost_cancel_pending_urbs s).1.usb.events.length
        (usbredirhost_cancel_pending_urbs s).1 with
    | none => rw [hd] at hs; exact absurd hs (by simp)
    | some s1 =>
      rw [hd, Option.map_some'] at hs
      rw [← Option.some.inj hs, mkey_clear_device_finish]
      exact grow_clear_device_wait _ hd (grow_cancel_pending_urbs h)
  · rw [Option.map_some'] at hs
    rw [← Option.some.inj hs, mkey_clear_device_finish]
    exact grow_cancel_pending_urbs h

theorem grow_reset {k : MKey} {s : State} (h : Grow k s.mkey) :
    Grow k (usbredirhost_reset s).mkey := by
  unfold usbredirhost_reset
  simp only []
  split_ifs
  · exact h
  · exact h
  · rw [mkey_handle_disconnect]; exact h

theorem grow_set_device_bind {k : MKey} {s : State} {r : State × Nat}
    (hd : libusb_device_handle)
    (hr : usbredirhost_set_device_bind s hd = some r) (h : Grow k s.mkey) :
    Grow k r.1.mkey := by
  unfold usbredirhost_set_device_bind at hr
  simp only [] at hr
  split_ifs at hr
  · cases hc : usbredirhost_clear_device _ with
    | none => rw [hc] at hr; exact absurd hr (by simp)
    | some s1 =>
      rw [hc, Option.map_some'] at hr
      rw [← Option.some.inj hr, mkey_translate]
      exact grow_clear_device hc h
  · cases hc : usbredirhost_clear_device _ with
    | none => rw [hc] at hr; exact absurd hr (by simp)
    | some s1 =>
      rw [hc, Option.map_some'] at hr
      rw [← Option.some.inj hr, mkey_translate]
      exact grow_clear_device hc h
  · cases hc : usbredirhost_clear_device _ with
    | none => rw [hc] at hr; exact absurd hr (by simp)
    | some s1 =>
      rw [hc, Option.map_some'] at hr
      rw [← Option.some.inj hr]
      refine grow_clear_device hc ?_
      rw [mkey_claim]; exact h
  · rw [← Option.some.inj hr, mkey_send_device_connect, mkey_claim]; exact h

theorem grow_set_device {k : MKey} {s : State} {r : State × Nat}
    (hd : Option libusb_device_handle)
    (hr : usbredirhost_set_device s hd = some r) (h : Grow k s.mkey) :
    Grow k r.1.mkey := by
  unfold usbredirhost_set_device at hr
  cases hc : usbredirhost_clear_device s with
  | none => rw [hc] at hr; exact absurd hr (by simp)
  | some s1 =>
    rw [hc, Option.some_bind] at hr
    have h1 := grow_clear_device hc h
    cases hd with
    | none => rw [← Option.some.inj hr]; exact h1
    | some d => exact grow_set_device_bind d hr h1

theorem grow_set_configuration_body {k : MKey} {s : State} {r : State × Nat}
    (c : usb_redir_set_configuration_header)
    (hr : usbredirhost_set_configuration_body s c = some r) (h : Grow k s.mkey) :
    Grow k r.1.mkey := by
  unfold usbredirhost_set_configuration_body at hr
  simp only [] at hr
  have h1 : Grow k (usbredirhost_release (usbredirhost_cancel_pending_urbs s).1 false).1.mkey := by
    rw [mkey_release]; exact grow_cancel_pending_urbs h
  have h2 : Grow k (usbredirhost_claim
      { (libusb_set_configuration
          (usbredirhost_release (usbredirhost_cancel_pending_urbs s).1 false).1
          c.configuration).1 with
        host := { (libusb_set_configuration
          (usbredirhost_release (usbredirhost_cancel_pending_urbs s).1 false).1
          c.configuration).1.host with active_config := (c.configuration : Int) } }).1.mkey := by
    rw [mkey_claim]
    simpa only [mkey_mk, mkey_fold, mkey_libusb_set_configuration] using h1
  split_ifs at hr
  · rw [← Option.some.inj hr]; exact h
  · rw [← Option.some.inj hr]; exact h
  · rw [← Option.some.inj hr]; exact h1
  · rw [← Option.some.inj hr]; simpa only [mkey_libusb_set_configuration] using h1
  · generalize usbredirhost_claim _ = cl at hr h2
    cases hd : usbredirhost_clear_device cl.1 with
    | none => rw [hd] at hr; exact absurd hr (by simp)
    | some s1 =>
      rw [hd, Option.map_some'] at hr
      rw [← Option.some.inj hr]
      have h3 : Grow k s1.mkey := grow_clear_device hd h2
      exact h3
  · rw [← Option.some.inj hr]
    rw [mkey_send_interface_n_ep_info]
    exact h2

theorem grow_set_configuration {k : MKey} {s s' : State} (id : Nat)
    (c : usb_redir_set_configuration_header)
    (hs : usbredirhost_set_configuration s id c = some s') (h : Grow k s.mkey) :
    Grow k s'.mkey := by
  unfold usbredirhost_set_configuration at hs
  cases hb : usbredirhost_set_configuration_body s c with
  | none => rw [hb] at hs; exact absurd hs (by simp)
  | some r =>
    rw [hb, Option.map_some'] at hs
    rw [← Option.some.inj hs, mkey_send]
    exact grow_set_configuration_body c hb h

theorem grow_set_alt_setting {k : MKey} {s : State} (id : Nat)
    (a : usb_redir_set_alt_setting_header) (h : Grow k s.mkey) :
    Grow k (usbredirhost_set_alt_setting s id a).mkey := by
  unfold usbredirhost_set_alt_setting
  simp only []
  split_ifs <;>
    (try simp only [mkey_send, mkey_send_interface_n_ep_info,
      mkey_parse_interface, mkey_mk, mkey_fold, mkey_foldl, apply_ite State.mkey, mkey_modifyEp,
      ite_self, implies_true, mkey_call, mkey_translate]) <;>
    first
    | exact h
    | exact grow_cancel_pending_urbs_on_interface _ h

theorem grow_start_iso_stream {k : MKey} {s : State} (id : Nat)
    (a : usb_redir_start_iso_stream_header) (h : Grow k s.mkey) :
    Grow k (usbredirhost_start_iso_stream s id a).mkey := by
  unfold usbredirhost_start_iso_stream usbredirhost_send_iso_status
  simp only [mkey_send]
  split_ifs <;> (try simp only [mkey_modifyEp]) <;>
    first
    | exact h
    | exact grow_alloc_iso_stream _ _ _ h
    | exact grow_submit_iso_in_ring _ _ (grow_alloc_iso_stream _ _ _ h)

theorem grow_stop_iso_stream {k : MKey} {s : State} (id : Nat)
    (a : usb_redir_stop_iso_stream_header) (h : Grow k s.mkey) :
    Grow k (usbredirhost_stop_iso_stream s id a).mkey := by
  unfold usbredirhost_stop_iso_stream usbredirhost_send_iso_status usbredirhost_cancel_iso_stream
  simp only [mkey_send]
  split_ifs
  · exact h
  · exact grow_cancel_iso_stream_unlocked _ h

theorem grow_start_interrupt_receiving {k : MKey} {s : State} (id : Nat)
    (a : usb_redir_start_interrupt_receiving_header) (h : Grow k s.mkey) :
    Grow k (usbredirhost_start_interrupt_receiving s id a).mkey := by
  unfold usbredirhost_start_interrupt_receiving usbredirhost_send_interrupt_recv_status
  simp only [mkey_send]
  split_ifs
  · exact h
  · exact h
  · exact grow_alloc_interrupt_in_transfer _ h
  · exact grow_submit_interrupt_in_transfer _ (grow_alloc_interrupt_in_transfer _ h)

theorem grow_iso_packet_submit {k : MKey} {s : State} (ep t : Nat) (i j : Int)
    (h : Grow k s.mkey) : Grow k (usbredirhost_iso_packet_submit s ep t i j).1.mkey := by
  unfold usbredirhost_iso_packet_submit
  simp only []
  split_ifs <;> (try simp only [mkey_modifyEp]) <;>
    first
    | exact h
    | exact grow_submit_iso_transfer_unlocked _ h
    | exact grow_iso_packet_start _ _ h

theorem grow_iso_packet_body {k : MKey} {s : State} (id ep : Nat) (data : List Nat)
    (h : Grow k s.mkey) : Grow k (usbredirhost_iso_packet_body s id ep data).1.mkey := by
  unfold usbredirhost_iso_packet_body
  simp only []
  split_ifs <;> (try simp only [mkey_modifyEp]) <;>
    first
    | exact h
    | exact grow_iso_packet_submit _ _ _ _ (by rw [mkey_iso_packet_store]; exact h)

theorem grow_iso_packet {k : MKey} {s : State} (id : Nat)
    (a : usb_redir_iso_packet_header) (data : List Nat) (h : Grow k s.mkey) :
    Grow k (usbredirhost_iso_packet s id a data).mkey := by
  unfold usbredirhost_iso_packet usbredirhost_send_iso_status
  simp only []
  split_ifs <;> (try simp only [mkey_send]) <;> exact grow_iso_packet_body _ _ _ h

theorem grow_hello {k : MKey} {s : State} (caps : List Nat) (h : Grow k s.mkey) :
    Grow k (usbredirhost_hello (usbredirparser_hello s caps)).mkey := by
  unfold usbredirhost_hello
  split_ifs <;> (try simp only [mkey_send_device_connect]) <;> exact h


theorem grow_control_packet {k : MKey} {s : State} (id : Nat)
    (c : usb_redir_control_packet_header) (data : List Nat) (h : Grow k s.mkey) :
    Grow k (usbredirhost_control_packet s id c data).mkey := by
  unfold usbredirhost_control_packet usbredirhost_send_control_status
  simp only []
  have hm : Grow k s.alloc.1.mkey := h
  split_ifs with h1 h2 h3 h4 h5 <;>
    first
    | exact h
    | (rw [mkey_send, mkey_translate]; exact h)
    | exact grow_alloc_transfer _ hm
    | (apply grow_control_packet_complete
       rw [mkey_modify, mkey_libusb_submit_transfer]
       exact grow_alloc_add_transfer _ _ hm h5)
    | (rw [mkey_libusb_submit_transfer]
       exact grow_alloc_add_transfer _ _ hm h5)

theorem grow_bulk_packet {k : MKey} {s : State} (id : Nat)
    (c : usb_redir_bulk_packet_header) (data : List Nat) (h : Grow k s.mkey) :
    Grow k (usbredirhost_bulk_packet s id c data).mkey := by
  unfold usbredirhost_bulk_packet usbredirhost_send_bulk_status
  simp only []
  have hm1 : Grow k s.alloc.1.mkey := h
  have hm2 : Grow k (s, true).1.mkey := h
  split_ifs <;>
    first
    | exact h
    | exact grow_alloc_transfer _ hm1
    | exact grow_alloc_transfer _ hm2
    | (apply grow_bulk_packet_complete
       rw [mkey_modify, mkey_libusb_submit_transfer]
       exact grow_alloc_add_transfer _ _ hm1 (by assumption))
    | (rw [mkey_libusb_submit_transfer]
       exact grow_alloc_add_transfer _ _ hm1 (by assumption))

theorem grow_interrupt_packet {k : MKey} {s : State} (id : Nat)
    (c : usb_redir_interrupt_packet_header) (data : List Nat) (h : Grow k s.mkey) :
    Grow k (usbredirhost_interrupt_packet s id c data).mkey := by
  unfold usbredirhost_interrupt_packet usbredirhost_send_interrupt_status
  simp only []
  split_ifs with h1 h2 h3 h4 h5
  · exact h
  · exact h
  · exact h
  · exact grow_alloc_transfer _ h
  · apply grow_interrupt_packet_complete
    rw [mkey_modify, mkey_libusb_submit_transfer]
    exact grow_alloc_add_transfer _ _ h h4
  · rw [mkey_libusb_submit_transfer]
    exact grow_alloc_add_transfer _ _ h h4

theorem grow_step {k : MKey} {s s' : State} (e : Event) (hs : step s e = some s')
    (h : Grow k s.mkey) : Grow k s'.mkey := by
  cases e with
  | set_device hd =>
    simp only [step] at hs
    cases hr : usbredirhost_set_device s hd with
    | none => rw [hr] at hs; exact absurd hs (by simp)
    | some r =>
      rw [hr, Option.map_some'] at hs
      rw [← Option.some.inj hs]
      exact grow_set_device hd hr h
  | read => rw [← Option.some.inj hs, mkey_read]; exact h
  | handle_events => rw [← Option.some.inj hs]; exact grow_libusb_handle_events_timeout h
  | completion c => rw [← Option.some.inj hs]; exact grow_libusb_complete c h
  | hello caps => rw [← Option.some.inj hs]; exact grow_hello caps h
  | reset => rw [← Option.some.inj hs]; exact grow_reset h
  | set_configuration id c => exact grow_set_configuration id c hs h
  | get_configuration id => rw [← Option.some.inj hs]; exact h
  | set_alt_setting id a => rw [← Option.some.inj hs]; exact grow_set_alt_setting id a h
  | get_alt_setting id a => rw [← Option.some.inj hs, mkey_get_alt_setting]; exact h
  | start_iso_stream id a => rw [← Option.some.inj hs]; exact grow_start_iso_stream id a h
  | stop_iso_stream id a => rw [← Option.some.inj hs]; exact grow_stop_iso_stream id a h
  | start_interrupt_receiving id a =>
    rw [← Option.some.inj hs]; exact grow_start_interrupt_receiving id a h
  | stop_interrupt_receiving id a =>
    rw [← Option.some.inj hs, mkey_stop_interrupt_receiving]; exact h
  | alloc_bulk_streams id => rw [← Option.some.inj hs]; exact h
  | free_bulk_streams id => rw [← Option.some.inj hs]; exact h
  | cancel_data_packet id => rw [← Option.some.inj hs, mkey_cancel_data_packet]; exact h
  | filter_reject => rw [← Option.some.inj hs, mkey_filter_reject]; exact h
  | filter_filter r n => rw [← Option.some.inj hs]; exact h
  | device_disconnect_ack => rw [← Option.some.inj hs, mkey_device_disconnect_ack]; exact h
  | control_packet id c data => rw [← Option.some.inj hs]; exact grow_control_packet id c data h
  | bulk_packet id c data => rw [← Option.some.inj hs]; exact grow_bulk_packet id c data h
  | iso_packet id c data => rw [← Option.some.inj hs]; exact grow_iso_packet id c data h
  | interrupt_packet id c data =>
    rw [← Option.some.inj hs]; exact grow_interrupt_packet id c data h

theorem grow_run {k : MKey} (es : List Event) {s s' : State} (hs : run s es = some s')
    (h : Grow k s.mkey) : Grow k s'.mkey := by
  induction es generalizing s with
  | nil => rw [← Option.some.inj hs]; exact h
  | cons e es ih =>
    simp only [run] at hs
    cases he : step s e with
    | none => rw [he] at hs; exact absurd hs (by simp)
    | some s1 =>
      rw [he, Option.some_bind] at hs
      exact ih hs (grow_step e he h)

theorem grow_open_full {ret : List Int} {mem : List Bool} {events : List (List Completion)}
    {configuration : Int} {hd : Option libusb_device_handle} {s : State}
    (hs : usbredirhost_open_full ret mem events configuration hd = some s) :
    Grow ⟨0, [], fun _ => false⟩ s.mkey := by
  unfold usbredirhost_open_full at hs
  simp only [] at hs
  split_ifs at hs with h1 h2
  cases hr : usbredirhost_set_device _ hd with
  | none => rw [hr] at hs; exact absurd hs (by simp)
  | some r =>
    rw [hr, Option.some_bind] at hs
    split_ifs at hs
    rw [← Option.some.inj hs]
    exact grow_set_device hd hr (grow_refl _)

theorem mkey_inv_reachable {s : State} (h : Reachable s) : s.mkey.Inv := by
  obtain ⟨ret, mem, events, configuration, hd, s0, es, h0, hrun⟩ := h
  have hg := grow_run es hrun (grow_open_full h0)
  refine ⟨fun p hp => ?_, fun p hp => ?_⟩
  · rcases hg.2.1 p hp with h' | ⟨-, h'⟩
    · exact absurd h' (List.not_mem_nil _)
    · exact h'
  · rcases hg.2.2 p hp with h' | ⟨-, h'⟩
    · exact absurd h' (by simp)
    · exact h'

/-- A record that is dead stays dead: the allocator hands out fresh addresses
only. -/
theorem dead_stays_dead {s s' : State} (es : List Event) (hs : run s es = some s') (p : Nat)
    (hp : p ≤ s.next_ptr) (hdead : s.heap p = none) : s'.heap p = none := by
  have hg := grow_run es hs (grow_refl s.mkey)
  cases hh : s'.heap p with
  | none => rfl
  | some t =>
    have : s'.mkey.live p = true := by simp [State.mkey, hh]
    rcases hg.2.2 p this with h' | ⟨h', -⟩
    · simp [State.mkey, hdead] at h'
    · exact absurd hp (Nat.not_le_of_lt h')

/-- A record that is dead and unregistered stays unregistered. -/
theorem unregistered_stays {s s' : State} (es : List Event) (hs : run s es = some s') (p : Nat)
    (hp : p ≤ s.next_ptr) (hreg : p ∉ s.host.transfers_head) :
    p ∉ s'.host.transfers_head := by
  have hg := grow_run es hs (grow_refl s.mkey)
  intro hmem
  rcases hg.2.1 p hmem with h' | ⟨h', -⟩
  · exact hreg h'
  · exact absurd hp (Nat.not_le_of_lt h')



/-- The log after the translation of a failure code on a connected host. -/
theorem translate_failure_sent (s : State) (r : Int) (hd : s.host.disconnected = false)
    (hr : r < 0) :
    (libusb_status_or_error_to_redir_status s r).1.parser.sent =
      s.parser.sent ++ (if r = LIBUSB_ERROR_NO_DEVICE then [Packet.device_disconnect] else []) := by
  rw [translate_state]
  have h5 : r ≠ LIBUSB_TRANSFER_NO_DEVICE := by
    intro h; rw [h] at hr; exact absurd hr (by decide)
  simp only [h5, false_or]
  split_ifs
  · unfold usbredirhost_handle_disconnect State.send
    simp only [hd, Bool.not_false, if_true]
    split_ifs <;> rfl
  · simp

/-- A completion naming a freed record delivers nothing. -/
theorem libusb_complete_dead (s : State) (c : Completion) (h : s.heap c.ptr = none) :
    libusb_complete s c = s := by
  unfold libusb_complete
  simp [h]

/-- The facts the three handlers establish on a failed submission give
`submit_failure_reported` on every state an execution can reach. -/
theorem submit_failure_reported_of {s s' : State} {reply : Nat → Packet}
    (hreach : Reachable s) (hd : s.host.disconnected = false)
    (hfail : s.usb.ret.headD 0 < 0)
    (h : s'.parser.sent =
        (libusb_status_or_error_to_redir_status s (s.usb.ret.headD 0)).1.parser.sent ++
          [reply (libusb_status_or_error_to_redir_status s (s.usb.ret.headD 0)).2] ∧
      s'.host.transfers_head =
        (s.host.transfers_head ++ [s.next_ptr + 1]).erase (s.next_ptr + 1) ∧
      s'.heap = Function.update s.heap (s.next_ptr + 1) none ∧
      s'.next_ptr = s.next_ptr + 1 ∧
      s'.usb.inflight = s.usb.inflight ∧
      s'.usb.calls = s.usb.calls ++ [.submit_transfer (s.next_ptr + 1)]) :
    submit_failure_reported s s' reply := by
  obtain ⟨h1, h2, h3, h4, -, h6⟩ := h
  have hfresh : s.next_ptr + 1 ∉ s.host.transfers_head := fun hm =>
    absurd ((mkey_inv_reachable hreach).1 _ hm) (Nat.not_succ_le_self _)
  have hreg : s'.host.transfers_head = s.host.transfers_head := by
    rw [h2, List.erase_append_right _ hfresh]
    simp
  have hheap : s'.heap (s.next_ptr + 1) = none := by rw [h3]; simp
  refine ⟨?_, h6, hreg, hheap, fun es s'' hrun => ?_⟩
  · rw [h1, translate_failure_sent s _ hd hfail]
  · have hdead := dead_stays_dead es hrun (s.next_ptr + 1) (Nat.le_of_eq h4.symm) hheap
    refine ⟨hdead, ?_, fun c hc => libusb_complete_dead _ _ (by rw [hc]; exact hdead)⟩
    exact unregistered_stays es hrun _ (Nat.le_of_eq h4.symm) (by rw [hreg]; exact hfresh)

/-- A state reached from `usbredirhost_open_full` by a run that returns. -/
theorem reachable_getD (ret : List Int) (mem : List Bool) (events : List (List Completion))
    (configuration : Int) (hd : Option libusb_device_handle) (es : List Event)
    (h : ((usbredirhost_open_full ret mem events configuration hd).bind
      fun s => run s es).isSome = true) :
    Reachable (((usbredirhost_open_full ret mem events configuration hd).bind
      fun s => run s es).getD example_zero) := by
  obtain ⟨s1, h1⟩ := Option.isSome_iff_exists.mp h
  obtain ⟨s0, h0, h2⟩ := Option.bind_eq_some.mp h1
  rw [h1]
  exact ⟨_, _, _, _, _, s0, es, h0, h2⟩

/-- C18: on a connected host an execution can reach, when no allocation fails
and `libusb_submit_transfer` fails with the code `r` (the head of the `ret`
tape), a forwarded control request (one that is not the clear-halt request),
a bulk request and an interrupt-OUT request whose endpoint has the type of the
request each leave `submit_failure_reported`: the log grows by one packet of
the kind of the request with the request id, the saved header, the translation
of `r` as status, length 0 and no payload (after the device-disconnect that
translating the no-device code sends); the record was submitted once, the
registry is what it was before the request, the record is freed, and in every
later state it is still freed and unregistered and a completion naming it
delivers nothing. -/
theorem C18_submit_failure (s : State) (id : Nat) (data : List Nat)
    (hreach : Reachable s) (hd : s.host.disconnected = false)
    (hmem : ∀ b ∈ s.usb.mem, b = true) (hfail : s.usb.ret.headD 0 < 0) :
    (∀ h : usb_redir_control_packet_header,
      (s.host.endpoint (EP2I h.endpoint)).type = usb_redir_type_control →
      ¬(h.requesttype = LIBUSB_RECIPIENT_ENDPOINT ∧
        h.request = LIBUSB_REQUEST_CLEAR_FEATURE ∧ h.value = 0 ∧ data.length = 0) →
      submit_failure_reported s (usbredirhost_control_packet s id h data)
        fun status => .control_packet id { h with status := status, length := 0 } []) ∧
    (∀ h : usb_redir_bulk_packet_header,
      (s.host.endpoint (EP2I h.endpoint)).type = usb_redir_type_bulk →
      submit_failure_reported s (usbredirhost_bulk_packet s id h data)
        fun status => .bulk_packet id { h with status := status, length := 0 } []) ∧
    (∀ h : usb_redir_interrupt_packet_header,
      (s.host.endpoint (EP2I h.endpoint)).type = usb_redir_type_interrupt →
      h.endpoint &&& LIBUSB_ENDPOINT_IN = 0 →
      data.length ≤ (s.host.endpoint (EP2I h.endpoint)).max_packetsize →
      submit_failure_reported s (usbredirhost_interrupt_packet s id h data)
        fun status => .interrupt_packet id { h with status := status, length := 0 } []) :=
  ⟨fun h ht hc => submit_failure_reported_of hreach hd hfail
      (control_packet_submit_failed s id h data hd ht hc hmem hfail),
   fun h ht => submit_failure_reported_of hreach hd hfail
      (bulk_packet_submit_failed s id h data hd ht hmem hfail),
   fun h ht ho hl => submit_failure_reported_of hreach hd hfail
      (interrupt_packet_submit_failed s id h data hd ht ho hl hmem hfail)⟩

set_option maxRecDepth 100000 in
/-- Witness of C18: on the example host whose device has gone, a bulk request
with id 9 on the bulk endpoint 0x02 is answered by a device-disconnect and one
bulk packet with id 9, status ioerror, length 0 and no payload; the registry
is still empty. -/
theorem C18_submit_failure_witness :
    Reachable example_failing ∧ example_failing.host.disconnected = false ∧
    example_failing.usb.ret.headD 0 = LIBUSB_ERROR_NO_DEVICE ∧
    (usbredirhost_bulk_packet example_failing 9
        { endpoint := 0x02, status := 0, length := 3, stream_id := 0 }
        [1, 2, 3]).parser.sent =
      example_failing.parser.sent ++ [Packet.device_disconnect,
        .bulk_packet 9
          { endpoint := 0x02, status := usb_redir_ioerror, length := 0, stream_id := 0 } []] ∧
    (usbredirhost_bulk_packet example_failing 9
        { endpoint := 0x02, status := 0, length := 3, stream_id := 0 }
        [1, 2, 3]).host.transfers_head = [] := by
  have h := (C18_submit_failure example_failing 9 [1, 2, 3]
    (reachable_getD _ _ _ _ _ _ (by decide)) (by decide) (by decide) (by decide)).2.1
    { endpoint := 0x02, status := 0, length := 3, stream_id := 0 }
    (by decide)
  refine ⟨reachable_getD _ _ _ _ _ _ (by decide), by decide, by decide, ?_, ?_⟩
  · rw [h.1]
    have e : example_failing.usb.ret.headD 0 = LIBUSB_ERROR_NO_DEVICE := by decide
    rw [e]
    decide
  · rw [h.2.2.1]
    decide



set_option maxRecDepth 100000 in
/-- C19, the code at a concrete input: on the connected example host, interface
0 (index 0) goes from alt setting 0 to alt setting 1, which no longer has the
bulk endpoint 0x02.  The call succeeds (status success, alt 1 reported), the
slot of endpoint 0x81 holds the new descriptor and `alt_setting[0]` is 1; but
slot 2, which belonged to interface 0 and is not described by the new alt
setting, ends with type control, not invalid, and so does slot 3, which no
descriptor ever described: the reset loop tests the interface index where
`usbredirhost_parse_config` tests the endpoint index. -/
theorem C19_set_alt_setting_dropped_slot_control :
    example_connected_alt.host.disconnected = false ∧
    usbredirhost_bInterfaceNumber_to_index example_connected_alt 0 = 0 ∧
    (example_connected_alt.host.endpoint 2).type = usb_redir_type_bulk ∧
    (example_connected_alt.host.endpoint 2).interface = 0 ∧
    (example_connected_alt.host.endpoint 3).type = usb_redir_type_invalid ∧
    (∀ epd ∈ (example_connected_alt.altsetting 0 1).endpoint,
      EP2I epd.bEndpointAddress ≠ 2 ∧ EP2I epd.bEndpointAddress ≠ 3) ∧
    example_alt_set.parser.sent.getLast? =
      some (.alt_setting_status 5 { status := usb_redir_success, interface := 0, alt := 1 }) ∧
    example_alt_set.host.alt_setting 0 = 1 ∧
    (example_alt_set.host.endpoint (EP2I 0x81)).type = usb_redir_type_iso ∧
    (example_alt_set.host.endpoint (EP2I 0x81)).max_packetsize = 128 ∧
    (example_alt_set.host.endpoint 2).type = usb_redir_type_control ∧
    (example_alt_set.host.endpoint 2).type ≠ usb_redir_type_invalid ∧
    (example_alt_set.host.endpoint 2).interval = 0 ∧
    (example_alt_set.host.endpoint 2).interface = 0 ∧
    (example_alt_set.host.endpoint 3).type = usb_redir_type_control := by
  decide



/-! ### The endpoint table under the code that leaves it alone -/

theorem eps_mk (h : usbredirhost) (hp : Nat → Option usbredirtransfer) (n : Nat)
    (p : usbredirparser) (u : Libusb) : State.eps ⟨h, hp, n, p, u⟩ = h.endpoint := rfl

theorem eps_fold (s : State) : s.host.endpoint = s.eps := rfl

theorem eps_foldl {α : Type} (f : State → α → State)
    (hf : ∀ s x, (f s x).eps = s.eps) (l : List α) (s : State) :
    (l.foldl f s).eps = s.eps := by
  induction l generalizing s with
  | nil => rfl
  | cons x l ih => simp only [List.foldl_cons, ih, hf]

theorem eps_foldl_pair {α β : Type} (f : State × β → α → State × β)
    (hf : ∀ a x, (f a x).1.eps = a.1.eps) (l : List α) (a : State × β) :
    (l.foldl f a).1.eps = a.1.eps := by
  induction l generalizing a with
  | nil => rfl
  | cons x l ih => simp only [List.foldl_cons, ih, hf]

theorem eps_send (s : State) (p : Packet) : (s.send p).eps = s.eps := rfl
theorem eps_call (s : State) (c : LibusbCall) : (s.call c).1.eps = s.eps := rfl
theorem eps_callVoid (s : State) (c : LibusbCall) : (s.callVoid c).eps = s.eps := rfl
theorem eps_alloc (s : State) : s.alloc.1.eps = s.eps := rfl
theorem eps_modify (s : State) (p : Nat) (f : usbredirtransfer → usbredirtransfer) :
    (s.modify p f).eps = s.eps := rfl

theorem eps_modifyEp (s : State) (i : Nat) (f : usbredirhost_ep → usbredirhost_ep) :
    (s.modifyEp i f).eps = Function.update s.eps i (f (s.eps i)) := rfl

theorem eps_free_transfer (s : State) (p : Nat) :
    (usbredirhost_free_transfer s p).eps = s.eps := by
  unfold usbredirhost_free_transfer
  simp only [apply_ite State.eps, eps_mk, eps_fold, ite_self]

theorem eps_remove_and_free_transfer (s : State) (p : Nat) :
    (usbredirhost_remove_and_free_transfer s p).eps = s.eps := by
  unfold usbredirhost_remove_and_free_transfer
  simp only [eps_free_transfer, eps_mk, eps_fold]

theorem eps_libusb_cancel_transfer (s : State) (p : Nat) :
    (libusb_cancel_transfer s p).eps = s.eps := rfl

theorem eps_libusb_submit_transfer (s : State) (p : Nat) :
    (libusb_submit_transfer s p).1.eps = s.eps := by
  unfold libusb_submit_transfer
  simp only [apply_ite Prod.fst, apply_ite State.eps, eps_mk, eps_fold, eps_call, ite_self]

theorem eps_handle_disconnect (s : State) : (usbredirhost_handle_disconnect s).eps = s.eps := by
  unfold usbredirhost_handle_disconnect
  simp only [apply_ite State.eps, eps_mk, eps_fold, eps_send, ite_self]

theorem eps_translate (s : State) (r : Int) :
    (libusb_status_or_error_to_redir_status s r).1.eps = s.eps := by
  rw [translate_state]
  simp only [apply_ite State.eps, eps_handle_disconnect, ite_self]

theorem eps_release (s : State) (a : Bool) : (usbredirhost_release s a).1.eps = s.eps := by
  unfold usbredirhost_release
  simp only [apply_ite Prod.fst, apply_ite State.eps, eps_mk, eps_fold, eps_call,
    eps_foldl_pair, ite_self, implies_true]

theorem eps_clear_device_finish (s : State) :
    (usbredirhost_clear_device_finish s).eps = s.eps := by
  unfold usbredirhost_clear_device_finish
  simp only [eps_handle_disconnect]
  have hr := eps_release s true
  generalize (usbredirhost_release s true).1 = r at hr ⊢
  split_ifs <;> exact hr

theorem eps_control_packet_complete (s : State) (t : Nat) :
    (usbredirhost_control_packet_complete s t).eps = s.eps := by
  unfold usbredirhost_control_packet_complete
  simp only [eps_remove_and_free_transfer, apply_ite State.eps, eps_send, eps_translate,
    ite_self]

theorem eps_bulk_packet_complete (s : State) (t : Nat) :
    (usbredirhost_bulk_packet_complete s t).eps = s.eps := by
  unfold usbredirhost_bulk_packet_complete
  simp only [eps_remove_and_free_transfer, apply_ite State.eps, eps_send, eps_translate,
    ite_self]


/-! ### The endpoint table under the code that cancels -/

theorem eps_foldl_null_slots (k : Nat) (f : State → Nat → State)
    (hf : ∀ s i, (f s i).eps = Function.update s.eps k
      { s.eps k with iso_transfer := Function.update (s.eps k).iso_transfer i 0 })
    (l : List Nat) (s : State) :
    (l.foldl f s).eps = Function.update s.eps k
      { s.eps k with
        iso_transfer := fun j => if j ∈ l then 0 else (s.eps k).iso_transfer j } := by
  induction l generalizing s with
  | nil => simp
  | cons i l ih =>
    rw [List.foldl_cons, ih, hf]
    simp only [Function.update_same, Function.update_idem]
    have e : (fun j => if j ∈ l then 0 else Function.update (s.eps k).iso_transfer i 0 j) =
        fun j => if j ∈ i :: l then 0 else (s.eps k).iso_transfer j := by
      funext j
      by_cases hj : j ∈ l
      · simp [hj]
      · by_cases hji : j = i
        · subst hji; simp
        · simp [hj, hji, Function.update_noteq hji]
    rw [e]

/-- The endpoint table after `usbredirhost_cancel_iso_stream_unlocked`: the
slot of the endpoint has its ring slots below `iso_transfer_count` null and
its stream fields zero; nothing else changes. -/
theorem eps_cancel_iso_stream_unlocked (s : State) (ep : Nat) :
    (usbredirhost_cancel_iso_stream_unlocked s ep).eps =
      Function.update s.eps (EP2I ep)
        { s.eps (EP2I ep) with
          iso_transfer := fun j =>
            if j < (s.eps (EP2I ep)).iso_transfer_count then 0
            else (s.eps (EP2I ep)).iso_transfer j
          iso_out_idx := 0
          iso_started := false
          iso_drop_packets := 0
          iso_pkts_per_transfer := 0
          iso_transfer_count := 0 } := by
  unfold usbredirhost_cancel_iso_stream_unlocked
  simp only [eps_modifyEp]
  rw [eps_foldl_null_slots (EP2I ep) _ (fun s i => by
    simp only [eps_modifyEp, apply_ite State.eps, eps_mk, eps_fold, eps_modify,
      eps_libusb_cancel_transfer, eps_free_transfer, ite_self])]
  simp only [Function.update_same, Function.update_idem, List.mem_range]
  rfl

theorem eps_cancel_interrupt_in_transfer_unlocked (s : State) (ep : Nat) :
    (usbredirhost_cancel_interrupt_in_transfer_unlocked s ep).eps =
      Function.update s.eps (EP2I ep) { s.eps (EP2I ep) with interrupt_in_transfer := 0 } := by
  unfold usbredirhost_cancel_interrupt_in_transfer_unlocked
  simp only []
  split_ifs with h
  · have e : ({ s.eps (EP2I ep) with interrupt_in_transfer := 0 } : usbredirhost_ep) =
        s.eps (EP2I ep) := by
      have h' : (s.eps (EP2I ep)).interrupt_in_transfer = 0 := h
      cases hh : s.eps (EP2I ep)
      rw [hh] at h'
      simp only at h'
      simp only [h']
    rw [e, Function.update_eq_self]
  · rfl

/-! ### Quiet endpoint tables -/

theorem quiet_update {ept : Nat → usbredirhost_ep} (h : Quiet ept) (i : Nat)
    (e : usbredirhost_ep) (h1 : ∀ j, j < MAX_ISO_TRANSFER_COUNT → e.iso_transfer j = 0)
    (h2 : e.interrupt_in_transfer = 0)
    (h3 : e.type = usb_redir_type_iso → e.iso_pkts_per_transfer = 0) :
    Quiet (Function.update ept i e) := by
  refine ⟨fun i' hlt j hj => ?_, fun i' hlt => ?_, fun i' => ?_⟩
  · by_cases hi : i' = i
    · subst hi; simp [h1 j hj]
    · simp [Function.update_noteq hi, h.1 i' hlt j hj]
  · by_cases hi : i' = i
    · subst hi; simp [h2]
    · simp [Function.update_noteq hi, h.2.1 i' hlt]
  · intro hlt
    by_cases hi : i' = i
    · subst hi; simpa using h3
    · simpa [Function.update_noteq hi] using h.2.2 i' hlt

theorem quiet_cancel_iso_stream_unlocked {s : State} (ep : Nat) (h : Quiet s.eps) :
    Quiet (usbredirhost_cancel_iso_stream_unlocked s ep).eps := by
  rw [eps_cancel_iso_stream_unlocked]
  refine quiet_update h _ _ (fun j hj => ?_) (h.2.1 _ (EP2I_lt _)) (fun _ => rfl)
  show (if j < _ then 0 else _) = 0
  split_ifs
  · rfl
  · exact h.1 _ (EP2I_lt _) _ hj

theorem quiet_submit_iso_transfer_unlocked {s : State} (t : Nat) (h : Quiet s.eps) :
    Quiet (usbredirhost_submit_iso_transfer_unlocked s t).1.eps := by
  unfold usbredirhost_submit_iso_transfer_unlocked
  simp only []
  split_ifs
  · rw [eps_translate]
    exact quiet_cancel_iso_stream_unlocked _ (by rw [eps_libusb_submit_transfer]; exact h)
  · show Quiet (State.modify _ _ _).eps
    rw [eps_modify, eps_libusb_submit_transfer]; exact h

/-- On a quiet endpoint table a stall recovery cannot allocate a ring: the
geometry it saved is zero or the endpoint is not an iso endpoint. -/
theorem alloc_iso_stream_quiet (s s0 : State) (ep count : Nat) (h : Quiet s0.eps)
    (ht : (s.eps (EP2I ep)).type = (s0.eps (EP2I ep)).type) :
    usbredirhost_alloc_iso_stream s ep (s0.eps (EP2I ep)).iso_pkts_per_transfer count =
      (s, usb_redir_inval) := by
  unfold usbredirhost_alloc_iso_stream
  by_cases hty : (s.host.endpoint (EP2I ep)).type = usb_redir_type_iso
  · have hp : (s0.eps (EP2I ep)).iso_pkts_per_transfer = 0 :=
      h.2.2 _ (EP2I_lt _) (by rw [← ht]; exact hty)
    simp [hty, hp]
  · simp [hty]

theorem quiet_handle_iso_status {s : State} (id ep : Nat) (r : Int) (h : Quiet s.eps) :
    Quiet (usbredirhost_handle_iso_status s id ep r).1.eps := by
  unfold usbredirhost_handle_iso_status usbredirhost_send_iso_status
  simp only []
  have hc := quiet_cancel_iso_stream_unlocked ep h
  have ha := alloc_iso_stream_quiet
    ((usbredirhost_cancel_iso_stream_unlocked s ep).call (.clear_halt ep)).1 s ep
    (s.host.endpoint (EP2I ep)).iso_transfer_count h (by
      rw [eps_call, eps_cancel_iso_stream_unlocked]
      simp)
  have ha' : usbredirhost_alloc_iso_stream
      ((usbredirhost_cancel_iso_stream_unlocked s ep).call (.clear_halt ep)).1 ep
      (s.host.endpoint (EP2I ep)).iso_pkts_per_transfer
      (s.host.endpoint (EP2I ep)).iso_transfer_count =
      (((usbredirhost_cancel_iso_stream_unlocked s ep).call (.clear_halt ep)).1,
        usb_redir_inval) := ha
  rw [ha']
  have hne : usb_redir_inval ≠ usb_redir_success := by decide
  simp only [hne, ne_eq, not_false_eq_true, if_true]
  split_ifs <;> (try simp only [eps_send, eps_call, eps_handle_disconnect]) <;>
    first
    | exact h
    | exact hc


theorem quiet_modifyEp {s : State} (i : Nat) (f : usbredirhost_ep → usbredirhost_ep)
    (h : Quiet s.eps)
    (h1 : ∀ j, j < MAX_ISO_TRANSFER_COUNT → (f (s.eps i)).iso_transfer j = 0)
    (h2 : (f (s.eps i)).interrupt_in_transfer = 0)
    (h3 : (f (s.eps i)).type = usb_redir_type_iso → (f (s.eps i)).iso_pkts_per_transfer = 0) :
    Quiet (s.modifyEp i f).eps := by
  rw [eps_modifyEp]
  exact quiet_update h i _ h1 h2 h3

theorem quiet_iso_packet_complete_loop (t ep : Nat) (l : List Nat) {s : State}
    (h : Quiet s.eps) : Quiet (usbredirhost_iso_packet_complete_loop t ep s l).1.eps := by
  induction l generalizing s with
  | nil => exact h
  | cons i l ih =>
    unfold usbredirhost_iso_packet_complete_loop usbredirhost_send_iso_status
    simp only []
    have h1 : ∀ (id : Nat) (r r' : Int),
        Quiet (usbredirhost_handle_iso_status
          (libusb_status_or_error_to_redir_status s r).1 id ep r').1.eps :=
      fun id r r' => quiet_handle_iso_status id ep r' (by rw [eps_translate]; exact h)
    split_ifs <;>
      first
      | exact h1 _ _ _
      | (apply ih
         rw [eps_modify, eps_send]; exact h1 _ _ _)
      | (apply ih
         exact h1 _ _ _)

theorem quiet_iso_packet_complete_resubmit {s : State} (t ep : Nat) (h : Quiet s.eps) :
    Quiet (usbredirhost_iso_packet_complete_resubmit s t ep).eps := by
  unfold usbredirhost_iso_packet_complete_resubmit usbredirhost_send_iso_status
  simp only []
  split_ifs <;> (try rw [eps_send]) <;>
    exact quiet_submit_iso_transfer_unlocked _ (by rw [eps_modify]; exact h)

theorem quiet_iso_packet_complete_underflow {s : State} (ep : Nat) (h : Quiet s.eps) :
    Quiet (usbredirhost_iso_packet_complete_underflow s ep).eps := by
  unfold usbredirhost_iso_packet_complete_underflow
  simp only []
  split_ifs
  · have e : ∀ (l : List Nat) (s' : State),
        (l.foldl (fun s i =>
          s.modify ((s.host.endpoint (EP2I ep)).iso_transfer i) fun t =>
            { t with iso_packet_idx := 0 }) s').eps = s'.eps :=
      fun l s' => eps_foldl _ (fun s x => eps_modify _ _ _) l s'
    apply quiet_modifyEp
    · rw [e]; exact h
    · intro j hj; rw [e]; exact h.1 _ (EP2I_lt _) _ hj
    · rw [e]; exact h.2.1 _ (EP2I_lt _)
    · rw [e]; exact h.2.2 _ (EP2I_lt _)
  · exact h

theorem quiet_iso_packet_complete {s : State} (t : Nat) (h : Quiet s.eps) :
    Quiet (usbredirhost_iso_packet_complete s t).eps := by
  unfold usbredirhost_iso_packet_complete usbredirhost_send_iso_status
  simp only []
  have h1 : ∀ (f : usbredirtransfer → usbredirtransfer) (id ep : Nat) (r : Int),
      Quiet (usbredirhost_handle_iso_status (s.modify t f) id ep r).1.eps :=
    fun f id ep r => quiet_handle_iso_status id ep r (by rw [eps_modify]; exact h)
  split_ifs
  · rw [eps_free_transfer]; exact h
  · exact h1 _ _ _ _
  · apply quiet_iso_packet_complete_resubmit
    rw [eps_modify, eps_send, eps_translate]
    exact h1 _ _ _ _
  · rw [eps_send, eps_translate]
    exact h1 _ _ _ _
  · exact quiet_iso_packet_complete_loop _ _ _ (h1 _ _ _ _)
  · exact quiet_iso_packet_complete_resubmit _ _
      (quiet_iso_packet_complete_loop _ _ _ (h1 _ _ _ _))
  · exact quiet_iso_packet_complete_underflow _
      (quiet_iso_packet_complete_loop _ _ _ (h1 _ _ _ _))

theorem quiet_submit_interrupt_in_transfer {s : State} (ep : Nat) (h : Quiet s.eps) :
    Quiet (usbredirhost_submit_interrupt_in_transfer s ep).1.eps := by
  unfold usbredirhost_submit_interrupt_in_transfer
  simp only []
  split_ifs
  · rw [eps_modifyEp, eps_free_transfer, eps_libusb_submit_transfer]
    exact quiet_update h _ _ (fun j hj => h.1 _ (EP2I_lt _) _ hj) rfl (h.2.2 _ (EP2I_lt _))
  · rw [eps_libusb_submit_transfer]; exact h

theorem quiet_interrupt_packet_complete_resubmit {s : State} (t ep : Nat) (h : Quiet s.eps) :
    Quiet (usbredirhost_interrupt_packet_complete_resubmit s t ep).eps := by
  unfold usbredirhost_interrupt_packet_complete_resubmit usbredirhost_send_interrupt_recv_status
  simp only []
  split_ifs <;> (try rw [eps_send]) <;> exact quiet_submit_interrupt_in_transfer _ h

theorem quiet_interrupt_packet_complete {s : State} (t : Nat) (h : Quiet s.eps) :
    Quiet (usbredirhost_interrupt_packet_complete s t).eps := by
  unfold usbredirhost_interrupt_packet_complete usbredirhost_send_interrupt_recv_status
  simp only []
  have ht : ∀ r, Quiet (libusb_status_or_error_to_redir_status s r).1.eps :=
    fun r => by rw [eps_translate]; exact h
  split_ifs <;>
    first
    | (rw [eps_remove_and_free_transfer, eps_send]; exact ht _)
    | (rw [eps_free_transfer]; exact ht _)
    | (rw [eps_modifyEp, eps_free_transfer, eps_send, eps_call]
       exact quiet_update (ht _) _ _ (fun j hj => (ht _).1 _ (EP2I_lt _) _ hj) rfl
         ((ht _).2.2 _ (EP2I_lt _)))
    | (apply quiet_interrupt_packet_complete_resubmit
       rw [eps_modify, eps_call]; exact ht _)
    | (rw [eps_modifyEp, eps_free_transfer, eps_handle_disconnect]
       exact quiet_update (ht _) _ _ (fun j hj => (ht _).1 _ (EP2I_lt _) _ hj) rfl
         ((ht _).2.2 _ (EP2I_lt _)))
    | (apply quiet_interrupt_packet_complete_resubmit
       rw [eps_modify, eps_send]; exact ht _)

theorem quiet_libusb_complete {s : State} (c : Completion) (h : Quiet s.eps) :
    Quiet (libusb_complete s c).eps := by
  unfold libusb_complete
  simp only []
  split_ifs
  · have h0 : ∀ f, Quiet (State.modify
        { s with usb := { s.usb with inflight := s.usb.inflight.erase c.ptr } } c.ptr f).eps :=
      fun f => h
    split
    · exact h0 _
    · exact quiet_iso_packet_complete _ (h0 _)
    · exact quiet_interrupt_packet_complete _ (h0 _)
    · rw [eps_control_packet_complete]; exact h0 _
    · rw [eps_bulk_packet_complete]; exact h0 _
  · exact h

theorem quiet_libusb_handle_events_timeout {s : State} (h : Quiet s.eps) :
    Quiet (libusb_handle_events_timeout s).eps := by
  unfold libusb_handle_events_timeout
  simp only []
  generalize (s.call LibusbCall.handle_events_timeout).1.usb.events.headD [] = batch
  have h0 : Quiet (State.eps { (s.call LibusbCall.handle_events_timeout).1 with
      usb := { (s.call LibusbCall.handle_events_timeout).1.usb with
        events := (s.call LibusbCall.handle_events_timeout).1.usb.events.tail } }) := h
  generalize ({ (s.call LibusbCall.handle_events_timeout).1 with
      usb := { (s.call LibusbCall.handle_events_timeout).1.usb with
        events := (s.call LibusbCall.handle_events_timeout).1.usb.events.tail } } : State) = s1
    at h0 ⊢
  induction batch generalizing s1 with
  | nil => exact h0
  | cons c l ih => exact ih _ (quiet_libusb_complete c h0)

theorem quiet_clear_device_wait (fuel : Nat) {s s' : State}
    (hs : usbredirhost_clear_device_wait fuel s = some s') (h : Quiet s.eps) :
    Quiet s'.eps := by
  induction fuel generalizing s with
  | zero => exact absurd hs (by simp [usbredirhost_clear_device_wait])
  | succ n ih =>
    unfold usbredirhost_clear_device_wait at hs
    simp only [] at hs
    split_ifs at hs
    · exact ih hs (quiet_libusb_handle_events_timeout h)
    · rw [← Option.some.inj hs]; exact quiet_libusb_handle_events_timeout h

/-- A drain loop that ends leaves no cancel pending and an empty registry. -/
theorem clear_device_wait_drained (fuel : Nat) {s s' : State}
    (hs : usbredirhost_clear_device_wait fuel s = some s') :
    s'.host.cancels_pending = 0 ∧ s'.host.transfers_head = [] := by
  induction fuel generalizing s with
  | zero => exact absurd hs (by simp [usbredirhost_clear_device_wait])
  | succ n ih =>
    unfold usbredirhost_clear_device_wait at hs
    simp only [] at hs
    split_ifs at hs with hw
    · exact ih hs
    · rw [← Option.some.inj hs]
      exact ⟨not_not.mp (fun h => hw (Or.inl h)), not_not.mp (fun h => hw (Or.inr h))⟩


/-- A loop over distinct indices whose step rewrites the slot of its index
only. -/
theorem eps_foldl_pointwise (f : State → Nat → State)
    (g : Nat → usbredirhost_ep → usbredirhost_ep) (l : List Nat) (hl : l.Nodup)
    (hf : ∀ s i, i ∈ l → (f s i).eps = Function.update s.eps i (g i (s.eps i))) (s : State) :
    (l.foldl f s).eps = fun k => if k ∈ l then g k (s.eps k) else s.eps k := by
  induction l generalizing s with
  | nil => simp
  | cons i l ih =>
    have hi : i ∉ l := (List.nodup_cons.mp hl).1
    rw [List.foldl_cons, ih (List.nodup_cons.mp hl).2
      (fun s j hj => hf s j (List.mem_cons_of_mem _ hj)), hf s i (List.mem_cons_self _ _)]
    funext k
    by_cases hk : k ∈ l
    · have hki : k ≠ i := fun e => hi (e ▸ hk)
      simp [hk, Function.update_noteq hki]
    · by_cases hki : k = i
      · subst hki; simp [hk]
      · simp [hk, hki, Function.update_noteq hki]

/-- The endpoint table after `usbredirhost_cancel_pending_urbs`. -/
theorem eps_cancel_pending_urbs (s : State) :
    (usbredirhost_cancel_pending_urbs s).1.eps =
      fun k => if k < MAX_ENDPOINTS then cancel_pending_slot k (s.eps k) else s.eps k := by
  unfold usbredirhost_cancel_pending_urbs
  simp only []
  rw [eps_foldl _ (fun s t => eps_libusb_cancel_transfer s t)]
  rw [eps_foldl_pointwise _ cancel_pending_slot _ (List.nodup_range _)]
  · funext k
    simp only [List.mem_range]
  · intro s i hi
    have hi' : i < 32 := List.mem_range.mp hi
    have e := (EP2I_I2EP_fin ⟨i, hi'⟩).1
    simp only at e
    unfold cancel_pending_slot
    have e1 : s.host.endpoint i = s.eps i := rfl
    rw [e1]
    split_ifs
    · rw [eps_cancel_iso_stream_unlocked, e]
    · rw [eps_cancel_interrupt_in_transfer_unlocked, e]
    · rw [Function.update_eq_self]
    · rw [Function.update_eq_self]

/-- After `usbredirhost_cancel_pending_urbs` the endpoint table is quiet, if
before it only iso endpoints held ring slots, below `iso_transfer_count`, and
only interrupt input endpoints held an interrupt-in transfer. -/
theorem quiet_cancel_pending_urbs (s : State)
    (hiso : ∀ i, i < MAX_ENDPOINTS → ∀ j, j < MAX_ISO_TRANSFER_COUNT →
      (s.host.endpoint i).iso_transfer j ≠ 0 →
        (s.host.endpoint i).type = usb_redir_type_iso ∧
          j < (s.host.endpoint i).iso_transfer_count)
    (hint : ∀ i, i < MAX_ENDPOINTS → (s.host.endpoint i).interrupt_in_transfer ≠ 0 →
      (s.host.endpoint i).type = usb_redir_type_interrupt ∧ i &&& 0x10 ≠ 0) :
    Quiet (usbredirhost_cancel_pending_urbs s).1.eps := by
  have hne : usb_redir_type_interrupt ≠ usb_redir_type_iso := by decide
  have hiso' : ∀ i, i < MAX_ENDPOINTS → ∀ j, j < MAX_ISO_TRANSFER_COUNT →
      ¬((s.eps i).type = usb_redir_type_iso ∧ j < (s.eps i).iso_transfer_count) →
      (s.eps i).iso_transfer j = 0 :=
    fun i hi j hj hn => not_not.mp fun h => hn (hiso i hi j hj h)
  have hint' : ∀ i, i < MAX_ENDPOINTS →
      ¬((s.eps i).type = usb_redir_type_interrupt ∧ i &&& 0x10 ≠ 0) →
      (s.eps i).interrupt_in_transfer = 0 :=
    fun i hi hn => not_not.mp fun h => hn (hint i hi h)
  rw [eps_cancel_pending_urbs]
  refine ⟨fun i hi j hj => ?_, fun i hi => ?_, fun i hi => ?_⟩
  · show (if i < MAX_ENDPOINTS then cancel_pending_slot i (s.eps i) else s.eps i).iso_transfer j = 0
    rw [if_pos hi]
    unfold cancel_pending_slot
    split_ifs with h2 h3 h4
    · show (if j < _ then 0 else _) = 0
      split_ifs with h5
      · rfl
      · exact hiso' i hi j hj (fun h => h5 h.2)
    · exact hiso' i hi j hj (fun h => h2 h.1)
    · exact hiso' i hi j hj (fun h => h2 h.1)
    · exact hiso' i hi j hj (fun h => h2 h.1)
  · show (if i < MAX_ENDPOINTS then cancel_pending_slot i (s.eps i)
      else s.eps i).interrupt_in_transfer = 0
    rw [if_pos hi]
    unfold cancel_pending_slot
    split_ifs with h2 h3 h4
    · exact hint' i hi (fun h => hne (h.1.symm.trans h2))
    · rfl
    · exact hint' i hi (fun h => h4 h.2)
    · exact hint' i hi (fun h => h3 h.1)
  · show (if i < MAX_ENDPOINTS then cancel_pending_slot i (s.eps i) else s.eps i).type =
        usb_redir_type_iso →
      (if i < MAX_ENDPOINTS then cancel_pending_slot i (s.eps i)
        else s.eps i).iso_pkts_per_transfer = 0
    rw [if_pos hi]
    unfold cancel_pending_slot
    split_ifs with h2 h3 h4
    · intro _; rfl
    · intro h; exact absurd h h2
    · intro h; exact absurd h h2
    · intro h; exact absurd h h2

/-- When `usbredirhost_cancel_pending_urbs` returns 0 no cancel is pending and
the registry is empty. -/
theorem cancel_pending_urbs_no_wait (s : State) (h : (usbredirhost_cancel_pending_urbs s).2 = 0) :
    (usbredirhost_cancel_pending_urbs s).1.host.cancels_pending = 0 ∧
    (usbredirhost_cancel_pending_urbs s).1.host.transfers_head = [] := by
  unfold usbredirhost_cancel_pending_urbs at h ⊢
  simp only [] at h ⊢
  have e : ∀ (l : List Nat) (s' : State),
      (l.foldl (fun s t => libusb_cancel_transfer s t) s').host = s'.host := by
    intro l
    induction l with
    | nil => intro s'; rfl
    | cons t l ih => intro s'; rw [List.foldl_cons, ih]; rfl
  rw [e]
  split_ifs at h with h1
  · exact ⟨h, h1⟩
  · exact absurd h (by decide)

theorem qkey_mk (h : usbredirhost) (hp : Nat → Option usbredirtransfer) (n : Nat)
    (p : usbredirparser) (u : Libusb) :
    State.qkey ⟨h, hp, n, p, u⟩ = (h.transfers_head, h.cancels_pending) := rfl

theorem qkey_fold (s : State) : (s.host.transfers_head, s.host.cancels_pending) = s.qkey := rfl

theorem qkey_call (s : State) (c : LibusbCall) : (s.call c).1.qkey = s.qkey := rfl
theorem qkey_callVoid (s : State) (c : LibusbCall) : (s.callVoid c).qkey = s.qkey := rfl
theorem qkey_send (s : State) (p : Packet) : (s.send p).qkey = s.qkey := rfl

theorem qkey_foldl_pair {α β : Type} (f : State × β → α → State × β)
    (hf : ∀ a x, (f a x).1.qkey = a.1.qkey) (l : List α) (a : State × β) :
    (l.foldl f a).1.qkey = a.1.qkey := by
  induction l generalizing a with
  | nil => rfl
  | cons x l ih => simp only [List.foldl_cons, ih, hf]

theorem qkey_release (s : State) (a : Bool) : (usbredirhost_release s a).1.qkey = s.qkey := by
  unfold usbredirhost_release
  simp only [apply_ite Prod.fst, apply_ite State.qkey, qkey_mk, qkey_fold, qkey_call,
    qkey_foldl_pair, ite_self, implies_true]

theorem qkey_handle_disconnect (s : State) :
    (usbredirhost_handle_disconnect s).qkey = s.qkey := by
  unfold usbredirhost_handle_disconnect
  simp only [apply_ite State.qkey, qkey_mk, qkey_fold, qkey_send, ite_self]

theorem qkey_clear_device_finish (s : State) :
    (usbredirhost_clear_device_finish s).qkey = s.qkey := by
  unfold usbredirhost_clear_device_finish
  simp only [qkey_handle_disconnect]
  have hr := qkey_release s true
  generalize (usbredirhost_release s true).1 = r at hr ⊢
  split_ifs <;> exact hr

/-- After `usbredirhost_handle_disconnect` the host is disconnected; the
device fields are untouched. -/
theorem handle_disconnect_host (s : State) :
    (usbredirhost_handle_disconnect s).host.handle = s.host.handle ∧
    (usbredirhost_handle_disconnect s).host.config = s.host.config ∧
    (usbredirhost_handle_disconnect s).host.dev = s.host.dev ∧
    (usbredirhost_handle_disconnect s).host.connect_pending = s.host.connect_pending ∧
    (usbredirhost_handle_disconnect s).host.disconnected = true := by
  unfold usbredirhost_handle_disconnect State.send
  simp only []
  split_ifs with h1 h2
  · exact ⟨rfl, rfl, rfl, rfl, rfl⟩
  · exact ⟨rfl, rfl, rfl, rfl, rfl⟩
  · exact ⟨rfl, rfl, rfl, rfl, by simpa using h1⟩

/-- What `usbredirhost_clear_device_finish` leaves in the host structure. -/
theorem clear_device_finish_host (s : State) :
    (usbredirhost_clear_device_finish s).host.handle = none ∧
    (usbredirhost_clear_device_finish s).host.config = none ∧
    (usbredirhost_clear_device_finish s).host.dev = none ∧
    (usbredirhost_clear_device_finish s).host.connect_pending = false ∧
    (usbredirhost_clear_device_finish s).host.disconnected = true := by
  unfold usbredirhost_clear_device_finish
  simp only []
  generalize (usbredirhost_release s true).1 = r
  have hY : ∀ r : State, (if r.host.config.isSome then
      { (r.callVoid .free_config_descriptor) with host := { r.host with config := none } }
    else r).host.config = none := by
    intro r
    split_ifs with h
    · rfl
    · exact Option.not_isSome_iff_eq_none.mp h
  have hY' := hY r
  generalize (if r.host.config.isSome then
      ({ (r.callVoid .free_config_descriptor) with host := { r.host with config := none } } : State)
    else r) = Y at hY' ⊢
  have hX : ∀ Y : State, (if Y.host.handle.isSome then
      ({ (Y.callVoid .close) with host := { Y.host with handle := none } } : State)
    else Y).host.handle = none ∧
    (if Y.host.handle.isSome then
      ({ (Y.callVoid .close) with host := { Y.host with handle := none } } : State)
    else Y).host.config = Y.host.config := by
    intro Y
    split_ifs with h
    · exact ⟨rfl, rfl⟩
    · exact ⟨Option.not_isSome_iff_eq_none.mp h, rfl⟩
  have hX' := hX Y
  generalize (if Y.host.handle.isSome then
      ({ (Y.callVoid .close) with host := { Y.host with handle := none } } : State)
    else Y) = X at hX'
  obtain ⟨d1, d2, d3, d4, d5⟩ := handle_disconnect_host
    { X with host := { X.host with connect_pending := false, dev := none } }
  exact ⟨d1.trans hX'.1, d2.trans (hX'.2.trans hY'), d3, d4, d5⟩


/-- Supporting lemma for the drain of `usbredirhost_clear_device`: whenever it
returns on a host that had a device bound, the registry is empty,
`cancels_pending` is 0, the handle, the cached configuration and the device
reference are cleared, `connect_pending` is clear and `disconnected` is set.
The rings and interrupt-in slots are emptied only as far as
`usbredirhost_cancel_pending_urbs` visits them, which it does by the current
type of the endpoint slot: if at the call every filled iso ring slot was a
slot below `iso_transfer_count` of an endpoint of type iso and every filled
interrupt-in slot was that of an input endpoint of type interrupt, then every
iso ring slot and every interrupt-in slot of every endpoint is null. -/
theorem clear_device_drained (s s' : State) (hdev : s.host.dev.isSome = true)
    (hret : usbredirhost_clear_device s = some s') :
    s'.host.transfers_head = [] ∧ s'.host.cancels_pending = 0 ∧
    s'.host.handle = none ∧ s'.host.config = none ∧ s'.host.dev = none ∧
    s'.host.connect_pending = false ∧ s'.host.disconnected = true ∧
    ((∀ i, i < MAX_ENDPOINTS → ∀ j, j < MAX_ISO_TRANSFER_COUNT →
        (s.host.endpoint i).iso_transfer j ≠ 0 →
          (s.host.endpoint i).type = usb_redir_type_iso ∧
            j < (s.host.endpoint i).iso_transfer_count) →
      (∀ i, i < MAX_ENDPOINTS → (s.host.endpoint i).interrupt_in_transfer ≠ 0 →
        (s.host.endpoint i).type = usb_redir_type_interrupt ∧ i &&& 0x10 ≠ 0) →
      (∀ i, i < MAX_ENDPOINTS → ∀ j, j < MAX_ISO_TRANSFER_COUNT →
        (s'.host.endpoint i).iso_transfer j = 0) ∧
      (∀ i, i < MAX_ENDPOINTS → (s'.host.endpoint i).interrupt_in_transfer = 0)) := by
  unfold usbredirhost_clear_device at hret
  have hn : s.host.dev.isNone = false := by
    cases hd : s.host.dev with
    | none => rw [hd] at hdev; cases hdev
    | some d => rfl
  simp only [hn, Bool.false_eq_true, if_false] at hret
  obtain ⟨s1, hs1, hfin⟩ := Option.map_eq_some'.mp hret
  have hq : s1.qkey = ([], 0) ∧
      ((∀ i, i < MAX_ENDPOINTS → ∀ j, j < MAX_ISO_TRANSFER_COUNT →
        (s.host.endpoint i).iso_transfer j ≠ 0 →
          (s.host.endpoint i).type = usb_redir_type_iso ∧
            j < (s.host.endpoint i).iso_transfer_count) →
      (∀ i, i < MAX_ENDPOINTS → (s.host.endpoint i).interrupt_in_transfer ≠ 0 →
        (s.host.endpoint i).type = usb_redir_type_interrupt ∧ i &&& 0x10 ≠ 0) →
      Quiet s1.eps) := by
    split_ifs at hs1 with hw
    · obtain ⟨c, t⟩ := clear_device_wait_drained _ hs1
      refine ⟨?_, fun hiso hint =>
        quiet_clear_device_wait _ hs1 (quiet_cancel_pending_urbs s hiso hint)⟩
      show (s1.host.transfers_head, s1.host.cancels_pending) = ([], 0)
      rw [c, t]
    · obtain ⟨c, t⟩ := cancel_pending_urbs_no_wait s (not_not.mp hw)
      rw [← Option.some.inj hs1]
      refine ⟨?_, fun hiso hint => quiet_cancel_pending_urbs s hiso hint⟩
      show (_, _) = ([], 0)
      rw [c, t]
  obtain ⟨d1, d2, d3, d4, d5⟩ := clear_device_finish_host s1
  have hk := qkey_clear_device_finish s1
  rw [hfin, hq.1] at hk
  have hk' : (s'.host.transfers_head, s'.host.cancels_pending) = ([], 0) := hk
  rw [hfin] at d1 d2 d3 d4 d5
  refine ⟨(Prod.mk.inj hk').1, (Prod.mk.inj hk').2, d1, d2, d3, d4, d5, fun hiso hint => ?_⟩
  have hQ := hq.2 hiso hint
  rw [← eps_clear_device_finish, hfin] at hQ
  exact ⟨hQ.1, hQ.2.1⟩

set_option maxRecDepth 100000 in
set_option maxHeartbeats 1000000 in
/-- The lemma `clear_device_drained` at the example host with two iso URBs in
flight, which libusb delivers as cancelled at the next event handling: the
host has a device bound, only its iso endpoint holds ring slots and no
endpoint an interrupt-in transfer; `usbredirhost_clear_device` returns on it,
and then the host is quiescent and unbound. -/
theorem clear_device_drained_example :
    example_draining.host.dev.isSome = true ∧
    (example_draining.host.endpoint 17).iso_transfer 0 = 1 ∧
    example_draining.usb.inflight = [1, 2] ∧
    (usbredirhost_clear_device example_draining).isSome = true ∧
    ∀ s', usbredirhost_clear_device example_draining = some s' →
      s'.host.transfers_head = [] ∧ s'.host.cancels_pending = 0 ∧
      s'.host.handle = none ∧ s'.host.config = none ∧ s'.host.dev = none ∧
      s'.host.connect_pending = false ∧ s'.host.disconnected = true ∧
      (∀ i, i < MAX_ENDPOINTS → ∀ j, j < MAX_ISO_TRANSFER_COUNT →
        (s'.host.endpoint i).iso_transfer j = 0) ∧
      (∀ i, i < MAX_ENDPOINTS → (s'.host.endpoint i).interrupt_in_transfer = 0) :=
  ⟨by decide, by decide, by decide, by decide, fun s' h =>
    have t := clear_device_drained example_draining s' (by decide) h
    ⟨t.1, t.2.1, t.2.2.1, t.2.2.2.1, t.2.2.2.2.1, t.2.2.2.2.2.1, t.2.2.2.2.2.2.1,
      t.2.2.2.2.2.2.2 (by decide) (by decide)⟩⟩

set_option maxRecDepth 100000 in
/-- C20, evaluated at the failing input: on the device whose two interfaces
both declare the endpoint address 0x81, after the iso stream of 2 URBs was
started on 0x81 and interface 0 was switched to the alt setting that declares
0x81 as a bulk endpoint, the host (reached by a run from
`usbredirhost_open_full`) has a device bound, the slot of 0x81 has type bulk
and its ring holds the URBs 1 and 2, both in flight.
`usbredirhost_cancel_pending_urbs` visits the slots by their current type, so
it cancels nothing and returns `wait` 0; `usbredirhost_clear_device` then
returns without draining, having closed the handle and forgotten the device,
while the two ring slots still hold their URBs, which are still in flight. -/
theorem C20_clear_device_closes_with_ring_in_flight :
    Reachable example_shared ∧ example_shared.host.dev.isSome = true ∧
    (example_shared.host.endpoint (EP2I 0x81)).type = usb_redir_type_bulk ∧
    (example_shared.host.endpoint (EP2I 0x81)).iso_transfer 0 = 1 ∧
    (example_shared.host.endpoint (EP2I 0x81)).iso_transfer 1 = 2 ∧
    example_shared.usb.inflight = [1, 2] ∧
    (usbredirhost_cancel_pending_urbs example_shared).2 = 0 ∧
    (usbredirhost_cancel_pending_urbs example_shared).1.usb.inflight = [1, 2] ∧
    ∃ s', usbredirhost_clear_device example_shared = some s' ∧
      (s'.host.endpoint (EP2I 0x81)).iso_transfer 0 = 1 ∧
      (s'.host.endpoint (EP2I 0x81)).iso_transfer 1 = 2 ∧
      s'.usb.inflight = [1, 2] ∧ s'.host.handle = none ∧ s'.host.dev = none := by
  refine ⟨reachable_getD _ _ _ _ _ _ (by decide), by decide, by decide, by decide,
    by decide, by decide, by decide, by decide, ?_⟩
  have h : ((usbredirhost_clear_device example_shared).map fun s' =>
      ((s'.host.endpoint (EP2I 0x81)).iso_transfer 0,
        (s'.host.endpoint (EP2I 0x81)).iso_transfer 1, s'.usb.inflight,
        s'.host.handle.isSome, s'.host.dev.isSome)) =
      some (1, 2, [1, 2], false, false) := by decide
  obtain ⟨s', hs', he⟩ := Option.map_eq_some'.mp h
  have he1 := Prod.mk.inj he
  have he2 := Prod.mk.inj he1.2
  have he3 := Prod.mk.inj he2.2
  have he4 := Prod.mk.inj he3.2
  refine ⟨s', hs', he1.1, he2.1, he3.1, ?_, ?_⟩
  · cases hh : s'.host.handle with
    | none => rfl
    | some x => rw [hh] at he4; exact Bool.noConfusion he4.1
  · cases hd : s'.host.dev with
    | none => rfl
    | some x => rw [hd] at he4; exact Bool.noConfusion he4.2


/-- While `wait_disconnect` is set on a disconnected host,
`usbredirhost_send_device_connect` sends nothing and leaves the three flags
but `connect_pending` alone. -/
theorem send_device_connect_waiting (s : State) (hw : s.host.wait_disconnect = true)
    (hd : s.host.disconnected = true) :
    (usbredirhost_send_device_connect s).host.wait_disconnect = true ∧
    (usbredirhost_send_device_connect s).host.disconnected = true ∧
    cd_trace (usbredirhost_send_device_connect s).parser.sent = cd_trace s.parser.sent := by
  rw [send_device_connect_deferred s hd (Or.inr hw)]
  exact ⟨hw, hd, rfl⟩

/-- A step other than the disconnect-ack taken while `wait_disconnect` is set
leaves it set and sends neither a device-connect nor a device-disconnect. -/
theorem waiting_step {s s' : State} {e : Event} (hs : step s e = some s')
    (hw : s.host.wait_disconnect = true) (hd : s.host.disconnected = true)
    (he : e ≠ .device_disconnect_ack) :
    s'.host.wait_disconnect = true ∧ s'.host.disconnected = true ∧
    cd_trace s'.parser.sent = cd_trace s.parser.sent := by
  have hdisc : ∀ s1 : State, Disc s.key s1.key →
      s1.host.wait_disconnect = true ∧ s1.host.disconnected = true ∧
      cd_trace s1.parser.sent = cd_trace s.parser.sent :=
    fun s1 h => ⟨h.2.2.2 hw, (disc_stays h hd).1, (disc_stays h hd).2⟩
  by_cases h1 : ∃ h, e = .set_device h
  · obtain ⟨h, rfl⟩ := h1
    obtain ⟨r, hr, rfl⟩ := Option.map_eq_some'.mp hs
    rcases set_device_shape hr with h1 | ⟨s1, h1, e1⟩
    · exact hdisc _ h1
    · obtain ⟨w1, d1, t1⟩ := hdisc _ h1
      obtain ⟨w2, d2, t2⟩ := send_device_connect_waiting s1 w1 d1
      rw [e1]
      exact ⟨w2, d2, t2.trans t1⟩
  by_cases h2 : ∃ caps, e = .hello caps
  · obtain ⟨caps, rfl⟩ := h2
    rw [← Option.some.inj hs]
    unfold usbredirhost_hello
    split
    · exact send_device_connect_waiting (usbredirparser_hello s caps) hw hd
    · exact ⟨hw, hd, rfl⟩
  · exact hdisc _ (disc_step hs (fun h he' => h1 ⟨h, he'⟩) (fun c he' => h2 ⟨c, he'⟩) he)

/-- C30: in every state reached from `usbredirhost_open_full` by any sequence
of events, `wait_disconnect` set implies `disconnected` set and
`connect_pending` set implies `disconnected` set; and a step taken while
`wait_disconnect` is set, other than the arrival of the disconnect-ack, leaves
`wait_disconnect` and `disconnected` set and sends no device-connect (nor a
device-disconnect): the connect and disconnect packets of the log are the same
before and after. -/
theorem C30_pending_flags_imply_disconnected :
    (∀ s : State, Reachable s →
      (s.host.wait_disconnect = true → s.host.disconnected = true) ∧
      (s.host.connect_pending = true → s.host.disconnected = true)) ∧
    (∀ (s s' : State) (e : Event), Reachable s → step s e = some s' →
      s.host.wait_disconnect = true → e ≠ .device_disconnect_ack →
      s'.host.wait_disconnect = true ∧ s'.host.disconnected = true ∧
      cd_trace s'.parser.sent = cd_trace s.parser.sent) :=
  ⟨fun _ hr => (inv_reachable hr).2,
   fun _ _ _ hr hs hw he => waiting_step hs hw ((inv_reachable hr).2.1 hw) he⟩

set_option maxRecDepth 100000 in
/-- Witness of C30: the example host that was unbound waits for the
disconnect-ack; it is disconnected, and rebinding the device in this state
returns and sends no device-connect: the host still waits afterwards. -/
theorem C30_pending_flags_imply_disconnected_witness :
    Reachable example_unbound ∧ example_unbound.host.wait_disconnect = true ∧
    example_unbound.host.disconnected = true ∧
    ∃ s', step example_unbound (.set_device (some example_handle)) = some s' ∧
      s'.host.wait_disconnect = true ∧ s'.host.disconnected = true ∧
      cd_trace s'.parser.sent = cd_trace example_unbound.parser.sent := by
  have hr : Reachable example_unbound := reachable_example_run _ (by decide)
  have hw : example_unbound.host.wait_disconnect = true := by decide
  have hsome : (step example_unbound (.set_device (some example_handle))).isSome = true := by
    decide
  obtain ⟨s', hs⟩ := Option.isSome_iff_exists.mp hsome
  exact ⟨hr, hw, (C30_pending_flags_imply_disconnected.1 example_unbound hr).1 hw, s', hs,
    C30_pending_flags_imply_disconnected.2 example_unbound s' _ hr hs hw (by decide)⟩



/-- A loop of `modifyEp` changes the endpoint table only. -/
theorem foldl_modifyEp {α : Type} (a : α → Nat) (f : α → usbredirhost_ep → usbredirhost_ep)
    (l : List α) (s : State) :
    l.foldl (fun s x => s.modifyEp (a x) (f x)) s =
      { s with host := { s.host with
        endpoint := l.foldl (fun tbl x => Function.update tbl (a x) (f x (tbl (a x))))
          s.host.endpoint } } := by
  induction l generalizing s with
  | nil => rfl
  | cons x l ih => rw [List.foldl_cons, ih]; rfl

theorem parse_interface_eq (s : State) (i : Nat) :
    usbredirhost_parse_interface s i =
      { s with host := { s.host with
        endpoint := ((s.intf_desc i).endpoint.map fun epd =>
            ((s.intf_desc i).bInterfaceNumber, epd)).foldl
          (fun tbl w => Function.update tbl (EP2I w.2.bEndpointAddress)
            (parse_endpoint w.1 w.2 (tbl (EP2I w.2.bEndpointAddress)))) s.host.endpoint } } := by
  unfold usbredirhost_parse_interface
  simp only []
  refine (foldl_modifyEp (fun epd => EP2I epd.bEndpointAddress)
    (fun epd => parse_endpoint (s.intf_desc i).bInterfaceNumber epd) _ s).trans ?_
  rw [List.foldl_map]

theorem parse_interfaces_eq (l : List Nat) (s : State) (tbl : Nat → usbredirhost_ep) :
    l.foldl usbredirhost_parse_interface { s with host := { s.host with endpoint := tbl } } =
      { s with host := { s.host with
        endpoint := (l.flatMap fun i => (s.intf_desc i).endpoint.map fun epd =>
            ((s.intf_desc i).bInterfaceNumber, epd)).foldl
          (fun tbl w => Function.update tbl (EP2I w.2.bEndpointAddress)
            (parse_endpoint w.1 w.2 (tbl (EP2I w.2.bEndpointAddress)))) tbl } } := by
  induction l generalizing tbl with
  | nil => rfl
  | cons i l ih =>
    rw [List.foldl_cons, parse_interface_eq]
    refine Eq.trans (ih _) ?_
    rw [List.flatMap_cons, List.foldl_append]
    rfl

/-- The state after `usbredirhost_parse_config`: only the endpoint table
changes; every slot is reset and then the described endpoints are written in
order. -/
theorem parse_config_eq (s : State) :
    usbredirhost_parse_config s =
      { s with host := { s.host with
        endpoint := (described_endpoints s).foldl
          (fun tbl w => Function.update tbl (EP2I w.2.bEndpointAddress)
            (parse_endpoint w.1 w.2 (tbl (EP2I w.2.bEndpointAddress))))
          (fun k => if k < MAX_ENDPOINTS then reset_endpoint k (s.host.endpoint k)
            else s.host.endpoint k) } } := by
  unfold usbredirhost_parse_config
  simp only []
  have h1 := foldl_modifyEp (fun i : Nat => i) (fun i => reset_endpoint i)
    (List.range MAX_ENDPOINTS) s
  have h1' : (List.range MAX_ENDPOINTS).foldl (fun s i =>
      s.modifyEp i fun e =>
        { e with
          type := if i &&& 0x0f = 0 then usb_redir_type_control else usb_redir_type_invalid
          interval := 0
          interface := 0 }) s = _ := h1
  rw [h1']
  refine Eq.trans (parse_interfaces_eq _ s _) ?_
  have h2 : (List.range MAX_ENDPOINTS).foldl
      (fun tbl x => Function.update tbl x (reset_endpoint x (tbl x))) s.host.endpoint =
      fun k => if k < MAX_ENDPOINTS then reset_endpoint k (s.host.endpoint k)
        else s.host.endpoint k := by
    have h3 : ∀ (l : List Nat) (tbl : Nat → usbredirhost_ep), l.Nodup →
        l.foldl (fun tbl x => Function.update tbl x (reset_endpoint x (tbl x))) tbl =
          fun k => if k ∈ l then reset_endpoint k (tbl k) else tbl k := by
      intro l
      induction l with
      | nil => intro tbl _; simp
      | cons i l ih =>
        intro tbl hn
        have hi : i ∉ l := (List.nodup_cons.mp hn).1
        rw [List.foldl_cons, ih _ (List.nodup_cons.mp hn).2]
        funext k
        by_cases hk : k ∈ l
        · have hki : k ≠ i := fun e => hi (e ▸ hk)
          simp [hk, Function.update_noteq hki]
        · by_cases hki : k = i
          · subst hki; simp [hk]
          · simp [hk, hki, Function.update_noteq hki]
    rw [h3 _ _ (List.nodup_range _)]
    funext k
    simp only [List.mem_range]
  rw [h2]
  rfl

theorem and_0x80 (a : Nat) : a &&& 0x80 = 0 ∨ a &&& 0x80 = 0x80 := by
  have h : (0x80 : Nat) = 2 ^ 7 := rfl
  rw [h]
  cases hb : a.testBit 7
  · left
    apply Nat.eq_of_testBit_eq
    intro i
    rw [Nat.testBit_and, Nat.testBit_two_pow, Nat.zero_testBit]
    by_cases hi : 7 = i
    · subst hi; simp [hb]
    · simp [hi]
  · right
    apply Nat.eq_of_testBit_eq
    intro i
    rw [Nat.testBit_and, Nat.testBit_two_pow]
    by_cases hi : 7 = i
    · subst hi; simp [hb]
    · simp [hi]

/-- The low four bits of the index computed by `EP2I` are those of the
address. -/
theorem EP2I_mod (a : Nat) : EP2I a % 16 = a % 16 := by
  unfold EP2I
  have h1 : a &&& 0x0f = a % 16 := Nat.and_pow_two_sub_one_eq_mod a 4
  have h2 : a % 16 < 16 := Nat.mod_lt _ (by decide)
  rw [h1]
  generalize a % 16 = y at h2
  rcases and_0x80 a with h | h <;> rw [h] <;> interval_cases y <;> rfl

theorem EP2I_ne_zero (a : Nat) (h : a &&& 0x0f ≠ 0) : EP2I a ≠ 0 ∧ EP2I a ≠ 16 := by
  have h1 : a &&& 0x0f = a % 16 := Nat.and_pow_two_sub_one_eq_mod a 4
  rw [h1] at h
  have h2 := EP2I_mod a
  constructor
  · intro e; rw [e] at h2; exact h h2.symm
  · intro e; rw [e] at h2; exact h h2.symm

/-- Writing descriptors with pairwise distinct slots into a table: each slot
written holds its descriptor, every other slot is as before. -/
theorem foldl_parse_endpoint (W : List (Nat × libusb_endpoint_descriptor))
    (tbl : Nat → usbredirhost_ep)
    (hd : (W.map fun w => EP2I w.2.bEndpointAddress).Nodup) :
    (∀ w ∈ W, W.foldl (fun tbl w => Function.update tbl (EP2I w.2.bEndpointAddress)
        (parse_endpoint w.1 w.2 (tbl (EP2I w.2.bEndpointAddress)))) tbl
        (EP2I w.2.bEndpointAddress) =
      parse_endpoint w.1 w.2 (tbl (EP2I w.2.bEndpointAddress))) ∧
    (∀ k, k ∉ W.map (fun w => EP2I w.2.bEndpointAddress) →
      W.foldl (fun tbl w => Function.update tbl (EP2I w.2.bEndpointAddress)
        (parse_endpoint w.1 w.2 (tbl (EP2I w.2.bEndpointAddress)))) tbl k = tbl k) := by
  induction W generalizing tbl with
  | nil => exact ⟨fun w hw => absurd hw (List.not_mem_nil _), fun k _ => rfl⟩
  | cons x W ih =>
    rw [List.map_cons, List.nodup_cons] at hd
    obtain ⟨ha, hb⟩ := ih (Function.update tbl (EP2I x.2.bEndpointAddress)
      (parse_endpoint x.1 x.2 (tbl (EP2I x.2.bEndpointAddress)))) hd.2
    refine ⟨fun w hw => ?_, fun k hk => ?_⟩
    · rw [List.foldl_cons]
      rcases List.mem_cons.mp hw with hx | hx
      · subst hx
        rw [hb _ hd.1, Function.update_same]
      · have hne : EP2I w.2.bEndpointAddress ≠ EP2I x.2.bEndpointAddress := by
          intro e
          exact hd.1 (e ▸ List.mem_map_of_mem (fun w => EP2I w.2.bEndpointAddress) hx)
        rw [ha w hx, Function.update_noteq hne]
    · rw [List.foldl_cons]
      rw [List.map_cons, List.mem_cons, not_or] at hk
      rw [hb k hk.2, Function.update_noteq hk.1]

/-- C21: after `usbredirhost_parse_config` on a configuration whose endpoint
descriptors (at the current alt settings) have pairwise distinct slot indices
`EP2I(a)` and non-zero endpoint numbers: for each described endpoint with
address `a`, slot `EP2I(a)` has type `bmAttributes & 3`, interval `bInterval`,
interface the number of the owning interface and max_packetsize
`usbredirhost_get_max_packetsize(wMaxPacketSize)`; slots 0 and 16 have type
control; every other slot that is not described has type invalid; and every
slot that is not described has interval 0 and interface 0. -/
theorem C21_parse_config (s : State)
    (hdist : ((described_endpoints s).map fun w => EP2I w.2.bEndpointAddress).Nodup)
    (hnz : ∀ w ∈ described_endpoints s, w.2.bEndpointAddress &&& 0x0f ≠ 0) :
    (∀ w ∈ described_endpoints s,
      ((usbredirhost_parse_config s).host.endpoint (EP2I w.2.bEndpointAddress)).type =
        w.2.bmAttributes &&& 3 ∧
      ((usbredirhost_parse_config s).host.endpoint (EP2I w.2.bEndpointAddress)).interval =
        w.2.bInterval ∧
      ((usbredirhost_parse_config s).host.endpoint (EP2I w.2.bEndpointAddress)).interface =
        w.1 ∧
      ((usbredirhost_parse_config s).host.endpoint
          (EP2I w.2.bEndpointAddress)).max_packetsize =
        usbredirhost_get_max_packetsize w.2.wMaxPacketSize) ∧
    ((usbredirhost_parse_config s).host.endpoint 0).type = usb_redir_type_control ∧
    ((usbredirhost_parse_config s).host.endpoint 16).type = usb_redir_type_control ∧
    (∀ k, k < MAX_ENDPOINTS → k ≠ 0 → k ≠ 16 →
      k ∉ (described_endpoints s).map (fun w => EP2I w.2.bEndpointAddress) →
      ((usbredirhost_parse_config s).host.endpoint k).type = usb_redir_type_invalid) ∧
    (∀ k, k < MAX_ENDPOINTS →
      k ∉ (described_endpoints s).map (fun w => EP2I w.2.bEndpointAddress) →
      ((usbredirhost_parse_config s).host.endpoint k).interval = 0 ∧
      ((usbredirhost_parse_config s).host.endpoint k).interface = 0) := by
  obtain ⟨ha, hb⟩ := foldl_parse_endpoint (described_endpoints s)
    (fun k => if k < MAX_ENDPOINTS then reset_endpoint k (s.host.endpoint k)
      else s.host.endpoint k) hdist
  have hslot : ∀ k, k = 0 ∨ k = 16 →
      k ∉ (described_endpoints s).map (fun w => EP2I w.2.bEndpointAddress) := by
    intro k hk hm
    obtain ⟨w, hw, e⟩ := List.mem_map.mp hm
    have h := EP2I_ne_zero _ (hnz w hw)
    rcases hk with hk | hk
    · exact h.1 (e.trans hk)
    · exact h.2 (e.trans hk)
  rw [parse_config_eq]
  refine ⟨fun w hw => ?_, ?_, ?_, fun k hk h0 h16 hn => ?_, fun k hk hn => ?_⟩
  · show ((List.foldl _ _ _ : Nat → usbredirhost_ep) _).type = _ ∧
      ((List.foldl _ _ _ : Nat → usbredirhost_ep) _).interval = _ ∧
      ((List.foldl _ _ _ : Nat → usbredirhost_ep) _).interface = _ ∧
      ((List.foldl _ _ _ : Nat → usbredirhost_ep) _).max_packetsize = _
    rw [ha w hw]
    exact ⟨rfl, rfl, rfl, rfl⟩
  · show ((List.foldl _ _ _ : Nat → usbredirhost_ep) _).type = _
    rw [hb 0 (hslot 0 (Or.inl rfl))]
    rfl
  · show ((List.foldl _ _ _ : Nat → usbredirhost_ep) _).type = _
    rw [hb 16 (hslot 16 (Or.inr rfl))]
    rfl
  · show ((List.foldl _ _ _ : Nat → usbredirhost_ep) _).type = _
    rw [hb k hn]
    simp only [hk, if_true, reset_endpoint]
    have hk16 : k % 16 ≠ 0 := by
      have : k < 32 := hk
      omega
    have e : k &&& 0x0f = k % 16 := Nat.and_pow_two_sub_one_eq_mod k 4
    rw [e, if_neg hk16]
  · show ((List.foldl _ _ _ : Nat → usbredirhost_ep) _).interval = _ ∧
      ((List.foldl _ _ _ : Nat → usbredirhost_ep) _).interface = _
    rw [hb k hn]
    simp only [hk, if_true, reset_endpoint, and_self]

set_option maxRecDepth 100000 in
/-- Witness of C21: the configuration of the example host describes the
endpoints 0x81, 0x02 and 0x83, whose slots 17, 2 and 19 are distinct; after
`usbredirhost_parse_config` slot 17 is the iso endpoint of interface 0 with
interval 1 and packet size 64, and slot 1, which is not described, is
invalid. -/
theorem C21_parse_config_witness :
    (described_endpoints example_connected).map (fun w => EP2I w.2.bEndpointAddress) =
      [17, 2, 19] ∧
    (∀ w ∈ described_endpoints example_connected, w.2.bEndpointAddress &&& 0x0f ≠ 0) ∧
    ((usbredirhost_parse_config example_connected).host.endpoint 17).type =
      usb_redir_type_iso ∧
    ((usbredirhost_parse_config example_connected).host.endpoint 17).interval = 1 ∧
    ((usbredirhost_parse_config example_connected).host.endpoint 17).interface = 0 ∧
    ((usbredirhost_parse_config example_connected).host.endpoint 17).max_packetsize = 64 ∧
    ((usbredirhost_parse_config example_connected).host.endpoint 0).type =
      usb_redir_type_control ∧
    ((usbredirhost_parse_config example_connected).host.endpoint 1).type =
      usb_redir_type_invalid := by
  have h := C21_parse_config example_connected (by decide) (by decide)
  have h1 := h.1 (0, ⟨0x81, 1, 64, 1⟩) (by decide)
  exact ⟨by decide, by decide, h1.1, h1.2.1, h1.2.2.1, h1.2.2.2, h.2.1,
    h.2.2.2.1 1 (by decide) (by decide) (by decide) (by decide)⟩

set_option maxRecDepth 100000 in
/-- C21 as stated, with pairwise distinct addresses, fails when two addresses
differ only in the reserved bits 4 to 6, which `EP2I` drops: on the
configuration with the endpoints 0x01 (bulk) and 0x11 (interrupt) the
addresses are distinct and the endpoint numbers are not zero, but both
descriptors are written to slot 1, which ends with the type interrupt of the
second and not with the type bulk of the first. -/
theorem C21_parse_config_reserved_bits_counterexample :
    ((described_endpoints example_collide).map fun w => w.2.bEndpointAddress) = [0x01, 0x11] ∧
    ((described_endpoints example_collide).map fun w => w.2.bEndpointAddress).Nodup ∧
    (∀ w ∈ described_endpoints example_collide, w.2.bEndpointAddress &&& 0x0f ≠ 0) ∧
    EP2I 0x01 = 1 ∧ EP2I 0x11 = 1 ∧
    (∃ w ∈ described_endpoints example_collide, w.2.bEndpointAddress = 0x01 ∧
      w.2.bmAttributes &&& 3 = usb_redir_type_bulk ∧
      ((usbredirhost_parse_config example_collide).host.endpoint
        (EP2I w.2.bEndpointAddress)).type = usb_redir_type_interrupt) := by
  refine ⟨by decide, by decide, by decide, by decide, by decide,
    ⟨(0, ⟨0x01, 2, 512, 0⟩), by decide, by decide, by decide, by decide⟩⟩



/-- A failure code of libusb never translates to success. -/
theorem translate_neg_ne_success (s : State) (r : Int) (h : r < 0) :
    (libusb_status_or_error_to_redir_status s r).2 ≠ usb_redir_success := by
  unfold libusb_status_or_error_to_redir_status
  have h0 : r ≠ LIBUSB_TRANSFER_COMPLETED := by
    intro e; rw [e] at h; exact absurd h (by decide)
  simp only [h0, if_false]
  split_ifs <;> dsimp only <;> decide

/-- When the detach-and-claim loop fails, the status it reports is not
success. -/
theorem claim_interfaces_failed (l : List Nat) (s : State) (i ret : Nat)
    (h : (usbredirhost_claim_interfaces s l).2 = some (i, ret)) : ret ≠ usb_redir_success := by
  induction l generalizing s with
  | nil => simp [usbredirhost_claim_interfaces] at h
  | cons j l ih =>
    unfold usbredirhost_claim_interfaces at h
    simp only [] at h
    split_ifs at h with h1 h2
    · have e := Prod.mk.inj (Option.some.inj h)
      rw [← e.2]
      exact translate_neg_ne_success _ _ h1.1
    · have e := Prod.mk.inj (Option.some.inj h)
      rw [← e.2]
      exact translate_neg_ne_success _ _ h2
    · exact ih _ h

/-- The detach-and-claim loop leaves the configuration and the alt-setting
table alone. -/
theorem claim_interfaces_config (l : List Nat) (s : State) :
    (usbredirhost_claim_interfaces s l).1.host.config = s.host.config ∧
    (usbredirhost_claim_interfaces s l).1.host.alt_setting = s.host.alt_setting := by
  have ht : ∀ (s0 : State) (r : Int),
      (libusb_status_or_error_to_redir_status s0 r).1.host.config = s0.host.config ∧
      (libusb_status_or_error_to_redir_status s0 r).1.host.alt_setting =
        s0.host.alt_setting := by
    intro s0 r
    rw [translate_state]
    unfold usbredirhost_handle_disconnect State.send
    simp only []
    split_ifs <;> exact ⟨rfl, rfl⟩
  induction l generalizing s with
  | nil => exact ⟨rfl, rfl⟩
  | cons j l ih =>
    unfold usbredirhost_claim_interfaces
    simp only []
    split_ifs
    · exact ht _ _
    · exact ht _ _
    · exact ih _

/-- C22: if `usbredirhost_claim` returns success then the configuration has
at most 32 interfaces, every entry of the alt-setting table is 0, `claimed` is
set and the state is the result of `usbredirhost_parse_config` (on a state
with this configuration and alt-setting table) with `claimed` set, so that the
endpoint table is the one `usbredirhost_parse_config` computed; and if
`libusb_get_config_descriptor_by_value` succeeds and the configuration of the
device with the active value has more than 32 interfaces, the function returns
ioerror having called libusb only to free the old descriptor and to fetch the
new one, and leaves `claimed` as it was. -/
theorem C22_claim (s : State) :
    ((usbredirhost_claim s).2 = usb_redir_success →
      (usbredirhost_claim s).1.bNumInterfaces ≤ MAX_INTERFACES ∧
      (∀ i, (usbredirhost_claim s).1.host.alt_setting i = 0) ∧
      (usbredirhost_claim s).1.host.claimed = true ∧
      ∃ l : State, l.host.config = (usbredirhost_claim s).1.host.config ∧
        l.host.alt_setting = (usbredirhost_claim s).1.host.alt_setting ∧
        (usbredirhost_claim s).1 =
          { usbredirhost_parse_config l with
            host := { (usbredirhost_parse_config l).host with claimed := true } }) ∧
    (∀ cfg : libusb_config_descriptor, 0 ≤ s.usb.ret.headD 0 →
      ((s.host.dev.getD default).configs.find? fun c =>
        decide ((c.bConfigurationValue : Int) = s.host.active_config)) = some cfg →
      cfg.bNumInterfaces > MAX_INTERFACES →
      (usbredirhost_claim s).2 = usb_redir_ioerror ∧
      (usbredirhost_claim s).1.host.claimed = s.host.claimed ∧
      (usbredirhost_claim s).1.host.config = some cfg ∧
      (usbredirhost_claim s).1.usb.calls =
        s.usb.calls ++ (if s.host.config.isSome then [.free_config_descriptor] else []) ++
          [.get_config_descriptor_by_value s.host.active_config]) := by
  constructor
  · intro hs
    unfold usbredirhost_claim at hs ⊢
    simp only [] at hs ⊢
    generalize (if s.host.config.isSome = true then
      ({ (s.callVoid .free_config_descriptor) with
        host := { s.host with config := none } } : State) else s) = s1 at hs ⊢
    have key : ∀ (L : State × Option (Nat × Nat)),
        L.1.bNumInterfaces ≤ MAX_INTERFACES → (∀ i, L.1.host.alt_setting i = 0) →
        (∀ i ret, L.2 = some (i, ret) → ret ≠ usb_redir_success) →
        (match L.2 with
          | none =>
            ({ usbredirhost_parse_config L.1 with
                host := { (usbredirhost_parse_config L.1).host with claimed := true } },
              usb_redir_success)
          | some (i, ret) =>
            ((List.range (i + 1)).reverse.foldl (fun s j =>
              ((s.call (.release_interface (s.altsetting j 0).bInterfaceNumber)).1.call
                (.attach_kernel_driver (s.altsetting j 0).bInterfaceNumber)).1) L.1,
             ret)).2 = usb_redir_success →
        (match L.2 with
          | none =>
            ({ usbredirhost_parse_config L.1 with
                host := { (usbredirhost_parse_config L.1).host with claimed := true } },
              usb_redir_success)
          | some (i, ret) =>
            ((List.range (i + 1)).reverse.foldl (fun s j =>
              ((s.call (.release_interface (s.altsetting j 0).bInterfaceNumber)).1.call
                (.attach_kernel_driver (s.altsetting j 0).bInterfaceNumber)).1) L.1,
             ret)).1.bNumInterfaces ≤ MAX_INTERFACES ∧
        (∀ i, (match L.2 with
          | none =>
            ({ usbredirhost_parse_config L.1 with
                host := { (usbredirhost_parse_config L.1).host with claimed := true } },
              usb_redir_success)
          | some (i, ret) =>
            ((List.range (i + 1)).reverse.foldl (fun s j =>
              ((s.call (.release_interface (s.altsetting j 0).bInterfaceNumber)).1.call
                (.attach_kernel_driver (s.altsetting j 0).bInterfaceNumber)).1) L.1,
             ret)).1.host.alt_setting i = 0) ∧
        (match L.2 with
          | none =>
            ({ usbredirhost_parse_config L.1 with
                host := { (usbredirhost_parse_config L.1).host with claimed := true } },
              usb_redir_success)
          | some (i, ret) =>
            ((List.range (i + 1)).reverse.foldl (fun s j =>
              ((s.call (.release_interface (s.altsetting j 0).bInterfaceNumber)).1.call
                (.attach_kernel_driver (s.altsetting j 0).bInterfaceNumber)).1) L.1,
             ret)).1.host.claimed = true ∧
        ∃ l : State, l.host.config = (match L.2 with
          | none =>
            ({ usbredirhost_parse_config L.1 with
                host := { (usbredirhost_parse_config L.1).host with claimed := true } },
              usb_redir_success)
          | some (i, ret) =>
            ((List.range (i + 1)).reverse.foldl (fun s j =>
              ((s.call (.release_interface (s.altsetting j 0).bInterfaceNumber)).1.call
                (.attach_kernel_driver (s.altsetting j 0).bInterfaceNumber)).1) L.1,
             ret)).1.host.config ∧
          l.host.alt_setting = (match L.2 with
          | none =>
            ({ usbredirhost_parse_config L.1 with
                host := { (usbredirhost_parse_config L.1).host with claimed := true } },
              usb_redir_success)
          | some (i, ret) =>
            ((List.range (i + 1)).reverse.foldl (fun s j =>
              ((s.call (.release_interface (s.altsetting j 0).bInterfaceNumber)).1.call
                (.attach_kernel_driver (s.altsetting j 0).bInterfaceNumber)).1) L.1,
             ret)).1.host.alt_setting ∧
          (match L.2 with
          | none =>
            ({ usbredirhost_parse_config L.1 with
                host := { (usbredirhost_parse_config L.1).host with claimed := true } },
              usb_redir_success)
          | some (i, ret) =>
            ((List.range (i + 1)).reverse.foldl (fun s j =>
              ((s.call (.release_interface (s.altsetting j 0).bInterfaceNumber)).1.call
                (.attach_kernel_driver (s.altsetting j 0).bInterfaceNumber)).1) L.1,
             ret)).1 =
            { usbredirhost_parse_config l with
              host := { (usbredirhost_parse_config l).host with claimed := true } } := by
      intro L hn ha hf
      cases hl2 : L.2 with
      | some ir =>
        intro hs
        exact absurd hs (hf ir.1 ir.2 hl2)
      | none =>
        intro _
        dsimp only
        refine ⟨?_, fun i => ?_, rfl, L.1, ?_, ?_, rfl⟩
        · rw [parse_config_eq]; exact hn
        · rw [parse_config_eq]; exact ha i
        · rw [parse_config_eq]
        · rw [parse_config_eq]
    split_ifs at hs ⊢ with h1 h2
    · exact absurd hs (translate_neg_ne_success _ _ h1)
    · exact absurd hs (by dsimp only; decide)
    · obtain ⟨c1, c2⟩ := claim_interfaces_config
        (List.range (libusb_get_config_descriptor_by_value s1).1.bNumInterfaces)
        { (libusb_get_config_descriptor_by_value s1).1 with
          host := { (libusb_get_config_descriptor_by_value s1).1.host with
            alt_setting := fun _ => 0 } }
      refine key (usbredirhost_claim_interfaces
        { (libusb_get_config_descriptor_by_value s1).1 with
          host := { (libusb_get_config_descriptor_by_value s1).1.host with
            alt_setting := fun _ => 0 } }
        (List.range (libusb_get_config_descriptor_by_value s1).1.bNumInterfaces)) ?_ ?_ ?_ hs
      · show ((usbredirhost_claim_interfaces _ _).1.host.config.getD default).bNumInterfaces ≤ _
        rw [c1]
        exact Nat.le_of_not_lt h2
      · intro i
        rw [c2]
      · intro i ret h
        exact claim_interfaces_failed _ _ i ret h
  · intro cfg hret hcfg hn
    have hfetch : ∀ s1 : State, s1.usb.ret = s.usb.ret → s1.host.dev = s.host.dev →
        s1.host.active_config = s.host.active_config →
        libusb_get_config_descriptor_by_value s1 =
          ({ (s1.call (.get_config_descriptor_by_value s.host.active_config)).1 with
              host := { s1.host with config := some cfg } }, s.usb.ret.headD 0) := by
      intro s1 e1 e2 e3
      unfold libusb_get_config_descriptor_by_value
      simp only [State.call, e1, e2, e3, not_lt.mpr hret, if_false, hcfg]
    unfold usbredirhost_claim
    simp only []
    have hs1 : (if s.host.config.isSome = true then
        ({ (s.callVoid .free_config_descriptor) with
          host := { s.host with config := none } } : State) else s).usb.ret = s.usb.ret ∧
      (if s.host.config.isSome = true then
        ({ (s.callVoid .free_config_descriptor) with
          host := { s.host with config := none } } : State) else s).host.dev = s.host.dev ∧
      (if s.host.config.isSome = true then
        ({ (s.callVoid .free_config_descriptor) with
          host := { s.host with config := none } } : State) else s).host.active_config =
        s.host.active_config ∧
      (if s.host.config.isSome = true then
        ({ (s.callVoid .free_config_descriptor) with
          host := { s.host with config := none } } : State) else s).host.claimed =
        s.host.claimed ∧
      (if s.host.config.isSome = true then
        ({ (s.callVoid .free_config_descriptor) with
          host := { s.host with config := none } } : State) else s).usb.calls =
        s.usb.calls ++ (if s.host.config.isSome then [.free_config_descriptor] else []) := by
      split_ifs
      · exact ⟨rfl, rfl, rfl, rfl, rfl⟩
      · exact ⟨rfl, rfl, rfl, rfl, (List.append_nil _).symm⟩
    generalize (if s.host.config.isSome = true then
      ({ (s.callVoid .free_config_descriptor) with
        host := { s.host with config := none } } : State) else s) = s1 at hs1 ⊢
    obtain ⟨e1, e2, e3, e4, e5⟩ := hs1
    generalize (if s.host.config.isSome = true then [LibusbCall.free_config_descriptor]
      else []) = fl at e5 ⊢
    rw [hfetch s1 e1 e2 e3]
    have hr : ¬(s.usb.ret.headD 0 < 0) := not_lt.mpr hret
    split_ifs <;>
      first
      | exact absurd (by assumption) hr
      | exact absurd hn (by assumption)
      | (refine ⟨rfl, e4, rfl, ?_⟩
         show s1.usb.calls ++ [_] = _
         rw [e5])

set_option maxRecDepth 100000 in
/-- Witness of C22: claiming again on the connected example host succeeds,
with one interface, the alt setting 0 and `claimed` set; on the device with 33
interfaces the function returns ioerror after the fetch alone and `claimed`
stays clear. -/
theorem C22_claim_witness :
    (usbredirhost_claim example_connected).2 = usb_redir_success ∧
    (usbredirhost_claim example_connected).1.bNumInterfaces = 1 ∧
    (∀ i, (usbredirhost_claim example_connected).1.host.alt_setting i = 0) ∧
    (usbredirhost_claim example_connected).1.host.claimed = true ∧
    (usbredirhost_claim example_many).2 = usb_redir_ioerror ∧
    (usbredirhost_claim example_many).1.host.claimed = false ∧
    (usbredirhost_claim example_many).1.usb.calls = [.get_config_descriptor_by_value 1] := by
  have h1 := (C22_claim example_connected).1 (by decide)
  have h2 := (C22_claim example_many).2 (example_device_many.configs.headD default)
    (by decide) (by decide) (by decide)
  refine ⟨by decide, by decide, h1.2.1, h1.2.2.1, h2.1, ?_, ?_⟩
  · rw [h2.2.1]; rfl
  · rw [h2.2.2.2]; rfl


/-! ### Completion of an iso output URB -/

/-- A status `usbredirhost_handle_iso_status` takes for ok is no no-device
code. -/
theorem iso_ok_not_gone (r : Int) (h : r = LIBUSB_TRANSFER_COMPLETED ∨ r = -EXDEV) :
    ¬ (r = LIBUSB_TRANSFER_NO_DEVICE ∨ r = LIBUSB_ERROR_NO_DEVICE) := by
  rcases h with h | h <;> subst h <;> decide

/-- The per-packet loop on an output URB all of whose packet statuses are ok:
it runs to its end and changes nothing. -/
theorem iso_packet_complete_loop_out (transfer ep : Nat)
    (hout : ep &&& LIBUSB_ENDPOINT_IN = 0) :
    ∀ (l : List Nat) (s : State),
    (∀ i ∈ l,
      ((s.deref transfer).transfer.iso_packet_desc.getD i default).status =
          LIBUSB_TRANSFER_COMPLETED ∨
        ((s.deref transfer).transfer.iso_packet_desc.getD i default).status = -EXDEV) →
    usbredirhost_iso_packet_complete_loop transfer ep s l = (s, true) := by
  intro l
  induction l with
  | nil => intro s _; rfl
  | cons i rest ih =>
    intro s h
    have hi := h i (List.mem_cons_self _ _)
    have ht : (libusb_status_or_error_to_redir_status s
        ((s.deref transfer).transfer.iso_packet_desc.getD i default).status).1 = s := by
      rw [translate_state, if_neg (iso_ok_not_gone _ hi)]
    have hh : usbredirhost_handle_iso_status s (s.deref transfer).id ep
        ((s.deref transfer).transfer.iso_packet_desc.getD i default).status = (s, 0) := by
      unfold usbredirhost_handle_iso_status
      rw [if_pos hi]
    conv => lhs; unfold usbredirhost_iso_packet_complete_loop
    simp only [ht, hh]
    rw [if_neg (by decide), if_neg (by simp), if_neg (by simpa using hout)]
    exact ih s fun j hj => h j (List.mem_cons_of_mem _ hj)

/-- Writing through the pointers `ring i`, for `i` in a list, with an
idempotent update `g`: the records at these addresses are updated once. -/
theorem foldl_modify_ring (k : Nat) (g : usbredirtransfer → usbredirtransfer)
    (hg : ∀ t, g (g t) = g t) :
    ∀ (l : List Nat) (s : State),
    l.foldl (fun s i => s.modify ((s.host.endpoint k).iso_transfer i) g) s =
      { s with heap := fun p =>
          if p ∈ l.map (s.host.endpoint k).iso_transfer then (s.heap p).map g else s.heap p } := by
  intro l
  induction l with
  | nil => intro s; simp
  | cons i rest ih =>
    intro s
    rw [List.foldl_cons, ih]
    simp only [State.modify]
    congr 1
    funext p
    by_cases hp : p = (s.host.endpoint k).iso_transfer i
    · subst hp
      simp only [Function.update_same, List.map_cons, List.mem_cons, true_or, if_true]
      split_ifs
      · cases s.heap ((s.host.endpoint k).iso_transfer i) <;> simp [hg]
      · rfl
    · simp only [Function.update_noteq hp, List.map_cons, List.mem_cons, hp, false_or]

/-- The completion handler on an output URB that is not cancelled and whose
URB status and packet statuses are all ok: the record is marked completed and
the underflow check runs. -/
theorem iso_packet_complete_out_ok (s : State) (transfer : Nat) (t : usbredirtransfer)
    (hheap : s.heap transfer = some t)
    (hout : t.transfer.endpoint &&& LIBUSB_ENDPOINT_IN = 0)
    (hnc : t.cancelled = false)
    (hst : t.transfer.status = LIBUSB_TRANSFER_COMPLETED ∨ t.transfer.status = -EXDEV)
    (hpk : ∀ i, i < t.transfer.num_iso_packets →
      (t.transfer.iso_packet_desc.getD i default).status = LIBUSB_TRANSFER_COMPLETED ∨
        (t.transfer.iso_packet_desc.getD i default).status = -EXDEV) :
    usbredirhost_iso_packet_complete s transfer =
      usbredirhost_iso_packet_complete_underflow
        (s.modify transfer fun u => { u with iso_packet_idx := 0 }) t.transfer.endpoint := by
  have hd : s.deref transfer = t := by simp [State.deref, hheap]
  have hd1 : (s.modify transfer fun u => { u with iso_packet_idx := 0 }).deref transfer =
      { t with iso_packet_idx := 0 } := by
    simp [State.deref, State.modify, hheap]
  have hh : ∀ id, usbredirhost_handle_iso_status
      (s.modify transfer fun u => { u with iso_packet_idx := 0 })
      id t.transfer.endpoint t.transfer.status =
      (s.modify transfer fun u => { u with iso_packet_idx := 0 }, 0) := by
    intro id
    unfold usbredirhost_handle_iso_status
    rw [if_pos hst]
  unfold usbredirhost_iso_packet_complete
  simp only [hd, hnc, hd1, hh]
  rw [if_neg (by simp), if_neg (by decide), if_neg (by decide)]
  rw [iso_packet_complete_loop_out transfer _ hout _ _ (by
    intro i hi
    rw [hd1]
    exact hpk i (List.mem_range.mp hi))]
  simp only [Bool.not_true, if_neg (Bool.false_ne_true)]
  rw [if_neg (by simpa using hout)]

/-- The underflow check in closed form. -/
theorem iso_packet_complete_underflow_eq (s : State) (ep : Nat) :
    usbredirhost_iso_packet_complete_underflow s ep =
      if ∀ i, i < (s.host.endpoint (EP2I ep)).iso_transfer_count →
          (s.deref ((s.host.endpoint (EP2I ep)).iso_transfer i)).iso_packet_idx
            ≠ ISO_SUBMITTED_IDX then
        { s with
          heap := fun p =>
            if p ∈ (List.range (s.host.endpoint (EP2I ep)).iso_transfer_count).map
                (s.host.endpoint (EP2I ep)).iso_transfer then
              (s.heap p).map fun u => { u with iso_packet_idx := 0 }
            else s.heap p
          host := { s.host with
            endpoint := Function.update s.host.endpoint (EP2I ep)
              { s.host.endpoint (EP2I ep) with
                iso_out_idx := 0, iso_started := false, iso_drop_packets := 0 } } }
      else s := by
  unfold usbredirhost_iso_packet_complete_underflow
  simp only []
  rw [foldl_modify_ring _ (fun u => { u with iso_packet_idx := 0 }) (fun _ => rfl)]
  have e : ((List.range (s.host.endpoint (EP2I ep)).iso_transfer_count).all fun i =>
      decide ((s.deref ((s.host.endpoint (EP2I ep)).iso_transfer i)).iso_packet_idx
        ≠ ISO_SUBMITTED_IDX)) = true ↔
      ∀ i, i < (s.host.endpoint (EP2I ep)).iso_transfer_count →
          (s.deref ((s.host.endpoint (EP2I ep)).iso_transfer i)).iso_packet_idx
            ≠ ISO_SUBMITTED_IDX := by
    simp [List.all_eq_true]
  by_cases h : ∀ i, i < (s.host.endpoint (EP2I ep)).iso_transfer_count →
      (s.deref ((s.host.endpoint (EP2I ep)).iso_transfer i)).iso_packet_idx ≠ ISO_SUBMITTED_IDX
  · rw [if_pos (e.mpr h), if_pos h]
    rfl
  · rw [if_neg (fun h' => h (e.mp h')), if_neg h]

/-- C23: completion of an iso output URB (record `transfer`, holding `t`) that
is not cancelled and whose URB status and packet statuses are all ok
(completed, or `-EXDEV`, which `usbredirhost_handle_iso_status` takes for ok).
Nothing is sent to the peer and libusb is not called (so nothing is
resubmitted); the record of the URB is as before with `iso_packet_idx` 0.  If
no other URB of the ring is submitted, every URB of the ring has
`iso_packet_idx` 0 afterwards (the records of the ring are otherwise as
before, the records outside it untouched) and the endpoint has `iso_out_idx`
0, `iso_started` clear and `iso_drop_packets` 0, the host being otherwise as
before; if another URB of the ring is submitted, the host and every other
record are unchanged. -/
theorem C23_iso_out_completion (s : State) (transfer : Nat) (t : usbredirtransfer)
    (hheap : s.heap transfer = some t)
    (hout : t.transfer.endpoint &&& LIBUSB_ENDPOINT_IN = 0)
    (hnc : t.cancelled = false)
    (hst : t.transfer.status = LIBUSB_TRANSFER_COMPLETED ∨ t.transfer.status = -EXDEV)
    (hpk : ∀ i, i < t.transfer.num_iso_packets →
      (t.transfer.iso_packet_desc.getD i default).status = LIBUSB_TRANSFER_COMPLETED ∨
        (t.transfer.iso_packet_desc.getD i default).status = -EXDEV) :
    (usbredirhost_iso_packet_complete s transfer).parser = s.parser ∧
    (usbredirhost_iso_packet_complete s transfer).usb = s.usb ∧
    (usbredirhost_iso_packet_complete s transfer).heap transfer =
      some { t with iso_packet_idx := 0 } ∧
    ((∀ i, i < (s.host.endpoint (EP2I t.transfer.endpoint)).iso_transfer_count →
        (s.host.endpoint (EP2I t.transfer.endpoint)).iso_transfer i ≠ transfer →
        (s.deref ((s.host.endpoint (EP2I t.transfer.endpoint)).iso_transfer i)).iso_packet_idx
          ≠ ISO_SUBMITTED_IDX) →
      (usbredirhost_iso_packet_complete s transfer).host =
        { s.host with
          endpoint := Function.update s.host.endpoint (EP2I t.transfer.endpoint)
            { s.host.endpoint (EP2I t.transfer.endpoint) with
              iso_out_idx := 0, iso_started := false, iso_drop_packets := 0 } } ∧
      (∀ i, i < (s.host.endpoint (EP2I t.transfer.endpoint)).iso_transfer_count →
        ((usbredirhost_iso_packet_complete s transfer).deref
          ((s.host.endpoint (EP2I t.transfer.endpoint)).iso_transfer i)).iso_packet_idx = 0) ∧
      (∀ p, p ≠ transfer →
        (usbredirhost_iso_packet_complete s transfer).heap p =
          if p ∈ (List.range (s.host.endpoint (EP2I t.transfer.endpoint)).iso_transfer_count).map
              (s.host.endpoint (EP2I t.transfer.endpoint)).iso_transfer then
            (s.heap p).map fun u => { u with iso_packet_idx := 0 }
          else s.heap p)) ∧
    ((∃ i, i < (s.host.endpoint (EP2I t.transfer.endpoint)).iso_transfer_count ∧
        (s.host.endpoint (EP2I t.transfer.endpoint)).iso_transfer i ≠ transfer ∧
        (s.deref ((s.host.endpoint (EP2I t.transfer.endpoint)).iso_transfer i)).iso_packet_idx
          = ISO_SUBMITTED_IDX) →
      (usbredirhost_iso_packet_complete s transfer).host = s.host ∧
      ∀ p, p ≠ transfer → (usbredirhost_iso_packet_complete s transfer).heap p = s.heap p) := by
  rw [iso_packet_complete_out_ok s transfer t hheap hout hnc hst hpk,
    iso_packet_complete_underflow_eq]
  have hhost : (s.modify transfer fun u => { u with iso_packet_idx := 0 }).host = s.host := rfl
  have hh0 : (s.modify transfer fun u => { u with iso_packet_idx := 0 }).heap transfer =
      some { t with iso_packet_idx := 0 } := by
    simp [State.modify, hheap]
  have hhp : ∀ p, p ≠ transfer →
      (s.modify transfer fun u => { u with iso_packet_idx := 0 }).heap p = s.heap p := by
    intro p hp
    simp [State.modify, Function.update_noteq hp]
  have hdr : ∀ p, ((s.modify transfer fun u => { u with iso_packet_idx := 0 }).deref
      p).iso_packet_idx = if p = transfer then 0 else (s.deref p).iso_packet_idx := by
    intro p
    by_cases hp : p = transfer
    · subst hp; simp [State.deref, hh0]
    · simp [State.deref, hhp p hp, hp]
  simp only [hhost, hdr]
  split_ifs with hall
  · refine ⟨rfl, rfl, ?_, ?_, ?_⟩
    · show (if transfer ∈ _ then _ else _) = _
      split_ifs <;> simp [hh0]
    · intro _
      refine ⟨rfl, ?_, ?_⟩
      · intro i hi
        show ((if _ ∈ _ then _ else _ : Option usbredirtransfer).getD default).iso_packet_idx = 0
        rw [if_pos (List.mem_map.mpr ⟨i, List.mem_range.mpr hi, rfl⟩)]
        cases ((s.modify transfer fun u => { u with iso_packet_idx := 0 }).heap
          ((s.host.endpoint (EP2I t.transfer.endpoint)).iso_transfer i)) <;> rfl
      · intro p hp
        show (if p ∈ _ then _ else _) = _
        simp only [hhp p hp]
    · rintro ⟨i, hi, hne, hsub⟩
      exfalso
      have h := hall i hi
      rw [if_neg hne] at h
      exact h hsub
  · refine ⟨rfl, rfl, hh0, ?_, ?_⟩
    · intro hno
      exfalso
      apply hall
      intro i hi
      split_ifs with he
      · decide
      · exact hno i hi he
    · intro _
      exact ⟨rfl, hhp⟩

set_option maxRecDepth 100000 in
set_option maxHeartbeats 1000000 in
/-- C23 on the example output stream after 16 packets, its four URBs (records
1 to 4) in flight: URB 1 completes with every status completed.  Nothing is
sent, libusb is not called, the record of URB 1 has `iso_packet_idx` 0, and
since URB 2 is still submitted the host is unchanged. -/
theorem C23_iso_out_completion_witness :
    example_flooded.heap 1 = some (example_flooded.deref 1) ∧
    (example_flooded.deref 1).transfer.endpoint = 0x01 ∧
    (example_flooded.deref 1).iso_packet_idx = ISO_SUBMITTED_IDX ∧
    (example_flooded.host.endpoint (EP2I 0x01)).iso_transfer 1 = 2 ∧
    (example_flooded.deref 2).iso_packet_idx = ISO_SUBMITTED_IDX ∧
    (usbredirhost_iso_packet_complete example_flooded 1).parser = example_flooded.parser ∧
    (usbredirhost_iso_packet_complete example_flooded 1).usb = example_flooded.usb ∧
    (usbredirhost_iso_packet_complete example_flooded 1).heap 1 =
      some { example_flooded.deref 1 with iso_packet_idx := 0 } ∧
    (usbredirhost_iso_packet_complete example_flooded 1).host = example_flooded.host := by
  have h := C23_iso_out_completion example_flooded 1 (example_flooded.deref 1) (by decide)
    (by decide) (by decide) (by decide) (by decide)
  exact ⟨by decide, by decide, by decide, by decide, by decide, h.1, h.2.1, h.2.2.1,
    (h.2.2.2.2 ⟨1, by decide, by decide, by decide⟩).1⟩

/-! ### Endpoints without a stream keep no stream fields -/

theorem idle_call {s : State} (c : LibusbCall) (h : Idle s.eps) : Idle (s.call c).1.eps := h

theorem idle_send {s : State} (p : Packet) (h : Idle s.eps) : Idle (s.send p).eps := h

theorem idle_modify {s : State} (p : Nat) (f : usbredirtransfer → usbredirtransfer)
    (h : Idle s.eps) : Idle (s.modify p f).eps := h

/-- Writing a slot with the same stream fields. -/
theorem idle_update_same {ept : Nat → usbredirhost_ep} (h : Idle ept) (i : Nat)
    (e : usbredirhost_ep) (he : e.stream = (ept i).stream) :
    Idle (Function.update ept i e) := by
  intro j hj
  by_cases hji : j = i
  · subst hji
    rw [Function.update_same] at hj ⊢
    rw [he]
    apply h
    have e1 : e.iso_transfer_count = (ept j).iso_transfer_count := congrArg Prod.fst he
    rw [← e1]
    exact hj
  · rw [Function.update_noteq hji] at hj ⊢
    exact h j hj

/-- Writing a slot that holds a ring, or whose stream fields are zero. -/
theorem idle_update_live {ept : Nat → usbredirhost_ep} (h : Idle ept) (i : Nat)
    (e : usbredirhost_ep)
    (he : e.iso_transfer_count = 0 → e.stream = (0, 0, 0, false, 0)) :
    Idle (Function.update ept i e) := by
  intro j hj
  by_cases hji : j = i
  · subst hji
    rw [Function.update_same] at hj ⊢
    exact he hj
  · rw [Function.update_noteq hji] at hj ⊢
    exact h j hj

theorem idle_modifyEp_same {s : State} (i : Nat) (f : usbredirhost_ep → usbredirhost_ep)
    (h : Idle s.eps) (hf : (f (s.eps i)).stream = (s.eps i).stream) :
    Idle (s.modifyEp i f).eps := by
  rw [eps_modifyEp]
  exact idle_update_same h i _ hf

theorem idle_modifyEp_live {s : State} (i : Nat) (f : usbredirhost_ep → usbredirhost_ep)
    (h : Idle s.eps)
    (hf : (f (s.eps i)).iso_transfer_count = 0 → (f (s.eps i)).stream = (0, 0, 0, false, 0)) :
    Idle (s.modifyEp i f).eps := by
  rw [eps_modifyEp]
  exact idle_update_live h i _ hf

theorem idle_foldl {α : Type} (f : State → α → State)
    (hf : ∀ (s : State) (x : α), Idle s.eps → Idle (f s x).eps) (l : List α) {s : State}
    (h : Idle s.eps) : Idle (l.foldl f s).eps := by
  induction l generalizing s with
  | nil => exact h
  | cons x l ih => exact ih (hf s x h)

theorem idle_free_transfer {s : State} (p : Nat) (h : Idle s.eps) :
    Idle (usbredirhost_free_transfer s p).eps := by
  rw [eps_free_transfer]; exact h

theorem idle_remove_and_free_transfer {s : State} (p : Nat) (h : Idle s.eps) :
    Idle (usbredirhost_remove_and_free_transfer s p).eps := by
  rw [eps_remove_and_free_transfer]; exact h

theorem idle_libusb_submit_transfer {s : State} (p : Nat) (h : Idle s.eps) :
    Idle (libusb_submit_transfer s p).1.eps := by
  rw [eps_libusb_submit_transfer]; exact h

theorem idle_libusb_cancel_transfer {s : State} (p : Nat) (h : Idle s.eps) :
    Idle (libusb_cancel_transfer s p).eps := h

theorem idle_handle_disconnect {s : State} (h : Idle s.eps) :
    Idle (usbredirhost_handle_disconnect s).eps := by
  rw [eps_handle_disconnect]; exact h

theorem idle_translate {s : State} (r : Int) (h : Idle s.eps) :
    Idle (libusb_status_or_error_to_redir_status s r).1.eps := by
  rw [eps_translate]; exact h

theorem eps_alloc_transfer (s : State) (n : Nat) :
    (usbredirhost_alloc_transfer s n).1.eps = s.eps := by
  unfold usbredirhost_alloc_transfer
  simp only []
  split_ifs <;> rfl

theorem idle_alloc_transfer {s : State} (n : Nat) (h : Idle s.eps) :
    Idle (usbredirhost_alloc_transfer s n).1.eps := by
  rw [eps_alloc_transfer]; exact h

theorem idle_cancel_iso_stream_unlocked {s : State} (ep : Nat) (h : Idle s.eps) :
    Idle (usbredirhost_cancel_iso_stream_unlocked s ep).eps := by
  rw [eps_cancel_iso_stream_unlocked]
  exact idle_update_live h _ _ fun _ => rfl

theorem idle_cancel_interrupt_in_transfer_unlocked {s : State} (ep : Nat) (h : Idle s.eps) :
    Idle (usbredirhost_cancel_interrupt_in_transfer_unlocked s ep).eps := by
  rw [eps_cancel_interrupt_in_transfer_unlocked]
  exact idle_update_same h _ _ rfl

theorem idle_cancel_pending_urbs {s : State} (h : Idle s.eps) :
    Idle (usbredirhost_cancel_pending_urbs s).1.eps := by
  unfold usbredirhost_cancel_pending_urbs
  simp only []
  refine idle_foldl _ (fun s x hs => idle_libusb_cancel_transfer x hs) _ ?_
  refine idle_foldl _ (fun s x hs => ?_) _ h
  split_ifs <;>
    first
    | exact hs
    | exact idle_cancel_iso_stream_unlocked _ hs
    | exact idle_cancel_interrupt_in_transfer_unlocked _ hs

theorem idle_cancel_pending_urbs_on_interface {s : State} (i : Nat) (h : Idle s.eps) :
    Idle (usbredirhost_cancel_pending_urbs_on_interface s i).eps := by
  unfold usbredirhost_cancel_pending_urbs_on_interface
  simp only []
  refine idle_foldl _ (fun s x hs => ?_) _ h
  refine idle_foldl _ (fun s t ht => ?_) _ ?_
  · split_ifs
    · exact idle_libusb_cancel_transfer _ ht
    · exact ht
  · split_ifs <;>
      first
      | exact hs
      | exact idle_cancel_iso_stream_unlocked _ hs
      | exact idle_cancel_interrupt_in_transfer_unlocked _ hs

theorem idle_submit_iso_transfer_unlocked {s : State} (t : Nat) (h : Idle s.eps) :
    Idle (usbredirhost_submit_iso_transfer_unlocked s t).1.eps := by
  unfold usbredirhost_submit_iso_transfer_unlocked
  simp only []
  split_ifs
  · exact idle_translate _ (idle_cancel_iso_stream_unlocked _ (idle_libusb_submit_transfer _ h))
  · exact idle_modify _ _ (idle_libusb_submit_transfer _ h)

/-- A submission that succeeds leaves the endpoint table as it is. -/
theorem eps_submit_iso_transfer_unlocked_ok {s : State} (t : Nat)
    (h : (usbredirhost_submit_iso_transfer_unlocked s t).2 = usb_redir_success) :
    (usbredirhost_submit_iso_transfer_unlocked s t).1.eps = s.eps := by
  unfold usbredirhost_submit_iso_transfer_unlocked at h ⊢
  simp only [] at h ⊢
  split_ifs at h ⊢ with hr
  · exact absurd h (translate_neg_ne_success _ _ hr)
  · rw [eps_modify, eps_libusb_submit_transfer]

theorem eps_alloc_iso_stream_step (ep pkts : Nat) (s : State) (i : Nat) :
    (usbredirhost_alloc_iso_stream_step ep pkts s i).1.eps =
      Function.update s.eps (EP2I ep)
        { s.eps (EP2I ep) with
          iso_transfer := Function.update (s.eps (EP2I ep)).iso_transfer i
            (usbredirhost_alloc_transfer s pkts).2 } := by
  unfold usbredirhost_alloc_iso_stream_step
  simp only []
  split_ifs <;>
    simp only [eps_modify, eps_alloc, eps_modifyEp, eps_alloc_transfer]

theorem idle_alloc_iso_stream_step (ep pkts : Nat) {s : State} (i : Nat) (h : Idle s.eps) :
    Idle (usbredirhost_alloc_iso_stream_step ep pkts s i).1.eps := by
  rw [eps_alloc_iso_stream_step]
  exact idle_update_same h _ _ rfl

theorem idle_alloc_iso_stream_loop (ep pkts : Nat) (l : List Nat) {s : State}
    (h : Idle s.eps) : Idle (usbredirhost_alloc_iso_stream_loop ep pkts s l).1.eps := by
  induction l generalizing s with
  | nil => exact h
  | cons i l ih =>
    unfold usbredirhost_alloc_iso_stream_loop
    simp only []
    split_ifs
    · exact idle_alloc_iso_stream_step _ _ _ h
    · exact ih (idle_alloc_iso_stream_step _ _ _ h)

theorem idle_alloc_iso_stream {s : State} (ep pkts count : Nat) (h : Idle s.eps) :
    Idle (usbredirhost_alloc_iso_stream s ep pkts count).1.eps := by
  unfold usbredirhost_alloc_iso_stream
  simp only []
  split_ifs with h1 h2 h3
  · exact h
  · exact h
  · exact h
  · split
    · apply idle_modifyEp_live _ _ (idle_alloc_iso_stream_loop _ _ _ h)
      intro h0
      have h0' : count = 0 := h0
      omega
    · refine idle_foldl _ (fun s x hs => ?_) _ (idle_alloc_iso_stream_loop _ _ _ h)
      exact idle_modifyEp_same _ _ (idle_free_transfer _ hs) rfl

/-- An allocation that succeeds leaves a ring: `iso_transfer_count` is not
zero. -/
theorem alloc_iso_stream_count {s : State} (ep pkts count : Nat)
    (h : (usbredirhost_alloc_iso_stream s ep pkts count).2 = usb_redir_success) :
    ((usbredirhost_alloc_iso_stream s ep pkts count).1.eps (EP2I ep)).iso_transfer_count ≠ 0 := by
  unfold usbredirhost_alloc_iso_stream at h ⊢
  simp only [] at h ⊢
  split_ifs at h ⊢ with h1 h2 h3
  · exact absurd h (by dsimp only; decide)
  · exact absurd h (by dsimp only; decide)
  · exact absurd h (by dsimp only; decide)
  · generalize usbredirhost_alloc_iso_stream_loop ep pkts s (List.range count) = L at h ⊢
    obtain ⟨L1, L2⟩ := L
    cases L2 with
    | none =>
      dsimp only at h ⊢
      rw [eps_modifyEp, Function.update_same]
      show count ≠ 0
      omega
    | some i => exact absurd h (by dsimp only; decide)

theorem idle_submit_iso_in_ring (ep : Nat) (l : List Nat) {s : State} (h : Idle s.eps) :
    Idle (usbredirhost_submit_iso_in_ring ep s l).1.eps := by
  induction l generalizing s with
  | nil => exact h
  | cons i l ih =>
    unfold usbredirhost_submit_iso_in_ring
    simp only []
    split_ifs
    · exact idle_submit_iso_transfer_unlocked _ (idle_modify _ _ h)
    · exact ih (idle_submit_iso_transfer_unlocked _ (idle_modify _ _ h))

theorem eps_submit_iso_in_ring_ok (ep : Nat) (l : List Nat) {s : State}
    (h : (usbredirhost_submit_iso_in_ring ep s l).2 = true) :
    (usbredirhost_submit_iso_in_ring ep s l).1.eps = s.eps := by
  induction l generalizing s with
  | nil => rfl
  | cons i l ih =>
    unfold usbredirhost_submit_iso_in_ring at h ⊢
    simp only [] at h ⊢
    split_ifs at h with hr
    rw [if_neg hr]
    rw [ih h, eps_submit_iso_transfer_unlocked_ok _ (not_not.mp hr), eps_modify]

theorem idle_iso_packet_start (ep : Nat) (l : List Nat) {s : State} (h : Idle s.eps) :
    Idle (usbredirhost_iso_packet_start ep s l).1.eps := by
  induction l generalizing s with
  | nil => exact h
  | cons i l ih =>
    unfold usbredirhost_iso_packet_start
    simp only []
    split_ifs
    · exact idle_submit_iso_transfer_unlocked _ h
    · exact ih (idle_submit_iso_transfer_unlocked _ h)

theorem eps_iso_packet_start_ok (ep : Nat) (l : List Nat) {s : State}
    (h : (usbredirhost_iso_packet_start ep s l).2 = true) :
    (usbredirhost_iso_packet_start ep s l).1.eps = s.eps := by
  induction l generalizing s with
  | nil => rfl
  | cons i l ih =>
    unfold usbredirhost_iso_packet_start at h ⊢
    simp only [] at h ⊢
    split_ifs at h with hr
    rw [if_neg hr]
    rw [ih h, eps_submit_iso_transfer_unlocked_ok _ (not_not.mp hr)]

theorem idle_handle_iso_status {s : State} (id ep : Nat) (r : Int) (h : Idle s.eps) :
    Idle (usbredirhost_handle_iso_status s id ep r).1.eps := by
  unfold usbredirhost_handle_iso_status usbredirhost_send_iso_status
  simp only []
  have ha : ∀ p c, Idle (usbredirhost_alloc_iso_stream
      ((usbredirhost_cancel_iso_stream_unlocked s ep).call (.clear_halt ep)).1 ep p c).1.eps :=
    fun p c => idle_alloc_iso_stream _ _ _ (idle_call _ (idle_cancel_iso_stream_unlocked _ h))
  split_ifs with h1 h2 h3 h4 h5 h6 h7 h8
  · exact h
  · exact h
  · exact idle_send _ (idle_call _ (idle_cancel_iso_stream_unlocked _ h))
  · exact idle_send _ (ha _ _)
  · exact idle_send _ (idle_submit_iso_in_ring _ _ (ha _ _))
  · apply idle_modifyEp_live _ _ (idle_submit_iso_in_ring _ _ (ha _ _))
    intro h0
    exfalso
    rw [eps_submit_iso_in_ring_ok _ _ (by simpa using h7)] at h0
    exact alloc_iso_stream_count _ _ _ (not_not.mp h5) h0
  · exact ha _ _
  · exact idle_handle_disconnect h
  · exact h

theorem idle_iso_packet_complete_loop (t ep : Nat) (l : List Nat) {s : State}
    (h : Idle s.eps) : Idle (usbredirhost_iso_packet_complete_loop t ep s l).1.eps := by
  induction l generalizing s with
  | nil => exact h
  | cons i l ih =>
    unfold usbredirhost_iso_packet_complete_loop usbredirhost_send_iso_status
    simp only []
    have h1 : ∀ (id : Nat) (r r' : Int),
        Idle (usbredirhost_handle_iso_status
          (libusb_status_or_error_to_redir_status s r).1 id ep r').1.eps :=
      fun id r r' => idle_handle_iso_status id ep r' (idle_translate _ h)
    split_ifs <;>
      first
      | exact h1 _ _ _
      | (apply ih
         exact h1 _ _ _)

theorem idle_iso_packet_complete_resubmit {s : State} (t ep : Nat) (h : Idle s.eps) :
    Idle (usbredirhost_iso_packet_complete_resubmit s t ep).eps := by
  unfold usbredirhost_iso_packet_complete_resubmit usbredirhost_send_iso_status
  simp only []
  split_ifs <;> exact idle_submit_iso_transfer_unlocked _ (idle_modify _ _ h)

theorem idle_iso_packet_complete_underflow {s : State} (ep : Nat) (h : Idle s.eps) :
    Idle (usbredirhost_iso_packet_complete_underflow s ep).eps := by
  unfold usbredirhost_iso_packet_complete_underflow
  simp only []
  split_ifs
  · have e : ∀ (l : List Nat) (s' : State),
        (l.foldl (fun s i =>
          s.modify ((s.host.endpoint (EP2I ep)).iso_transfer i) fun t =>
            { t with iso_packet_idx := 0 }) s').eps = s'.eps :=
      fun l s' => eps_foldl _ (fun s x => eps_modify _ _ _) l s'
    apply idle_modifyEp_live
    · rw [e]; exact h
    · rw [e]
      intro h0
      have h1 := h (EP2I ep) h0
      simp only [usbredirhost_ep.stream, Prod.mk.injEq] at h1 ⊢
      exact ⟨h1.1, h1.2.1, trivial⟩
  · exact h

theorem idle_iso_packet_complete {s : State} (t : Nat) (h : Idle s.eps) :
    Idle (usbredirhost_iso_packet_complete s t).eps := by
  unfold usbredirhost_iso_packet_complete usbredirhost_send_iso_status
  simp only []
  have h1 : ∀ (f : usbredirtransfer → usbredirtransfer) (id ep : Nat) (r : Int),
      Idle (usbredirhost_handle_iso_status (s.modify t f) id ep r).1.eps :=
    fun f id ep r => idle_handle_iso_status id ep r (idle_modify _ _ h)
  split_ifs
  · exact idle_free_transfer _ h
  · exact h1 _ _ _ _
  · apply idle_iso_packet_complete_resubmit
    exact idle_modify _ _ (idle_send _ (idle_translate _ (h1 _ _ _ _)))
  · exact idle_send _ (idle_translate _ (h1 _ _ _ _))
  · exact idle_iso_packet_complete_loop _ _ _ (h1 _ _ _ _)
  · exact idle_iso_packet_complete_resubmit _ _
      (idle_iso_packet_complete_loop _ _ _ (h1 _ _ _ _))
  · exact idle_iso_packet_complete_underflow _
      (idle_iso_packet_complete_loop _ _ _ (h1 _ _ _ _))

theorem idle_submit_interrupt_in_transfer {s : State} (ep : Nat) (h : Idle s.eps) :
    Idle (usbredirhost_submit_interrupt_in_transfer s ep).1.eps := by
  unfold usbredirhost_submit_interrupt_in_transfer
  simp only []
  split_ifs
  · exact idle_modifyEp_same _ _ (idle_free_transfer _ (idle_libusb_submit_transfer _ h)) rfl
  · exact idle_libusb_submit_transfer _ h

theorem idle_interrupt_packet_complete_resubmit {s : State} (t ep : Nat) (h : Idle s.eps) :
    Idle (usbredirhost_interrupt_packet_complete_resubmit s t ep).eps := by
  unfold usbredirhost_interrupt_packet_complete_resubmit usbredirhost_send_interrupt_recv_status
  simp only []
  split_ifs <;> exact idle_submit_interrupt_in_transfer _ h

theorem idle_interrupt_packet_complete {s : State} (t : Nat) (h : Idle s.eps) :
    Idle (usbredirhost_interrupt_packet_complete s t).eps := by
  unfold usbredirhost_interrupt_packet_complete usbredirhost_send_interrupt_recv_status
  simp only []
  have ht : ∀ r, Idle (libusb_status_or_error_to_redir_status s r).1.eps :=
    fun r => idle_translate r h
  split_ifs
  · exact idle_remove_and_free_transfer _ (idle_send _ (ht _))
  · exact idle_free_transfer _ (ht _)
  · exact idle_modifyEp_same _ _ (idle_free_transfer _ (idle_send _ (idle_call _ (ht _)))) rfl
  · exact idle_interrupt_packet_complete_resubmit _ _ (idle_modify _ _ (idle_call _ (ht _)))
  · exact idle_modifyEp_same _ _ (idle_free_transfer _ (idle_handle_disconnect (ht _))) rfl
  · exact idle_interrupt_packet_complete_resubmit _ _ (idle_modify _ _ (idle_send _ (ht _)))
  · exact idle_interrupt_packet_complete_resubmit _ _ (idle_modify _ _ (idle_send _ (ht _)))

theorem idle_alloc_interrupt_in_transfer {s : State} (ep : Nat) (h : Idle s.eps) :
    Idle (usbredirhost_alloc_interrupt_in_transfer s ep).1.eps := by
  unfold usbredirhost_alloc_interrupt_in_transfer
  simp only []
  have ha : Idle (usbredirhost_alloc_transfer s 0).1.alloc.1.eps := idle_alloc_transfer _ h
  split_ifs <;>
    first
    | exact h
    | exact idle_alloc_transfer _ h
    | exact idle_free_transfer _ ha
    | exact idle_modifyEp_same _ _ (idle_modify _ _ ha) rfl

theorem idle_libusb_complete {s : State} (c : Completion) (h : Idle s.eps) :
    Idle (libusb_complete s c).eps := by
  unfold libusb_complete
  simp only []
  split_ifs
  · have h0 : ∀ f, Idle (State.modify
        { s with usb := { s.usb with inflight := s.usb.inflight.erase c.ptr } } c.ptr f).eps :=
      fun f => h
    split
    · exact h0 _
    · exact idle_iso_packet_complete _ (h0 _)
    · exact idle_interrupt_packet_complete _ (h0 _)
    · rw [eps_control_packet_complete]; exact h0 _
    · rw [eps_bulk_packet_complete]; exact h0 _
  · exact h

theorem idle_libusb_handle_events_timeout {s : State} (h : Idle s.eps) :
    Idle (libusb_handle_events_timeout s).eps := by
  unfold libusb_handle_events_timeout
  simp only []
  exact idle_foldl _ (fun s x hs => idle_libusb_complete x hs) _ h

theorem idle_clear_device_wait (fuel : Nat) {s s' : State}
    (hs : usbredirhost_clear_device_wait fuel s = some s') (h : Idle s.eps) : Idle s'.eps := by
  induction fuel generalizing s with
  | zero => simp [usbredirhost_clear_device_wait] at hs
  | succ n ih =>
    unfold usbredirhost_clear_device_wait at hs
    simp only [] at hs
    split_ifs at hs
    · exact ih hs (idle_libusb_handle_events_timeout h)
    · cases hs
      exact idle_libusb_handle_events_timeout h

theorem idle_clear_device {s s' : State}
    (hs : usbredirhost_clear_device s = some s') (h : Idle s.eps) : Idle s'.eps := by
  unfold usbredirhost_clear_device at hs
  simp only [] at hs
  split_ifs at hs with hdev hw
  · rw [← Option.some.inj hs]; exact h
  · cases hd : usbredirhost_clear_device_wait (usbredirhost_cancel_pending_urbs s).1.usb.events.length
        (usbredirhost_cancel_pending_urbs s).1 with
    | none => rw [hd] at hs; exact absurd hs (by simp)
    | some s1 =>
      rw [hd, Option.map_some'] at hs
      rw [← Option.some.inj hs, eps_clear_device_finish]
      exact idle_clear_device_wait _ hd (idle_cancel_pending_urbs h)
  · rw [Option.map_some'] at hs
    rw [← Option.some.inj hs, eps_clear_device_finish]
    exact idle_cancel_pending_urbs h

theorem idle_reset {s : State} (h : Idle s.eps) : Idle (usbredirhost_reset s).eps := by
  unfold usbredirhost_reset
  simp only []
  split_ifs
  · exact h
  · exact h
  · exact idle_handle_disconnect h

theorem eps_send_interface_n_ep_info (s : State) :
    (usbredirhost_send_interface_n_ep_info s).eps = s.eps := rfl

theorem eps_send_device_connect (s : State) :
    (usbredirhost_send_device_connect s).eps = s.eps := by
  unfold usbredirhost_send_device_connect
  simp only []
  split_ifs <;> rfl

theorem idle_parse_interface {s : State} (i : Nat) (h : Idle s.eps) :
    Idle (usbredirhost_parse_interface s i).eps := by
  unfold usbredirhost_parse_interface
  simp only []
  exact idle_foldl _ (fun s x hs => idle_modifyEp_same _ _ hs rfl) _ h

theorem idle_parse_config {s : State} (h : Idle s.eps) :
    Idle (usbredirhost_parse_config s).eps := by
  unfold usbredirhost_parse_config
  simp only []
  refine idle_foldl _ (fun s x hs => idle_parse_interface x hs) _ ?_
  exact idle_foldl _ (fun s x hs => idle_modifyEp_same _ _ hs rfl) _ h

theorem eps_claim_interfaces (l : List Nat) (s : State) :
    (usbredirhost_claim_interfaces s l).1.eps = s.eps := by
  induction l generalizing s with
  | nil => rfl
  | cons i l ih =>
    unfold usbredirhost_claim_interfaces
    simp only []
    split_ifs
    · rw [eps_translate]; rfl
    · rw [eps_translate]; rfl
    · rw [ih]; rfl

theorem eps_get_config_descriptor_by_value (s : State) :
    (libusb_get_config_descriptor_by_value s).1.eps = s.eps := by
  unfold libusb_get_config_descriptor_by_value
  simp only []
  split_ifs
  · rfl
  · split <;> rfl

theorem idle_claim {s : State} (h : Idle s.eps) : Idle (usbredirhost_claim s).1.eps := by
  unfold usbredirhost_claim
  simp only []
  have h0 : Idle (State.eps (if s.host.config.isSome then
      { (s.callVoid .free_config_descriptor) with
        host := { s.host with config := none } }
    else s)) := by
    split_ifs
    · exact h
    · exact h
  generalize (if s.host.config.isSome then
      ({ (s.callVoid .free_config_descriptor) with
        host := { s.host with config := none } } : State)
    else s) = s1 at h0 ⊢
  have h1 : Idle (libusb_get_config_descriptor_by_value s1).1.eps := by
    rw [eps_get_config_descriptor_by_value]; exact h0
  generalize libusb_get_config_descriptor_by_value s1 = c at h1 ⊢
  split_ifs
  · exact idle_translate _ h1
  · exact h1
  · have h2 : ∀ l, Idle (usbredirhost_claim_interfaces
        { c.1 with host := { c.1.host with alt_setting := fun _ => 0 } } l).1.eps := by
      intro l
      rw [eps_claim_interfaces]
      exact h1
    split
    · exact idle_parse_config (h2 _)
    · exact idle_foldl _ (fun s x hs => idle_call _ (idle_call _ hs)) _ (h2 _)

theorem idle_set_device_bind {s : State} {r : State × Nat} (hd : libusb_device_handle)
    (hr : usbredirhost_set_device_bind s hd = some r) (h : Idle s.eps) : Idle r.1.eps := by
  unfold usbredirhost_set_device_bind at hr
  simp only [] at hr
  split_ifs at hr
  · cases hc : usbredirhost_clear_device _ with
    | none => rw [hc] at hr; exact absurd hr (by simp)
    | some s1 =>
      rw [hc, Option.map_some'] at hr
      rw [← Option.some.inj hr]
      exact idle_translate _ (idle_clear_device hc h)
  · cases hc : usbredirhost_clear_device _ with
    | none => rw [hc] at hr; exact absurd hr (by simp)
    | some s1 =>
      rw [hc, Option.map_some'] at hr
      rw [← Option.some.inj hr]
      exact idle_translate _ (idle_clear_device hc h)
  · cases hc : usbredirhost_clear_device _ with
    | none => rw [hc] at hr; exact absurd hr (by simp)
    | some s1 =>
      rw [hc, Option.map_some'] at hr
      rw [← Option.some.inj hr]
      exact idle_clear_device hc (idle_claim h)
  · rw [← Option.some.inj hr, eps_send_device_connect]
    exact idle_claim h

theorem idle_set_device {s : State} {r : State × Nat} (hd : Option libusb_device_handle)
    (hr : usbredirhost_set_device s hd = some r) (h : Idle s.eps) : Idle r.1.eps := by
  unfold usbredirhost_set_device at hr
  cases hc : usbredirhost_clear_device s with
  | none => rw [hc] at hr; exact absurd hr (by simp)
  | some s1 =>
    rw [hc, Option.some_bind] at hr
    have h1 := idle_clear_device hc h
    cases hd with
    | none => rw [← Option.some.inj hr]; exact h1
    | some d => exact idle_set_device_bind d hr h1

theorem eps_libusb_set_configuration (s : State) (c : Nat) :
    (libusb_set_configuration s c).1.eps = s.eps := by
  unfold libusb_set_configuration
  simp only []
  split_ifs <;> rfl

theorem idle_set_configuration_body {s : State} {r : State × Nat}
    (c : usb_redir_set_configuration_header)
    (hr : usbredirhost_set_configuration_body s c = some r) (h : Idle s.eps) :
    Idle r.1.eps := by
  unfold usbredirhost_set_configuration_body at hr
  simp only [] at hr
  have h1 : Idle (usbredirhost_release (usbredirhost_cancel_pending_urbs s).1 false).1.eps := by
    rw [eps_release]; exact idle_cancel_pending_urbs h
  generalize usbredirhost_release (usbredirhost_cancel_pending_urbs s).1 false = rel at hr h1
  have h1' : Idle (libusb_set_configuration rel.1 c.configuration).1.eps := by
    rw [eps_libusb_set_configuration]; exact h1
  generalize libusb_set_configuration rel.1 c.configuration = lsc at hr h1'
  have h2 : Idle (usbredirhost_claim
      { lsc.1 with host := { lsc.1.host with active_config := (c.configuration : Int) } }).1.eps :=
    idle_claim h1'
  generalize usbredirhost_claim _ = cl at hr h2
  split_ifs at hr
  · rw [← Option.some.inj hr]; exact h
  · rw [← Option.some.inj hr]; exact h
  · rw [← Option.some.inj hr]; exact h1
  · rw [← Option.some.inj hr]; exact h1'
  · cases hd : usbredirhost_clear_device cl.1 with
    | none => rw [hd] at hr; exact absurd hr (by simp)
    | some s1 =>
      rw [hd, Option.map_some'] at hr
      rw [← Option.some.inj hr]
      have h3 : Idle s1.eps := idle_clear_device hd h2
      exact h3
  · rw [← Option.some.inj hr]
    exact h2

theorem idle_set_configuration {s s' : State} (id : Nat)
    (c : usb_redir_set_configuration_header)
    (hs : usbredirhost_set_configuration s id c = some s') (h : Idle s.eps) : Idle s'.eps := by
  unfold usbredirhost_set_configuration at hs
  cases hb : usbredirhost_set_configuration_body s c with
  | none => rw [hb] at hs; exact absurd hs (by simp)
  | some r =>
    rw [hb, Option.map_some'] at hs
    rw [← Option.some.inj hs]
    exact idle_send _ (idle_set_configuration_body c hb h)

/-- The part of `usbredirhost_set_alt_setting` after the call of
`libusb_set_interface_alt_setting`. -/
theorem idle_set_alt_setting_tail (c : State × Int) (a : usb_redir_set_alt_setting_header)
    (i : Nat) (h : Idle c.1.eps) :
    Idle (State.eps (if c.2 < 0 then libusb_status_or_error_to_redir_status c.1 c.2
      else
        (usbredirhost_send_interface_n_ep_info
          (usbredirhost_parse_interface
            { (List.foldl (fun s j =>
                if (s.host.endpoint j).interface ≠ a.interface then s
                else s.modifyEp j fun e =>
                  { e with
                    type := if i &&& 0x0f = 0 then usb_redir_type_control
                      else usb_redir_type_invalid
                    interval := 0
                    interface := 0 }) c.1 (List.range MAX_ENDPOINTS)) with
              host := { (List.foldl (fun s j =>
                if (s.host.endpoint j).interface ≠ a.interface then s
                else s.modifyEp j fun e =>
                  { e with
                    type := if i &&& 0x0f = 0 then usb_redir_type_control
                      else usb_redir_type_invalid
                    interval := 0
                    interface := 0 }) c.1 (List.range MAX_ENDPOINTS)).host with
                alt_setting := Function.update (List.foldl (fun s j =>
                  if (s.host.endpoint j).interface ≠ a.interface then s
                  else s.modifyEp j fun e =>
                    { e with
                      type := if i &&& 0x0f = 0 then usb_redir_type_control
                        else usb_redir_type_invalid
                      interval := 0
                      interface := 0 }) c.1 (List.range MAX_ENDPOINTS)).host.alt_setting i
                  a.alt } } i),
          usb_redir_success)).1) := by
  have hl : Idle (List.foldl (fun (s : State) j =>
      if (s.host.endpoint j).interface ≠ a.interface then s
      else s.modifyEp j fun e =>
        { e with
          type := if i &&& 0x0f = 0 then usb_redir_type_control
            else usb_redir_type_invalid
          interval := 0
          interface := 0 }) c.1 (List.range MAX_ENDPOINTS)).eps := by
    refine idle_foldl _ (fun s x hs => ?_) _ h
    by_cases hx : (s.host.endpoint x).interface ≠ a.interface
    · rw [if_pos hx]; exact hs
    · rw [if_neg hx]; exact idle_modifyEp_same _ _ hs rfl
  generalize List.foldl _ c.1 (List.range MAX_ENDPOINTS) = s1 at hl ⊢
  by_cases hc : c.2 < 0
  · rw [if_pos hc]; exact idle_translate _ h
  · rw [if_neg hc]
    show Idle (usbredirhost_parse_interface _ i).eps
    exact idle_parse_interface _ hl

theorem idle_set_alt_setting {s : State} (id : Nat) (a : usb_redir_set_alt_setting_header)
    (h : Idle s.eps) : Idle (usbredirhost_set_alt_setting s id a).eps := by
  unfold usbredirhost_set_alt_setting
  simp only []
  by_cases hd : s.host.disconnected = true
  · rw [if_pos hd]; exact idle_send _ h
  · rw [if_neg hd]
    by_cases hi : usbredirhost_bInterfaceNumber_to_index s a.interface = -1
    · rw [if_pos hi]; exact idle_send _ h
    · rw [if_neg hi]
      apply idle_send
      exact idle_set_alt_setting_tail _ a _
        (idle_call _ (idle_cancel_pending_urbs_on_interface _ h))

theorem idle_start_iso_stream {s : State} (id : Nat) (a : usb_redir_start_iso_stream_header)
    (h : Idle s.eps) : Idle (usbredirhost_start_iso_stream s id a).eps := by
  unfold usbredirhost_start_iso_stream usbredirhost_send_iso_status
  simp only []
  apply idle_send
  split_ifs with h1 h2 h3 h4
  · exact h
  · exact idle_alloc_iso_stream _ _ _ h
  · exact idle_submit_iso_in_ring _ _ (idle_alloc_iso_stream _ _ _ h)
  · apply idle_modifyEp_live _ _ (idle_submit_iso_in_ring _ _ (idle_alloc_iso_stream _ _ _ h))
    intro h0
    exfalso
    rw [eps_submit_iso_in_ring_ok _ _ (by simpa using h4)] at h0
    exact alloc_iso_stream_count _ _ _ (not_not.mp h2) h0
  · exact idle_alloc_iso_stream _ _ _ h

theorem idle_stop_iso_stream {s : State} (id : Nat) (a : usb_redir_stop_iso_stream_header)
    (h : Idle s.eps) : Idle (usbredirhost_stop_iso_stream s id a).eps := by
  unfold usbredirhost_stop_iso_stream usbredirhost_send_iso_status usbredirhost_cancel_iso_stream
  simp only []
  split_ifs
  · exact h
  · exact idle_send _ (idle_cancel_iso_stream_unlocked _ h)

theorem idle_start_interrupt_receiving {s : State} (id : Nat)
    (a : usb_redir_start_interrupt_receiving_header) (h : Idle s.eps) :
    Idle (usbredirhost_start_interrupt_receiving s id a).eps := by
  unfold usbredirhost_start_interrupt_receiving usbredirhost_send_interrupt_recv_status
  simp only []
  apply idle_send
  split_ifs
  · exact h
  · exact h
  · exact idle_alloc_interrupt_in_transfer _ h
  · exact idle_submit_interrupt_in_transfer _ (idle_alloc_interrupt_in_transfer _ h)

theorem idle_stop_interrupt_receiving {s : State} (id : Nat)
    (a : usb_redir_stop_interrupt_receiving_header) (h : Idle s.eps) :
    Idle (usbredirhost_stop_interrupt_receiving s id a).eps := by
  unfold usbredirhost_stop_interrupt_receiving usbredirhost_send_interrupt_recv_status
  simp only []
  split_ifs
  · exact h
  · exact idle_send _ (idle_cancel_interrupt_in_transfer_unlocked _ h)

/-- The endpoint table after a packet was queued. -/
theorem eps_iso_packet_store (s : State) (id ep : Nat) (data : List Nat) :
    (usbredirhost_iso_packet_store s id ep data).eps = s.eps ∨
    (usbredirhost_iso_packet_store s id ep data).eps =
      Function.update s.eps (EP2I ep)
        { s.eps (EP2I ep) with
          iso_out_idx := ((s.eps (EP2I ep)).iso_out_idx + 1) %
            ((s.eps (EP2I ep)).iso_transfer_count : Int) } := by
  unfold usbredirhost_iso_packet_store
  simp only []
  split_ifs
  · right; rfl
  · right; rfl
  · left; rfl
  · left; rfl

theorem idle_iso_packet_store {s : State} (id ep : Nat) (data : List Nat) (h : Idle s.eps)
    (hc : (s.eps (EP2I ep)).iso_transfer_count ≠ 0) :
    Idle (usbredirhost_iso_packet_store s id ep data).eps ∧
    ((usbredirhost_iso_packet_store s id ep data).eps (EP2I ep)).iso_transfer_count ≠ 0 := by
  rcases eps_iso_packet_store s id ep data with e | e
  · rw [e]; exact ⟨h, hc⟩
  · rw [e]
    refine ⟨idle_update_live h _ _ fun h0 => absurd h0 hc, ?_⟩
    rw [Function.update_same]
    exact hc

theorem idle_iso_packet_submit {s : State} (ep t : Nat) (i j : Int) (h : Idle s.eps)
    (hc : (s.eps (EP2I ep)).iso_transfer_count ≠ 0) :
    Idle (usbredirhost_iso_packet_submit s ep t i j).1.eps := by
  unfold usbredirhost_iso_packet_submit
  simp only []
  split_ifs with h1 h2 h3 h4 h5
  · exact idle_submit_iso_transfer_unlocked _ h
  · exact idle_submit_iso_transfer_unlocked _ h
  · exact h
  · exact idle_iso_packet_start _ _ h
  · apply idle_modifyEp_live _ _ (idle_iso_packet_start _ _ h)
    intro h0
    exfalso
    rw [eps_iso_packet_start_ok _ _ (by simpa using h5)] at h0
    exact hc h0
  · exact h

theorem idle_iso_packet_body {s : State} (id ep : Nat) (data : List Nat) (h : Idle s.eps) :
    Idle (usbredirhost_iso_packet_body s id ep data).1.eps := by
  unfold usbredirhost_iso_packet_body
  simp only []
  split_ifs with h1 h2 h3 h4 h5 h6
  · exact h
  · exact h
  · exact h
  · exact h
  · exact idle_modifyEp_live _ _ h fun h0 => absurd h0 h3
  · exact idle_modifyEp_live _ _ h fun h0 => absurd h0 h3
  · have hs := idle_iso_packet_store id ep data h h3
    exact idle_iso_packet_submit _ _ _ _ hs.1 hs.2
  · have hs := idle_iso_packet_store id ep data h h3
    exact idle_iso_packet_submit _ _ _ _ hs.1 hs.2

theorem idle_iso_packet {s : State} (id : Nat) (a : usb_redir_iso_packet_header)
    (data : List Nat) (h : Idle s.eps) : Idle (usbredirhost_iso_packet s id a data).eps := by
  unfold usbredirhost_iso_packet usbredirhost_send_iso_status
  simp only []
  split_ifs
  · exact idle_send _ (idle_iso_packet_body _ _ _ h)
  · exact idle_iso_packet_body _ _ _ h

theorem idle_hello {s : State} (caps : List Nat) (h : Idle s.eps) :
    Idle (usbredirhost_hello (usbredirparser_hello s caps)).eps := by
  unfold usbredirhost_hello
  split_ifs
  · rw [eps_send_device_connect]; exact h
  · exact h

theorem eps_add_transfer (s : State) (p : Nat) : (usbredirhost_add_transfer s p).eps = s.eps :=
  rfl

theorem eps_control_packet (s : State) (id : Nat) (c : usb_redir_control_packet_header)
    (data : List Nat) : (usbredirhost_control_packet s id c data).eps = s.eps := by
  unfold usbredirhost_control_packet usbredirhost_send_control_status
  simp only []
  split_ifs <;>
    simp only [eps_send, eps_translate, eps_call, eps_alloc, eps_alloc_transfer,
      eps_control_packet_complete, eps_modify, eps_libusb_submit_transfer, eps_add_transfer]

theorem eps_bulk_packet (s : State) (id : Nat) (c : usb_redir_bulk_packet_header)
    (data : List Nat) : (usbredirhost_bulk_packet s id c data).eps = s.eps := by
  unfold usbredirhost_bulk_packet usbredirhost_send_bulk_status
  simp only []
  split_ifs <;>
    simp only [eps_send, eps_translate, eps_call, eps_alloc, eps_alloc_transfer,
      eps_bulk_packet_complete, eps_modify, eps_libusb_submit_transfer, eps_add_transfer]

theorem idle_interrupt_packet {s : State} (id : Nat) (c : usb_redir_interrupt_packet_header)
    (data : List Nat) (h : Idle s.eps) :
    Idle (usbredirhost_interrupt_packet s id c data).eps := by
  unfold usbredirhost_interrupt_packet usbredirhost_send_interrupt_status
  simp only []
  have ha : ∀ f, Idle (libusb_submit_transfer (usbredirhost_add_transfer
      ((usbredirhost_alloc_transfer s 0).1.modify (usbredirhost_alloc_transfer s 0).2 f)
      (usbredirhost_alloc_transfer s 0).2) (usbredirhost_alloc_transfer s 0).2).1.eps := by
    intro f
    rw [eps_libusb_submit_transfer]
    exact idle_alloc_transfer _ h
  split_ifs
  · exact h
  · exact h
  · exact h
  · exact idle_alloc_transfer _ h
  · exact idle_interrupt_packet_complete _ (idle_modify _ _ (ha _))
  · exact ha _

theorem idle_device_disconnect_ack {s : State} (h : Idle s.eps) :
    Idle (usbredirhost_device_disconnect_ack s).eps := by
  unfold usbredirhost_device_disconnect_ack
  simp only []
  split_ifs
  · exact h
  · rw [eps_send_device_connect]; exact h
  · exact h

theorem idle_step {s s' : State} (e : Event) (hs : step s e = some s') (h : Idle s.eps) :
    Idle s'.eps := by
  cases e with
  | set_device hd =>
    simp only [step] at hs
    cases hr : usbredirhost_set_device s hd with
    | none => rw [hr] at hs; exact absurd hs (by simp)
    | some r =>
      rw [hr, Option.map_some'] at hs
      rw [← Option.some.inj hs]
      exact idle_set_device hd hr h
  | read =>
    rw [← Option.some.inj hs]
    unfold usbredirhost_read
    split_ifs
    · exact h
    · exact h
  | handle_events => rw [← Option.some.inj hs]; exact idle_libusb_handle_events_timeout h
  | completion c => rw [← Option.some.inj hs]; exact idle_libusb_complete c h
  | hello caps => rw [← Option.some.inj hs]; exact idle_hello caps h
  | reset => rw [← Option.some.inj hs]; exact idle_reset h
  | set_configuration id c => exact idle_set_configuration id c hs h
  | get_configuration id => rw [← Option.some.inj hs]; exact h
  | set_alt_setting id a => rw [← Option.some.inj hs]; exact idle_set_alt_setting id a h
  | get_alt_setting id a =>
    rw [← Option.some.inj hs]
    unfold usbredirhost_get_alt_setting
    simp only []
    split_ifs <;> exact h
  | start_iso_stream id a => rw [← Option.some.inj hs]; exact idle_start_iso_stream id a h
  | stop_iso_stream id a => rw [← Option.some.inj hs]; exact idle_stop_iso_stream id a h
  | start_interrupt_receiving id a =>
    rw [← Option.some.inj hs]; exact idle_start_interrupt_receiving id a h
  | stop_interrupt_receiving id a =>
    rw [← Option.some.inj hs]; exact idle_stop_interrupt_receiving id a h
  | alloc_bulk_streams id => rw [← Option.some.inj hs]; exact h
  | free_bulk_streams id => rw [← Option.some.inj hs]; exact h
  | cancel_data_packet id =>
    rw [← Option.some.inj hs]
    unfold usbredirhost_cancel_data_packet
    split <;> exact h
  | filter_reject =>
    rw [← Option.some.inj hs]
    unfold usbredirhost_filter_reject
    split_ifs <;> exact h
  | filter_filter r n => rw [← Option.some.inj hs]; exact h
  | device_disconnect_ack => rw [← Option.some.inj hs]; exact idle_device_disconnect_ack h
  | control_packet id c data => rw [← Option.some.inj hs, eps_control_packet]; exact h
  | bulk_packet id c data => rw [← Option.some.inj hs, eps_bulk_packet]; exact h
  | iso_packet id c data => rw [← Option.some.inj hs]; exact idle_iso_packet id c data h
  | interrupt_packet id c data =>
    rw [← Option.some.inj hs]; exact idle_interrupt_packet id c data h

theorem idle_run (es : List Event) {s s' : State} (hs : run s es = some s')
    (h : Idle s.eps) : Idle s'.eps := by
  induction es generalizing s with
  | nil => rw [← Option.some.inj hs]; exact h
  | cons e es ih =>
    simp only [run] at hs
    cases he : step s e with
    | none => rw [he] at hs; exact absurd hs (by simp)
    | some s1 =>
      rw [he, Option.some_bind] at hs
      exact ih hs (idle_step e he h)

/-- In every reachable state an endpoint slot without a ring has its stream
fields zero. -/
theorem idle_reachable {s : State} (h : Reachable s) : Idle s.eps := by
  obtain ⟨ret, mem, events, configuration, hd, s0, es, h0, hrun⟩ := h
  refine idle_run es hrun ?_
  unfold usbredirhost_open_full at h0
  simp only [] at h0
  split_ifs at h0 with h1 h2
  cases hr : usbredirhost_set_device _ hd with
  | none => rw [hr] at h0; exact absurd h0 (by simp)
  | some r =>
    rw [hr, Option.some_bind] at h0
    split_ifs at h0
    rw [← Option.some.inj h0]
    exact idle_set_device hd hr (fun i _ => rfl)

/-! ### Cancelling an iso stream -/

/-- One round of the loop of `usbredirhost_cancel_iso_stream_unlocked` on a
ring slot holding a submitted URB. -/
theorem cancel_round_submitted (s : State) (k i : Nat)
    (h : (s.deref ((s.host.endpoint k).iso_transfer i)).iso_packet_idx = ISO_SUBMITTED_IDX) :
    (fun (s : State) (i : Nat) =>
      let transfer := (s.host.endpoint k).iso_transfer i
      let s := if (s.deref transfer).iso_packet_idx = ISO_SUBMITTED_IDX then
          let s := libusb_cancel_transfer s transfer
          let s := s.modify transfer fun t => { t with cancelled := true }
          { s with host := { s.host with cancels_pending := s.host.cancels_pending + 1 } }
        else usbredirhost_free_transfer s transfer
      s.modifyEp k fun e =>
        { e with iso_transfer := Function.update e.iso_transfer i 0 }) s i =
    { s with
      host := { s.host with
        cancels_pending := s.host.cancels_pending + 1
        endpoint := Function.update s.host.endpoint k
          { s.host.endpoint k with
            iso_transfer := Function.update (s.host.endpoint k).iso_transfer i 0 } }
      heap := Function.update s.heap ((s.host.endpoint k).iso_transfer i)
        ((s.heap ((s.host.endpoint k).iso_transfer i)).map fun t => { t with cancelled := true })
      usb := { s.usb with
        calls := s.usb.calls ++ [.cancel_transfer ((s.host.endpoint k).iso_transfer i)]
        ret := s.usb.ret.tail } } := by
  simp only [h, if_true]
  rfl

/-- One round of the loop of `usbredirhost_cancel_iso_stream_unlocked` on a
ring slot holding a URB that is not submitted. -/
theorem cancel_round_idle (s : State) (k i : Nat)
    (h : (s.deref ((s.host.endpoint k).iso_transfer i)).iso_packet_idx ≠ ISO_SUBMITTED_IDX) :
    (fun (s : State) (i : Nat) =>
      let transfer := (s.host.endpoint k).iso_transfer i
      let s := if (s.deref transfer).iso_packet_idx = ISO_SUBMITTED_IDX then
          let s := libusb_cancel_transfer s transfer
          let s := s.modify transfer fun t => { t with cancelled := true }
          { s with host := { s.host with cancels_pending := s.host.cancels_pending + 1 } }
        else usbredirhost_free_transfer s transfer
      s.modifyEp k fun e =>
        { e with iso_transfer := Function.update e.iso_transfer i 0 }) s i =
    { s with
      host := { s.host with
        endpoint := Function.update s.host.endpoint k
          { s.host.endpoint k with
            iso_transfer := Function.update (s.host.endpoint k).iso_transfer i 0 } }
      heap := if (s.host.endpoint k).iso_transfer i = 0 then s.heap
        else Function.update s.heap ((s.host.endpoint k).iso_transfer i) none } := by
  simp only [h, if_false]
  unfold usbredirhost_free_transfer
  split_ifs <;> rfl

/-- The loop of `usbredirhost_cancel_iso_stream_unlocked` (`f` is one round)
over the ring indices `l`, the slots of which hold the pairwise distinct
addresses `r i`, `q i` telling whether the URB of slot `i` is submitted: the
submitted URBs are cancelled natively in ring order, each cancel consuming one
return value of libusb, they get their `cancelled` flag set and
`cancels_pending` is incremented for each; the other URBs of the ring are
freed; no other record changes. -/
theorem cancel_loop (k : Nat) (r : Nat → Nat) (q : Nat → Bool) (f : State → Nat → State)
    (hsub : ∀ (s : State) (i : Nat),
      (s.deref ((s.host.endpoint k).iso_transfer i)).iso_packet_idx = ISO_SUBMITTED_IDX →
      f s i =
        { s with
          host := { s.host with
            cancels_pending := s.host.cancels_pending + 1
            endpoint := Function.update s.host.endpoint k
              { s.host.endpoint k with
                iso_transfer := Function.update (s.host.endpoint k).iso_transfer i 0 } }
          heap := Function.update s.heap ((s.host.endpoint k).iso_transfer i)
            ((s.heap ((s.host.endpoint k).iso_transfer i)).map fun t =>
              { t with cancelled := true })
          usb := { s.usb with
            calls := s.usb.calls ++ [.cancel_transfer ((s.host.endpoint k).iso_transfer i)]
            ret := s.usb.ret.tail } })
    (hidle : ∀ (s : State) (i : Nat),
      (s.deref ((s.host.endpoint k).iso_transfer i)).iso_packet_idx ≠ ISO_SUBMITTED_IDX →
      f s i =
        { s with
          host := { s.host with
            endpoint := Function.update s.host.endpoint k
              { s.host.endpoint k with
                iso_transfer := Function.update (s.host.endpoint k).iso_transfer i 0 } }
          heap := if (s.host.endpoint k).iso_transfer i = 0 then s.heap
            else Function.update s.heap ((s.host.endpoint k).iso_transfer i) none }) :
    ∀ (l : List Nat) (s : State),
    (l.map r).Nodup →
    (∀ i ∈ l, (s.host.endpoint k).iso_transfer i = r i) →
    (∀ i ∈ l, decide ((s.deref (r i)).iso_packet_idx = ISO_SUBMITTED_IDX) = q i) →
    (l.foldl f s).host.cancels_pending =
      s.host.cancels_pending + ((l.filter q).length : Int) ∧
    (l.foldl f s).usb.calls =
      s.usb.calls ++ (l.filter q).map (fun i => LibusbCall.cancel_transfer (r i)) ∧
    (l.foldl f s).usb.ret = s.usb.ret.drop (l.filter q).length ∧
    (∀ i ∈ l, q i = true →
      (l.foldl f s).heap (r i) = (s.heap (r i)).map fun t => { t with cancelled := true }) ∧
    (∀ i ∈ l, q i = false → r i ≠ 0 → (l.foldl f s).heap (r i) = none) ∧
    (∀ p, (∀ i ∈ l, r i ≠ p) → (l.foldl f s).heap p = s.heap p) := by
  intro l
  induction l with
  | nil =>
    intro s _ _ _
    simp
  | cons i l ih =>
    intro s hnd hring hq
    have hnd' := List.nodup_cons.mp (show (r i :: l.map r).Nodup from hnd)
    have hri : (s.host.endpoint k).iso_transfer i = r i := hring i (List.mem_cons_self _ _)
    have hne : ∀ j ∈ l, r j ≠ r i := fun j hj e =>
      hnd'.1 (List.mem_map.mpr ⟨j, hj, e⟩)
    have hji : ∀ j ∈ l, j ≠ i := fun j hj e => hne j hj (by rw [e])
    rw [List.foldl_cons]
    by_cases hs : (s.deref ((s.host.endpoint k).iso_transfer i)).iso_packet_idx =
        ISO_SUBMITTED_IDX
    · have hqi : q i = true := by
        rw [← hq i (List.mem_cons_self _ _), ← hri]
        exact decide_eq_true hs
      have e := hsub s i hs
      have c1 : (f s i).host.cancels_pending = s.host.cancels_pending + 1 := by rw [e]
      have c2 : (f s i).usb.calls = s.usb.calls ++ [.cancel_transfer (r i)] := by rw [e, hri]
      have c3 : (f s i).usb.ret = s.usb.ret.tail := by rw [e]
      have c4 : (f s i).heap = Function.update s.heap (r i)
          ((s.heap (r i)).map fun t => { t with cancelled := true }) := by rw [e, hri]
      have c5 : ∀ j, j ≠ i → ((f s i).host.endpoint k).iso_transfer j =
          (s.host.endpoint k).iso_transfer j := by
        intro j hj
        rw [e]
        show (Function.update s.host.endpoint k _ k).iso_transfer j = _
        rw [Function.update_same]
        exact Function.update_noteq hj _ _
      obtain ⟨h1, h2, h3, h4, h5, h6⟩ := ih (f s i) hnd'.2
        (fun j hj => by rw [c5 j (hji j hj)]; exact hring j (List.mem_cons_of_mem _ hj))
        (fun j hj => by
          rw [← hq j (List.mem_cons_of_mem _ hj)]
          unfold State.deref
          rw [c4, Function.update_noteq (hne j hj)])
      rw [h1, h2, h3, c1, c2, c3]
      simp only [List.filter_cons, hqi, if_true, List.length_cons, List.map_cons,
        List.append_assoc, List.singleton_append]
      refine ⟨by push_cast; ring, trivial, ?_, ?_, ?_, ?_⟩
      · cases s.usb.ret <;> simp
      · intro j hj hqj
        rcases List.mem_cons.mp hj with e | hj'
        · subst e
          rw [h6 _ (fun j' hj' => hne j' hj'), c4, Function.update_same]
        · rw [h4 j hj' hqj, c4, Function.update_noteq (hne j hj')]
      · intro j hj hqj hr0
        rcases List.mem_cons.mp hj with e | hj'
        · subst e
          rw [hqi] at hqj
          cases hqj
        · exact h5 j hj' hqj hr0
      · intro p hp
        rw [h6 p (fun j hj => hp j (List.mem_cons_of_mem _ hj)), c4,
          Function.update_noteq (hp i (List.mem_cons_self _ _)).symm]
    · have hqi : q i = false := by
        rw [← hq i (List.mem_cons_self _ _), ← hri]
        exact decide_eq_false hs
      have e := hidle s i hs
      have c1 : (f s i).host.cancels_pending = s.host.cancels_pending := by rw [e]
      have c2 : (f s i).usb = s.usb := by rw [e]
      have c4 : ∀ p, p ≠ r i → (f s i).heap p = s.heap p := by
        intro p hp
        rw [e, hri]
        show (if _ then _ else _ : Nat → Option usbredirtransfer) p = _
        split_ifs
        · rfl
        · exact Function.update_noteq hp _ _
      have c4' : r i ≠ 0 → (f s i).heap (r i) = none := by
        intro h0
        rw [e, hri]
        show (if _ then _ else _ : Nat → Option usbredirtransfer) (r i) = _
        rw [if_neg h0, Function.update_same]
      have c5 : ∀ j, j ≠ i → ((f s i).host.endpoint k).iso_transfer j =
          (s.host.endpoint k).iso_transfer j := by
        intro j hj
        rw [e]
        show (Function.update s.host.endpoint k _ k).iso_transfer j = _
        rw [Function.update_same]
        exact Function.update_noteq hj _ _
      obtain ⟨h1, h2, h3, h4, h5, h6⟩ := ih (f s i) hnd'.2
        (fun j hj => by rw [c5 j (hji j hj)]; exact hring j (List.mem_cons_of_mem _ hj))
        (fun j hj => by
          rw [← hq j (List.mem_cons_of_mem _ hj)]
          unfold State.deref
          rw [c4 _ (hne j hj)])
      rw [h1, h2, h3, c1, c2]
      simp only [List.filter_cons, hqi, Bool.false_eq_true, if_false]
      refine ⟨trivial, trivial, trivial, ?_, ?_, ?_⟩
      · intro j hj hqj
        rcases List.mem_cons.mp hj with e | hj'
        · subst e
          rw [hqi] at hqj
          cases hqj
        · rw [h4 j hj' hqj, c4 _ (hne j hj')]
      · intro j hj hqj hr0
        rcases List.mem_cons.mp hj with e | hj'
        · subst e
          rw [h6 _ (fun j' hj' => hne j' hj')]
          exact c4' hr0
        · exact h5 j hj' hqj hr0
      · intro p hp
        rw [h6 p (fun j hj => hp j (List.mem_cons_of_mem _ hj))]
        exact c4 p (hp i (List.mem_cons_self _ _)).symm

/-- The loop of `usbredirhost_cancel_iso_stream_unlocked` (`f` is one round)
touches nothing but `cancels_pending`, the endpoint table, the heap and the
call log and return tape of libusb. -/
theorem cancel_loop_rest (k : Nat) (f : State → Nat → State)
    (hsub : ∀ (s : State) (i : Nat),
      (s.deref ((s.host.endpoint k).iso_transfer i)).iso_packet_idx = ISO_SUBMITTED_IDX →
      f s i =
        { s with
          host := { s.host with
            cancels_pending := s.host.cancels_pending + 1
            endpoint := Function.update s.host.endpoint k
              { s.host.endpoint k with
                iso_transfer := Function.update (s.host.endpoint k).iso_transfer i 0 } }
          heap := Function.update s.heap ((s.host.endpoint k).iso_transfer i)
            ((s.heap ((s.host.endpoint k).iso_transfer i)).map fun t =>
              { t with cancelled := true })
          usb := { s.usb with
            calls := s.usb.calls ++ [.cancel_transfer ((s.host.endpoint k).iso_transfer i)]
            ret := s.usb.ret.tail } })
    (hidle : ∀ (s : State) (i : Nat),
      (s.deref ((s.host.endpoint k).iso_transfer i)).iso_packet_idx ≠ ISO_SUBMITTED_IDX →
      f s i =
        { s with
          host := { s.host with
            endpoint := Function.update s.host.endpoint k
              { s.host.endpoint k with
                iso_transfer := Function.update (s.host.endpoint k).iso_transfer i 0 } }
          heap := if (s.host.endpoint k).iso_transfer i = 0 then s.heap
            else Function.update s.heap ((s.host.endpoint k).iso_transfer i) none }) :
    ∀ (l : List Nat) (s : State),
    (l.foldl f s).parser = s.parser ∧ (l.foldl f s).next_ptr = s.next_ptr ∧
    { (l.foldl f s).host with cancels_pending := 0, endpoint := fun _ => default } =
      { s.host with cancels_pending := 0, endpoint := fun _ => default } ∧
    { (l.foldl f s).usb with calls := [], ret := [] } = { s.usb with calls := [], ret := [] } := by
  intro l
  induction l with
  | nil => intro s; exact ⟨rfl, rfl, rfl, rfl⟩
  | cons i l ih =>
    intro s
    rw [List.foldl_cons]
    obtain ⟨h1, h2, h3, h4⟩ := ih (f s i)
    rw [h1, h2, h3, h4]
    by_cases hs : (s.deref ((s.host.endpoint k).iso_transfer i)).iso_packet_idx =
        ISO_SUBMITTED_IDX
    · rw [hsub s i hs]
      exact ⟨rfl, rfl, rfl, rfl⟩
    · rw [hidle s i hs]
      exact ⟨rfl, rfl, rfl, rfl⟩

/-- What `usbredirhost_cancel_iso_stream` does to a ring of pairwise distinct
URBs. -/
theorem cancel_iso_stream_ring (s : State) (ep : Nat)
    (hnd : ((List.range (s.host.endpoint (EP2I ep)).iso_transfer_count).map
      (s.host.endpoint (EP2I ep)).iso_transfer).Nodup) :
    (usbredirhost_cancel_iso_stream s ep).host =
      { s.host with
        cancels_pending := s.host.cancels_pending +
          (((List.range (s.host.endpoint (EP2I ep)).iso_transfer_count).filter fun i =>
            decide ((s.deref ((s.host.endpoint (EP2I ep)).iso_transfer i)).iso_packet_idx =
              ISO_SUBMITTED_IDX)).length : Int)
        endpoint := Function.update s.host.endpoint (EP2I ep)
          { s.host.endpoint (EP2I ep) with
            iso_transfer := fun j =>
              if j < (s.host.endpoint (EP2I ep)).iso_transfer_count then 0
              else (s.host.endpoint (EP2I ep)).iso_transfer j
            iso_out_idx := 0
            iso_started := false
            iso_drop_packets := 0
            iso_pkts_per_transfer := 0
            iso_transfer_count := 0 } } ∧
    (usbredirhost_cancel_iso_stream s ep).usb =
      { s.usb with
        calls := s.usb.calls ++
          ((List.range (s.host.endpoint (EP2I ep)).iso_transfer_count).filter fun i =>
            decide ((s.deref ((s.host.endpoint (EP2I ep)).iso_transfer i)).iso_packet_idx =
              ISO_SUBMITTED_IDX)).map fun i =>
            LibusbCall.cancel_transfer ((s.host.endpoint (EP2I ep)).iso_transfer i)
        ret := s.usb.ret.drop
          ((List.range (s.host.endpoint (EP2I ep)).iso_transfer_count).filter fun i =>
            decide ((s.deref ((s.host.endpoint (EP2I ep)).iso_transfer i)).iso_packet_idx =
              ISO_SUBMITTED_IDX)).length } ∧
    (usbredirhost_cancel_iso_stream s ep).parser = s.parser ∧
    (∀ i, i < (s.host.endpoint (EP2I ep)).iso_transfer_count →
      (s.deref ((s.host.endpoint (EP2I ep)).iso_transfer i)).iso_packet_idx =
        ISO_SUBMITTED_IDX →
      (usbredirhost_cancel_iso_stream s ep).heap ((s.host.endpoint (EP2I ep)).iso_transfer i) =
        (s.heap ((s.host.endpoint (EP2I ep)).iso_transfer i)).map fun t =>
          { t with cancelled := true }) ∧
    (∀ i, i < (s.host.endpoint (EP2I ep)).iso_transfer_count →
      (s.deref ((s.host.endpoint (EP2I ep)).iso_transfer i)).iso_packet_idx ≠
        ISO_SUBMITTED_IDX →
      (s.host.endpoint (EP2I ep)).iso_transfer i ≠ 0 →
      (usbredirhost_cancel_iso_stream s ep).heap ((s.host.endpoint (EP2I ep)).iso_transfer i) =
        none) ∧
    (∀ p, (∀ i, i < (s.host.endpoint (EP2I ep)).iso_transfer_count →
        (s.host.endpoint (EP2I ep)).iso_transfer i ≠ p) →
      (usbredirhost_cancel_iso_stream s ep).heap p = s.heap p) := by
  have heps := eps_cancel_iso_stream_unlocked s ep
  unfold usbredirhost_cancel_iso_stream
  unfold usbredirhost_cancel_iso_stream_unlocked at heps ⊢
  simp only [] at heps ⊢
  obtain ⟨h1, h2, h3, h4, h5, h6⟩ := cancel_loop (EP2I ep)
    (s.host.endpoint (EP2I ep)).iso_transfer
    (fun i => decide ((s.deref ((s.host.endpoint (EP2I ep)).iso_transfer i)).iso_packet_idx =
      ISO_SUBMITTED_IDX)) _
    (fun s i h => cancel_round_submitted s (EP2I ep) i h)
    (fun s i h => cancel_round_idle s (EP2I ep) i h)
    (List.range (s.host.endpoint (EP2I ep)).iso_transfer_count) s hnd
    (fun _ _ => rfl) (fun _ _ => rfl)
  obtain ⟨g1, g2, g3, g4⟩ := cancel_loop_rest (EP2I ep) _
    (fun s i h => cancel_round_submitted s (EP2I ep) i h)
    (fun s i h => cancel_round_idle s (EP2I ep) i h)
    (List.range (s.host.endpoint (EP2I ep)).iso_transfer_count) s
  generalize List.foldl _ s _ = F at heps h1 h2 h3 h4 h5 h6 g1 g2 g3 g4 ⊢
  refine ⟨?_, ?_, g1, ?_, ?_, ?_⟩
  · have e1 : (F.modifyEp (EP2I ep) fun e =>
        { e with iso_out_idx := 0, iso_started := false, iso_drop_packets := 0,
                 iso_pkts_per_transfer := 0, iso_transfer_count := 0 }).host.cancels_pending =
        F.host.cancels_pending := rfl
    have e2 : { (F.modifyEp (EP2I ep) fun e =>
        { e with iso_out_idx := 0, iso_started := false, iso_drop_packets := 0,
                 iso_pkts_per_transfer := 0, iso_transfer_count := 0 }).host with
          cancels_pending := 0, endpoint := fun _ => default } =
        { F.host with cancels_pending := 0, endpoint := fun _ => default } := rfl
    rw [g3] at e2
    rw [h1] at e1
    have heps' : (F.modifyEp (EP2I ep) fun e =>
        { e with iso_out_idx := 0, iso_started := false, iso_drop_packets := 0,
                 iso_pkts_per_transfer := 0, iso_transfer_count := 0 }).host.endpoint = _ := heps
    generalize (F.modifyEp (EP2I ep) fun e =>
        { e with iso_out_idx := 0, iso_started := false, iso_drop_packets := 0,
                 iso_pkts_per_transfer := 0, iso_transfer_count := 0 }).host = H at e1 e2 heps'
    cases H
    cases hh : s.host
    simp only [hh] at e1 e2 heps'
    simp only [usbredirhost.mk.injEq] at e2 ⊢
    simp only [State.eps, hh] at heps'
    obtain ⟨a1, a2, a3, a4, a5, a6, a7, a8, -, a10, a11, -, a13, a14, a15, a16⟩ := e2
    exact ⟨a1, a2, a3, a4, a5, a6, a7, a8, e1, a10, a11, heps', a13, a14, a15, a16⟩
  · show F.usb = _
    generalize F.usb = U at h2 h3 g4
    cases U
    cases hu : s.usb
    simp only [hu] at h2 h3 g4
    simp only [Libusb.mk.injEq] at g4 ⊢
    obtain ⟨-, b2, b3, -, b5, b6⟩ := g4
    exact ⟨h3, b2, b3, h2, b5, b6⟩
  · intro i hi hsub
    exact h4 i (List.mem_range.mpr hi) (decide_eq_true hsub)
  · intro i hi hsub h0
    exact h5 i (List.mem_range.mpr hi) (decide_eq_false hsub) h0
  · intro p hp
    exact h6 p fun i hi => hp i (List.mem_range.mp hi)

/-- C24: `usbredirhost_cancel_iso_stream` on an endpoint whose ring slots below
`iso_transfer_count` hold pairwise distinct URBs.  The submitted URBs of the
ring (those with `iso_packet_idx` equal to `ISO_SUBMITTED_IDX`) are cancelled
natively, in ring order, and nothing else is asked of libusb; their records
get the `cancelled` flag set and are otherwise as before; the records of the
other URBs of the ring are freed; no other record changes.  `cancels_pending`
has grown by the number of submitted URBs.  In the endpoint table the slot of
the endpoint has its ring slots below `iso_transfer_count` null and
`iso_out_idx`, `iso_started`, `iso_drop_packets`, `iso_pkts_per_transfer` and
`iso_transfer_count` zero; every other field of the host (the other endpoints,
the registry) and the packet log are unchanged.  On an endpoint without a ring
(`iso_transfer_count` is 0), in a state an execution can reach, the function
changes nothing. -/
theorem C24_cancel_iso_stream (s : State) (ep : Nat) :
    (((List.range (s.host.endpoint (EP2I ep)).iso_transfer_count).map
        (s.host.endpoint (EP2I ep)).iso_transfer).Nodup →
      (usbredirhost_cancel_iso_stream s ep).host =
        { s.host with
          cancels_pending := s.host.cancels_pending +
            (((List.range (s.host.endpoint (EP2I ep)).iso_transfer_count).filter fun i =>
              decide ((s.deref ((s.host.endpoint (EP2I ep)).iso_transfer i)).iso_packet_idx =
                ISO_SUBMITTED_IDX)).length : Int)
          endpoint := Function.update s.host.endpoint (EP2I ep)
            { s.host.endpoint (EP2I ep) with
              iso_transfer := fun j =>
                if j < (s.host.endpoint (EP2I ep)).iso_transfer_count then 0
                else (s.host.endpoint (EP2I ep)).iso_transfer j
              iso_out_idx := 0
              iso_started := false
              iso_drop_packets := 0
              iso_pkts_per_transfer := 0
              iso_transfer_count := 0 } } ∧
      (usbredirhost_cancel_iso_stream s ep).usb =
        { s.usb with
          calls := s.usb.calls ++
            ((List.range (s.host.endpoint (EP2I ep)).iso_transfer_count).filter fun i =>
              decide ((s.deref ((s.host.endpoint (EP2I ep)).iso_transfer i)).iso_packet_idx =
                ISO_SUBMITTED_IDX)).map fun i =>
              LibusbCall.cancel_transfer ((s.host.endpoint (EP2I ep)).iso_transfer i)
          ret := s.usb.ret.drop
            ((List.range (s.host.endpoint (EP2I ep)).iso_transfer_count).filter fun i =>
              decide ((s.deref ((s.host.endpoint (EP2I ep)).iso_transfer i)).iso_packet_idx =
                ISO_SUBMITTED_IDX)).length } ∧
      (usbredirhost_cancel_iso_stream s ep).parser = s.parser ∧
      (∀ i, i < (s.host.endpoint (EP2I ep)).iso_transfer_count →
        (s.deref ((s.host.endpoint (EP2I ep)).iso_transfer i)).iso_packet_idx =
          ISO_SUBMITTED_IDX →
        (usbredirhost_cancel_iso_stream s ep).heap ((s.host.endpoint (EP2I ep)).iso_transfer i) =
          (s.heap ((s.host.endpoint (EP2I ep)).iso_transfer i)).map fun t =>
            { t with cancelled := true }) ∧
      (∀ i, i < (s.host.endpoint (EP2I ep)).iso_transfer_count →
        (s.deref ((s.host.endpoint (EP2I ep)).iso_transfer i)).iso_packet_idx ≠
          ISO_SUBMITTED_IDX →
        (s.host.endpoint (EP2I ep)).iso_transfer i ≠ 0 →
        (usbredirhost_cancel_iso_stream s ep).heap ((s.host.endpoint (EP2I ep)).iso_transfer i) =
          none) ∧
      (∀ p, (∀ i, i < (s.host.endpoint (EP2I ep)).iso_transfer_count →
          (s.host.endpoint (EP2I ep)).iso_transfer i ≠ p) →
        (usbredirhost_cancel_iso_stream s ep).heap p = s.heap p)) ∧
    (Reachable s → (s.host.endpoint (EP2I ep)).iso_transfer_count = 0 →
      usbredirhost_cancel_iso_stream s ep = s) := by
  refine ⟨cancel_iso_stream_ring s ep, fun hr h0 => ?_⟩
  have hz := idle_reachable hr (EP2I ep) h0
  unfold usbredirhost_cancel_iso_stream usbredirhost_cancel_iso_stream_unlocked
  simp only [h0, List.range_zero, List.foldl_nil]
  have e : ({ s.host.endpoint (EP2I ep) with
      iso_out_idx := 0, iso_started := false, iso_drop_packets := 0,
      iso_pkts_per_transfer := 0, iso_transfer_count := 0 } : usbredirhost_ep) =
      s.host.endpoint (EP2I ep) := by
    have hz' : (s.host.endpoint (EP2I ep)).stream = (0, 0, 0, false, 0) := hz
    cases he : s.host.endpoint (EP2I ep)
    rw [he] at hz'
    simp only [usbredirhost_ep.stream, Prod.mk.injEq] at hz'
    obtain ⟨a1, a2, a3, a4, a5⟩ := hz'
    subst a1 a2 a3 a4 a5
    rfl
  unfold State.modifyEp
  have e' : Function.update s.host.endpoint (EP2I ep)
      ((fun (e : usbredirhost_ep) =>
        ({ e with iso_out_idx := 0, iso_started := false, iso_drop_packets := 0,
                  iso_pkts_per_transfer := 0, iso_transfer_count := 0 } : usbredirhost_ep))
        (s.host.endpoint (EP2I ep))) = s.host.endpoint := by
    refine Eq.trans (congrArg (Function.update s.host.endpoint (EP2I ep)) e) ?_
    exact Function.update_eq_self _ _
  rw [e']

set_option maxRecDepth 100000 in
set_option maxHeartbeats 1000000 in
/-- C24 on the output stream of `example_half_out` (ring of two URBs, record 1
submitted, record 2 not): cancelling it asks libusb for one cancel, of record
1, sets the `cancelled` flag of record 1, frees record 2 and brings
`cancels_pending` from 0 to 1.  On the example host without any stream,
cancelling the stream of endpoint 0x81 changes nothing. -/
theorem C24_cancel_iso_stream_witness :
    ((List.range (example_half_out.host.endpoint (EP2I 0x01)).iso_transfer_count).map
      (example_half_out.host.endpoint (EP2I 0x01)).iso_transfer).Nodup ∧
    (example_half_out.host.endpoint (EP2I 0x01)).iso_transfer_count = 2 ∧
    (example_half_out.deref 1).iso_packet_idx = ISO_SUBMITTED_IDX ∧
    (example_half_out.deref 2).iso_packet_idx = 0 ∧
    (usbredirhost_cancel_iso_stream example_half_out 0x01).host.cancels_pending = 1 ∧
    (usbredirhost_cancel_iso_stream example_half_out 0x01).usb.calls =
      example_half_out.usb.calls ++ [LibusbCall.cancel_transfer 1] ∧
    (usbredirhost_cancel_iso_stream example_half_out 0x01).heap 1 =
      (example_half_out.heap 1).map (fun t => { t with cancelled := true }) ∧
    (usbredirhost_cancel_iso_stream example_half_out 0x01).heap 2 = none ∧
    Reachable example_connected ∧
    (example_connected.host.endpoint (EP2I 0x81)).iso_transfer_count = 0 ∧
    usbredirhost_cancel_iso_stream example_connected 0x81 = example_connected := by
  have h := (C24_cancel_iso_stream example_half_out 0x01).1 (by decide)
  have hr : Reachable example_connected := reachable_example_run _ (by decide)
  refine ⟨by decide, by decide, by decide, by decide, ?_, ?_, ?_, ?_, hr, by decide,
    (C24_cancel_iso_stream example_connected 0x81).2 hr (by decide)⟩
  · exact (congrArg usbredirhost.cancels_pending h.1).trans (by decide)
  · exact (congrArg Libusb.calls h.2.1).trans (by decide)
  · exact h.2.2.2.1 0 (by decide) (by decide)
  · exact h.2.2.2.2.1 1 (by decide) (by decide) (by decide)

/-! ### Stall recovery of an iso stream -/

/-- The loop of `usbredirhost_cancel_iso_stream_unlocked` (`f` is one round)
consumes return values of libusb from the front of the tape. -/
theorem cancel_loop_ret (k : Nat) (f : State → Nat → State)
    (hsub : ∀ (s : State) (i : Nat),
      (s.deref ((s.host.endpoint k).iso_transfer i)).iso_packet_idx = ISO_SUBMITTED_IDX →
      f s i =
        { s with
          host := { s.host with
            cancels_pending := s.host.cancels_pending + 1
            endpoint := Function.update s.host.endpoint k
              { s.host.endpoint k with
                iso_transfer := Function.update (s.host.endpoint k).iso_transfer i 0 } }
          heap := Function.update s.heap ((s.host.endpoint k).iso_transfer i)
            ((s.heap ((s.host.endpoint k).iso_transfer i)).map fun t =>
              { t with cancelled := true })
          usb := { s.usb with
            calls := s.usb.calls ++ [.cancel_transfer ((s.host.endpoint k).iso_transfer i)]
            ret := s.usb.ret.tail } })
    (hidle : ∀ (s : State) (i : Nat),
      (s.deref ((s.host.endpoint k).iso_transfer i)).iso_packet_idx ≠ ISO_SUBMITTED_IDX →
      f s i =
        { s with
          host := { s.host with
            endpoint := Function.update s.host.endpoint k
              { s.host.endpoint k with
                iso_transfer := Function.update (s.host.endpoint k).iso_transfer i 0 } }
          heap := if (s.host.endpoint k).iso_transfer i = 0 then s.heap
            else Function.update s.heap ((s.host.endpoint k).iso_transfer i) none }) :
    ∀ (l : List Nat) (s : State), ∃ n, (l.foldl f s).usb.ret = s.usb.ret.drop n := by
  intro l
  induction l with
  | nil => intro s; exact ⟨0, rfl⟩
  | cons i l ih =>
    intro s
    rw [List.foldl_cons]
    obtain ⟨n, hn⟩ := ih (f s i)
    by_cases hs : (s.deref ((s.host.endpoint k).iso_transfer i)).iso_packet_idx =
        ISO_SUBMITTED_IDX
    · refine ⟨n + 1, ?_⟩
      rw [hn, hsub s i hs]
      show s.usb.ret.tail.drop n = _
      rw [List.drop_tail]
    · refine ⟨n, ?_⟩
      rw [hn, hidle s i hs]

/-- What `usbredirhost_cancel_iso_stream_unlocked` leaves alone: the packet
log, the allocator, the `disconnected` flag and the allocation tape; of the
return tape of libusb it consumes a prefix. -/
theorem cancel_iso_stream_unlocked_frame (s : State) (ep : Nat) :
    (usbredirhost_cancel_iso_stream_unlocked s ep).parser = s.parser ∧
    (usbredirhost_cancel_iso_stream_unlocked s ep).next_ptr = s.next_ptr ∧
    (usbredirhost_cancel_iso_stream_unlocked s ep).usb.mem = s.usb.mem ∧
    (usbredirhost_cancel_iso_stream_unlocked s ep).host.disconnected = s.host.disconnected ∧
    ∃ n, (usbredirhost_cancel_iso_stream_unlocked s ep).usb.ret = s.usb.ret.drop n := by
  unfold usbredirhost_cancel_iso_stream_unlocked
  simp only []
  obtain ⟨g1, g2, g3, g4⟩ := cancel_loop_rest (EP2I ep) _
    (fun s i h => cancel_round_submitted s (EP2I ep) i h)
    (fun s i h => cancel_round_idle s (EP2I ep) i h)
    (List.range (s.host.endpoint (EP2I ep)).iso_transfer_count) s
  obtain ⟨n, hn⟩ := cancel_loop_ret (EP2I ep) _
    (fun s i h => cancel_round_submitted s (EP2I ep) i h)
    (fun s i h => cancel_round_idle s (EP2I ep) i h)
    (List.range (s.host.endpoint (EP2I ep)).iso_transfer_count) s
  generalize List.foldl _ s _ = F at g1 g2 g3 g4 hn ⊢
  have e1 : F.usb.mem = s.usb.mem := by
    have := congrArg Libusb.mem g4
    exact this
  have e2 : F.host.disconnected = s.host.disconnected := by
    have := congrArg usbredirhost.disconnected g3
    exact this
  exact ⟨g1, g2, e1, e2, n, hn⟩

theorem alloc_transfer_log (s : State) (n : Nat) :
    (usbredirhost_alloc_transfer s n).1.parser = s.parser := by
  unfold usbredirhost_alloc_transfer
  simp only []
  split_ifs <;> rfl

theorem alloc_iso_stream_step_log (ep pkts : Nat) (s : State) (i : Nat) :
    (usbredirhost_alloc_iso_stream_step ep pkts s i).1.parser = s.parser := by
  unfold usbredirhost_alloc_iso_stream_step
  simp only []
  split_ifs <;> exact alloc_transfer_log s pkts

theorem alloc_iso_stream_loop_log (ep pkts : Nat) (l : List Nat) (s : State) :
    (usbredirhost_alloc_iso_stream_loop ep pkts s l).1.parser = s.parser := by
  induction l generalizing s with
  | nil => rfl
  | cons i l ih =>
    unfold usbredirhost_alloc_iso_stream_loop
    simp only []
    split_ifs
    · exact alloc_iso_stream_step_log ep pkts s i
    · rw [ih, alloc_iso_stream_step_log]

/-- The allocation of a ring sends nothing, whether it succeeds or not. -/
theorem alloc_iso_stream_log (s : State) (ep pkts count : Nat) :
    (usbredirhost_alloc_iso_stream s ep pkts count).1.parser = s.parser := by
  unfold usbredirhost_alloc_iso_stream
  simp only []
  split_ifs
  · rfl
  · rfl
  · rfl
  · have hl := alloc_iso_stream_loop_log ep pkts (List.range count) s
    generalize usbredirhost_alloc_iso_stream_loop ep pkts s (List.range count) = L at hl ⊢
    obtain ⟨L1, L2⟩ := L
    cases L2 with
    | none => exact hl
    | some i =>
      dsimp only
      have : ∀ (l : List Nat) (s' : State),
          (l.foldl (fun s j =>
            (usbredirhost_free_transfer s ((s.host.endpoint (EP2I ep)).iso_transfer j)).modifyEp
              (EP2I ep) fun e =>
                { e with iso_transfer := Function.update e.iso_transfer j 0 }) s').parser =
            s'.parser := by
        intro l
        induction l with
        | nil => intro s'; rfl
        | cons j l ih =>
          intro s'
          rw [List.foldl_cons, ih]
          unfold usbredirhost_free_transfer
          split_ifs <;> rfl
      rw [this]
      exact hl

/-- The status translation sends one device-disconnect at most. -/
theorem translate_sent_cases (s : State) (r : Int) :
    (libusb_status_or_error_to_redir_status s r).1.parser.sent = s.parser.sent ∨
    (libusb_status_or_error_to_redir_status s r).1.parser.sent =
      s.parser.sent ++ [Packet.device_disconnect] := by
  rw [translate_state]
  unfold usbredirhost_handle_disconnect State.send
  simp only []
  split_ifs <;>
    first
    | exact Or.inl rfl
    | exact Or.inr rfl

/-- The packet log after the submission of a ring URB: unchanged when the
submission succeeds; one device-disconnect at most is added when it fails. -/
theorem submit_iso_transfer_unlocked_sent (s : State) (t : Nat) :
    ((usbredirhost_submit_iso_transfer_unlocked s t).2 = usb_redir_success →
      (usbredirhost_submit_iso_transfer_unlocked s t).1.parser = s.parser) ∧
    ((usbredirhost_submit_iso_transfer_unlocked s t).1.parser.sent = s.parser.sent ∨
      (usbredirhost_submit_iso_transfer_unlocked s t).1.parser.sent =
        s.parser.sent ++ [Packet.device_disconnect]) := by
  unfold usbredirhost_submit_iso_transfer_unlocked
  simp only []
  split_ifs with hr
  · refine ⟨fun h => absurd h (translate_neg_ne_success _ _ hr), ?_⟩
    have hp := (cancel_iso_stream_unlocked_frame (libusb_submit_transfer s t).1
      ((libusb_submit_transfer s t).1.deref t).transfer.endpoint).1
    have hp0 : (libusb_submit_transfer s t).1.parser = s.parser := by
      unfold libusb_submit_transfer
      simp only []
      split_ifs <;> rfl
    generalize usbredirhost_cancel_iso_stream_unlocked _ _ = C at hp ⊢
    have ht := translate_sent_cases C (libusb_submit_transfer s t).2
    rw [hp, hp0] at ht
    exact ht
  · refine ⟨fun _ => ?_, Or.inl ?_⟩
    · show (libusb_submit_transfer s t).1.parser = _
      unfold libusb_submit_transfer
      simp only []
      split_ifs <;> rfl
    · show (libusb_submit_transfer s t).1.parser.sent = _
      unfold libusb_submit_transfer
      simp only []
      split_ifs <;> rfl

/-- The packet log after the submission loop of an input ring: unchanged when
every submission succeeds; one device-disconnect at most is added. -/
theorem submit_iso_in_ring_sent (ep : Nat) (l : List Nat) (s : State) :
    ((usbredirhost_submit_iso_in_ring ep s l).2 = true →
      (usbredirhost_submit_iso_in_ring ep s l).1.parser = s.parser) ∧
    ((usbredirhost_submit_iso_in_ring ep s l).1.parser.sent = s.parser.sent ∨
      (usbredirhost_submit_iso_in_ring ep s l).1.parser.sent =
        s.parser.sent ++ [Packet.device_disconnect]) := by
  induction l generalizing s with
  | nil => exact ⟨fun _ => rfl, Or.inl rfl⟩
  | cons i l ih =>
    unfold usbredirhost_submit_iso_in_ring
    simp only []
    have h1 := submit_iso_transfer_unlocked_sent
      (s.modify ((s.host.endpoint (EP2I ep)).iso_transfer i) fun t =>
        { t with id := (i * (s.host.endpoint (EP2I ep)).iso_pkts_per_transfer) % 2 ^ 32 })
      ((s.host.endpoint (EP2I ep)).iso_transfer i)
    generalize usbredirhost_submit_iso_transfer_unlocked _ _ = r at h1 ⊢
    have hm : ∀ f, (s.modify ((s.host.endpoint (EP2I ep)).iso_transfer i) f).parser = s.parser :=
      fun _ => rfl
    rw [hm] at h1
    split_ifs with hr
    · exact ⟨fun h => absurd h (by simp), h1.2⟩
    · have e := h1.1 (not_not.mp hr)
      obtain ⟨i1, i2⟩ := ih r.1
      rw [e] at i1 i2
      exact ⟨i1, i2⟩

/-- The stall branch of `usbredirhost_handle_iso_status`. -/
theorem handle_iso_status_stall (s : State) (id ep : Nat) :
    usbredirhost_handle_iso_status s id ep LIBUSB_TRANSFER_STALL =
      if ((usbredirhost_cancel_iso_stream_unlocked s ep).call (.clear_halt ep)).2 < 0 then
        (usbredirhost_send_iso_status
          ((usbredirhost_cancel_iso_stream_unlocked s ep).call (.clear_halt ep)).1 id ep
          usb_redir_stall, 2)
      else if (usbredirhost_alloc_iso_stream
          ((usbredirhost_cancel_iso_stream_unlocked s ep).call (.clear_halt ep)).1 ep
          (s.host.endpoint (EP2I ep)).iso_pkts_per_transfer
          (s.host.endpoint (EP2I ep)).iso_transfer_count).2 ≠ usb_redir_success then
        (usbredirhost_send_iso_status
          (usbredirhost_alloc_iso_stream
            ((usbredirhost_cancel_iso_stream_unlocked s ep).call (.clear_halt ep)).1 ep
            (s.host.endpoint (EP2I ep)).iso_pkts_per_transfer
            (s.host.endpoint (EP2I ep)).iso_transfer_count).1 id ep usb_redir_stall, 2)
      else if ep &&& LIBUSB_ENDPOINT_IN ≠ 0 then
        if !(usbredirhost_submit_iso_in_ring ep
            (usbredirhost_alloc_iso_stream
              ((usbredirhost_cancel_iso_stream_unlocked s ep).call (.clear_halt ep)).1 ep
              (s.host.endpoint (EP2I ep)).iso_pkts_per_transfer
              (s.host.endpoint (EP2I ep)).iso_transfer_count).1
            (List.range ((usbredirhost_alloc_iso_stream
              ((usbredirhost_cancel_iso_stream_unlocked s ep).call (.clear_halt ep)).1 ep
              (s.host.endpoint (EP2I ep)).iso_pkts_per_transfer
              (s.host.endpoint (EP2I ep)).iso_transfer_count).1.host.endpoint
                (EP2I ep)).iso_transfer_count)).2 then
          (usbredirhost_send_iso_status
            (usbredirhost_submit_iso_in_ring ep
              (usbredirhost_alloc_iso_stream
                ((usbredirhost_cancel_iso_stream_unlocked s ep).call (.clear_halt ep)).1 ep
                (s.host.endpoint (EP2I ep)).iso_pkts_per_transfer
                (s.host.endpoint (EP2I ep)).iso_transfer_count).1
              (List.range ((usbredirhost_alloc_iso_stream
                ((usbredirhost_cancel_iso_stream_unlocked s ep).call (.clear_halt ep)).1 ep
                (s.host.endpoint (EP2I ep)).iso_pkts_per_transfer
                (s.host.endpoint (EP2I ep)).iso_transfer_count).1.host.endpoint
                  (EP2I ep)).iso_transfer_count)).1 id ep usb_redir_stall, 2)
        else
          ((usbredirhost_submit_iso_in_ring ep
              (usbredirhost_alloc_iso_stream
                ((usbredirhost_cancel_iso_stream_unlocked s ep).call (.clear_halt ep)).1 ep
                (s.host.endpoint (EP2I ep)).iso_pkts_per_transfer
                (s.host.endpoint (EP2I ep)).iso_transfer_count).1
              (List.range ((usbredirhost_alloc_iso_stream
                ((usbredirhost_cancel_iso_stream_unlocked s ep).call (.clear_halt ep)).1 ep
                (s.host.endpoint (EP2I ep)).iso_pkts_per_transfer
                (s.host.endpoint (EP2I ep)).iso_transfer_count).1.host.endpoint
                  (EP2I ep)).iso_transfer_count)).1.modifyEp (EP2I ep) fun e =>
            { e with iso_started := true }, 2)
      else
        ((usbredirhost_alloc_iso_stream
          ((usbredirhost_cancel_iso_stream_unlocked s ep).call (.clear_halt ep)).1 ep
          (s.host.endpoint (EP2I ep)).iso_pkts_per_transfer
          (s.host.endpoint (EP2I ep)).iso_transfer_count).1, 2) := by
  unfold usbredirhost_handle_iso_status
  rw [if_neg (by decide), if_neg (by decide), if_pos rfl]

/-- The completion handler on a URB that is not cancelled and whose URB
status is stall: the record is marked completed and the stall branch of
`usbredirhost_handle_iso_status` runs, with the id of the record. -/
theorem iso_packet_complete_stall (s : State) (transfer : Nat) (t : usbredirtransfer)
    (hheap : s.heap transfer = some t) (hnc : t.cancelled = false)
    (hst : t.transfer.status = LIBUSB_TRANSFER_STALL) :
    usbredirhost_iso_packet_complete s transfer =
      (usbredirhost_handle_iso_status
        (s.modify transfer fun u => { u with iso_packet_idx := 0 }) t.id t.transfer.endpoint
        LIBUSB_TRANSFER_STALL).1 := by
  have hd : s.deref transfer = t := by simp [State.deref, hheap]
  have hd1 : (s.modify transfer fun u => { u with iso_packet_idx := 0 }).deref transfer =
      { t with iso_packet_idx := 0 } := by
    simp [State.deref, State.modify, hheap]
  have h2 : ∀ S id ep, (usbredirhost_handle_iso_status S id ep LIBUSB_TRANSFER_STALL).2 = 2 := by
    intro S id ep
    rw [handle_iso_status_stall]
    split_ifs <;> rfl
  unfold usbredirhost_iso_packet_complete
  simp only [hd, hnc, hd1, hst, h2]
  rw [if_neg (by simp), if_pos trivial]

/-- The allocation of a ring asks nothing of libusb, whether it succeeds or
not. -/
theorem alloc_iso_stream_calls (s : State) (ep pkts count : Nat) :
    (usbredirhost_alloc_iso_stream s ep pkts count).1.usb.calls = s.usb.calls := by
  unfold usbredirhost_alloc_iso_stream
  simp only []
  split_ifs
  · rfl
  · rfl
  · rfl
  · have hl : (usbredirhost_alloc_iso_stream_loop ep pkts s (List.range count)).1.usb.calls =
        s.usb.calls := by
      rw [alloc_iso_stream_loop_usb]
    generalize usbredirhost_alloc_iso_stream_loop ep pkts s (List.range count) = L at hl ⊢
    obtain ⟨L1, L2⟩ := L
    cases L2 with
    | none => exact hl
    | some i =>
      dsimp only
      have : ∀ (l : List Nat) (s' : State),
          (l.foldl (fun s j =>
            (usbredirhost_free_transfer s ((s.host.endpoint (EP2I ep)).iso_transfer j)).modifyEp
              (EP2I ep) fun e =>
                { e with iso_transfer := Function.update e.iso_transfer j 0 }) s').usb =
            s'.usb := by
        intro l
        induction l with
        | nil => intro s'; rfl
        | cons j l ih =>
          intro s'
          rw [List.foldl_cons, ih]
          unfold usbredirhost_free_transfer
          split_ifs <;> rfl
      rw [this]
      exact hl

/-- An allocation that succeeds has set `iso_transfer_count` to the count
asked for. -/
theorem alloc_iso_stream_count_eq {s : State} (ep pkts count : Nat)
    (h : (usbredirhost_alloc_iso_stream s ep pkts count).2 = usb_redir_success) :
    ((usbredirhost_alloc_iso_stream s ep pkts count).1.host.endpoint
      (EP2I ep)).iso_transfer_count = count := by
  unfold usbredirhost_alloc_iso_stream at h ⊢
  simp only [] at h ⊢
  split_ifs at h ⊢ with h1 h2 h3
  · exact absurd h (by dsimp only; decide)
  · exact absurd h (by dsimp only; decide)
  · exact absurd h (by dsimp only; decide)
  · generalize usbredirhost_alloc_iso_stream_loop ep pkts s (List.range count) = L at h ⊢
    obtain ⟨L1, L2⟩ := L
    cases L2 with
    | none =>
      dsimp only at h ⊢
      show ((State.modifyEp _ _ _).eps (EP2I ep)).iso_transfer_count = _
      rw [eps_modifyEp, Function.update_same]
    | some i => exact absurd h (by dsimp only; decide)

/-- C25: stall recovery of an iso stream.  A URB (record `transfer`, holding
`t`) of a stream of geometry `(pkts, count)` on endpoint `ep` completes, not
cancelled, with the URB status stall.  The record is marked completed, the
stream is cancelled (`C` is the state after
`usbredirhost_cancel_iso_stream_unlocked`) and a clear-halt is issued on the
endpoint.

* If the clear-halt fails, one iso-stream-status with the id of the URB and
  the status stall is sent and nothing else happens.
* If the reallocation fails, one iso-stream-status with status stall is sent
  and libusb is asked nothing after the clear-halt.
* If, on an input endpoint, a resubmission fails, one iso-stream-status with
  status stall is sent, after the device-disconnect the failure may have
  caused.
* If no allocation and no libusb call fails, on an iso endpoint with
  `1 ≤ pkts ≤ 32` and `1 ≤ count ≤ 16`: nothing is sent to the peer, the
  endpoint has a ring of geometry `(pkts, count)` again whose slots hold the
  fresh records `next_ptr + 1 ..  next_ptr + count`; on an input endpoint
  these are submitted in ring order after the clear-halt, URB `i` with the id
  `i * pkts` and marked submitted, and `iso_started` is set; on an output
  endpoint nothing is asked of libusb after the clear-halt, the records are
  those `usbredirhost_alloc_iso_stream` builds and `iso_started` is clear. -/
theorem C25_iso_stall_recovery (s : State) (transfer : Nat) (t : usbredirtransfer) (C : State)
    (ep pkts count : Nat)
    (hheap : s.heap transfer = some t) (hnc : t.cancelled = false)
    (hst : t.transfer.status = LIBUSB_TRANSFER_STALL)
    (hep : t.transfer.endpoint = ep)
    (hpk : (s.host.endpoint (EP2I ep)).iso_pkts_per_transfer = pkts)
    (hcn : (s.host.endpoint (EP2I ep)).iso_transfer_count = count)
    (hC : C = usbredirhost_cancel_iso_stream_unlocked
      (s.modify transfer fun u => { u with iso_packet_idx := 0 }) ep) :
    ((C.call (.clear_halt ep)).2 < 0 →
      usbredirhost_iso_packet_complete s transfer =
        usbredirhost_send_iso_status (C.call (.clear_halt ep)).1 t.id ep usb_redir_stall) ∧
    (0 ≤ (C.call (.clear_halt ep)).2 →
      (usbredirhost_alloc_iso_stream (C.call (.clear_halt ep)).1 ep pkts count).2 ≠
        usb_redir_success →
      (usbredirhost_iso_packet_complete s transfer).parser.sent =
        s.parser.sent ++
          [.iso_stream_status t.id { endpoint := ep, status := usb_redir_stall }] ∧
      (usbredirhost_iso_packet_complete s transfer).usb.calls =
        C.usb.calls ++ [.clear_halt ep]) ∧
    (0 ≤ (C.call (.clear_halt ep)).2 →
      (usbredirhost_alloc_iso_stream (C.call (.clear_halt ep)).1 ep pkts count).2 =
        usb_redir_success →
      ep &&& LIBUSB_ENDPOINT_IN ≠ 0 →
      (usbredirhost_submit_iso_in_ring ep
        (usbredirhost_alloc_iso_stream (C.call (.clear_halt ep)).1 ep pkts count).1
        (List.range count)).2 = false →
      ∃ l, (l = [] ∨ l = [Packet.device_disconnect]) ∧
        (usbredirhost_iso_packet_complete s transfer).parser.sent =
          s.parser.sent ++ l ++
            [.iso_stream_status t.id { endpoint := ep, status := usb_redir_stall }]) ∧
    ((∀ b ∈ s.usb.mem, b = true) → (∀ r ∈ s.usb.ret, 0 ≤ r) →
      (s.host.endpoint (EP2I ep)).type = usb_redir_type_iso →
      1 ≤ pkts ∧ pkts ≤ 32 → 1 ≤ count ∧ count ≤ 16 →
      (usbredirhost_iso_packet_complete s transfer).parser.sent = s.parser.sent ∧
      ((usbredirhost_iso_packet_complete s transfer).host.endpoint
        (EP2I ep)).iso_transfer_count = count ∧
      ((usbredirhost_iso_packet_complete s transfer).host.endpoint
        (EP2I ep)).iso_pkts_per_transfer = pkts ∧
      (∀ i, i < count →
        ((usbredirhost_iso_packet_complete s transfer).host.endpoint (EP2I ep)).iso_transfer i =
          s.next_ptr + i + 1) ∧
      (ep &&& LIBUSB_ENDPOINT_IN ≠ 0 →
        (usbredirhost_iso_packet_complete s transfer).usb.calls =
          C.usb.calls ++ [.clear_halt ep] ++
            (List.range count).map (fun i => LibusbCall.submit_transfer (s.next_ptr + i + 1)) ∧
        (∀ i, i < count →
          (usbredirhost_iso_packet_complete s transfer).heap (s.next_ptr + i + 1) =
            some { usbredirhost_iso_urb ep pkts (s.host.endpoint (EP2I ep)).max_packetsize with
                   id := i * pkts
                   iso_packet_idx := ISO_SUBMITTED_IDX }) ∧
        ((usbredirhost_iso_packet_complete s transfer).host.endpoint (EP2I ep)).iso_started =
          true) ∧
      (ep &&& LIBUSB_ENDPOINT_IN = 0 →
        (usbredirhost_iso_packet_complete s transfer).usb.calls =
          C.usb.calls ++ [.clear_halt ep] ∧
        (∀ i, i < count →
          (usbredirhost_iso_packet_complete s transfer).heap (s.next_ptr + i + 1) =
            some (usbredirhost_iso_urb ep pkts (s.host.endpoint (EP2I ep)).max_packetsize)) ∧
        ((usbredirhost_iso_packet_complete s transfer).host.endpoint (EP2I ep)).iso_started =
          false)) := by
  subst hep
  rw [iso_packet_complete_stall s transfer t hheap hnc hst, handle_iso_status_stall]
  -- the state after the record was marked completed differs from `s` in the heap only
  have e0 : (s.modify transfer fun u => { u with iso_packet_idx := 0 }).host = s.host := rfl
  have e1 : (s.modify transfer fun u => { u with iso_packet_idx := 0 }).usb = s.usb := rfl
  have e2 : (s.modify transfer fun u => { u with iso_packet_idx := 0 }).parser = s.parser := rfl
  have e3 : (s.modify transfer fun u => { u with iso_packet_idx := 0 }).next_ptr = s.next_ptr :=
    rfl
  generalize (s.modify transfer fun u => { u with iso_packet_idx := 0 }) = S0 at e0 e1 e2 e3 hC ⊢
  rw [e0, hpk, hcn, ← hC]
  obtain ⟨c1, c2, c3, c4, n, c5⟩ := cancel_iso_stream_unlocked_frame S0 t.transfer.endpoint
  have c6 := eps_cancel_iso_stream_unlocked S0 t.transfer.endpoint
  rw [← hC] at c1 c2 c3 c4 c5 c6
  rw [e2] at c1
  rw [e3] at c2
  rw [e1] at c3 c5
  have c7 : (C.host.endpoint (EP2I t.transfer.endpoint)).type =
      (s.host.endpoint (EP2I t.transfer.endpoint)).type := by
    show (C.eps _).type = _
    rw [c6, Function.update_same, ← e0]; rfl
  have c8 : (C.host.endpoint (EP2I t.transfer.endpoint)).max_packetsize =
      (s.host.endpoint (EP2I t.transfer.endpoint)).max_packetsize := by
    show (C.eps _).max_packetsize = _
    rw [c6, Function.update_same, ← e0]; rfl
  have c9 : (C.host.endpoint (EP2I t.transfer.endpoint)).iso_transfer_count = 0 := by
    show (C.eps _).iso_transfer_count = _
    rw [c6, Function.update_same]
  have c10 : (C.host.endpoint (EP2I t.transfer.endpoint)).iso_started = false := by
    show (C.eps _).iso_started = _
    rw [c6, Function.update_same]
  clear c6 hC e0 e1 e2 e3
  refine ⟨?_, ?_, ?_, ?_⟩
  · intro hc
    rw [if_pos hc]
  · intro hc ha
    rw [if_neg (not_lt.mpr hc), if_pos ha]
    refine ⟨?_, ?_⟩
    · show (usbredirhost_alloc_iso_stream _ _ _ _).1.parser.sent ++ _ = _
      rw [alloc_iso_stream_log]
      show C.parser.sent ++ _ = _
      rw [c1]
    · show (usbredirhost_alloc_iso_stream _ _ _ _).1.usb.calls = _
      rw [alloc_iso_stream_calls]
      rfl
  · intro hc ha hin hl
    rw [if_neg (not_lt.mpr hc), if_neg (not_not.mpr ha), if_pos hin,
      alloc_iso_stream_count_eq _ _ _ ha, hl]
    simp only [Bool.not_false, if_true]
    have hs := (submit_iso_in_ring_sent t.transfer.endpoint (List.range count)
      (usbredirhost_alloc_iso_stream (C.call (.clear_halt t.transfer.endpoint)).1
        t.transfer.endpoint pkts count).1).2
    rw [alloc_iso_stream_log] at hs
    have hcp : (C.call (.clear_halt t.transfer.endpoint)).1.parser = s.parser := c1
    rw [hcp] at hs
    rcases hs with hs | hs
    · refine ⟨[], Or.inl rfl, ?_⟩
      show (usbredirhost_submit_iso_in_ring _ _ _).1.parser.sent ++ _ = _
      rw [hs, List.append_nil]
    · refine ⟨[Packet.device_disconnect], Or.inr rfl, ?_⟩
      show (usbredirhost_submit_iso_in_ring _ _ _).1.parser.sent ++ _ = _
      rw [hs]
  · intro hmem hret htype hp hcnt
    have hretC : ∀ r ∈ C.usb.ret, 0 ≤ r := by
      intro r hr
      rw [c5] at hr
      exact hret r (List.mem_of_mem_drop hr)
    obtain ⟨r1, r2⟩ := ret_nonneg_head C hretC
    have hc : ¬ (C.call (.clear_halt t.transfer.endpoint)).2 < 0 := not_lt.mpr r1
    obtain ⟨a1, a2, a3, a4, a5, a6⟩ := alloc_iso_stream_ok
      (C.call (.clear_halt t.transfer.endpoint)).1 t.transfer.endpoint pkts count
      (by
        show ∀ b ∈ C.usb.mem, b = true
        rw [c3]; exact hmem)
      (by
        show (C.host.endpoint _).type = _
        rw [c7]; exact htype)
      hp hcnt c9
    have hnp : (C.call (.clear_halt t.transfer.endpoint)).1.next_ptr = s.next_ptr := c2
    have hmp : ((C.call (.clear_halt t.transfer.endpoint)).1.host.endpoint
        (EP2I t.transfer.endpoint)).max_packetsize =
        (s.host.endpoint (EP2I t.transfer.endpoint)).max_packetsize := c8
    rw [hnp] at a3 a4
    rw [hmp] at a3
    have hcount : ((usbredirhost_alloc_iso_stream (C.call (.clear_halt t.transfer.endpoint)).1
        t.transfer.endpoint pkts count).1.host.endpoint
        (EP2I t.transfer.endpoint)).iso_transfer_count = count := by
      rw [a2]; simp [State.modifyEp]
    have hpkts : ((usbredirhost_alloc_iso_stream (C.call (.clear_halt t.transfer.endpoint)).1
        t.transfer.endpoint pkts count).1.host.endpoint
        (EP2I t.transfer.endpoint)).iso_pkts_per_transfer = pkts := by
      rw [a2]; simp [State.modifyEp]
    have hring : ∀ i, i < count →
        ((usbredirhost_alloc_iso_stream (C.call (.clear_halt t.transfer.endpoint)).1
          t.transfer.endpoint pkts count).1.host.endpoint
          (EP2I t.transfer.endpoint)).iso_transfer i = s.next_ptr + i + 1 := by
      intro i hi
      rw [a2]; simp [State.modifyEp, hi, hnp]
    have hstart : ((usbredirhost_alloc_iso_stream (C.call (.clear_halt t.transfer.endpoint)).1
        t.transfer.endpoint pkts count).1.host.endpoint
        (EP2I t.transfer.endpoint)).iso_started = false := by
      rw [a2]; simp [State.modifyEp]; exact c10
    have hcalls : (usbredirhost_alloc_iso_stream (C.call (.clear_halt t.transfer.endpoint)).1
        t.transfer.endpoint pkts count).1.usb.calls =
        C.usb.calls ++ [.clear_halt t.transfer.endpoint] := by rw [a6]; rfl
    have hrets : (usbredirhost_alloc_iso_stream (C.call (.clear_halt t.transfer.endpoint)).1
        t.transfer.endpoint pkts count).1.usb.ret = C.usb.ret.tail := by rw [a6]; rfl
    have hsent : (usbredirhost_alloc_iso_stream (C.call (.clear_halt t.transfer.endpoint)).1
        t.transfer.endpoint pkts count).1.parser.sent = s.parser.sent := by
      rw [a5]; show C.parser.sent = _; rw [c1]
    rw [if_neg hc, if_neg (not_not.mpr a1)]
    by_cases hin : t.transfer.endpoint &&& LIBUSB_ENDPOINT_IN ≠ 0
    · obtain ⟨q1, q2, q3, q4, q5, q6, q7⟩ := submit_iso_in_ring_ok t.transfer.endpoint
        s.next_ptr count 0
        (usbredirhost_alloc_iso_stream (C.call (.clear_halt t.transfer.endpoint)).1
          t.transfer.endpoint pkts count).1
        (by rw [hrets]; exact r2) (fun i _ hi => hring i (by omega))
      rw [← List.range_eq_range'] at q1 q2 q3 q4 q5 q6 q7
      rw [if_pos hin, hcount, q1]
      simp only [Bool.not_true, Bool.false_eq_true, if_false]
      refine ⟨?_, ?_, ?_, ?_, fun _ => ⟨?_, ?_, ?_⟩, fun h0 => absurd h0 hin⟩
      · show (usbredirhost_submit_iso_in_ring _ _ _).1.parser.sent = _
        rw [q3, hsent]
      · show (Function.update (usbredirhost_submit_iso_in_ring _ _ _).1.host.endpoint _ _
          (EP2I t.transfer.endpoint)).iso_transfer_count = _
        rw [Function.update_same, q2]; exact hcount
      · show (Function.update (usbredirhost_submit_iso_in_ring _ _ _).1.host.endpoint _ _
          (EP2I t.transfer.endpoint)).iso_pkts_per_transfer = _
        rw [Function.update_same, q2]; exact hpkts
      · intro i hi
        show (Function.update (usbredirhost_submit_iso_in_ring _ _ _).1.host.endpoint _ _
          (EP2I t.transfer.endpoint)).iso_transfer i = _
        rw [Function.update_same, q2]; exact hring i hi
      · show (usbredirhost_submit_iso_in_ring _ _ _).1.usb.calls = _
        rw [q6, hcalls]
      · intro i hi
        show (usbredirhost_submit_iso_in_ring _ _ _).1.heap _ = _
        rw [q5, if_pos (by omega), a3, if_pos (by omega), hpkts]
        have hi' : s.next_ptr + i + 1 - s.next_ptr - 1 = i := by omega
        have hlt : i * pkts < 4294967296 := by
          have : i * pkts ≤ 16 * 32 := Nat.mul_le_mul (by omega) hp.2
          omega
        simp [hi']
        exact hlt
      · show (Function.update (usbredirhost_submit_iso_in_ring _ _ _).1.host.endpoint _ _
          (EP2I t.transfer.endpoint)).iso_started = _
        rw [Function.update_same]
    · have h0 : t.transfer.endpoint &&& LIBUSB_ENDPOINT_IN = 0 := by simpa using hin
      rw [if_neg hin]
      refine ⟨hsent, hcount, hpkts, hring, fun h1 => absurd h0 h1, fun _ => ⟨hcalls, ?_, hstart⟩⟩
      intro i hi
      show (usbredirhost_alloc_iso_stream _ _ _ _).1.heap _ = _
      rw [a3, if_pos (by omega)]

set_option maxRecDepth 100000 in
set_option maxHeartbeats 1000000 in
/-- C25 on the example input stream (4 URBs of 8 packets on endpoint 0x81,
records 1 to 4) when URB 1 completes with the status stall and every libusb
call succeeds: nothing is sent to the peer, the endpoint has a ring of 4 URBs
of 8 packets again, in the fresh records 5 to 8, and `iso_started` is set. -/
theorem C25_iso_stall_recovery_witness :
    example_stalled.heap 1 = some (example_stalled.deref 1) ∧
    (example_stalled.deref 1).cancelled = false ∧
    (example_stalled.deref 1).transfer.status = LIBUSB_TRANSFER_STALL ∧
    (example_stalled.deref 1).transfer.endpoint = 0x81 ∧
    (example_stalled.host.endpoint (EP2I 0x81)).iso_pkts_per_transfer = 8 ∧
    (example_stalled.host.endpoint (EP2I 0x81)).iso_transfer_count = 4 ∧
    example_stalled.next_ptr = 4 ∧
    (usbredirhost_iso_packet_complete example_stalled 1).parser.sent =
      example_stalled.parser.sent ∧
    ((usbredirhost_iso_packet_complete example_stalled 1).host.endpoint
      (EP2I 0x81)).iso_transfer_count = 4 ∧
    ((usbredirhost_iso_packet_complete example_stalled 1).host.endpoint
      (EP2I 0x81)).iso_pkts_per_transfer = 8 ∧
    (∀ i, i < 4 →
      ((usbredirhost_iso_packet_complete example_stalled 1).host.endpoint
        (EP2I 0x81)).iso_transfer i = example_stalled.next_ptr + i + 1) ∧
    ((usbredirhost_iso_packet_complete example_stalled 1).host.endpoint
      (EP2I 0x81)).iso_started = true := by
  have h := (C25_iso_stall_recovery example_stalled 1 (example_stalled.deref 1) _ 0x81 8 4
    (by decide) (by decide) (by decide) (by decide) (by decide) (by decide) rfl).2.2.2
    (by decide) (by decide) (by decide) (by decide) (by decide)
  exact ⟨by decide, by decide, by decide, by decide, by decide, by decide, by decide,
    h.1, h.2.1, h.2.2.1, h.2.2.2.1, (h.2.2.2.2.1 (by decide)).2.2⟩

/-! ### Completion of the interrupt input URB -/

/-- The resubmission of the interrupt input URB when
`libusb_submit_transfer` succeeds: the URB of the slot is in flight again and
nothing else changes. -/
theorem interrupt_resubmit_ok (s : State) (transfer ep : Nat)
    (h : 0 ≤ s.usb.ret.headD 0) :
    usbredirhost_interrupt_packet_complete_resubmit s transfer ep =
      { s with usb := { s.usb with
          calls := s.usb.calls ++
            [.submit_transfer (s.host.endpoint (EP2I ep)).interrupt_in_transfer]
          ret := s.usb.ret.tail
          inflight := s.usb.inflight ++ [(s.host.endpoint (EP2I ep)).interrupt_in_transfer] } } := by
  unfold usbredirhost_interrupt_packet_complete_resubmit
    usbredirhost_submit_interrupt_in_transfer libusb_submit_transfer State.call
  simp only [not_lt.mpr h, if_false]
  rw [if_neg (by simp)]

/-- The submission of the interrupt input URB, whether it succeeds or not:
`libusb_submit_transfer` is called once, on the URB of the slot, nothing is
sent, and the result is success or stall. -/
theorem submit_interrupt_in_transfer_frame (s : State) (ep : Nat) :
    (usbredirhost_submit_interrupt_in_transfer s ep).1.usb.calls =
      s.usb.calls ++ [.submit_transfer (s.host.endpoint (EP2I ep)).interrupt_in_transfer] ∧
    (usbredirhost_submit_interrupt_in_transfer s ep).1.parser = s.parser ∧
    ((usbredirhost_submit_interrupt_in_transfer s ep).2 = usb_redir_success ∨
      (usbredirhost_submit_interrupt_in_transfer s ep).2 = usb_redir_stall) := by
  unfold usbredirhost_submit_interrupt_in_transfer libusb_submit_transfer State.call
  simp only []
  by_cases h : s.usb.ret.headD 0 < 0
  · simp only [h, if_true]
    unfold usbredirhost_free_transfer
    split_ifs <;> refine ⟨?_, ?_, ?_⟩ <;> first | rfl | trivial
  · simp only [h, if_false]
    refine ⟨?_, ?_, ?_⟩ <;> first | rfl | trivial

/-- The resubmission of the interrupt input URB, whether it succeeds or not:
`libusb_submit_transfer` is called once, on the URB of the slot, and the peer
is sent nothing or one interrupt-receiving-status with status stall. -/
theorem interrupt_resubmit_sent (s : State) (transfer ep : Nat) :
    (usbredirhost_interrupt_packet_complete_resubmit s transfer ep).usb.calls =
      s.usb.calls ++ [.submit_transfer (s.host.endpoint (EP2I ep)).interrupt_in_transfer] ∧
    ((usbredirhost_interrupt_packet_complete_resubmit s transfer ep).parser.sent =
        s.parser.sent ∨
      (usbredirhost_interrupt_packet_complete_resubmit s transfer ep).parser.sent =
        s.parser.sent ++
          [.interrupt_receiving_status
            ((usbredirhost_submit_interrupt_in_transfer s ep).1.deref transfer).id
            { endpoint := ep, status := usb_redir_stall }]) := by
  obtain ⟨h1, h2, h3⟩ := submit_interrupt_in_transfer_frame s ep
  unfold usbredirhost_interrupt_packet_complete_resubmit usbredirhost_send_interrupt_recv_status
  simp only []
  rcases h3 with h3 | h3
  · rw [if_neg (by rw [h3]; simp)]
    exact ⟨h1, Or.inl (by rw [h2])⟩
  · rw [if_pos (by rw [h3]; decide)]
    refine ⟨h1, Or.inr ?_⟩
    show (usbredirhost_submit_interrupt_in_transfer s ep).1.parser.sent ++ _ = _
    rw [h2, h3]

/-- The completion handler on the interrupt input URB, not cancelled, with the
status stall: the clear-halt, then either the status message and the release
of the URB, or the reset of the id and the resubmission. -/
theorem interrupt_packet_complete_stall (s : State) (transfer : Nat) (t : usbredirtransfer)
    (hheap : s.heap transfer = some t)
    (hin : t.transfer.endpoint &&& LIBUSB_ENDPOINT_IN ≠ 0)
    (hnc : t.cancelled = false)
    (hst : t.transfer.status = LIBUSB_TRANSFER_STALL) :
    usbredirhost_interrupt_packet_complete s transfer =
      if (s.call (.clear_halt t.transfer.endpoint)).2 < 0 then
        (usbredirhost_free_transfer
          (usbredirhost_send_interrupt_recv_status (s.call (.clear_halt t.transfer.endpoint)).1
            t.id t.transfer.endpoint usb_redir_stall) transfer).modifyEp
          (EP2I t.transfer.endpoint) fun e => { e with interrupt_in_transfer := 0 }
      else
        usbredirhost_interrupt_packet_complete_resubmit
          ((s.call (.clear_halt t.transfer.endpoint)).1.modify transfer fun u =>
            { u with id := 0 }) transfer t.transfer.endpoint := by
  have hd : s.deref transfer = t := by simp [State.deref, hheap]
  have ht : (libusb_status_or_error_to_redir_status s LIBUSB_TRANSFER_STALL).1 = s := by
    rw [translate_state, if_neg (by decide)]
  have hd2 : ((s.call (.clear_halt t.transfer.endpoint)).1.deref transfer) = t := hd
  unfold usbredirhost_interrupt_packet_complete
  simp only [hd, hst, ht, hnc, hd2]
  rw [if_neg hin, if_neg (by simp), if_pos trivial]

/-- The completion handler on the interrupt input URB, not cancelled, with a
status that is neither stall nor a no-device code: one interrupt packet with
the id of the URB and the translated status is sent, carrying the received
bytes when the status is completed and nothing otherwise; the id advances and
the URB is resubmitted. -/
theorem interrupt_packet_complete_data (s : State) (transfer : Nat) (t : usbredirtransfer)
    (hheap : s.heap transfer = some t)
    (hin : t.transfer.endpoint &&& LIBUSB_ENDPOINT_IN ≠ 0)
    (hnc : t.cancelled = false)
    (h1 : t.transfer.status ≠ LIBUSB_TRANSFER_STALL)
    (h2 : t.transfer.status ≠ LIBUSB_TRANSFER_NO_DEVICE)
    (h3 : t.transfer.status ≠ LIBUSB_ERROR_NO_DEVICE) :
    usbredirhost_interrupt_packet_complete s transfer =
      usbredirhost_interrupt_packet_complete_resubmit
        ((s.send (.interrupt_packet t.id
            { endpoint := t.transfer.endpoint
              status := (libusb_status_or_error_to_redir_status s t.transfer.status).2
              length := (if t.transfer.status = LIBUSB_TRANSFER_COMPLETED then
                t.transfer.actual_length else 0) % 2 ^ 16 }
            (t.transfer.buffer.take (if t.transfer.status = LIBUSB_TRANSFER_COMPLETED then
                t.transfer.actual_length else 0)))).modify transfer fun u =>
          { u with id := (u.id + 1) % 2 ^ 32 }) transfer t.transfer.endpoint := by
  have hd : s.deref transfer = t := by simp [State.deref, hheap]
  have ht : (libusb_status_or_error_to_redir_status s t.transfer.status).1 = s := by
    rw [translate_state, if_neg (not_or.mpr ⟨h2, h3⟩)]
  unfold usbredirhost_interrupt_packet_complete
  simp only [hd, ht, hnc, h1, h2]
  rw [if_neg hin, if_neg (by simp)]
  rfl

/-- C26: stall recovery of the interrupt input URB.  The URB (record
`transfer`, holding `t`) of an input endpoint completes, not cancelled, with
the status stall; a clear-halt is issued on the endpoint, whose result is the
head of the return tape of libusb.  If the clear-halt fails, the peer is sent
one interrupt-receiving-status with the id of the URB and the status stall,
nothing else is asked of libusb, the record is freed and the interrupt-in slot
of the endpoint is null, the host being otherwise as before.  If the
clear-halt and the resubmission succeed, the URB being the one of the slot:
nothing is sent to the peer, the record is as before with the id 0, the URB is
submitted after the clear-halt and in flight again, and the host is
unchanged. -/
theorem C26_interrupt_in_stall_recovery (s : State) (transfer : Nat) (t : usbredirtransfer)
    (hheap : s.heap transfer = some t) (hnz : transfer ≠ 0)
    (hin : t.transfer.endpoint &&& LIBUSB_ENDPOINT_IN ≠ 0)
    (hnc : t.cancelled = false)
    (hst : t.transfer.status = LIBUSB_TRANSFER_STALL) :
    (s.usb.ret.headD 0 < 0 →
      (usbredirhost_interrupt_packet_complete s transfer).parser.sent =
        s.parser.sent ++
          [.interrupt_receiving_status t.id
            { endpoint := t.transfer.endpoint, status := usb_redir_stall }] ∧
      (usbredirhost_interrupt_packet_complete s transfer).usb.calls =
        s.usb.calls ++ [.clear_halt t.transfer.endpoint] ∧
      (usbredirhost_interrupt_packet_complete s transfer).heap =
        Function.update s.heap transfer none ∧
      (usbredirhost_interrupt_packet_complete s transfer).host =
        { s.host with
          endpoint := Function.update s.host.endpoint (EP2I t.transfer.endpoint)
            { s.host.endpoint (EP2I t.transfer.endpoint) with interrupt_in_transfer := 0 } }) ∧
    (0 ≤ s.usb.ret.headD 0 → 0 ≤ s.usb.ret.tail.headD 0 →
      (s.host.endpoint (EP2I t.transfer.endpoint)).interrupt_in_transfer = transfer →
      (usbredirhost_interrupt_packet_complete s transfer).parser = s.parser ∧
      (usbredirhost_interrupt_packet_complete s transfer).heap =
        Function.update s.heap transfer (some { t with id := 0 }) ∧
      (usbredirhost_interrupt_packet_complete s transfer).usb.calls =
        s.usb.calls ++ [.clear_halt t.transfer.endpoint, .submit_transfer transfer] ∧
      (usbredirhost_interrupt_packet_complete s transfer).usb.inflight =
        s.usb.inflight ++ [transfer] ∧
      (usbredirhost_interrupt_packet_complete s transfer).host = s.host) := by
  rw [interrupt_packet_complete_stall s transfer t hheap hin hnc hst]
  have hc : (s.call (.clear_halt t.transfer.endpoint)).2 = s.usb.ret.headD 0 := rfl
  refine ⟨fun h => ?_, fun h h' hslot => ?_⟩
  · rw [if_pos (by rw [hc]; exact h)]
    unfold usbredirhost_free_transfer
    rw [if_neg hnz]
    exact ⟨rfl, rfl, rfl, rfl⟩
  · rw [if_neg (by rw [hc]; exact not_lt.mpr h), interrupt_resubmit_ok _ _ _ h']
    have hs : (((s.call (.clear_halt t.transfer.endpoint)).1.modify transfer fun u =>
        { u with id := 0 }).host.endpoint (EP2I t.transfer.endpoint)).interrupt_in_transfer =
        transfer := hslot
    rw [hs]
    refine ⟨rfl, ?_, ?_, rfl, rfl⟩
    · show Function.update s.heap transfer ((s.heap transfer).map _) = _
      rw [hheap]
      rfl
    · show (s.usb.calls ++ [_]) ++ [_] = _
      rw [List.append_assoc]
      rfl

set_option maxRecDepth 100000 in
set_option maxHeartbeats 1000000 in
/-- C26 on the example host receiving on endpoint 0x83, when the URB (record
1, id 0) completes with the status stall and libusb succeeds: nothing is sent,
the clear-halt and the submission of record 1 are the calls made, and the URB
is in flight again. -/
theorem C26_interrupt_in_stall_recovery_witness :
    example_int_stalled.heap 1 = some (example_int_stalled.deref 1) ∧
    (example_int_stalled.deref 1).transfer.endpoint = 0x83 ∧
    (example_int_stalled.deref 1).cancelled = false ∧
    (example_int_stalled.deref 1).transfer.status = LIBUSB_TRANSFER_STALL ∧
    (example_int_stalled.host.endpoint (EP2I 0x83)).interrupt_in_transfer = 1 ∧
    example_int_stalled.usb.inflight = [] ∧
    (usbredirhost_interrupt_packet_complete example_int_stalled 1).parser =
      example_int_stalled.parser ∧
    (usbredirhost_interrupt_packet_complete example_int_stalled 1).usb.calls =
      example_int_stalled.usb.calls ++
        [.clear_halt (example_int_stalled.deref 1).transfer.endpoint, .submit_transfer 1] ∧
    (usbredirhost_interrupt_packet_complete example_int_stalled 1).usb.inflight =
      example_int_stalled.usb.inflight ++ [1] := by
  have h := (C26_interrupt_in_stall_recovery example_int_stalled 1 (example_int_stalled.deref 1)
    (by decide) (by decide) (by decide) (by decide) (by decide)).2
    (by decide) (by decide) (by decide)
  exact ⟨by decide, by decide, by decide, by decide, by decide, by decide,
    h.1, h.2.2.1, h.2.2.2.1⟩

/-- C27: completion of the interrupt input URB (record `transfer`, holding
`t`, with the current id `t.id`), not cancelled, the URB being the one of the
slot of its endpoint.  If the status is completed, one interrupt packet with
the id of the URB, the status success and the `actual_length` bytes received
is sent; if the status is an error other than stall and the no-device codes,
one interrupt packet with the id of the URB, the translated status, the length
0 and no payload is sent.  In both cases the URB is submitted again, and
nothing else is asked of libusb; after the interrupt packet nothing is sent
but, when the submission fails, one interrupt-receiving-status with status
stall.  When the submission succeeds the record is as before with the id
`t.id + 1` modulo `2 ^ 32`, the URB is in flight again and the host is
unchanged. -/
theorem C27_interrupt_in_completion (s : State) (transfer : Nat) (t : usbredirtransfer)
    (hheap : s.heap transfer = some t)
    (hin : t.transfer.endpoint &&& LIBUSB_ENDPOINT_IN ≠ 0)
    (hnc : t.cancelled = false)
    (hslot : (s.host.endpoint (EP2I t.transfer.endpoint)).interrupt_in_transfer = transfer)
    (h1 : t.transfer.status ≠ LIBUSB_TRANSFER_STALL)
    (h2 : t.transfer.status ≠ LIBUSB_TRANSFER_NO_DEVICE)
    (h3 : t.transfer.status ≠ LIBUSB_ERROR_NO_DEVICE) :
    (∃ l, (l = [] ∨ ∃ id, l = [Packet.interrupt_receiving_status id
          { endpoint := t.transfer.endpoint, status := usb_redir_stall }]) ∧
      (usbredirhost_interrupt_packet_complete s transfer).parser.sent =
        s.parser.sent ++
          [if t.transfer.status = LIBUSB_TRANSFER_COMPLETED then
            Packet.interrupt_packet t.id
              { endpoint := t.transfer.endpoint, status := usb_redir_success
                length := t.transfer.actual_length % 2 ^ 16 }
              (t.transfer.buffer.take t.transfer.actual_length)
          else
            Packet.interrupt_packet t.id
              { endpoint := t.transfer.endpoint
                status := (libusb_status_or_error_to_redir_status s t.transfer.status).2
                length := 0 } []] ++ l ∧
      (0 ≤ s.usb.ret.headD 0 → l = [])) ∧
    (usbredirhost_interrupt_packet_complete s transfer).usb.calls =
      s.usb.calls ++ [.submit_transfer transfer] ∧
    (0 ≤ s.usb.ret.headD 0 →
      (usbredirhost_interrupt_packet_complete s transfer).heap =
        Function.update s.heap transfer (some { t with id := (t.id + 1) % 2 ^ 32 }) ∧
      (usbredirhost_interrupt_packet_complete s transfer).usb.inflight =
        s.usb.inflight ++ [transfer] ∧
      (usbredirhost_interrupt_packet_complete s transfer).host = s.host) := by
  rw [interrupt_packet_complete_data s transfer t hheap hin hnc h1 h2 h3]
  have hpkt : (Packet.interrupt_packet t.id
      { endpoint := t.transfer.endpoint
        status := (libusb_status_or_error_to_redir_status s t.transfer.status).2
        length := (if t.transfer.status = LIBUSB_TRANSFER_COMPLETED then
          t.transfer.actual_length else 0) % 2 ^ 16 }
      (t.transfer.buffer.take (if t.transfer.status = LIBUSB_TRANSFER_COMPLETED then
          t.transfer.actual_length else 0))) =
      if t.transfer.status = LIBUSB_TRANSFER_COMPLETED then
        Packet.interrupt_packet t.id
          { endpoint := t.transfer.endpoint, status := usb_redir_success
            length := t.transfer.actual_length % 2 ^ 16 }
          (t.transfer.buffer.take t.transfer.actual_length)
      else
        Packet.interrupt_packet t.id
          { endpoint := t.transfer.endpoint
            status := (libusb_status_or_error_to_redir_status s t.transfer.status).2
            length := 0 } [] := by
    by_cases hc : t.transfer.status = LIBUSB_TRANSFER_COMPLETED
    · simp only [hc, if_true]
      rfl
    · simp only [hc, if_false]
      rfl
  rw [hpkt]
  generalize (if t.transfer.status = LIBUSB_TRANSFER_COMPLETED then
        Packet.interrupt_packet t.id
          { endpoint := t.transfer.endpoint, status := usb_redir_success
            length := t.transfer.actual_length % 2 ^ 16 }
          (t.transfer.buffer.take t.transfer.actual_length)
      else
        Packet.interrupt_packet t.id
          { endpoint := t.transfer.endpoint
            status := (libusb_status_or_error_to_redir_status s t.transfer.status).2
            length := 0 } []) = pkt
  have hs : (((s.send pkt).modify transfer fun u =>
      { u with id := (u.id + 1) % 2 ^ 32 }).host.endpoint
      (EP2I t.transfer.endpoint)).interrupt_in_transfer = transfer := hslot
  obtain ⟨r1, r2⟩ := interrupt_resubmit_sent
    ((s.send pkt).modify transfer fun u => { u with id := (u.id + 1) % 2 ^ 32 })
    transfer t.transfer.endpoint
  rw [hs] at r1
  refine ⟨?_, r1, fun h => ?_⟩
  · rcases r2 with r2 | r2
    · exact ⟨[], Or.inl rfl, by rw [r2, List.append_nil]; rfl, fun _ => rfl⟩
    · refine ⟨_, Or.inr ⟨_, rfl⟩, r2, fun h => ?_⟩
      exfalso
      rw [interrupt_resubmit_ok ((s.send pkt).modify transfer fun u =>
        { u with id := (u.id + 1) % 2 ^ 32 }) transfer t.transfer.endpoint h] at r2
      have hl := congrArg List.length r2
      simp [State.send, State.modify] at hl
  · rw [interrupt_resubmit_ok ((s.send pkt).modify transfer fun u =>
      { u with id := (u.id + 1) % 2 ^ 32 }) transfer t.transfer.endpoint h, hs]
    refine ⟨?_, rfl, rfl⟩
    show Function.update s.heap transfer ((s.heap transfer).map _) = _
    rw [hheap]
    rfl

set_option maxRecDepth 100000 in
set_option maxHeartbeats 1000000 in
/-- C27 on the example host receiving on endpoint 0x83, when the URB (record
1, id 0) completes with three bytes received and the resubmission succeeds:
one interrupt packet with id 0, status success, length 3 and the three bytes
is sent, the URB is submitted again and its id is 1. -/
theorem C27_interrupt_in_completion_witness :
    example_int_data.heap 1 = some (example_int_data.deref 1) ∧
    (example_int_data.deref 1).cancelled = false ∧
    (example_int_data.deref 1).id = 0 ∧
    (example_int_data.host.endpoint (EP2I 0x83)).interrupt_in_transfer = 1 ∧
    (usbredirhost_interrupt_packet_complete example_int_data 1).parser.sent =
      example_int_data.parser.sent ++
        [.interrupt_packet 0 { endpoint := 0x83, status := usb_redir_success, length := 3 }
          [7, 8, 9]] ∧
    (usbredirhost_interrupt_packet_complete example_int_data 1).usb.calls =
      example_int_data.usb.calls ++ [.submit_transfer 1] ∧
    (usbredirhost_interrupt_packet_complete example_int_data 1).heap 1 =
      some { example_int_data.deref 1 with id := 1 } := by
  have h := C27_interrupt_in_completion example_int_data 1 (example_int_data.deref 1)
    (by decide) (by decide) (by decide) (by decide) (by decide) (by decide) (by decide)
  obtain ⟨⟨l, -, hl, hl0⟩, h2, h3⟩ := h
  have e0 := hl0 (by decide)
  subst e0
  refine ⟨by decide, by decide, by decide, by decide, ?_, h2, ?_⟩
  · rw [hl, List.append_nil]
    decide
  · rw [(h3 (by decide)).1, Function.update_same]
    decide

/-! ### Completions of cancelled URBs -/

/-- The iso completion handler on a record whose `cancelled` flag is set,
whatever the completion status: `cancels_pending` is decremented and the
record freed, nothing else. -/
theorem iso_packet_complete_cancelled (s : State) (transfer : Nat)
    (hc : (s.deref transfer).cancelled = true) :
    usbredirhost_iso_packet_complete s transfer =
      usbredirhost_free_transfer
        { s with host := { s.host with cancels_pending := s.host.cancels_pending - 1 } }
        transfer := by
  unfold usbredirhost_iso_packet_complete
  simp only [hc, if_true]

/-- The interrupt completion handler on the record of an input endpoint whose
`cancelled` flag is set, when the completion status is not a no-device code
or the host is disconnected already: `cancels_pending` is decremented and the
record freed, nothing else. -/
theorem interrupt_packet_complete_cancelled (s : State) (transfer : Nat)
    (hin : (s.deref transfer).transfer.endpoint &&& LIBUSB_ENDPOINT_IN ≠ 0)
    (hc : (s.deref transfer).cancelled = true)
    (hst : ((s.deref transfer).transfer.status ≠ LIBUSB_TRANSFER_NO_DEVICE ∧
        (s.deref transfer).transfer.status ≠ LIBUSB_ERROR_NO_DEVICE) ∨
      s.host.disconnected = true) :
    usbredirhost_interrupt_packet_complete s transfer =
      usbredirhost_free_transfer
        { s with host := { s.host with cancels_pending := s.host.cancels_pending - 1 } }
        transfer := by
  have ht : (libusb_status_or_error_to_redir_status s (s.deref transfer).transfer.status).1
      = s := by
    rw [translate_state]
    rcases hst with h | h
    · rw [if_neg (not_or.mpr h)]
    · split_ifs
      · unfold usbredirhost_handle_disconnect
        simp [h]
      · rfl
  unfold usbredirhost_interrupt_packet_complete
  simp only [ht, hin, hc, if_true, if_false]

set_option maxRecDepth 100000 in
set_option maxHeartbeats 1000000 in
/-- C28: evaluation at the failing input.  On the example host, connected,
interrupt receiving on endpoint 0x83 was started and stopped: the URB (record
1) has its `cancelled` flag set and is still in flight, `cancels_pending` is
1.  Its completion with the status no-device decrements `cancels_pending` and
frees the record, but also sends a device-disconnect to the peer and sets
`disconnected` and `wait_disconnect`.  The completion with the same status of
the cancelled URB of an iso stream sends nothing and leaves the flags
clear. -/
theorem C28_cancelled_interrupt_completion_disconnects :
    Reachable example_int_cancelled ∧
    (example_int_cancelled.deref 1).cancelled = true ∧
    (example_int_cancelled.deref 1).transfer.callback =
      Callback.usbredirhost_interrupt_packet_complete ∧
    (example_int_cancelled.deref 1).transfer.endpoint = 0x83 ∧
    example_int_cancelled.usb.inflight = [1] ∧
    example_int_cancelled.host.disconnected = false ∧
    example_int_cancelled.host.wait_disconnect = false ∧
    example_int_cancelled.host.cancels_pending = 1 ∧
    (libusb_complete example_int_cancelled example_gone).host.cancels_pending = 0 ∧
    (libusb_complete example_int_cancelled example_gone).heap 1 = none ∧
    (libusb_complete example_int_cancelled example_gone).parser.sent =
      example_int_cancelled.parser.sent ++ [Packet.device_disconnect] ∧
    (libusb_complete example_int_cancelled example_gone).host.disconnected = true ∧
    (libusb_complete example_int_cancelled example_gone).host.wait_disconnect = true ∧
    (example_iso_cancelled.deref 1).cancelled = true ∧
    (example_iso_cancelled.deref 1).transfer.callback =
      Callback.usbredirhost_iso_packet_complete ∧
    example_iso_cancelled.usb.inflight = [1] ∧
    (libusb_complete example_iso_cancelled example_gone).host.cancels_pending = 0 ∧
    (libusb_complete example_iso_cancelled example_gone).parser.sent =
      example_iso_cancelled.parser.sent ∧
    (libusb_complete example_iso_cancelled example_gone).host.disconnected = false ∧
    (libusb_complete example_iso_cancelled example_gone).host.wait_disconnect = false := by
  refine ⟨reachable_example_run _ (by decide), ?_⟩
  decide

set_option maxRecDepth 100000 in
set_option maxHeartbeats 1000000 in
/-- C29: evaluation at the failing input.  On the host on
`example_device_out`, connected, the peer starts an iso stream on the OUT
endpoint 0x01 with the accepted geometry of one URB of one packet and sends
one iso packet.  The stream then counts as started although nothing has been
submitted, the URB at `iso_out_idx` is full (`iso_packet_idx` is 1, its packet
array has one element) and not in flight.  The next valid iso packet is
written into packet slot 1 of this URB, outside its packet array: no status is
sent, nothing is submitted, and `iso_packet_idx` becomes 2. -/
theorem C29_iso_out_single_packet_ring_overrun :
    Reachable example_single ∧
    (example_single.host.endpoint (EP2I 0x01)).iso_pkts_per_transfer = 1 ∧
    (example_single.host.endpoint (EP2I 0x01)).iso_transfer_count = 1 ∧
    (example_single.host.endpoint (EP2I 0x01)).iso_started = true ∧
    (example_single.host.endpoint (EP2I 0x01)).iso_out_idx = 0 ∧
    (example_single.host.endpoint (EP2I 0x01)).iso_transfer 0 = 1 ∧
    (example_single.deref 1).iso_packet_idx = 1 ∧
    (example_single.deref 1).transfer.num_iso_packets = 1 ∧
    (example_single.deref 1).transfer.iso_packet_desc.length = 1 ∧
    example_single.usb.inflight = [] ∧
    (∀ c ∈ example_single.usb.calls, c ≠ LibusbCall.submit_transfer 1) ∧
    usbredirhost_iso_packet_write example_single 0x01 [3, 4] = some (0, 1) ∧
    (usbredirhost_iso_packet example_single 1 { endpoint := 0x01, status := 0, length := 2 }
      [3, 4]).parser.sent = example_single.parser.sent ∧
    (usbredirhost_iso_packet example_single 1 { endpoint := 0x01, status := 0, length := 2 }
      [3, 4]).usb.calls = example_single.usb.calls ∧
    ((usbredirhost_iso_packet example_single 1 { endpoint := 0x01, status := 0, length := 2 }
      [3, 4]).deref 1).iso_packet_idx = 2 := by
  refine ⟨reachable_getD [] [] [] 1 (some ⟨example_device_out⟩) [.hello [],
    .start_iso_stream 7 { endpoint := 0x01, pkts_per_urb := 1, no_urbs := 1 },
    .iso_packet 0 { endpoint := 0x01, status := 0, length := 2 } [1, 2]] (by decide), ?_⟩
  decide

end Usbredir
